import Mathlib

/-!
# ArtraCFD geometry engine: embedding of `computational_geometry.c`

The C type `Real` is embedded as an arbitrary linearly ordered field `R`
(exact arithmetic; `ℚ` gives an executable instance, `ℝ` the intended one).
C arrays are embedded as total index maps together with the element counters
the C structure carries (`faceN`, `edgeN`, `vertN`).  A division whose divisor
is computed from the input data is embedded by `divReal`, which has no result
when the divisor is zero; the functions that contain such a division return
an `Option`.
-/

set_option autoImplicit false

namespace ArtraCFD

/-- Three reals, the C type `RealVec` (`Real[DIMS]`), indexed by `X`, `Y`, `Z`. -/
structure RealVec (R : Type) where
  X : R
  Y : R
  Z : R
deriving DecidableEq, Repr

/-- Three rows of three reals, the C type `Real[DIMS][DIMS]`. -/
structure RealMat (R : Type) where
  X : RealVec R
  Y : RealVec R
  Z : RealVec R
deriving DecidableEq, Repr

/-- The two corners of the bounding box: `MIN` holds `box[s][MIN]` and `MAX`
holds `box[s][MAX]` for the three axes `s`. -/
structure Box (R : Type) where
  MIN : RealVec R
  MAX : RealVec R
deriving DecidableEq, Repr

/-- One triangle of the raw input, the C type `Facet`. -/
structure Facet (R : Type) where
  N : RealVec R
  v0 : RealVec R
  v1 : RealVec R
  v2 : RealVec R
deriving DecidableEq, Repr

/-- The functions of `math.h` the geometry code calls. -/
structure Libm (R : Type) where
  sin : R → R
  cos : R → R
  sqrt : R → R
  acos : R → R

/-- The fields of the C structure `Polyhedron` that the geometry code reads or
writes.  `f n k` is `f[n][k]`, `e n k` is `e[n][k]`. -/
structure Polyhedron (R : Type) where
  faceN : Nat
  edgeN : Nat
  vertN : Nat
  facet : Nat → Facet R
  f : Nat → Nat → Nat
  e : Nat → Nat → Nat
  v : Nat → RealVec R
  Nf : Nat → RealVec R
  Ne : Nat → RealVec R
  Nv : Nat → RealVec R
  O : RealVec R
  r : R
  box : Box R
  area : R
  volume : R
  I : RealMat R

section Defs

variable {R : Type} [LinearOrderedField R]

/-- The constant `FLT_MAX` of `float.h` (IEEE single precision). -/
def FLT_MAX : R := 340282346638528859811704183484516925440

/-- The constant `FLT_MIN` of `float.h`, the least positive normal single. -/
def FLT_MIN : R := 1 / 2 ^ 126

/-- Division by a divisor computed from the data: no result when it is zero. -/
def divReal (x y : R) : Option R :=
  if y = 0 then none else some (x / y)

/-- Modelled from the spec: the helper `Dot` of `cfd_commons.h`, the dot
product of two vectors. -/
def Dot (V1 V2 : RealVec R) : R :=
  V1.X * V2.X + V1.Y * V2.Y + V1.Z * V2.Z

/-- Modelled from the spec: the helper `Cross` of `cfd_commons.h`, the cross
product of two vectors. -/
def Cross (V1 V2 : RealVec R) : RealVec R :=
  ⟨V1.Y * V2.Z - V1.Z * V2.Y, V1.Z * V2.X - V1.X * V2.Z, V1.X * V2.Y - V1.Y * V2.X⟩

/-- Modelled from the spec: the helper `Norm` of `cfd_commons.h`, the
Euclidean length `sqrt(Dot(V, V))`. -/
def Norm (m : Libm R) (V : RealVec R) : R :=
  m.sqrt (Dot V V)

/-- Modelled from the spec: the helper `Dist` of `cfd_commons.h`, the
Euclidean distance of two points. -/
def Dist (m : Libm R) (V1 V2 : RealVec R) : R :=
  Norm m ⟨V2.X - V1.X, V2.Y - V1.Y, V2.Z - V1.Z⟩

/-- Modelled from the spec: the helper `Normalize` of `commons.h`, which
divides every component by the normalizer. -/
def Normalize (normalizer : R) (V : RealVec R) : Option (RealVec R) := do
  let x ← divReal V.X normalizer
  let y ← divReal V.Y normalizer
  let z ← divReal V.Z normalizer
  pure ⟨x, y, z⟩

/-- Modelled from the spec: the helper `MinReal` of `commons.h`. -/
def MinReal (x y : R) : R := if x < y then x else y

/-- Modelled from the spec: the helper `MaxReal` of `commons.h`. -/
def MaxReal (x y : R) : R := if x > y then x else y

/-- The seven-region case analysis of `PointTriangleDistance` on the six dot
products: the result is `(s, t, distSquare)` as they stand before `para` is
written and before the final clamp. -/
def PointTriangleRegions (a b c d e f : R) : Option (R × R × R) :=
  let det := a * c - b * b
  let zero : R := 0
  let one : R := 1
  let s := b * e - c * d
  let t := b * d - a * e
  if s + t ≤ det then
    if s < zero then
      if t < zero then
        /- region 4 -/
        if d < zero then
          if -d ≥ a then
            some (one, zero, a + 2 * d + f)
          else
            (divReal (-d) a).map fun s => (s, zero, d * s + f)
        else
          if e ≥ zero then
            some (zero, zero, f)
          else
            if -e ≥ c then
              some (zero, one, c + 2 * e + f)
            else
              (divReal (-e) c).map fun t => (zero, t, e * t + f)
      else
        /- region 3 -/
        if e ≥ zero then
          some (zero, zero, f)
        else
          if -e ≥ c then
            some (zero, one, c + 2 * e + f)
          else
            (divReal (-e) c).map fun t => (zero, t, e * t + f)
    else
      if t < zero then
        /- region 5 -/
        if d ≥ zero then
          some (zero, zero, f)
        else
          if -d ≥ a then
            some (one, zero, a + 2 * d + f)
          else
            (divReal (-d) a).map fun s => (s, zero, d * s + f)
      else
        /- region 0 -/
        (divReal s det).bind fun s =>
        (divReal t det).map fun t =>
          (s, t, s * (a * s + b * t + 2 * d) + t * (b * s + c * t + 2 * e) + f)
  else
    if s < zero then
      /- region 2 -/
      let tmp0 := b + d
      let tmp1 := c + e
      if tmp1 > tmp0 then
        let numer := tmp1 - tmp0
        let denom := a - 2 * b + c
        if numer ≥ denom then
          some (one, zero, a + 2 * d + f)
        else
          (divReal numer denom).map fun s =>
            let t := one - s
            (s, t, s * (a * s + b * t + 2 * d) + t * (b * s + c * t + 2 * e) + f)
      else
        if tmp1 ≤ zero then
          some (zero, one, c + 2 * e + f)
        else
          if e ≥ zero then
            some (zero, zero, f)
          else
            (divReal (-e) c).map fun t => (zero, t, e * t + f)
    else
      if t < zero then
        /- region 6 -/
        let tmp0 := b + e
        let tmp1 := a + d
        if tmp1 > tmp0 then
          let numer := tmp1 - tmp0
          let denom := a - 2 * b + c
          if numer ≥ denom then
            some (zero, one, c + 2 * e + f)
          else
            (divReal numer denom).map fun t =>
              let s := one - t
              (s, t, s * (a * s + b * t + 2 * d) + t * (b * s + c * t + 2 * e) + f)
        else
          if tmp1 ≤ zero then
            some (one, zero, a + 2 * d + f)
          else
            if d ≥ zero then
              some (zero, zero, f)
            else
              (divReal (-d) a).map fun s => (s, zero, d * s + f)
      else
        /- region 1 -/
        let numer := c + e - b - d
        if numer ≤ zero then
          some (zero, one, c + 2 * e + f)
        else
          let denom := a - 2 * b + c
          if numer ≥ denom then
            some (one, zero, a + 2 * d + f)
          else
            (divReal numer denom).map fun s =>
              let t := one - s
              (s, t, s * (a * s + b * t + 2 * d) + t * (b * s + c * t + 2 * e) + f)

/-- The function `PointTriangleDistance`: the returned squared distance and the
triple written to `para`. -/
def PointTriangleDistance (p v0 e01 e02 : RealVec R) : Option (R × RealVec R) :=
  let D : RealVec R := ⟨v0.X - p.X, v0.Y - p.Y, v0.Z - p.Z⟩
  let a := Dot e01 e01
  let b := Dot e01 e02
  let c := Dot e02 e02
  let d := Dot e01 D
  let e := Dot e02 D
  let f := Dot D D
  (PointTriangleRegions a b c d e f).map fun (s, t, distSquare) =>
    (if (0 : R) > distSquare then 0 else distSquare, ⟨1 - s - t, s, t⟩)

/-! ## Topology builder, rigid transform and point query -/

/-- The search loop `for (n = start; ...; ++n) if (hit n) return n;` with
`k` iterations left: the first index that hits, if any. -/
def firstHit (hit : Nat → Bool) : Nat → Nat → Option Nat
  | _, 0 => none
  | n, k + 1 => if hit n then some n else firstHit hit (n + 1) k

/-- Assignment `a[i][j] = x` to a two-dimensional array. -/
def set2 {α : Type} (a : Nat → Nat → α) (i j : Nat) (x : α) : Nat → Nat → α :=
  fun i' j' => if i' = i ∧ j' = j then x else a i' j'

/-- Assignment `a[i] = x` to an array. -/
def set1 {α : Type} (a : Nat → α) (i : Nat) (x : α) : Nat → α :=
  fun i' => if i' = i then x else a i'

/-- The function `AddVertex`; `EqualReal` is the comparison of `commons.h`.
The result is the returned index and the updated polyhedron. -/
def AddVertex (EqualReal : R → R → Bool) (v : RealVec R) (poly : Polyhedron R) :
    Nat × Polyhedron R :=
  match firstHit (fun n => EqualReal v.X (poly.v n).X && EqualReal v.Y (poly.v n).Y &&
      EqualReal v.Z (poly.v n).Z) 0 poly.vertN with
  | some n => (n, poly)
  | none => (poly.vertN + 1 - 1,
      { poly with v := set1 poly.v poly.vertN v, vertN := poly.vertN + 1 })

/-- The test of `AddEdge` and `FindEdge`: record `n` joins `v0` and `v1` in
either order. -/
def edgeMatch (v0 v1 : Nat) (poly : Polyhedron R) (n : Nat) : Bool :=
  ((v0 == poly.e n 0) && (v1 == poly.e n 1)) || ((v1 == poly.e n 0) && (v0 == poly.e n 1))

/-- The function `AddEdge`. -/
def AddEdge (v0 v1 f : Nat) (poly : Polyhedron R) : Polyhedron R :=
  match firstHit (edgeMatch v0 v1 poly) 0 poly.edgeN with
  | some n => { poly with e := set2 poly.e n 3 f }
  | none =>
      { poly with
        e := set2 (set2 (set2 poly.e poly.edgeN 0 v0) poly.edgeN 1 v1) poly.edgeN 2 f,
        edgeN := poly.edgeN + 1 }

/-- The function `FindEdge`. -/
def FindEdge (v0 v1 : Nat) (poly : Polyhedron R) : Nat :=
  match firstHit (edgeMatch v0 v1 poly) 0 poly.edgeN with
  | some n => n
  | none => 0

/-- The statement `poly->f[n][k] = AddVertex(v, poly)` of `ConvertPolyhedron`. -/
def addCorner (EqualReal : R → R → Bool) (n k : Nat) (v : RealVec R) (poly : Polyhedron R) :
    Polyhedron R :=
  let r := AddVertex EqualReal v poly
  { r.2 with f := set2 r.2.f n k r.1 }

/-- The body of the loop of `ConvertPolyhedron` for face `n`. -/
def convertFace (EqualReal : R → R → Bool) (n : Nat) (poly : Polyhedron R) : Polyhedron R :=
  let poly := addCorner EqualReal n 0 (poly.facet n).v0 poly
  let poly := addCorner EqualReal n 1 (poly.facet n).v1 poly
  let poly := addCorner EqualReal n 2 (poly.facet n).v2 poly
  let poly := AddEdge (poly.f n 0) (poly.f n 1) n poly
  let poly := AddEdge (poly.f n 1) (poly.f n 2) n poly
  AddEdge (poly.f n 2) (poly.f n 0) n poly

/-- The loop of `ConvertPolyhedron` after its first `k` iterations. -/
def convertLoop (EqualReal : R → R → Bool) : Nat → Polyhedron R → Polyhedron R
  | 0, poly => poly
  | k + 1, poly => convertFace EqualReal k (convertLoop EqualReal k poly)

/-- The function `ConvertPolyhedron` (storage management left out). -/
def ConvertPolyhedron (EqualReal : R → R → Bool) (poly : Polyhedron R) : Polyhedron R :=
  convertLoop EqualReal poly.faceN poly

/-- The function `TransformVertex`: the new value of `v`. -/
def TransformVertex (O scale : RealVec R) (rotate : RealMat R) (offset v : RealVec R) :
    RealVec R :=
  /- translate reference frame to a parallel frame at centroid -/
  let v : RealVec R := ⟨v.X - O.X, v.Y - O.Y, v.Z - O.Z⟩
  /- scale -/
  let v : RealVec R := ⟨v.X * scale.X, v.Y * scale.Y, v.Z * scale.Z⟩
  /- rotate -/
  let tmp : RealVec R := ⟨v.X, v.Y, v.Z⟩
  let v : RealVec R := ⟨Dot rotate.X tmp, Dot rotate.Y tmp, Dot rotate.Z tmp⟩
  /- translate with offset and then translate reference back to origin -/
  ⟨v.X + offset.X + O.X, v.Y + offset.Y + O.Y, v.Z + offset.Z + O.Z⟩

/-- The function `TransformNormal`: the new value of `N`. -/
def TransformNormal (matrix : RealMat R) (N : RealVec R) : RealVec R :=
  let tmp : RealVec R := ⟨N.X, N.Y, N.Z⟩
  ⟨Dot matrix.X tmp, Dot matrix.Y tmp, Dot matrix.Z tmp⟩

/-- The function `TransformInertia`. -/
def TransformInertia (I : RealMat R) (axis : RealVec R) : R :=
  I.X.X * axis.X * axis.X + I.Y.Y * axis.Y * axis.Y + I.Z.Z * axis.Z * axis.Z +
    2 * I.X.Y * axis.X * axis.Y + 2 * I.Y.Z * axis.Y * axis.Z + 2 * I.Z.X * axis.Z * axis.X

/-- The matrix `rotate` that `Transformation` builds from the three angles. -/
def rotationMatrix (m : Libm R) (angle : RealVec R) : RealMat R :=
  let Sin : RealVec R := ⟨m.sin angle.X, m.sin angle.Y, m.sin angle.Z⟩
  let Cos : RealVec R := ⟨m.cos angle.X, m.cos angle.Y, m.cos angle.Z⟩
  ⟨⟨Cos.Y * Cos.Z, Cos.X * Sin.Z + Sin.X * Sin.Y * Cos.Z, Sin.X * Sin.Z - Cos.X * Sin.Y * Cos.Z⟩,
   ⟨-Cos.Y * Sin.Z, Cos.X * Cos.Z - Sin.X * Sin.Y * Sin.Z, Sin.X * Cos.Z + Cos.X * Sin.Y * Sin.Z⟩,
   ⟨Sin.Y, -Sin.X * Cos.Y, Cos.X * Cos.Y⟩⟩

/-- The matrix `invrot` of `Transformation`: the transpose of `rotate`. -/
def inverseRotation (rotate : RealMat R) : RealMat R :=
  ⟨⟨rotate.X.X, rotate.Y.X, rotate.Z.X⟩,
   ⟨rotate.X.Y, rotate.Y.Y, rotate.Z.Y⟩,
   ⟨rotate.X.Z, rotate.Y.Z, rotate.Z.Z⟩⟩

/-- The table `axe` of `Transformation`: the direction vectors of the axes
xx, yy, zz, xy, yz, zx, with `num = 1.0 / sqrt(2.0)`. -/
def axe (m : Libm R) : Nat → RealVec R
  | 0 => ⟨1, 0, 0⟩
  | 1 => ⟨0, 1, 0⟩
  | 2 => ⟨0, 0, 1⟩
  | 3 => ⟨1 / m.sqrt 2, 1 / m.sqrt 2, 0⟩
  | 4 => ⟨0, 1 / m.sqrt 2, 1 / m.sqrt 2⟩
  | _ => ⟨1 / m.sqrt 2, 0, 1 / m.sqrt 2⟩

/-- The entry `I[n]` computed by the inertia loop of `Transformation`. -/
def rotatedInertia (m : Libm R) (invrot : RealMat R) (I : RealMat R) (n : Nat) : R :=
  let axis : RealVec R := ⟨Dot invrot.X (axe m n), Dot invrot.Y (axe m n), Dot invrot.Z (axe m n)⟩
  TransformInertia I axis

/-- The function `Transformation`. -/
def Transformation (m : Libm R) (scale angle offset : RealVec R) (poly : Polyhedron R) :
    Polyhedron R :=
  let rotate := rotationMatrix m angle
  let invrot := inverseRotation rotate
  let I := rotatedInertia m invrot poly.I
  { poly with
    /- transforming vertex -/
    v := fun n =>
      if n < poly.vertN then TransformVertex poly.O scale rotate offset (poly.v n) else poly.v n
    /- transforming bounding box -/
    box := ⟨TransformVertex poly.O scale rotate offset poly.box.MIN,
            TransformVertex poly.O scale rotate offset poly.box.MAX⟩
    /- transforming normal assuming pure rotation and translation -/
    Nf := fun n => if n < poly.faceN then TransformNormal rotate (poly.Nf n) else poly.Nf n
    Ne := fun n => if n < poly.edgeN then TransformNormal rotate (poly.Ne n) else poly.Ne n
    Nv := fun n => if n < poly.vertN then TransformNormal rotate (poly.Nv n) else poly.Nv n
    /- transform inertial tensor -/
    I := ⟨⟨I 0, -I 3, -I 5⟩, ⟨-I 3, I 1, -I 4⟩, ⟨-I 5, -I 4, I 2⟩⟩
    /- centroid should be transformed at last -/
    O := ⟨poly.O.X + offset.X, poly.O.Y + offset.Y, poly.O.Z + offset.Z⟩ }

/-- The function `BuildTriangle`: the vertices `v0`, `v1`, `v2` and the edge
vectors `e01`, `e02` of face `faceID`. -/
def BuildTriangle (faceID : Nat) (poly : Polyhedron R) :
    RealVec R × RealVec R × RealVec R × RealVec R × RealVec R :=
  let v0 := poly.v (poly.f faceID 0)
  let v1 := poly.v (poly.f faceID 1)
  let v2 := poly.v (poly.f faceID 2)
  (v0, v1, v2, ⟨v1.X - v0.X, v1.Y - v0.Y, v1.Z - v0.Z⟩, ⟨v2.X - v0.X, v2.Y - v0.Y, v2.Z - v0.Z⟩)

/-- The value `distSquare` that the loop of `PointInPolyhedron` computes for
face `n`. -/
def faceDistSquare (p : RealVec R) (poly : Polyhedron R) (n : Nat) : Option R :=
  let tri := BuildTriangle n poly
  (PointTriangleDistance p tri.1 tri.2.2.2.1 tri.2.2.2.2).map Prod.fst

/-- The loop of `PointInPolyhedron` after its first `k` iterations: the pair
`(distSquareMin, fid)`. -/
def closestFaceLoop (p : RealVec R) (poly : Polyhedron R) : Nat → Option (R × Nat)
  | 0 => some (FLT_MAX, 0)
  | k + 1 =>
    (closestFaceLoop p poly k).bind fun st =>
    (faceDistSquare p poly k).map fun distSquare =>
      if st.1 > distSquare then (distSquare, k) else st

/-- The function `ComputeIntersection`: the returned squared distance, the
intersection point `pi` and the normal `N`. -/
def ComputeIntersection (EqualReal : R → R → Bool) (p : RealVec R) (faceID : Nat)
    (poly : Polyhedron R) : Option (R × RealVec R × RealVec R) :=
  let zero : R := 0
  let one : R := 1
  let v0i := poly.f faceID 0
  let v1i := poly.f faceID 1
  let v2i := poly.f faceID 2
  let tri := BuildTriangle faceID poly
  let v0 := tri.1
  let v1 := tri.2.1
  let v2 := tri.2.2.1
  let e01 := tri.2.2.2.1
  let e02 := tri.2.2.2.2
  (PointTriangleDistance p v0 e01 e02).map fun res =>
    let distSquare := res.1
    let para := res.2
    if EqualReal para.Y zero then
      if EqualReal para.Z zero then
        /- vertex 0 -/
        (distSquare, v0, poly.Nv v0i)
      else
        if EqualReal para.Z one then
          /- vertex 2 -/
          (distSquare, v2, poly.Nv v2i)
        else
          /- edge e02 -/
          let e := FindEdge v0i v2i poly
          (distSquare,
            ⟨v0.X + para.Z * e02.X, v0.Y + para.Z * e02.Y, v0.Z + para.Z * e02.Z⟩, poly.Ne e)
    else
      if EqualReal para.Y one then
        /- vertex 1 -/
        (distSquare, v1, poly.Nv v1i)
      else
        if EqualReal para.Z zero then
          /- edge e01 -/
          let e := FindEdge v0i v1i poly
          (distSquare,
            ⟨v0.X + para.Y * e01.X, v0.Y + para.Y * e01.Y, v0.Z + para.Y * e01.Z⟩, poly.Ne e)
        else
          if EqualReal para.X zero then
            /- edge e12 -/
            let e := FindEdge v1i v2i poly
            (distSquare,
              ⟨v0.X + para.Y * e01.X + para.Z * e02.X, v0.Y + para.Y * e01.Y + para.Z * e02.Y,
                v0.Z + para.Y * e01.Z + para.Z * e02.Z⟩, poly.Ne e)
          else
            /- complete in the triangle -/
            (distSquare,
              ⟨v0.X + para.Y * e01.X + para.Z * e02.X, v0.Y + para.Y * e01.Y + para.Z * e02.Y,
                v0.Z + para.Y * e01.Z + para.Z * e02.Z⟩, poly.Nf faceID)

/-- The function `PointInPolyhedron`: the returned flag (0 outside, 1 inside
or on the surface) and the face index written to `faceID`. -/
def PointInPolyhedron (EqualReal : R → R → Bool) (p : RealVec R) (poly : Polyhedron R) :
    Option (Nat × Nat) :=
  (closestFaceLoop p poly poly.faceN).bind fun st =>
    let fid := st.2
    (ComputeIntersection EqualReal p fid poly).map fun res =>
      let pi : RealVec R := ⟨p.X - res.2.1.X, p.Y - res.2.1.Y, p.Z - res.2.1.Z⟩
      let N := res.2.2
      if 0 < Dot pi N then (0, fid) else (1, fid)
/-! ## Integral properties of a polyhedron -/


/-- Modelled from the spec: the enumerator `COLLAPSEN` of `commons.h`, the tag
of a run in which no space dimension is collapsed. -/
def COLLAPSEN : Int := 0

/-- The local accumulators of the face loop of `ComputeParametersPolyhedron`
together with the two normal arrays the loop writes. -/
structure FaceSums (R : Type) where
  area : R
  volume : R
  O : RealVec R
  I0 : R
  I1 : R
  I2 : R
  I3 : R
  I4 : R
  I5 : R
  Nv : Nat → RealVec R
  Nf : Nat → RealVec R

/-- The temporaries `f[0][s], f[1][s], f[2][s], g[0][s], g[1][s], g[2][s]` of
the face loop for one axis `s`, from the coordinates of the three vertices on
that axis. -/
def momentTerms (v0 v1 v2 : R) : R × R × R × R × R × R :=
  let tmp0 := v0 + v1
  let f0 := tmp0 + v2
  let tmp1 := v0 * v0
  let tmp2 := tmp1 + v1 * tmp0
  let f1 := tmp2 + v2 * f0
  let f2 := v0 * tmp1 + v1 * tmp2 + v2 * f1
  let g0 := f1 + v0 * (f0 + v0)
  let g1 := f1 + v1 * (f0 + v1)
  let g2 := f1 + v2 * (f0 + v2)
  (f0, f1, f2, g0, g1, g2)

/-- The bounding-box loop of `ComputeParametersPolyhedron` after its first `k`
iterations, from the start values `FLT_MAX` and `FLT_MIN`. -/
def boundingBoxLoop (poly : Polyhedron R) : Nat → Box R
  | 0 => ⟨⟨FLT_MAX, FLT_MAX, FLT_MAX⟩, ⟨FLT_MIN, FLT_MIN, FLT_MIN⟩⟩
  | k + 1 =>
    let box := boundingBoxLoop poly k
    ⟨⟨MinReal box.MIN.X (poly.v k).X, MinReal box.MIN.Y (poly.v k).Y,
        MinReal box.MIN.Z (poly.v k).Z⟩,
     ⟨MaxReal box.MAX.X (poly.v k).X, MaxReal box.MAX.Y (poly.v k).Y,
        MaxReal box.MAX.Z (poly.v k).Z⟩⟩

/-- The update `Nv[i][s] = Nv[i][s] + Angle * Nf[s]` for the three axes `s`. -/
def addWeighted (Nv : Nat → RealVec R) (i : Nat) (Angle : R) (Nf : RealVec R) :
    Nat → RealVec R :=
  set1 Nv i ⟨(Nv i).X + Angle * Nf.X, (Nv i).Y + Angle * Nf.Y, (Nv i).Z + Angle * Nf.Z⟩

/-- The body of the face loop of `ComputeParametersPolyhedron` for face `n`. -/
def faceStep (m : Libm R) (poly : Polyhedron R) (n : Nat) (st : FaceSums R) :
    Option (FaceSums R) :=
  let tri := BuildTriangle n poly
  let v0 := tri.1
  let v1 := tri.2.1
  let v2 := tri.2.2.1
  let e01 := tri.2.2.2.1
  let e02 := tri.2.2.2.2
  /- outward normal vector -/
  let Nf := Cross e01 e02
  /- temporary values -/
  let tx := momentTerms v0.X v1.X v2.X
  let ty := momentTerms v0.Y v1.Y v2.Y
  let tz := momentTerms v0.Z v1.Z v2.Z
  /- integration -/
  let area := st.area + Norm m Nf
  let volume := st.volume + Nf.X * tx.1
  let O : RealVec R :=
    ⟨st.O.X + Nf.X * tx.2.1, st.O.Y + Nf.Y * ty.2.1, st.O.Z + Nf.Z * tz.2.1⟩
  let I0 := st.I0 + Nf.X * tx.2.2.1
  let I1 := st.I1 + Nf.Y * ty.2.2.1
  let I2 := st.I2 + Nf.Z * tz.2.2.1
  let I3 := st.I3 + Nf.X * (v0.Y * tx.2.2.2.1 + v1.Y * tx.2.2.2.2.1 + v2.Y * tx.2.2.2.2.2)
  let I4 := st.I4 + Nf.Y * (v0.Z * ty.2.2.2.1 + v1.Z * ty.2.2.2.2.1 + v2.Z * ty.2.2.2.2.2)
  let I5 := st.I5 + Nf.Z * (v0.X * tz.2.2.2.1 + v1.X * tz.2.2.2.2.1 + v2.X * tz.2.2.2.2.2)
  /- unit normal -/
  (Normalize (Norm m Nf) Nf).bind fun Nf =>
  /- calculate internal angles by the law of cosines -/
  let e12 : RealVec R := ⟨v2.X - v1.X, v2.Y - v1.Y, v2.Z - v1.Z⟩
  (divReal (Dot e01 e01 + Dot e02 e02 - Dot e12 e12)
      (2 * m.sqrt (Dot e01 e01 * Dot e02 e02))).bind fun c0 =>
  (divReal (Dot e01 e01 + Dot e12 e12 - Dot e02 e02)
      (2 * m.sqrt (Dot e01 e01 * Dot e12 e12))).map fun c1 =>
  let Angle0 := m.acos c0
  let Angle1 := m.acos c1
  let Angle2 := 314159265359 / 100000000000 - Angle0 - Angle1
  let i0 := poly.f n 0
  let i1 := poly.f n 1
  let i2 := poly.f n 2
  let Nv := addWeighted st.Nv i0 Angle0 Nf
  let Nv := addWeighted Nv i1 Angle1 Nf
  let Nv := addWeighted Nv i2 Angle2 Nf
  /- assign face normal -/
  { area := area, volume := volume, O := O, I0 := I0, I1 := I1, I2 := I2, I3 := I3,
    I4 := I4, I5 := I5, Nv := Nv, Nf := set1 st.Nf n Nf }

/-- The face loop of `ComputeParametersPolyhedron` after its first `k`
iterations; the vertex normals start at zero for the indices below `vertN`. -/
def faceLoop (m : Libm R) (poly : Polyhedron R) : Nat → Option (FaceSums R)
  | 0 => some
      { area := 0, volume := 0, O := ⟨0, 0, 0⟩, I0 := 0, I1 := 0, I2 := 0, I3 := 0, I4 := 0,
        I5 := 0, Nv := fun n => if n < poly.vertN then ⟨0, 0, 0⟩ else poly.Nv n,
        Nf := poly.Nf }
  | k + 1 => (faceLoop m poly k).bind (faceStep m poly k)

/-- The loop of `ComputeParametersPolyhedron` that normalizes the vertex
normals, after its first `k` iterations. -/
def vertexNormalLoop (m : Libm R) : Nat → (Nat → RealVec R) → Option (Nat → RealVec R)
  | 0, Nv => some Nv
  | k + 1, Nv =>
    (vertexNormalLoop m k Nv).bind fun Nv =>
    (Normalize (Norm m (Nv k)) (Nv k)).map fun N => set1 Nv k N

/-- The sum `Nf[e[k][2]] + Nf[e[k][3]]` of the normals of the two faces
recorded for edge `k`. -/
def edgeNormalSum (e : Nat → Nat → Nat) (Nf : Nat → RealVec R) (k : Nat) : RealVec R :=
  ⟨(Nf (e k 2)).X + (Nf (e k 3)).X, (Nf (e k 2)).Y + (Nf (e k 3)).Y,
    (Nf (e k 2)).Z + (Nf (e k 3)).Z⟩

/-- The loop of `ComputeParametersPolyhedron` that computes the edge normals,
after its first `k` iterations. -/
def edgeNormalLoop (m : Libm R) (e : Nat → Nat → Nat) (Nf : Nat → RealVec R) :
    Nat → (Nat → RealVec R) → Option (Nat → RealVec R)
  | 0, Ne => some Ne
  | k + 1, Ne =>
    (edgeNormalLoop m e Nf k Ne).bind fun Ne =>
    (Normalize (Norm m (edgeNormalSum e Nf k)) (edgeNormalSum e Nf k)).map fun N => set1 Ne k N

/-- The function `ComputeParametersPolyhedron`. -/
def ComputeParametersPolyhedron (m : Libm R) (collapse : Int) (poly : Polyhedron R) :
    Option (Polyhedron R) :=
  let box := boundingBoxLoop poly poly.vertN
  (faceLoop m poly poly.faceN).bind fun st =>
  /- rectify final integration -/
  let area := 1 / 2 * st.area
  let volume := st.volume / 6
  let O : RealVec R := ⟨st.O.X / 24, st.O.Y / 24, st.O.Z / 24⟩
  let I0 := st.I0 / 60
  let I1 := st.I1 / 60
  let I2 := st.I2 / 60
  let I3 := st.I3 / 120
  let I4 := st.I4 / 120
  let I5 := st.I5 / 120
  /- inertia relative to centroid -/
  let Ixx := I1 + I2 - volume * (O.Y * O.Y + O.Z * O.Z)
  let Ixy := -I3 + volume * O.X * O.Y
  let Ixz := -I5 + volume * O.Z * O.X
  let Iyy := I0 + I2 - volume * (O.Z * O.Z + O.X * O.X)
  let Iyz := -I4 + volume * O.Y * O.Z
  let Izz := I0 + I1 - volume * (O.X * O.X + O.Y * O.Y)
  /- normalize vertices normal -/
  (vertexNormalLoop m poly.vertN st.Nv).bind fun Nv =>
  /- compute edge normal -/
  (edgeNormalLoop m poly.e st.Nf poly.edgeN poly.Ne).map fun Ne =>
  { poly with
    area := if COLLAPSEN = collapse then area else area - 2 * volume
    volume := volume
    O := O
    I := ⟨⟨Ixx, Ixy, Ixz⟩, ⟨Ixy, Iyy, Iyz⟩, ⟨Ixz, Iyz, Izz⟩⟩
    box := box
    r := Dist m box.MIN box.MAX
    Nf := st.Nf
    Nv := Nv
    Ne := Ne }

/-! ## Vocabulary of the statements and test fixtures -/


/-- The point `T(s,t) = v0 + s*e01 + t*e02` of the plane of a triangle. -/
def trianglePoint (v0 e01 e02 : RealVec R) (s t : R) : RealVec R :=
  ⟨v0.X + s * e01.X + t * e02.X, v0.Y + s * e01.Y + t * e02.Y, v0.Z + s * e01.Z + t * e02.Z⟩

/-- The squared Euclidean distance of two points. -/
def sqDist (u w : RealVec R) : R :=
  (u.X - w.X) * (u.X - w.X) + (u.Y - w.Y) * (u.Y - w.Y) + (u.Z - w.Z) * (u.Z - w.Z)

/-- The squared distances from `p` to the points of the triangle
`s ≥ 0, t ≥ 0, s + t ≤ 1`. -/
def triangleSqDists (p v0 e01 e02 : RealVec R) : Set R :=
  {x | ∃ s t : R, 0 ≤ s ∧ 0 ≤ t ∧ s + t ≤ 1 ∧ x = sqDist (trianglePoint v0 e01 e02 s t) p}

/-- The edge vectors `e01`, `e02` are linearly independent: the triangle is
not degenerate. -/
def NonDegenerate (e01 e02 : RealVec R) : Prop :=
  ∀ α β : R, α * e01.X + β * e02.X = 0 → α * e01.Y + β * e02.Y = 0 →
    α * e01.Z + β * e02.Z = 0 → α = 0 ∧ β = 0

/-- The squared distance from the point to `T(s,t)` in terms of the six dot products. -/
def distForm (a b c d e f s t : R) : R :=
  a * s * s + 2 * b * s * t + c * t * t + 2 * d * s + 2 * e * t + f

/-- First-order optimality of `(s, t)` on the triangle `s ≥ 0, t ≥ 0, s + t ≤ 1`. -/
def Optimal (a b c d e f s t ds : R) : Prop :=
  ds = distForm a b c d e f s t ∧ 0 ≤ s ∧ 0 ≤ t ∧ s + t ≤ 1 ∧
  (a * s + b * t + d) * s + (b * s + c * t + e) * t ≤ 0 ∧
  (a * s + b * t + d) * s + (b * s + c * t + e) * t ≤ a * s + b * t + d ∧
  (a * s + b * t + d) * s + (b * s + c * t + e) * t ≤ b * s + c * t + e

/-- A test fixture: the tetrahedron with vertices `(0,0,0)`, `(1,0,0)`,
`(0,1,0)`, `(0,0,1)`, its four faces wound outward, its six edges with their
two incident faces, and outward (not normalized) face, edge and vertex
normals. -/
def tetra : Polyhedron R where
  faceN := 4
  edgeN := 6
  vertN := 4
  facet := fun _ => ⟨⟨0, 0, 0⟩, ⟨0, 0, 0⟩, ⟨0, 0, 0⟩, ⟨0, 0, 0⟩⟩
  f := fun n k =>
    match n, k with
    | 0, 0 => 0 | 0, 1 => 2 | 0, 2 => 1
    | 1, 0 => 0 | 1, 1 => 1 | 1, 2 => 3
    | 2, 0 => 0 | 2, 1 => 3 | 2, 2 => 2
    | 3, 0 => 1 | 3, 1 => 2 | 3, 2 => 3
    | _, _ => 0
  e := fun n k =>
    match n, k with
    | 0, 0 => 0 | 0, 1 => 2 | 0, 2 => 0 | 0, 3 => 2
    | 1, 0 => 2 | 1, 1 => 1 | 1, 2 => 0 | 1, 3 => 3
    | 2, 0 => 1 | 2, 1 => 0 | 2, 2 => 0 | 2, 3 => 1
    | 3, 0 => 1 | 3, 1 => 3 | 3, 2 => 1 | 3, 3 => 3
    | 4, 0 => 3 | 4, 1 => 0 | 4, 2 => 1 | 4, 3 => 2
    | 5, 0 => 3 | 5, 1 => 2 | 5, 2 => 2 | 5, 3 => 3
    | _, _ => 0
  v := fun n =>
    match n with
    | 1 => ⟨1, 0, 0⟩
    | 2 => ⟨0, 1, 0⟩
    | 3 => ⟨0, 0, 1⟩
    | _ => ⟨0, 0, 0⟩
  Nf := fun n =>
    match n with
    | 0 => ⟨0, 0, -1⟩
    | 1 => ⟨0, -1, 0⟩
    | 2 => ⟨-1, 0, 0⟩
    | _ => ⟨1, 1, 1⟩
  Ne := fun n =>
    match n with
    | 0 => ⟨-1, 0, -1⟩
    | 1 => ⟨1, 1, 0⟩
    | 2 => ⟨0, -1, -1⟩
    | 3 => ⟨1, 0, 1⟩
    | 4 => ⟨-1, -1, 0⟩
    | _ => ⟨0, 1, 1⟩
  Nv := fun n =>
    match n with
    | 0 => ⟨-1, -1, -1⟩
    | 1 => ⟨1, -1, -1⟩
    | 2 => ⟨-1, 1, -1⟩
    | _ => ⟨-1, -1, 1⟩
  O := ⟨1 / 4, 1 / 4, 1 / 4⟩
  r := 2
  box := ⟨⟨0, 0, 0⟩, ⟨1, 1, 1⟩⟩
  area := 3
  volume := 1 / 6
  I := ⟨⟨1, 0, 0⟩, ⟨0, 1, 0⟩, ⟨0, 0, 1⟩⟩

/-- Two points differ by at least `1/2` in some coordinate. -/
def sepVec (u v : RealVec R) : Prop :=
  1 / 2 ≤ |v.X - u.X| ∨ 1 / 2 ≤ |v.Y - u.Y| ∨ 1 / 2 ≤ |v.Z - u.Z|

/-- What the cube test needs of the comparison `EqualReal`: a number equals
itself, and two numbers at least `1/2` apart are not equal. -/
def Tolerant (EqualReal : R → R → Bool) : Prop :=
  (∀ x, EqualReal x x = true) ∧ ∀ x y, 1 / 2 ≤ |x - y| → EqualReal x y = false

/-- What the cube test needs of `sqrt` and `acos`: `sqrt` is the non-negative
square root on the non-negative numbers, `acos` is positive on `[0, 1)`, at
most `8/5` on the non-negative numbers and at most `1` from `2/3` on. -/
def LibmFacts (m : Libm R) : Prop :=
  (∀ x, 0 ≤ x → 0 ≤ m.sqrt x) ∧ (∀ x, 0 ≤ x → m.sqrt x * m.sqrt x = x) ∧
  (∀ x, 0 ≤ x → x < 1 → 0 < m.acos x) ∧ (∀ x, 0 ≤ x → m.acos x ≤ 8 / 5) ∧
  (∀ x, 2 / 3 ≤ x → m.acos x ≤ 1)

/-- The cross product `e01 × e02` of the edge vectors of face `n`. -/
def faceCross (poly : Polyhedron R) (n : Nat) : RealVec R :=
  Cross (BuildTriangle n poly).2.2.2.1 (BuildTriangle n poly).2.2.2.2

/-- Face `n` is a right-angled triangle with legs `e01`, `e02` of length 1
whose normal `e01 × e02` points away from the origin at its three corners. -/
def UnitRightFace (poly : Polyhedron R) (n : Nat) : Prop :=
  Dot (BuildTriangle n poly).2.2.2.1 (BuildTriangle n poly).2.2.2.1 = 1 ∧
  Dot (BuildTriangle n poly).2.2.2.2 (BuildTriangle n poly).2.2.2.2 = 1 ∧
  Dot (⟨(BuildTriangle n poly).2.2.1.X - (BuildTriangle n poly).2.1.X,
        (BuildTriangle n poly).2.2.1.Y - (BuildTriangle n poly).2.1.Y,
        (BuildTriangle n poly).2.2.1.Z - (BuildTriangle n poly).2.1.Z⟩ : RealVec R)
      ⟨(BuildTriangle n poly).2.2.1.X - (BuildTriangle n poly).2.1.X,
        (BuildTriangle n poly).2.2.1.Y - (BuildTriangle n poly).2.1.Y,
        (BuildTriangle n poly).2.2.1.Z - (BuildTriangle n poly).2.1.Z⟩ = 2 ∧
  Dot (faceCross poly n) (faceCross poly n) = 1 ∧
  ∀ c, c < 3 → 0 < Dot (faceCross poly n) (poly.v (poly.f n c))

/-- A test fixture: the twelve outward-wound triangles of the unit cube
centred at the origin, vertices `(±1/2, ±1/2, ±1/2)`, two triangles per side,
each listed from its right-angled corner. -/
def cubeFacet : Nat → Facet R
  | 0 => ⟨⟨-1, 0, 0⟩, ⟨-1/2, 1/2, -1/2⟩, ⟨-1/2, -1/2, -1/2⟩, ⟨-1/2, 1/2, 1/2⟩⟩
  | 1 => ⟨⟨-1, 0, 0⟩, ⟨-1/2, -1/2, 1/2⟩, ⟨-1/2, 1/2, 1/2⟩, ⟨-1/2, -1/2, -1/2⟩⟩
  | 2 => ⟨⟨1, 0, 0⟩, ⟨1/2, 1/2, -1/2⟩, ⟨1/2, 1/2, 1/2⟩, ⟨1/2, -1/2, -1/2⟩⟩
  | 3 => ⟨⟨1, 0, 0⟩, ⟨1/2, -1/2, 1/2⟩, ⟨1/2, -1/2, -1/2⟩, ⟨1/2, 1/2, 1/2⟩⟩
  | 4 => ⟨⟨0, -1, 0⟩, ⟨1/2, -1/2, -1/2⟩, ⟨1/2, -1/2, 1/2⟩, ⟨-1/2, -1/2, -1/2⟩⟩
  | 5 => ⟨⟨0, -1, 0⟩, ⟨-1/2, -1/2, 1/2⟩, ⟨-1/2, -1/2, -1/2⟩, ⟨1/2, -1/2, 1/2⟩⟩
  | 6 => ⟨⟨0, 1, 0⟩, ⟨1/2, 1/2, -1/2⟩, ⟨-1/2, 1/2, -1/2⟩, ⟨1/2, 1/2, 1/2⟩⟩
  | 7 => ⟨⟨0, 1, 0⟩, ⟨-1/2, 1/2, 1/2⟩, ⟨1/2, 1/2, 1/2⟩, ⟨-1/2, 1/2, -1/2⟩⟩
  | 8 => ⟨⟨0, 0, -1⟩, ⟨1/2, -1/2, -1/2⟩, ⟨-1/2, -1/2, -1/2⟩, ⟨1/2, 1/2, -1/2⟩⟩
  | 9 => ⟨⟨0, 0, -1⟩, ⟨-1/2, 1/2, -1/2⟩, ⟨1/2, 1/2, -1/2⟩, ⟨-1/2, -1/2, -1/2⟩⟩
  | 10 => ⟨⟨0, 0, 1⟩, ⟨1/2, -1/2, 1/2⟩, ⟨1/2, 1/2, 1/2⟩, ⟨-1/2, -1/2, 1/2⟩⟩
  | _ => ⟨⟨0, 0, 1⟩, ⟨-1/2, 1/2, 1/2⟩, ⟨-1/2, -1/2, 1/2⟩, ⟨1/2, 1/2, 1/2⟩⟩

/-- A cube mesh under construction: the twelve facets of `cubeFacet`, the
given vertex and edge counts and the given vertex, face and edge arrays. -/
def cubeMesh (vertN edgeN : Nat) (v : Nat → RealVec R) (f e : Nat → Nat → Nat) :
    Polyhedron R where
  faceN := 12
  edgeN := edgeN
  vertN := vertN
  facet := cubeFacet
  f := f
  e := e
  v := v
  Nf := fun _ => ⟨0, 0, 0⟩
  Ne := fun _ => ⟨0, 0, 0⟩
  Nv := fun _ => ⟨0, 0, 0⟩
  O := ⟨0, 0, 0⟩
  r := 0
  box := ⟨⟨0, 0, 0⟩, ⟨0, 0, 0⟩⟩
  area := 0
  volume := 0
  I := ⟨⟨0, 0, 0⟩, ⟨0, 0, 0⟩, ⟨0, 0, 0⟩⟩

/-- The vertex array of the cube before any vertex is stored. -/
def cubeV0 : Nat → RealVec R := fun _ => ⟨0, 0, 0⟩

/-- The vertex array of the cube with the vertices `0..0` stored. -/
def cubeV1 : Nat → RealVec R := set1 cubeV0 0 ⟨-1/2, 1/2, -1/2⟩

/-- The vertex array of the cube with the vertices `0..1` stored. -/
def cubeV2 : Nat → RealVec R := set1 cubeV1 1 ⟨-1/2, -1/2, -1/2⟩

/-- The vertex array of the cube with the vertices `0..2` stored. -/
def cubeV3 : Nat → RealVec R := set1 cubeV2 2 ⟨-1/2, 1/2, 1/2⟩

/-- The vertex array of the cube with the vertices `0..3` stored. -/
def cubeV4 : Nat → RealVec R := set1 cubeV3 3 ⟨-1/2, -1/2, 1/2⟩

/-- The vertex array of the cube with the vertices `0..4` stored. -/
def cubeV5 : Nat → RealVec R := set1 cubeV4 4 ⟨1/2, 1/2, -1/2⟩

/-- The vertex array of the cube with the vertices `0..5` stored. -/
def cubeV6 : Nat → RealVec R := set1 cubeV5 5 ⟨1/2, 1/2, 1/2⟩

/-- The vertex array of the cube with the vertices `0..6` stored. -/
def cubeV7 : Nat → RealVec R := set1 cubeV6 6 ⟨1/2, -1/2, -1/2⟩

/-- The vertex array of the cube with the vertices `0..7` stored. -/
def cubeV8 : Nat → RealVec R := set1 cubeV7 7 ⟨1/2, -1/2, 1/2⟩

/-- The face array of the cube before any face is converted. -/
def cubeF0 : Nat → Nat → Nat := fun _ _ => 0

/-- The edge array of the cube before any face is converted. -/
def cubeE0 : Nat → Nat → Nat := fun _ _ => 0

/-- A test fixture: the cube as `ConvertPolyhedron` receives it, the twelve
facets read, the vertex and edge lists empty. -/
def cubeInput : Polyhedron R := cubeMesh 0 0 cubeV0 cubeF0 cubeE0

/-- The face array of the cube after the faces `0..0` are converted. -/
def cubeF1 : Nat → Nat → Nat := set2 (set2 (set2 (cubeF0) 0 0 0) 0 1 1) 0 2 2

/-- The edge array of the cube after the faces `0..0` are converted. -/
def cubeE1 : Nat → Nat → Nat := set2 (set2 (set2 (set2 (set2 (set2 (set2 (set2 (set2 (cubeE0) 0 0 0) 0 1 1) 0 2 0) 1 0 1) 1 1 2) 1 2 0) 2 0 2) 2 1 0) 2 2 0

/-- The face array of the cube after the faces `0..1` are converted. -/
def cubeF2 : Nat → Nat → Nat := set2 (set2 (set2 (cubeF1) 1 0 3) 1 1 2) 1 2 1

/-- The edge array of the cube after the faces `0..1` are converted. -/
def cubeE2 : Nat → Nat → Nat := set2 (set2 (set2 (set2 (set2 (set2 (set2 (cubeE1) 3 0 3) 3 1 2) 3 2 1) 1 3 1) 4 0 1) 4 1 3) 4 2 1

/-- The face array of the cube after the faces `0..2` are converted. -/
def cubeF3 : Nat → Nat → Nat := set2 (set2 (set2 (cubeF2) 2 0 4) 2 1 5) 2 2 6

/-- The edge array of the cube after the faces `0..2` are converted. -/
def cubeE3 : Nat → Nat → Nat := set2 (set2 (set2 (set2 (set2 (set2 (set2 (set2 (set2 (cubeE2) 5 0 4) 5 1 5) 5 2 2) 6 0 5) 6 1 6) 6 2 2) 7 0 6) 7 1 4) 7 2 2

/-- The face array of the cube after the faces `0..3` are converted. -/
def cubeF4 : Nat → Nat → Nat := set2 (set2 (set2 (cubeF3) 3 0 7) 3 1 6) 3 2 5

/-- The edge array of the cube after the faces `0..3` are converted. -/
def cubeE4 : Nat → Nat → Nat := set2 (set2 (set2 (set2 (set2 (set2 (set2 (cubeE3) 8 0 7) 8 1 6) 8 2 3) 6 3 3) 9 0 5) 9 1 7) 9 2 3

/-- The face array of the cube after the faces `0..4` are converted. -/
def cubeF5 : Nat → Nat → Nat := set2 (set2 (set2 (cubeF4) 4 0 6) 4 1 7) 4 2 1

/-- The edge array of the cube after the faces `0..4` are converted. -/
def cubeE5 : Nat → Nat → Nat := set2 (set2 (set2 (set2 (set2 (set2 (set2 (cubeE4) 8 3 4) 10 0 7) 10 1 1) 10 2 4) 11 0 1) 11 1 6) 11 2 4

/-- The face array of the cube after the faces `0..5` are converted. -/
def cubeF6 : Nat → Nat → Nat := set2 (set2 (set2 (cubeF5) 5 0 3) 5 1 1) 5 2 7

/-- The edge array of the cube after the faces `0..5` are converted. -/
def cubeE6 : Nat → Nat → Nat := set2 (set2 (set2 (set2 (set2 (cubeE5) 4 3 5) 10 3 5) 12 0 7) 12 1 3) 12 2 5

/-- The face array of the cube after the faces `0..6` are converted. -/
def cubeF7 : Nat → Nat → Nat := set2 (set2 (set2 (cubeF6) 6 0 4) 6 1 0) 6 2 5

/-- The edge array of the cube after the faces `0..6` are converted. -/
def cubeE7 : Nat → Nat → Nat := set2 (set2 (set2 (set2 (set2 (set2 (set2 (cubeE6) 13 0 4) 13 1 0) 13 2 6) 14 0 0) 14 1 5) 14 2 6) 5 3 6

/-- The face array of the cube after the faces `0..7` are converted. -/
def cubeF8 : Nat → Nat → Nat := set2 (set2 (set2 (cubeF7) 7 0 2) 7 1 5) 7 2 0

/-- The edge array of the cube after the faces `0..7` are converted. -/
def cubeE8 : Nat → Nat → Nat := set2 (set2 (set2 (set2 (set2 (cubeE7) 15 0 2) 15 1 5) 15 2 7) 14 3 7) 2 3 7

/-- The face array of the cube after the faces `0..8` are converted. -/
def cubeF9 : Nat → Nat → Nat := set2 (set2 (set2 (cubeF8) 8 0 6) 8 1 1) 8 2 4

/-- The edge array of the cube after the faces `0..8` are converted. -/
def cubeE9 : Nat → Nat → Nat := set2 (set2 (set2 (set2 (set2 (cubeE8) 11 3 8) 16 0 1) 16 1 4) 16 2 8) 7 3 8

/-- The face array of the cube after the faces `0..9` are converted. -/
def cubeF10 : Nat → Nat → Nat := set2 (set2 (set2 (cubeF9) 9 0 0) 9 1 4) 9 2 1

/-- The edge array of the cube after the faces `0..9` are converted. -/
def cubeE10 : Nat → Nat → Nat := set2 (set2 (set2 (cubeE9) 13 3 9) 16 3 9) 0 3 9

/-- The face array of the cube after the faces `0..10` are converted. -/
def cubeF11 : Nat → Nat → Nat := set2 (set2 (set2 (cubeF10) 10 0 7) 10 1 5) 10 2 3

/-- The edge array of the cube after the faces `0..10` are converted. -/
def cubeE11 : Nat → Nat → Nat := set2 (set2 (set2 (set2 (set2 (cubeE10) 9 3 10) 17 0 5) 17 1 3) 17 2 10) 12 3 10

/-- The face array of the cube after the faces `0..11` are converted. -/
def cubeF12 : Nat → Nat → Nat := set2 (set2 (set2 (cubeF11) 11 0 2) 11 1 3) 11 2 5

/-- The edge array of the cube after the faces `0..11` are converted. -/
def cubeE12 : Nat → Nat → Nat := set2 (set2 (set2 (cubeE11) 3 3 11) 17 3 11) 15 3 11

/-! ## The analytical sphere, and the vocabulary of the topology and centroid statements -/

/-- The function `ComputeParametersSphere`. -/
def ComputeParametersSphere (collapse : Int) (poly : Polyhedron R) : Polyhedron R :=
  let pi : R := 314159265359 / 100000000000
  /- bounding box -/
  let box : Box R :=
    ⟨⟨poly.O.X - poly.r, poly.O.Y - poly.r, poly.O.Z - poly.r⟩,
     ⟨poly.O.X + poly.r, poly.O.Y + poly.r, poly.O.Z + poly.r⟩⟩
  /- geometric property -/
  let num := 4 / 10 * poly.r * poly.r
  let area := if COLLAPSEN = collapse then 4 * pi * poly.r * poly.r else 2 * pi * poly.r
  let volume :=
    if COLLAPSEN = collapse then 4 * pi * poly.r * poly.r * poly.r / 3 else pi * poly.r * poly.r
  let num := if COLLAPSEN = collapse then num else 5 / 10 * poly.r * poly.r
  let num := num * volume
  { poly with
    box := box
    area := area
    volume := volume
    I := ⟨⟨num, 0, 0⟩, ⟨0, num, 0⟩, ⟨0, 0, num⟩⟩ }

/-- Record `n` of the edge table `e` carries the undirected pair `{a, b}`. -/
def hasPair (e : Nat → Nat → Nat) (n a b : Nat) : Prop :=
  (e n 0 = a ∧ e n 1 = b) ∨ (e n 0 = b ∧ e n 1 = a)

instance hasPairDecidable (e : Nat → Nat → Nat) (n a b : Nat) : Decidable (hasPair e n a b) := by
  unfold hasPair
  infer_instance

/-- The undirected pair `{a, b}` is one of the three sides of face `n` of the
face table `f`. -/
def isSide (f : Nat → Nat → Nat) (n a b : Nat) : Prop :=
  ((f n 0 = a ∧ f n 1 = b) ∨ (f n 0 = b ∧ f n 1 = a)) ∨
  ((f n 1 = a ∧ f n 2 = b) ∨ (f n 1 = b ∧ f n 2 = a)) ∨
  ((f n 2 = a ∧ f n 0 = b) ∨ (f n 2 = b ∧ f n 0 = a))

instance isSideDecidable (f : Nat → Nat → Nat) (n a b : Nat) : Decidable (isSide f n a b) := by
  unfold isSide
  infer_instance

/-- The test of `AddVertex`: `u` is `EqualReal` to `w` in all three components. -/
def sameVertex (EqualReal : R → R → Bool) (u w : RealVec R) : Prop :=
  EqualReal u.X w.X = true ∧ EqualReal u.Y w.Y = true ∧ EqualReal u.Z w.Z = true

instance sameVertexDecidable (EqualReal : R → R → Bool) (u w : RealVec R) :
    Decidable (sameVertex EqualReal u w) := by
  unfold sameVertex
  infer_instance

/-- Corner `k` of a facet: `v0`, `v1`, `v2` for `k = 0, 1, 2`. -/
def corner (t : Facet R) : Nat → RealVec R
  | 0 => t.v0
  | 1 => t.v1
  | _ => t.v2

/-- A sequence of `AddEdge` calls, each call given by its arguments `(v0, v1, f)`. -/
def addEdges (calls : List (Nat × Nat × Nat)) (poly : Polyhedron R) : Polyhedron R :=
  calls.foldl (fun p c => AddEdge c.1 c.2.1 c.2.2 p) poly

/-- The three `AddEdge` calls of `ConvertPolyhedron` for face `n` of the face
table `f`. -/
def faceCalls (f : Nat → Nat → Nat) (n : Nat) : List (Nat × Nat × Nat) :=
  [(f n 0, f n 1, n), (f n 1, f n 2, n), (f n 2, f n 0, n)]

/-- The `AddEdge` calls of `ConvertPolyhedron` for the faces `0, ..., k - 1`,
in the order of the calls. -/
def allCalls (f : Nat → Nat → Nat) : Nat → List (Nat × Nat × Nat)
  | 0 => []
  | k + 1 => allCalls f k ++ faceCalls f k

/-- The faces named by the calls of `calls` whose vertex pair is the
undirected pair `k`, in the order of the calls. -/
def facesOf (calls : List (Nat × Nat × Nat)) (k : Sym2 Nat) : List Nat :=
  (calls.filter (fun c => decide (s(c.1, c.2.1) = k))).map (fun c => c.2.2)

/-- The state of the edge list after the `AddEdge` calls `calls` from an
empty list: different records carry different undirected pairs, the pair of
every call has a record, slot 2 of a record is the face of the first call
with its pair, and slot 3 is the face of the last call with its pair once
there are two such calls. -/
def EdgeInv (calls : List (Nat × Nat × Nat)) (poly : Polyhedron R) : Prop :=
  (∀ i j, i < poly.edgeN → j < poly.edgeN →
    s(poly.e i 0, poly.e i 1) = s(poly.e j 0, poly.e j 1) → i = j) ∧
  (∀ c, c ∈ calls → ∃ j, j < poly.edgeN ∧ s(poly.e j 0, poly.e j 1) = s(c.1, c.2.1)) ∧
  (∀ j, j < poly.edgeN →
    (facesOf calls s(poly.e j 0, poly.e j 1)).head? = some (poly.e j 2)) ∧
  (∀ j, j < poly.edgeN → 2 ≤ (facesOf calls s(poly.e j 0, poly.e j 1)).length →
    (facesOf calls s(poly.e j 0, poly.e j 1)).getLast? = some (poly.e j 3))

/-- The faces below `faceN` that have the undirected pair `{a, b}` as a
side, in increasing order. -/
def sideFaces (f : Nat → Nat → Nat) (faceN a b : Nat) : List Nat :=
  (List.range faceN).filter (fun m => decide (isSide f m a b))

/-- Corner `c` of face `n` of the indexed mesh is a stored vertex, and corner
`c` of facet `n` is `EqualReal` to it in all three components. -/
def Reproduces (EqualReal : R → R → Bool) (poly : Polyhedron R) (n c : Nat) : Prop :=
  poly.f n c < poly.vertN ∧
  sameVertex EqualReal (corner (poly.facet n) c) (poly.v (poly.f n c))

/-- No vertex of the list is `EqualReal` in all three components to a vertex
stored before it. -/
def VertsDistinct (EqualReal : R → R → Bool) (poly : Polyhedron R) : Prop :=
  ∀ i j, i < j → j < poly.vertN → ¬ sameVertex EqualReal (poly.v j) (poly.v i)

/-- The accumulators `volume` and `O` of the face loop of
`ComputeParametersPolyhedron` after its first `k` iterations; they involve
no call of the math library. -/
def momentSums (poly : Polyhedron R) : Nat → R × RealVec R
  | 0 => (0, ⟨0, 0, 0⟩)
  | k + 1 =>
    let tri := BuildTriangle k poly
    let Nf := Cross tri.2.2.2.1 tri.2.2.2.2
    let tx := momentTerms tri.1.X tri.2.1.X tri.2.2.1.X
    let ty := momentTerms tri.1.Y tri.2.1.Y tri.2.2.1.Y
    let tz := momentTerms tri.1.Z tri.2.1.Z tri.2.2.1.Z
    let s := momentSums poly k
    (s.1 + Nf.X * tx.1,
      ⟨s.2.X + Nf.X * tx.2.1, s.2.Y + Nf.Y * ty.2.1, s.2.Z + Nf.Z * tz.2.1⟩)

/-- The unit normal `e01 × e02 / |e01 × e02|` of face `n`. -/
def unitNormal (m : Libm R) (poly : Polyhedron R) (n : Nat) : RealVec R :=
  ⟨(faceCross poly n).X / Norm m (faceCross poly n),
   (faceCross poly n).Y / Norm m (faceCross poly n),
   (faceCross poly n).Z / Norm m (faceCross poly n)⟩

/-- Face `n` is fit for the face loop of `ComputeParametersPolyhedron`: it is
not degenerate, its three angles are defined and positive as the loop
computes them, and its normal `e01 × e02` has a positive component along
`w i` at each of its corners `i`. -/
def FaceRegular (m : Libm R) (poly : Polyhedron R) (w : Nat → RealVec R) (n : Nat) : Prop :=
  0 < Dot (faceCross poly n) (faceCross poly n) ∧
  (∃ c0 c1 : R,
    divReal
        (Dot (BuildTriangle n poly).2.2.2.1 (BuildTriangle n poly).2.2.2.1
          + Dot (BuildTriangle n poly).2.2.2.2 (BuildTriangle n poly).2.2.2.2
          - Dot (⟨(BuildTriangle n poly).2.2.1.X - (BuildTriangle n poly).2.1.X,
                  (BuildTriangle n poly).2.2.1.Y - (BuildTriangle n poly).2.1.Y,
                  (BuildTriangle n poly).2.2.1.Z - (BuildTriangle n poly).2.1.Z⟩ : RealVec R)
              ⟨(BuildTriangle n poly).2.2.1.X - (BuildTriangle n poly).2.1.X,
                (BuildTriangle n poly).2.2.1.Y - (BuildTriangle n poly).2.1.Y,
                (BuildTriangle n poly).2.2.1.Z - (BuildTriangle n poly).2.1.Z⟩)
        (2 * m.sqrt (Dot (BuildTriangle n poly).2.2.2.1 (BuildTriangle n poly).2.2.2.1
          * Dot (BuildTriangle n poly).2.2.2.2 (BuildTriangle n poly).2.2.2.2)) = some c0 ∧
    divReal
        (Dot (BuildTriangle n poly).2.2.2.1 (BuildTriangle n poly).2.2.2.1
          + Dot (⟨(BuildTriangle n poly).2.2.1.X - (BuildTriangle n poly).2.1.X,
                  (BuildTriangle n poly).2.2.1.Y - (BuildTriangle n poly).2.1.Y,
                  (BuildTriangle n poly).2.2.1.Z - (BuildTriangle n poly).2.1.Z⟩ : RealVec R)
              ⟨(BuildTriangle n poly).2.2.1.X - (BuildTriangle n poly).2.1.X,
                (BuildTriangle n poly).2.2.1.Y - (BuildTriangle n poly).2.1.Y,
                (BuildTriangle n poly).2.2.1.Z - (BuildTriangle n poly).2.1.Z⟩
          - Dot (BuildTriangle n poly).2.2.2.2 (BuildTriangle n poly).2.2.2.2)
        (2 * m.sqrt (Dot (BuildTriangle n poly).2.2.2.1 (BuildTriangle n poly).2.2.2.1
          * Dot (⟨(BuildTriangle n poly).2.2.1.X - (BuildTriangle n poly).2.1.X,
                  (BuildTriangle n poly).2.2.1.Y - (BuildTriangle n poly).2.1.Y,
                  (BuildTriangle n poly).2.2.1.Z - (BuildTriangle n poly).2.1.Z⟩ : RealVec R)
              ⟨(BuildTriangle n poly).2.2.1.X - (BuildTriangle n poly).2.1.X,
                (BuildTriangle n poly).2.2.1.Y - (BuildTriangle n poly).2.1.Y,
                (BuildTriangle n poly).2.2.1.Z - (BuildTriangle n poly).2.1.Z⟩)) = some c1 ∧
    0 < m.acos c0 ∧ 0 < m.acos c1 ∧
    0 < 314159265359 / 100000000000 - m.acos c0 - m.acos c1) ∧
  ∀ c, c < 3 → 0 < Dot (faceCross poly n) (w (poly.f n c))

/-- The mean of the vertices `0, 1, 2, 3` of a polyhedron. -/
def vertexMean (poly : Polyhedron R) : RealVec R :=
  ⟨((poly.v 0).X + (poly.v 1).X + (poly.v 2).X + (poly.v 3).X) / 4,
   ((poly.v 0).Y + (poly.v 1).Y + (poly.v 2).Y + (poly.v 3).Y) / 4,
   ((poly.v 0).Z + (poly.v 1).Z + (poly.v 2).Z + (poly.v 3).Z) / 4⟩

/-! ## Vocabulary of the transform, box and normal statements -/

/-- The matrix `I` is symmetric: `I[i][j] = I[j][i]`. -/
def SymmetricMat (I : RealMat R) : Prop :=
  I.X.Y = I.Y.X ∧ I.X.Z = I.Z.X ∧ I.Y.Z = I.Z.Y

/-- The product `A * B` of two 3×3 matrices. -/
def matMul (A B : RealMat R) : RealMat R :=
  ⟨⟨A.X.X * B.X.X + A.X.Y * B.Y.X + A.X.Z * B.Z.X,
    A.X.X * B.X.Y + A.X.Y * B.Y.Y + A.X.Z * B.Z.Y,
    A.X.X * B.X.Z + A.X.Y * B.Y.Z + A.X.Z * B.Z.Z⟩,
   ⟨A.Y.X * B.X.X + A.Y.Y * B.Y.X + A.Y.Z * B.Z.X,
    A.Y.X * B.X.Y + A.Y.Y * B.Y.Y + A.Y.Z * B.Z.Y,
    A.Y.X * B.X.Z + A.Y.Y * B.Y.Z + A.Y.Z * B.Z.Z⟩,
   ⟨A.Z.X * B.X.X + A.Z.Y * B.Y.X + A.Z.Z * B.Z.X,
    A.Z.X * B.X.Y + A.Z.Y * B.Y.Y + A.Z.Z * B.Z.Y,
    A.Z.X * B.X.Z + A.Z.Y * B.Y.Z + A.Z.Z * B.Z.Z⟩⟩

/-- The 3×3 identity matrix. -/
def identityMat : RealMat R :=
  ⟨⟨1, 0, 0⟩, ⟨0, 1, 0⟩, ⟨0, 0, 1⟩⟩

/-- The product `A * v` of a 3×3 matrix and a vector. -/
def matVec (A : RealMat R) (v : RealVec R) : RealVec R :=
  ⟨A.X.X * v.X + A.X.Y * v.Y + A.X.Z * v.Z,
   A.Y.X * v.X + A.Y.Y * v.Y + A.Y.Z * v.Z,
   A.Z.X * v.X + A.Z.Y * v.Y + A.Z.Z * v.Z⟩

/-- The box encloses the point: `box[s][MIN] ≤ v[s] ≤ box[s][MAX]` on every
axis `s`. -/
def Encloses (box : Box R) (v : RealVec R) : Prop :=
  box.MIN.X ≤ v.X ∧ v.X ≤ box.MAX.X ∧ box.MIN.Y ≤ v.Y ∧ v.Y ≤ box.MAX.Y ∧
  box.MIN.Z ≤ v.Z ∧ v.Z ≤ box.MAX.Z

/-- Every product `rotate[i][j] * scale[j]` is non-negative: scaling by
`scale` and then multiplying by `rotate` keeps the order of the coordinates. -/
def OrderKeeping (rotate : RealMat R) (scale : RealVec R) : Prop :=
  0 ≤ rotate.X.X * scale.X ∧ 0 ≤ rotate.X.Y * scale.Y ∧ 0 ≤ rotate.X.Z * scale.Z ∧
  0 ≤ rotate.Y.X * scale.X ∧ 0 ≤ rotate.Y.Y * scale.Y ∧ 0 ≤ rotate.Y.Z * scale.Z ∧
  0 ≤ rotate.Z.X * scale.X ∧ 0 ≤ rotate.Z.Y * scale.Y ∧ 0 ≤ rotate.Z.Z * scale.Z

/-- What the rotation claims need of `sin` and `cos`: `sin² + cos² = 1`,
`sin 0 = 0` and `cos 0 = 1`. -/
def TrigFacts (m : Libm R) : Prop :=
  (∀ x, m.sin x * m.sin x + m.cos x * m.cos x = 1) ∧ m.sin 0 = 0 ∧ m.cos 0 = 1

/-- A test fixture: the tetrahedron `tetra` moved by `-2` along the first
axis, with the vertices `(-2,0,0)`, `(-1,0,0)`, `(-2,1,0)`, `(-2,0,1)`; every
vertex has a negative first coordinate. -/
def tetraLow : Polyhedron R :=
  { (tetra : Polyhedron R) with
    v := fun n =>
      match n with
      | 1 => ⟨-1, 0, 0⟩
      | 2 => ⟨-2, 1, 0⟩
      | 3 => ⟨-2, 0, 1⟩
      | _ => ⟨-2, 0, 0⟩
    O := ⟨-7 / 4, 1 / 4, 1 / 4⟩
    box := ⟨⟨-2, 0, 0⟩, ⟨-1, 1, 1⟩⟩ }

/-! ## Machine arithmetic: every operation rounds its exact result -/

/-- What the statements need of the rounding `fl` of a machine arithmetic,
which maps the exact result of an operation to the number the machine
stores: it is monotone, it leaves machine numbers alone, 0 and 1 are machine
numbers, and it commutes with the sign. `fl = id` is exact arithmetic. -/
def Rounding (fl : R → R) : Prop :=
  Monotone fl ∧ (∀ x, fl (fl x) = fl x) ∧ fl 0 = 0 ∧ fl 1 = 1 ∧ ∀ x, fl (-x) = -fl x

/-- A machine division `x / y`: the rounded quotient, and no number when the
divisor is 0 (the machine stores a NaN or an infinity). -/
def divRounded (fl : R → R) (x y : R) : Option R :=
  if y = 0 then none else some (fl (x / y))

/-- Modelled from the spec: the helper `Dot` of `cfd_commons.h` in machine
arithmetic, `V1[X]*V2[X] + V1[Y]*V2[Y] + V1[Z]*V2[Z]` evaluated from the
left. -/
def DotRounded (fl : R → R) (V1 V2 : RealVec R) : R :=
  fl (fl (fl (V1.X * V2.X) + fl (V1.Y * V2.Y)) + fl (V1.Z * V2.Z))

/-- The seven-region case analysis of `PointTriangleDistance` in machine
arithmetic with the rounding `fl`: the result is `(s, t, distSquare)` as
they stand before `para` is written and before the final clamp. A sign
change `-d` is exact. -/
def PointTriangleRegionsRounded (fl : R → R) (a b c d e f : R) : Option (R × R × R) :=
  let det := fl (fl (a * c) - fl (b * b))
  let zero : R := 0
  let one : R := 1
  let s := fl (fl (b * e) - fl (c * d))
  let t := fl (fl (b * d) - fl (a * e))
  if fl (s + t) ≤ det then
    if s < zero then
      if t < zero then
        /- region 4 -/
        if d < zero then
          if -d ≥ a then
            some (one, zero, fl (fl (a + fl (2 * d)) + f))
          else
            (divRounded fl (-d) a).map fun s => (s, zero, fl (fl (d * s) + f))
        else
          if e ≥ zero then
            some (zero, zero, f)
          else
            if -e ≥ c then
              some (zero, one, fl (fl (c + fl (2 * e)) + f))
            else
              (divRounded fl (-e) c).map fun t => (zero, t, fl (fl (e * t) + f))
      else
        /- region 3 -/
        if e ≥ zero then
          some (zero, zero, f)
        else
          if -e ≥ c then
            some (zero, one, fl (fl (c + fl (2 * e)) + f))
          else
            (divRounded fl (-e) c).map fun t => (zero, t, fl (fl (e * t) + f))
    else
      if t < zero then
        /- region 5 -/
        if d ≥ zero then
          some (zero, zero, f)
        else
          if -d ≥ a then
            some (one, zero, fl (fl (a + fl (2 * d)) + f))
          else
            (divRounded fl (-d) a).map fun s => (s, zero, fl (fl (d * s) + f))
      else
        /- region 0 -/
        (divRounded fl s det).bind fun s =>
        (divRounded fl t det).map fun t =>
          (s, t,
            fl (fl (fl (s * fl (fl (fl (a * s) + fl (b * t)) + fl (2 * d)))
              + fl (t * fl (fl (fl (b * s) + fl (c * t)) + fl (2 * e)))) + f))
  else
    if s < zero then
      /- region 2 -/
      let tmp0 := fl (b + d)
      let tmp1 := fl (c + e)
      if tmp1 > tmp0 then
        let numer := fl (tmp1 - tmp0)
        let denom := fl (fl (a - fl (2 * b)) + c)
        if numer ≥ denom then
          some (one, zero, fl (fl (a + fl (2 * d)) + f))
        else
          (divRounded fl numer denom).map fun s =>
            let t := fl (one - s)
            (s, t,
              fl (fl (fl (s * fl (fl (fl (a * s) + fl (b * t)) + fl (2 * d)))
                + fl (t * fl (fl (fl (b * s) + fl (c * t)) + fl (2 * e)))) + f))
      else
        if tmp1 ≤ zero then
          some (zero, one, fl (fl (c + fl (2 * e)) + f))
        else
          if e ≥ zero then
            some (zero, zero, f)
          else
            (divRounded fl (-e) c).map fun t => (zero, t, fl (fl (e * t) + f))
    else
      if t < zero then
        /- region 6 -/
        let tmp0 := fl (b + e)
        let tmp1 := fl (a + d)
        if tmp1 > tmp0 then
          let numer := fl (tmp1 - tmp0)
          let denom := fl (fl (a - fl (2 * b)) + c)
          if numer ≥ denom then
            some (zero, one, fl (fl (c + fl (2 * e)) + f))
          else
            (divRounded fl numer denom).map fun t =>
              let s := fl (one - t)
              (s, t,
                fl (fl (fl (s * fl (fl (fl (a * s) + fl (b * t)) + fl (2 * d)))
                  + fl (t * fl (fl (fl (b * s) + fl (c * t)) + fl (2 * e)))) + f))
        else
          if tmp1 ≤ zero then
            some (one, zero, fl (fl (a + fl (2 * d)) + f))
          else
            if d ≥ zero then
              some (zero, zero, f)
            else
              (divRounded fl (-d) a).map fun s => (s, zero, fl (fl (d * s) + f))
      else
        /- region 1 -/
        let numer := fl (fl (fl (c + e) - b) - d)
        if numer ≤ zero then
          some (zero, one, fl (fl (c + fl (2 * e)) + f))
        else
          let denom := fl (fl (a - fl (2 * b)) + c)
          if numer ≥ denom then
            some (one, zero, fl (fl (a + fl (2 * d)) + f))
          else
            (divRounded fl numer denom).map fun s =>
              let t := fl (one - s)
              (s, t,
                fl (fl (fl (s * fl (fl (fl (a * s) + fl (b * t)) + fl (2 * d)))
                  + fl (t * fl (fl (fl (b * s) + fl (c * t)) + fl (2 * e)))) + f))

/-- The function `PointTriangleDistance` in machine arithmetic with the
rounding `fl`: the returned squared distance and the triple written to
`para`, or no result when a quotient is not a number. -/
def PointTriangleDistanceRounded (fl : R → R) (p v0 e01 e02 : RealVec R) :
    Option (R × RealVec R) :=
  let D : RealVec R := ⟨fl (v0.X - p.X), fl (v0.Y - p.Y), fl (v0.Z - p.Z)⟩
  let a := DotRounded fl e01 e01
  let b := DotRounded fl e01 e02
  let c := DotRounded fl e02 e02
  let d := DotRounded fl e01 D
  let e := DotRounded fl e02 D
  let f := DotRounded fl D D
  (PointTriangleRegionsRounded fl a b c d e f).map fun (s, t, distSquare) =>
    (if (0 : R) > distSquare then 0 else distSquare, ⟨fl (fl (1 - s) - t), s, t⟩)

/-- The function `BuildTriangle` in machine arithmetic with the rounding
`fl`. -/
def BuildTriangleRounded (fl : R → R) (faceID : Nat) (poly : Polyhedron R) :
    RealVec R × RealVec R × RealVec R × RealVec R × RealVec R :=
  let v0 := poly.v (poly.f faceID 0)
  let v1 := poly.v (poly.f faceID 1)
  let v2 := poly.v (poly.f faceID 2)
  (v0, v1, v2, ⟨fl (v1.X - v0.X), fl (v1.Y - v0.Y), fl (v1.Z - v0.Z)⟩,
    ⟨fl (v2.X - v0.X), fl (v2.Y - v0.Y), fl (v2.Z - v0.Z)⟩)

/-- The function `ComputeIntersection` in machine arithmetic with the
rounding `fl`. -/
def ComputeIntersectionRounded (fl : R → R) (EqualReal : R → R → Bool) (p : RealVec R)
    (faceID : Nat) (poly : Polyhedron R) : Option (R × RealVec R × RealVec R) :=
  let zero : R := 0
  let one : R := 1
  let v0i := poly.f faceID 0
  let v1i := poly.f faceID 1
  let v2i := poly.f faceID 2
  let tri := BuildTriangleRounded fl faceID poly
  let v0 := tri.1
  let v1 := tri.2.1
  let v2 := tri.2.2.1
  let e01 := tri.2.2.2.1
  let e02 := tri.2.2.2.2
  (PointTriangleDistanceRounded fl p v0 e01 e02).map fun res =>
    let distSquare := res.1
    let para := res.2
    if EqualReal para.Y zero then
      if EqualReal para.Z zero then
        /- vertex 0 -/
        (distSquare, v0, poly.Nv v0i)
      else
        if EqualReal para.Z one then
          /- vertex 2 -/
          (distSquare, v2, poly.Nv v2i)
        else
          /- edge e02 -/
          let e := FindEdge v0i v2i poly
          (distSquare,
            ⟨fl (v0.X + fl (para.Z * e02.X)), fl (v0.Y + fl (para.Z * e02.Y)),
              fl (v0.Z + fl (para.Z * e02.Z))⟩, poly.Ne e)
    else
      if EqualReal para.Y one then
        /- vertex 1 -/
        (distSquare, v1, poly.Nv v1i)
      else
        if EqualReal para.Z zero then
          /- edge e01 -/
          let e := FindEdge v0i v1i poly
          (distSquare,
            ⟨fl (v0.X + fl (para.Y * e01.X)), fl (v0.Y + fl (para.Y * e01.Y)),
              fl (v0.Z + fl (para.Y * e01.Z))⟩, poly.Ne e)
        else
          if EqualReal para.X zero then
            /- edge e12 -/
            let e := FindEdge v1i v2i poly
            (distSquare,
              ⟨fl (fl (v0.X + fl (para.Y * e01.X)) + fl (para.Z * e02.X)),
                fl (fl (v0.Y + fl (para.Y * e01.Y)) + fl (para.Z * e02.Y)),
                fl (fl (v0.Z + fl (para.Y * e01.Z)) + fl (para.Z * e02.Z))⟩, poly.Ne e)
          else
            /- complete in the triangle -/
            (distSquare,
              ⟨fl (fl (v0.X + fl (para.Y * e01.X)) + fl (para.Z * e02.X)),
                fl (fl (v0.Y + fl (para.Y * e01.Y)) + fl (para.Z * e02.Y)),
                fl (fl (v0.Z + fl (para.Y * e01.Z)) + fl (para.Z * e02.Z))⟩, poly.Nf faceID)

/-! ## The rounding of binary64 -/

/-- Rounding to the nearest integer, ties to the even one. -/
def roundHalfEven (r : ℚ) : ℤ :=
  if r - ⌊r⌋ < 1 / 2 then ⌊r⌋
  else if 1 / 2 < r - ⌊r⌋ then ⌊r⌋ + 1
  else if ⌊r⌋ % 2 = 0 then ⌊r⌋ else ⌊r⌋ + 1

/-- The exponent of the binade of `q` in binary64: `⌊log₂ |q|⌋`, and `-1022`
for the subnormal numbers. -/
def binadeExp (q : ℚ) : ℤ := max (Int.log 2 |q|) (-1022)

/-- The rounding of the C type `double` (IEEE 754 binary64, round to nearest,
ties to even) as a function on the rationals: the doubles in the binade of
`q` are the multiples of `2 ^ (binadeExp q - 52)`. Values beyond the largest
double, which the machine rounds to an infinity, are not modelled. -/
def binary64 (q : ℚ) : ℚ :=
  (roundHalfEven (q / 2 ^ (binadeExp q - 52)) : ℚ) * 2 ^ (binadeExp q - 52)

/-! ## Vocabulary of the integral-property statements -/

/-- The accumulator `area` of the face loop of `ComputeParametersPolyhedron`
after its first `k` iterations: the sum of the lengths `|e01 × e02|`. -/
def areaSum (m : Libm R) (poly : Polyhedron R) : Nat → R
  | 0 => 0
  | k + 1 => areaSum m poly k + Norm m (faceCross poly k)

/-- The accumulators `I[0], ..., I[5]` of the face loop of
`ComputeParametersPolyhedron` after its first `k` iterations; they involve
no call of the math library. -/
def secondSums (poly : Polyhedron R) : Nat → R × R × R × R × R × R
  | 0 => (0, 0, 0, 0, 0, 0)
  | k + 1 =>
    let tri := BuildTriangle k poly
    let v0 := tri.1
    let v1 := tri.2.1
    let v2 := tri.2.2.1
    let Nf := Cross tri.2.2.2.1 tri.2.2.2.2
    let tx := momentTerms v0.X v1.X v2.X
    let ty := momentTerms v0.Y v1.Y v2.Y
    let tz := momentTerms v0.Z v1.Z v2.Z
    let s := secondSums poly k
    (s.1 + Nf.X * tx.2.2.1,
     s.2.1 + Nf.Y * ty.2.2.1,
     s.2.2.1 + Nf.Z * tz.2.2.1,
     s.2.2.2.1 + Nf.X * (v0.Y * tx.2.2.2.1 + v1.Y * tx.2.2.2.2.1 + v2.Y * tx.2.2.2.2.2),
     s.2.2.2.2.1 + Nf.Y * (v0.Z * ty.2.2.2.1 + v1.Z * ty.2.2.2.2.1 + v2.Z * ty.2.2.2.2.2),
     s.2.2.2.2.2 + Nf.Z * (v0.X * tz.2.2.2.1 + v1.X * tz.2.2.2.2.1 + v2.X * tz.2.2.2.2.2))

/-- The inertia tensor that `ComputeParametersPolyhedron` assembles from the
accumulators: `V` is `volume / 6`, `O` is the accumulator `O` divided by 24,
and `I0, ..., I5` are the accumulators `I[0..5]` divided by 60 and 120. -/
def assembledInertia (poly : Polyhedron R) : RealMat R :=
  let V := (momentSums poly poly.faceN).1 / 6
  let O : RealVec R :=
    ⟨(momentSums poly poly.faceN).2.X / 24, (momentSums poly poly.faceN).2.Y / 24,
      (momentSums poly poly.faceN).2.Z / 24⟩
  let s := secondSums poly poly.faceN
  let I0 := s.1 / 60
  let I1 := s.2.1 / 60
  let I2 := s.2.2.1 / 60
  let I3 := s.2.2.2.1 / 120
  let I4 := s.2.2.2.2.1 / 120
  let I5 := s.2.2.2.2.2 / 120
  ⟨⟨I1 + I2 - V * (O.Y * O.Y + O.Z * O.Z), -I3 + V * O.X * O.Y, -I5 + V * O.Z * O.X⟩,
   ⟨-I3 + V * O.X * O.Y, I0 + I2 - V * (O.Z * O.Z + O.X * O.X), -I4 + V * O.Y * O.Z⟩,
   ⟨-I5 + V * O.Z * O.X, -I4 + V * O.Y * O.Z, I0 + I1 - V * (O.X * O.X + O.Y * O.Y)⟩⟩

/-- The polyhedron with the winding of every face reversed: the corners 1
and 2 of each face are swapped. -/
def reverseWinding (poly : Polyhedron R) : Polyhedron R :=
  { poly with
    f := fun n k => if k = 1 then poly.f n 2 else if k = 2 then poly.f n 1 else poly.f n k }

/-- The polyhedron with the corners of face `n0` rotated:
`(v0, v1, v2)` becomes `(v1, v2, v0)`. -/
def rotateFace (n0 : Nat) (poly : Polyhedron R) : Polyhedron R :=
  { poly with
    f := fun n k =>
      if n = n0 then
        if k = 0 then poly.f n 1 else if k = 1 then poly.f n 2
        else if k = 2 then poly.f n 0 else poly.f n k
      else poly.f n k }

/-- The determinant `det(b - a, c - a, d - a)`. -/
def tetraDet (a b c d : RealVec R) : R :=
  Dot (Cross ⟨b.X - a.X, b.Y - a.Y, b.Z - a.Z⟩ ⟨c.X - a.X, c.Y - a.Y, c.Z - a.Z⟩)
    ⟨d.X - a.X, d.Y - a.Y, d.Z - a.Z⟩

/-- The index of the vertex of a tetrahedron on the vertices 0, 1, 2, 3 that
is not a corner of face `n`. -/
def opposite (poly : Polyhedron R) (n : Nat) : Nat :=
  6 - (poly.f n 0 + poly.f n 1 + poly.f n 2)

/-- The polyhedron is a tetrahedron on the vertices 0, 1, 2, 3: it has four
faces, every face has three different corners among the four vertices, and
different faces leave out different vertices. The faces may come in any
order and start from any corner. -/
def IsTetrahedron (poly : Polyhedron R) : Prop :=
  poly.faceN = 4 ∧
  (∀ n, n < 4 → poly.f n 0 < 4 ∧ poly.f n 1 < 4 ∧ poly.f n 2 < 4 ∧
    poly.f n 0 ≠ poly.f n 1 ∧ poly.f n 0 ≠ poly.f n 2 ∧ poly.f n 1 ≠ poly.f n 2) ∧
  ∀ n m, n < 4 → m < 4 → n ≠ m → opposite poly n ≠ opposite poly m

/-- Face `n` of a tetrahedron is wound outward: its normal `e01 × e02` points
away from the vertex that is not on the face. -/
def OutwardFace (poly : Polyhedron R) (n : Nat) : Prop :=
  0 < Dot (faceCross poly n)
    ⟨(poly.v (poly.f n 0)).X - (poly.v (opposite poly n)).X,
      (poly.v (poly.f n 0)).Y - (poly.v (opposite poly n)).Y,
      (poly.v (poly.f n 0)).Z - (poly.v (opposite poly n)).Z⟩

/-- The term `Nf[X] * (v0x + v1x + v2x)` that a face with the corners `a`,
`b`, `c` adds to the accumulator `volume`. -/
def faceTerm (a b c : RealVec R) : R :=
  (Cross ⟨b.X - a.X, b.Y - a.Y, b.Z - a.Z⟩ ⟨c.X - a.X, c.Y - a.Y, c.Z - a.Z⟩).X
    * (a.X + b.X + c.X)

/-- The term of the face of a tetrahedron that leaves out vertex `l`, wound
as in the fixture `tetra`. -/
def stdTerm (v : Nat → RealVec R) : Nat → R
  | 0 => faceTerm (v 1) (v 2) (v 3)
  | 1 => faceTerm (v 0) (v 3) (v 2)
  | 2 => faceTerm (v 0) (v 1) (v 3)
  | _ => faceTerm (v 0) (v 2) (v 1)

/-- The calls of `calls` all have a record with their vertex pair. -/
def HasEdges (calls : List (Nat × Nat × Nat)) (poly : Polyhedron R) : Prop :=
  ∀ c, c ∈ calls → ∃ j, j < poly.edgeN ∧ hasPair poly.e j c.1 c.2.1

/-! ## The limiter and the viscous flux of `tvd.c` -/

/-- The function `sgn` of `tvd.c`. -/
def sgn (x : R) : Int :=
  if x > 0 then 1 else if x < 0 then -1 else 0

/-- The function `Min` of `tvd.c`. -/
def Min (valueA valueB : R) : R :=
  if valueA < valueB then valueA else valueB

/-- The function `minmod` of `tvd.c` in machine arithmetic with the rounding
`fl`; `fabs` is the absolute value, and the `int` returned by `sgn` is
converted to `Real` for the last product. -/
def minmod (fl : R → R) (x y z : R) : R :=
  if fl (x * y) ≤ 0 ∨ fl (x * z) ≤ 0 then 0
  else fl (((sgn x : Int) : R) * Min |x| (Min |y| |z|))

/-- The derivatives of the velocity and of the temperature that
`ComputeViscousFlux` has computed when it assembles the fluxes. -/
structure Gradients (R : Type) where
  du_dx : R
  du_dy : R
  du_dz : R
  dv_dx : R
  dv_dy : R
  dv_dz : R
  dw_dx : R
  dw_dy : R
  dw_dz : R
  dT_dx : R
  dT_dy : R
  dT_dz : R

/-- The last part of `ComputeViscousFlux`, with `Gx`, `Gy` and `Gz` all
requested (not `NULL`): the flux vectors from the viscosity `mu`, the
conductivity `heatK`, the velocity `u`, `v`, `w` and the derivatives that
the function has computed before. The C expression `(2/3)` is a quotient of
two `int` constants: the integer division `2 / 3`, converted to `Real`. -/
def ComputeViscousFlux (mu heatK u v w : R) (g : Gradients R) :
    (Nat → R) × (Nat → R) × (Nat → R) :=
  let divV := g.du_dx + g.dv_dy + g.dw_dz
  let Gx1 := mu * (2 * g.du_dx - (((2 / 3 : Int) : Int) : R) * divV)
  let Gx2 := mu * (g.du_dy + g.dv_dx)
  let Gx3 := mu * (g.du_dz + g.dw_dx)
  let Gx4 := heatK * g.dT_dx + u * Gx1 + v * Gx2 + w * Gx3
  let Gy1 := mu * (g.dv_dx + g.du_dy)
  let Gy2 := mu * (2 * g.dv_dy - (((2 / 3 : Int) : Int) : R) * divV)
  let Gy3 := mu * (g.dv_dz + g.dw_dy)
  let Gy4 := heatK * g.dT_dy + u * Gy1 + v * Gy2 + w * Gy3
  let Gz1 := mu * (g.dw_dx + g.du_dz)
  let Gz2 := mu * (g.dw_dy + g.dv_dz)
  let Gz3 := mu * (2 * g.dw_dz - (((2 / 3 : Int) : Int) : R) * divV)
  let Gz4 := heatK * g.dT_dz + u * Gz1 + v * Gz2 + w * Gz3
  (fun n => match n with | 0 => 0 | 1 => Gx1 | 2 => Gx2 | 3 => Gx3 | _ => Gx4,
   fun n => match n with | 0 => 0 | 1 => Gy1 | 2 => Gy2 | 3 => Gy3 | _ => Gy4,
   fun n => match n with | 0 => 0 | 1 => Gz1 | 2 => Gz2 | 3 => Gz3 | _ => Gz4)

/-! ## The point loop of `WriteParaviewVariableFile` -/

/-- One facet of a solid of `geometry_stream.c`: the three points. -/
structure StreamFacet (R : Type) where
  P1 : RealVec R
  P2 : RealVec R
  P3 : RealVec R

/-- One entry of `geo->list`: the facet count and the facet array. -/
structure StreamSolid (R : Type) where
  facetN : Int
  facet : Nat → StreamFacet R

/-- How a run of the point loop ends: the loop test fails after `iters`
iterations with the solid index at `m` and the points `out` printed; or the
loop test reads `geo->list[m]` past the end of the list; or the run is cut
off after the given number of steps. -/
inductive LoopResult (R : Type) where
  | done (iters m : Nat) (out : List (RealVec R))
  | outOfBounds (iters m : Nat) (out : List (RealVec R))
  | outOfFuel

/-- The point loop `for (int n = 0; n < geo->list[m].facetN; ++m)` of
`WriteParaviewVariableFile`, run for at most the given number of loop tests
from the state `(n, m)`: every iteration prints the three points of
`geo->list[m].facet[n]` and then increments `m`. -/
def pointLoop (list : List (StreamSolid R)) :
    Nat → Int → Nat → Nat → List (RealVec R) → LoopResult R
  | 0, _, _, _, _ => LoopResult.outOfFuel
  | fuel + 1, n, m, iters, out =>
    match list[m]? with
    | none => LoopResult.outOfBounds iters m out
    | some s =>
      if n < s.facetN then
        pointLoop list fuel n (m + 1) (iters + 1)
          (out ++ [(s.facet n.toNat).P1, (s.facet n.toNat).P2, (s.facet n.toNat).P3])
      else LoopResult.done iters m out

/-- A test fixture: the tetrahedron `tetra` with a symmetric, non-diagonal
inertia tensor. -/
def tetraSkew : Polyhedron R :=
  { (tetra : Polyhedron R) with I := ⟨⟨2, 1, 0⟩, ⟨1, 3, 5⟩, ⟨0, 5, 4⟩⟩ }

/-- A test fixture: the tetrahedron `tetra` with its legs scaled to
`2 ^ (-300)`: the vertices `(0,0,0)`, `(2^-300,0,0)`, `(0,2^-300,0)`,
`(0,0,2^-300)`, all of them doubles; the faces and the normals are those of
`tetra`. -/
def tetraTiny : Polyhedron ℚ :=
  { (tetra : Polyhedron ℚ) with
    v := fun n =>
      match n with
      | 1 => ⟨2 ^ (-300 : ℤ), 0, 0⟩
      | 2 => ⟨0, 2 ^ (-300 : ℤ), 0⟩
      | 3 => ⟨0, 0, 2 ^ (-300 : ℤ)⟩
      | _ => ⟨0, 0, 0⟩ }

end Defs

section Theorems

variable {R : Type} [LinearOrderedField R]

/-! ## PointTriangleDistance: first-order optimality in every branch (C1, C2, C3) -/

theorem quad_nonneg (a b c u v : R) (ha : 0 < a) (hdet : 0 ≤ a * c - b * b) :
    0 ≤ a * u * u + 2 * b * u * v + c * v * v := by
  have h : 0 ≤ a * (a * u * u + 2 * b * u * v + c * v * v) := by
    have e1 : a * (a * u * u + 2 * b * u * v + c * v * v)
        = (a * u + b * v) ^ 2 + (a * c - b * b) * v ^ 2 := by ring
    rw [e1]; positivity
  exact nonneg_of_mul_nonneg_right h ha

theorem optimal_le (a b c d e f s t ds : R) (ha : 0 < a) (hdet : 0 ≤ a * c - b * b)
    (h : Optimal a b c d e f s t ds) (s' t' : R) (hs : 0 ≤ s') (ht : 0 ≤ t')
    (hst : s' + t' ≤ 1) : ds ≤ distForm a b c d e f s' t' := by
  obtain ⟨h0, -, -, -, k0, k1, k2⟩ := h
  have hq := quad_nonneg a b c (s' - s) (t' - t) ha hdet
  have m0 := mul_nonneg (sub_nonneg.mpr hst) (neg_nonneg.mpr k0)
  have m1 := mul_nonneg hs (sub_nonneg.mpr k1)
  have m2 := mul_nonneg ht (sub_nonneg.mpr k2)
  rw [h0]; unfold distForm
  nlinarith [hq, m0, m1, m2]

theorem optimal_v0 (a b c d e f : R) (hd : 0 ≤ d) (he : 0 ≤ e) :
    Optimal a b c d e f 0 0 f := by
  refine ⟨by unfold distForm; ring, le_refl _, le_refl _, by norm_num, ?_, ?_, ?_⟩ <;> simp <;> assumption

theorem optimal_v1 (a b c d e f : R) (h1 : a + d ≤ 0) (h2 : a + d ≤ b + e) :
    Optimal a b c d e f 1 0 (a + 2 * d + f) := by
  refine ⟨by unfold distForm; ring, by norm_num, le_refl _, by norm_num, ?_, ?_, ?_⟩ <;> simp <;> linarith

theorem optimal_v2 (a b c d e f : R) (h1 : c + e ≤ 0) (h2 : c + e ≤ b + d) :
    Optimal a b c d e f 0 1 (c + 2 * e + f) := by
  refine ⟨by unfold distForm; ring, le_refl _, by norm_num, by norm_num, ?_, ?_, ?_⟩ <;> simp <;> linarith

theorem optimal_e01 (a b c d e f : R) (ha : 0 < a) (hd : d ≤ 0) (h : -d ≤ a)
    (ht : b * d - a * e ≤ 0) :
    Optimal a b c d e f (-d / a) 0 (d * (-d / a) + f) := by
  have hs : a * (-d / a) = -d := by field_simp; ring
  have hs0 : 0 ≤ -d / a := div_nonneg (by linarith) ha.le
  have hs1 : -d / a ≤ 1 := (div_le_one ha).mpr h
  have hg : 0 ≤ b * (-d / a) + e := by
    have : b * (-d / a) + e = (a * e - b * d) / a := by field_simp; ring
    rw [this]; exact div_nonneg (by linarith) ha.le
  generalize -d / a = s at *
  refine ⟨by unfold distForm; linear_combination (-s) * hs, hs0, le_refl _, by linarith, ?_, ?_, ?_⟩
  · have : a * s + b * 0 + d = 0 := by linarith
    rw [this]; simp
  · have : a * s + b * 0 + d = 0 := by linarith
    rw [this]; simp
  · have : a * s + b * 0 + d = 0 := by linarith
    rw [this]; simp; linarith

theorem optimal_e02 (a b c d e f : R) (hc : 0 < c) (he : e ≤ 0) (h : -e ≤ c)
    (hs : b * e - c * d ≤ 0) :
    Optimal a b c d e f 0 (-e / c) (e * (-e / c) + f) := by
  have ht : c * (-e / c) = -e := by field_simp; ring
  have ht0 : 0 ≤ -e / c := div_nonneg (by linarith) hc.le
  have ht1 : -e / c ≤ 1 := (div_le_one hc).mpr h
  have hg : 0 ≤ b * (-e / c) + d := by
    have : b * (-e / c) + d = (c * d - b * e) / c := by field_simp; ring
    rw [this]; exact div_nonneg (by linarith) hc.le
  generalize -e / c = t at *
  refine ⟨by unfold distForm; linear_combination (-t) * ht, le_refl _, ht0, by linarith, ?_, ?_, ?_⟩
  · have : b * 0 + c * t + e = 0 := by linarith
    rw [this]; simp
  · have : b * 0 + c * t + e = 0 := by linarith
    rw [this]; simp; linarith
  · have : b * 0 + c * t + e = 0 := by linarith
    rw [this]; simp

theorem optimal_e12 (a b c d e f s t : R) (hst : s + t = 1) (hs : 0 ≤ s) (ht : 0 ≤ t)
    (hg : a * s + b * t + d = b * s + c * t + e) (hg0 : a * s + b * t + d ≤ 0) :
    Optimal a b c d e f s t
      (s * (a * s + b * t + 2 * d) + t * (b * s + c * t + 2 * e) + f) := by
  have hK : (a * s + b * t + d) * s + (b * s + c * t + e) * t = a * s + b * t + d := by
    rw [← hg]; linear_combination (a * s + b * t + d) * hst
  refine ⟨by unfold distForm; ring, hs, ht, hst.le, ?_, ?_, ?_⟩
  · rw [hK]; exact hg0
  · rw [hK]
  · rw [hK, hg]

theorem optimal_e12_s (a b c d e f n : R) (hn : n = c + e - b - d)
    (hden : 0 < a - 2 * b + c) (hn0 : 0 ≤ n) (hn1 : n ≤ a - 2 * b + c)
    (hS : a * c - b * b ≤ (b * e - c * d) + (b * d - a * e)) :
    Optimal a b c d e f (n / (a - 2 * b + c)) (1 - n / (a - 2 * b + c))
      (n / (a - 2 * b + c) * (a * (n / (a - 2 * b + c)) + b * (1 - n / (a - 2 * b + c)) + 2 * d)
        + (1 - n / (a - 2 * b + c)) * (b * (n / (a - 2 * b + c))
          + c * (1 - n / (a - 2 * b + c)) + 2 * e) + f) := by
  have hs0 : 0 ≤ n / (a - 2 * b + c) := div_nonneg hn0 hden.le
  have hs1 : n / (a - 2 * b + c) ≤ 1 := (div_le_one hden).mpr hn1
  have hsd : (a - 2 * b + c) * (n / (a - 2 * b + c)) = n := by field_simp
  generalize n / (a - 2 * b + c) = s at *
  apply optimal_e12
  · ring
  · exact hs0
  · linarith
  · rw [hn] at hsd; linear_combination hsd
  · have h1 : (a - 2 * b + c) * (a * s + b * (1 - s) + d)
        = (a * c - b * b) - ((b * e - c * d) + (b * d - a * e)) := by
      rw [hn] at hsd; linear_combination (a - b) * hsd
    have h2 : (a - 2 * b + c) * (a * s + b * (1 - s) + d) ≤ 0 := by rw [h1]; linarith
    by_contra hcon
    push_neg at hcon
    have := mul_pos hden hcon
    linarith

theorem optimal_e12_t (a b c d e f n : R) (hn : n = a + d - (b + e))
    (hden : 0 < a - 2 * b + c) (hn0 : 0 ≤ n) (hn1 : n ≤ a - 2 * b + c)
    (hS : a * c - b * b ≤ (b * e - c * d) + (b * d - a * e)) :
    Optimal a b c d e f (1 - n / (a - 2 * b + c)) (n / (a - 2 * b + c))
      ((1 - n / (a - 2 * b + c)) * (a * (1 - n / (a - 2 * b + c)) + b * (n / (a - 2 * b + c)) + 2 * d)
        + n / (a - 2 * b + c) * (b * (1 - n / (a - 2 * b + c))
          + c * (n / (a - 2 * b + c)) + 2 * e) + f) := by
  have hs0 : 0 ≤ n / (a - 2 * b + c) := div_nonneg hn0 hden.le
  have hs1 : n / (a - 2 * b + c) ≤ 1 := (div_le_one hden).mpr hn1
  have hsd : (a - 2 * b + c) * (n / (a - 2 * b + c)) = n := by field_simp
  generalize n / (a - 2 * b + c) = t at *
  apply optimal_e12
  · ring
  · linarith
  · exact hs0
  · rw [hn] at hsd; linear_combination (-1 : R) * hsd
  · have h1 : (a - 2 * b + c) * (a * (1 - t) + b * t + d)
        = (a * c - b * b) - ((b * e - c * d) + (b * d - a * e)) := by
      rw [hn] at hsd; linear_combination (b - a) * hsd
    have h2 : (a - 2 * b + c) * (a * (1 - t) + b * t + d) ≤ 0 := by rw [h1]; linarith
    by_contra hcon
    push_neg at hcon
    have := mul_pos hden hcon
    linarith

theorem optimal_int (a b c d e f : R) (hdet : 0 < a * c - b * b)
    (hs : 0 ≤ b * e - c * d) (ht : 0 ≤ b * d - a * e)
    (hst : (b * e - c * d) + (b * d - a * e) ≤ a * c - b * b) :
    Optimal a b c d e f ((b * e - c * d) / (a * c - b * b)) ((b * d - a * e) / (a * c - b * b))
      ((b * e - c * d) / (a * c - b * b) * (a * ((b * e - c * d) / (a * c - b * b))
          + b * ((b * d - a * e) / (a * c - b * b)) + 2 * d)
        + (b * d - a * e) / (a * c - b * b) * (b * ((b * e - c * d) / (a * c - b * b))
          + c * ((b * d - a * e) / (a * c - b * b)) + 2 * e) + f) := by
  have hs0 : 0 ≤ (b * e - c * d) / (a * c - b * b) := div_nonneg hs hdet.le
  have ht0 : 0 ≤ (b * d - a * e) / (a * c - b * b) := div_nonneg ht hdet.le
  have hst1 : (b * e - c * d) / (a * c - b * b) + (b * d - a * e) / (a * c - b * b) ≤ 1 := by
    rw [← add_div]; exact (div_le_one hdet).mpr hst
  have hsd : (a * c - b * b) * ((b * e - c * d) / (a * c - b * b)) = b * e - c * d := by
    field_simp
  have htd : (a * c - b * b) * ((b * d - a * e) / (a * c - b * b)) = b * d - a * e := by
    field_simp
  generalize (b * e - c * d) / (a * c - b * b) = s at *
  generalize (b * d - a * e) / (a * c - b * b) = t at *
  have g1 : a * s + b * t + d = 0 := by
    have : (a * c - b * b) * (a * s + b * t + d) = 0 := by
      linear_combination a * hsd + b * htd
    rcases mul_eq_zero.mp this with h | h
    · exact absurd h hdet.ne'
    · exact h
  have g2 : b * s + c * t + e = 0 := by
    have : (a * c - b * b) * (b * s + c * t + e) = 0 := by
      linear_combination b * hsd + c * htd
    rcases mul_eq_zero.mp this with h | h
    · exact absurd h hdet.ne'
    · exact h
  refine ⟨by unfold distForm; ring, hs0, ht0, hst1, ?_, ?_, ?_⟩ <;> rw [g1, g2] <;> simp


theorem denom_pos (a b c : R) (ha : 0 < a) (hdet : 0 < a * c - b * b) : 0 < a - 2 * b + c := by
  by_contra hcon
  push_neg at hcon
  nlinarith [sq_nonneg (a - b), mul_nonneg ha.le (neg_nonneg.mpr hcon)]

theorem side_v1_cross (a b c d e : R) (ha : 0 < a) (hdet : 0 < a * c - b * b)
    (hS : (b * e - c * d) + (b * d - a * e) ≤ a * c - b * b) (hT : b * d - a * e ≤ 0)
    (h : a + d ≤ 0) : a + d ≤ b + e := by
  have hden := denom_pos a b c ha hdet
  by_contra hcon
  push_neg at hcon
  rcases le_or_lt a b with hab | hab
  · nlinarith [mul_nonneg (sub_nonneg.mpr hab) (sub_nonneg.mpr hS),
      mul_nonneg hden.le (neg_nonneg.mpr hT), mul_pos hdet (sub_pos.mpr hcon)]
  · nlinarith [mul_pos (sub_pos.mpr hab) (sub_pos.mpr hcon),
      mul_nonneg hden.le (neg_nonneg.mpr h)]

theorem side_v2_cross (a b c d e : R) (ha : 0 < a) (hdet : 0 < a * c - b * b)
    (hS : (b * e - c * d) + (b * d - a * e) ≤ a * c - b * b) (hT : b * e - c * d ≤ 0)
    (h : c + e ≤ 0) : c + e ≤ b + d := by
  have hden := denom_pos a b c ha hdet
  by_contra hcon
  push_neg at hcon
  rcases le_or_lt c b with hab | hab
  · nlinarith [mul_nonneg (sub_nonneg.mpr hab) (sub_nonneg.mpr hS),
      mul_nonneg hden.le (neg_nonneg.mpr hT), mul_pos hdet (sub_pos.mpr hcon)]
  · nlinarith [mul_pos (sub_pos.mpr hab) (sub_pos.mpr hcon),
      mul_nonneg hden.le (neg_nonneg.mpr h)]

theorem side_v0_d (a b c d e : R) (ha : 0 < a) (hc : 0 < c) (hdet : 0 < a * c - b * b)
    (hS : b * e - c * d < 0) (hT : 0 ≤ b * d - a * e) (he : 0 ≤ e) : 0 ≤ d := by
  by_contra hcon
  push_neg at hcon
  rcases le_or_lt b 0 with hb | hb
  · nlinarith [mul_pos ha (neg_pos.mpr hS), mul_nonneg (neg_nonneg.mpr hb) hT,
      mul_pos hdet (neg_pos.mpr hcon)]
  · nlinarith [mul_nonneg hb.le he, mul_pos hc (neg_pos.mpr hcon)]

theorem side_v0_e (a b c d e : R) (ha : 0 < a) (hc : 0 < c) (hdet : 0 < a * c - b * b)
    (hS : 0 ≤ b * e - c * d) (hT : b * d - a * e < 0) (hd : 0 ≤ d) : 0 ≤ e := by
  by_contra hcon
  push_neg at hcon
  rcases le_or_lt b 0 with hb | hb
  · nlinarith [mul_pos hc (neg_pos.mpr hT), mul_nonneg (neg_nonneg.mpr hb) hS,
      mul_pos hdet (neg_pos.mpr hcon)]
  · nlinarith [mul_nonneg hb.le hd, mul_pos ha (neg_pos.mpr hcon)]

theorem side_v1_lo (a b c d e : R) (ha : 0 < a) (hdet : 0 < a * c - b * b)
    (hS : a * c - b * b < (b * e - c * d) + (b * d - a * e)) (hT : 0 ≤ b * d - a * e)
    (h : a + d ≤ b + e) : a + d ≤ 0 := by
  have hden := denom_pos a b c ha hdet
  by_contra hcon
  push_neg at hcon
  rcases le_or_lt a b with hab | hab
  · nlinarith [mul_nonneg (sub_nonneg.mpr hab) hT, mul_pos ha (sub_pos.mpr hS),
      mul_pos hdet hcon]
  · nlinarith [mul_nonneg (sub_pos.mpr hab).le (sub_nonneg.mpr h), mul_pos hden hcon]

theorem side_v2_lo (a b c d e : R) (ha : 0 < a) (hc : 0 < c) (hdet : 0 < a * c - b * b)
    (hS : a * c - b * b < (b * e - c * d) + (b * d - a * e)) (hT : 0 ≤ b * e - c * d)
    (h : c + e ≤ b + d) : c + e ≤ 0 := by
  have hden := denom_pos a b c ha hdet
  by_contra hcon
  push_neg at hcon
  rcases le_or_lt c b with hab | hab
  · nlinarith [mul_nonneg (sub_nonneg.mpr hab) hT, mul_pos hc (sub_pos.mpr hS),
      mul_pos hdet hcon]
  · nlinarith [mul_nonneg (sub_pos.mpr hab).le (sub_nonneg.mpr h), mul_pos hden hcon]

theorem side_v0_d_out (b c d e : R) (hc : 0 < c)
    (hS : b * e - c * d < 0) (h1 : c + e ≤ b + d) (h2 : 0 < c + e) (he : 0 ≤ e) : 0 ≤ d := by
  by_contra hcon
  push_neg at hcon
  rcases le_or_lt b 0 with hb | hb
  · linarith
  · nlinarith [mul_nonneg hb.le he, mul_pos hc (neg_pos.mpr hcon)]

theorem side_v0_e_out (a b d e : R) (ha : 0 < a)
    (hT : b * d - a * e < 0) (h1 : a + d ≤ b + e) (h2 : 0 < a + d) (hd : 0 ≤ d) : 0 ≤ e := by
  by_contra hcon
  push_neg at hcon
  rcases le_or_lt b 0 with hb | hb
  · linarith
  · nlinarith [mul_nonneg hb.le hd, mul_pos ha (neg_pos.mpr hcon)]

theorem regions_optimal (a b c d e f : R) (ha : 0 < a) (hc : 0 < c)
    (hdet : 0 < a * c - b * b) :
    ∃ s t ds, PointTriangleRegions a b c d e f = some (s, t, ds) ∧
      Optimal a b c d e f s t ds := by
  have hden : 0 < a - 2 * b + c := denom_pos a b c ha hdet
  unfold PointTriangleRegions
  simp only [divReal, if_neg ha.ne', if_neg hc.ne', if_neg hdet.ne', if_neg hden.ne',
    Option.map_some', Option.some_bind, ge_iff_le, gt_iff_lt]
  by_cases hS : b * e - c * d + (b * d - a * e) ≤ a * c - b * b
  · rw [if_pos hS]
    by_cases hs : b * e - c * d < 0
    · rw [if_pos hs]
      by_cases ht : b * d - a * e < 0
      · rw [if_pos ht]
        by_cases hd : d < 0
        · rw [if_pos hd]
          by_cases h1 : a ≤ -d
          · rw [if_pos h1]
            exact ⟨_, _, _, rfl, optimal_v1 a b c d e f (by linarith)
              (side_v1_cross a b c d e ha hdet hS ht.le (by linarith))⟩
          · rw [if_neg h1]
            exact ⟨_, _, _, rfl, optimal_e01 a b c d e f ha hd.le (by linarith) ht.le⟩
        · rw [if_neg hd]
          by_cases he : 0 ≤ e
          · rw [if_pos he]
            exact ⟨_, _, _, rfl, optimal_v0 a b c d e f (by linarith) he⟩
          · rw [if_neg he]
            by_cases h1 : c ≤ -e
            · rw [if_pos h1]
              exact ⟨_, _, _, rfl, optimal_v2 a b c d e f (by linarith)
                (side_v2_cross a b c d e ha hdet hS hs.le (by linarith))⟩
            · rw [if_neg h1]
              exact ⟨_, _, _, rfl, optimal_e02 a b c d e f hc (by linarith) (by linarith) hs.le⟩
      · rw [if_neg ht]
        by_cases he : 0 ≤ e
        · rw [if_pos he]
          exact ⟨_, _, _, rfl, optimal_v0 a b c d e f
            (side_v0_d a b c d e ha hc hdet hs (by linarith) he) he⟩
        · rw [if_neg he]
          by_cases h1 : c ≤ -e
          · rw [if_pos h1]
            exact ⟨_, _, _, rfl, optimal_v2 a b c d e f (by linarith)
              (side_v2_cross a b c d e ha hdet hS hs.le (by linarith))⟩
          · rw [if_neg h1]
            exact ⟨_, _, _, rfl, optimal_e02 a b c d e f hc (by linarith) (by linarith) hs.le⟩
    · rw [if_neg hs]
      by_cases ht : b * d - a * e < 0
      · rw [if_pos ht]
        by_cases hd : 0 ≤ d
        · rw [if_pos hd]
          exact ⟨_, _, _, rfl, optimal_v0 a b c d e f hd
            (side_v0_e a b c d e ha hc hdet (by linarith) ht hd)⟩
        · rw [if_neg hd]
          by_cases h1 : a ≤ -d
          · rw [if_pos h1]
            exact ⟨_, _, _, rfl, optimal_v1 a b c d e f (by linarith)
              (side_v1_cross a b c d e ha hdet hS ht.le (by linarith))⟩
          · rw [if_neg h1]
            exact ⟨_, _, _, rfl, optimal_e01 a b c d e f ha (by linarith) (by linarith) ht.le⟩
      · rw [if_neg ht]
        exact ⟨_, _, _, rfl, optimal_int a b c d e f hdet (by linarith) (by linarith) hS⟩
  · rw [if_neg hS]
    have hS' : a * c - b * b < b * e - c * d + (b * d - a * e) := lt_of_not_le hS
    by_cases hs : b * e - c * d < 0
    · rw [if_pos hs]
      by_cases h0 : b + d < c + e
      · rw [if_pos h0]
        by_cases h1 : a - 2 * b + c ≤ c + e - (b + d)
        · rw [if_pos h1]
          exact ⟨_, _, _, rfl, optimal_v1 a b c d e f
            (side_v1_lo a b c d e ha hdet hS' (by linarith) (by linarith)) (by linarith)⟩
        · rw [if_neg h1]
          exact ⟨_, _, _, rfl, optimal_e12_s a b c d e f _ (by ring) hden (by linarith)
            (by linarith) hS'.le⟩
      · rw [if_neg h0]
        by_cases h1 : c + e ≤ 0
        · rw [if_pos h1]
          exact ⟨_, _, _, rfl, optimal_v2 a b c d e f h1 (by linarith)⟩
        · rw [if_neg h1]
          by_cases he : 0 ≤ e
          · rw [if_pos he]
            exact ⟨_, _, _, rfl, optimal_v0 a b c d e f
              (side_v0_d_out b c d e hc hs (by linarith) (by linarith) he) he⟩
          · rw [if_neg he]
            exact ⟨_, _, _, rfl, optimal_e02 a b c d e f hc (by linarith) (by linarith) hs.le⟩
    · rw [if_neg hs]
      by_cases ht : b * d - a * e < 0
      · rw [if_pos ht]
        by_cases h0 : b + e < a + d
        · rw [if_pos h0]
          by_cases h1 : a - 2 * b + c ≤ a + d - (b + e)
          · rw [if_pos h1]
            exact ⟨_, _, _, rfl, optimal_v2 a b c d e f
              (side_v2_lo a b c d e ha hc hdet hS' (by linarith) (by linarith)) (by linarith)⟩
          · rw [if_neg h1]
            exact ⟨_, _, _, rfl, optimal_e12_t a b c d e f _ rfl hden (by linarith)
              (by linarith) hS'.le⟩
        · rw [if_neg h0]
          by_cases h1 : a + d ≤ 0
          · rw [if_pos h1]
            exact ⟨_, _, _, rfl, optimal_v1 a b c d e f h1 (by linarith)⟩
          · rw [if_neg h1]
            by_cases hd : 0 ≤ d
            · rw [if_pos hd]
              exact ⟨_, _, _, rfl, optimal_v0 a b c d e f hd
                (side_v0_e_out a b d e ha ht (by linarith) (by linarith) hd)⟩
            · rw [if_neg hd]
              exact ⟨_, _, _, rfl, optimal_e01 a b c d e f ha (by linarith) (by linarith) ht.le⟩
      · rw [if_neg ht]
        by_cases h0 : c + e - b - d ≤ 0
        · rw [if_pos h0]
          exact ⟨_, _, _, rfl, optimal_v2 a b c d e f
            (side_v2_lo a b c d e ha hc hdet hS' (by linarith) (by linarith)) (by linarith)⟩
        · rw [if_neg h0]
          by_cases h1 : a - 2 * b + c ≤ c + e - b - d
          · rw [if_pos h1]
            exact ⟨_, _, _, rfl, optimal_v1 a b c d e f
              (side_v1_lo a b c d e ha hdet hS' (by linarith) (by linarith)) (by linarith)⟩
          · rw [if_neg h1]
            exact ⟨_, _, _, rfl, optimal_e12_s a b c d e f _ rfl hden (by linarith)
              (by linarith) hS'.le⟩

theorem sqDist_trianglePoint (p v0 e01 e02 : RealVec R) (s t : R) :
    sqDist (trianglePoint v0 e01 e02 s t) p
      = distForm (Dot e01 e01) (Dot e01 e02) (Dot e02 e02)
          (Dot e01 ⟨v0.X - p.X, v0.Y - p.Y, v0.Z - p.Z⟩)
          (Dot e02 ⟨v0.X - p.X, v0.Y - p.Y, v0.Z - p.Z⟩)
          (Dot (⟨v0.X - p.X, v0.Y - p.Y, v0.Z - p.Z⟩ : RealVec R)
            ⟨v0.X - p.X, v0.Y - p.Y, v0.Z - p.Z⟩) s t := by
  simp only [sqDist, trianglePoint, distForm, Dot]; ring

theorem sqDist_nonneg (u w : RealVec R) : 0 ≤ sqDist u w := by
  unfold sqDist
  nlinarith [mul_self_nonneg (u.X - w.X), mul_self_nonneg (u.Y - w.Y),
    mul_self_nonneg (u.Z - w.Z)]

theorem Dot_self_nonneg (u : RealVec R) : 0 ≤ Dot u u := by
  unfold Dot
  nlinarith [mul_self_nonneg u.X, mul_self_nonneg u.Y, mul_self_nonneg u.Z]

theorem Dot_self_eq_zero (u : RealVec R) (h : Dot u u = 0) : u.X = 0 ∧ u.Y = 0 ∧ u.Z = 0 := by
  unfold Dot at h
  have hx := mul_self_nonneg u.X
  have hy := mul_self_nonneg u.Y
  have hz := mul_self_nonneg u.Z
  refine ⟨mul_self_eq_zero.mp ?_, mul_self_eq_zero.mp ?_, mul_self_eq_zero.mp ?_⟩ <;> linarith

theorem det_eq_cross (e01 e02 : RealVec R) :
    Dot e01 e01 * Dot e02 e02 - Dot e01 e02 * Dot e01 e02
      = Dot (Cross e01 e02) (Cross e01 e02) := by
  simp only [Dot, Cross]; ring

theorem det_nonneg (e01 e02 : RealVec R) :
    0 ≤ Dot e01 e01 * Dot e02 e02 - Dot e01 e02 * Dot e01 e02 := by
  rw [det_eq_cross]; exact Dot_self_nonneg _

theorem nonDegenerate_det_pos (e01 e02 : RealVec R) (h : NonDegenerate e01 e02) :
    0 < Dot e01 e01 * Dot e02 e02 - Dot e01 e02 * Dot e01 e02 := by
  rcases (det_nonneg e01 e02).lt_or_eq with hlt | heq
  · exact hlt
  · exfalso
    rw [det_eq_cross] at heq
    obtain ⟨cx, cy, cz⟩ := Dot_self_eq_zero _ heq.symm
    simp only [Cross] at cx cy cz
    have h1 := h (-(Dot e01 e02)) (Dot e01 e01)
      (by simp only [Dot]; linear_combination e01.Z * cy - e01.Y * cz)
      (by simp only [Dot]; linear_combination e01.X * cz - e01.Z * cx)
      (by simp only [Dot]; linear_combination e01.Y * cx - e01.X * cy)
    obtain ⟨ex, ey, ez⟩ := Dot_self_eq_zero e01 h1.2
    have h2 := h 1 0 (by rw [ex]; ring) (by rw [ey]; ring) (by rw [ez]; ring)
    exact one_ne_zero h2.1

theorem det_pos_left (a b c : R) (ha : 0 ≤ a) (hdet : 0 < a * c - b * b) : 0 < a := by
  rcases ha.lt_or_eq with h | h
  · exact h
  · exfalso; rw [← h] at hdet; nlinarith [mul_self_nonneg b]

theorem det_pos_right (a b c : R) (hc : 0 ≤ c) (hdet : 0 < a * c - b * b) : 0 < c := by
  rcases hc.lt_or_eq with h | h
  · exact h
  · exfalso; rw [← h] at hdet; nlinarith [mul_self_nonneg b]

/-- The result of `PointTriangleDistance` on a triangle with positive Gram
determinant: parameters in the triangle, the returned value is the squared
distance at those parameters, and no point of the triangle is closer. -/
theorem PointTriangleDistance_spec (p v0 e01 e02 : RealVec R)
    (hdet : 0 < Dot e01 e01 * Dot e02 e02 - Dot e01 e02 * Dot e01 e02) :
    ∃ s t : R, 0 ≤ s ∧ 0 ≤ t ∧ s + t ≤ 1 ∧
      PointTriangleDistance p v0 e01 e02
        = some (sqDist (trianglePoint v0 e01 e02 s t) p, ⟨1 - s - t, s, t⟩) ∧
      ∀ s' t' : R, 0 ≤ s' → 0 ≤ t' → s' + t' ≤ 1 →
        sqDist (trianglePoint v0 e01 e02 s t) p ≤ sqDist (trianglePoint v0 e01 e02 s' t') p := by
  have ha := det_pos_left _ _ _ (Dot_self_nonneg e01) hdet
  have hc := det_pos_right _ _ _ (Dot_self_nonneg e02) hdet
  obtain ⟨s, t, ds, hreg, hopt⟩ := regions_optimal (Dot e01 e01) (Dot e01 e02) (Dot e02 e02)
    (Dot e01 ⟨v0.X - p.X, v0.Y - p.Y, v0.Z - p.Z⟩)
    (Dot e02 ⟨v0.X - p.X, v0.Y - p.Y, v0.Z - p.Z⟩)
    (Dot (⟨v0.X - p.X, v0.Y - p.Y, v0.Z - p.Z⟩ : RealVec R)
      ⟨v0.X - p.X, v0.Y - p.Y, v0.Z - p.Z⟩) ha hc hdet
  have hds : ds = sqDist (trianglePoint v0 e01 e02 s t) p := by
    rw [sqDist_trianglePoint]; exact hopt.1
  refine ⟨s, t, hopt.2.1, hopt.2.2.1, hopt.2.2.2.1, ?_, ?_⟩
  · unfold PointTriangleDistance
    simp only [hreg, Option.map_some']
    have hnn : ¬ (0 > ds) := by rw [hds]; exact not_lt.mpr (sqDist_nonneg _ _)
    rw [if_neg hnn, hds]
  · intro s' t' hs' ht' hst'
    rw [← hds, sqDist_trianglePoint]
    exact optimal_le _ _ _ _ _ _ s t ds ha hdet.le hopt s' t' hs' ht' hst'

/-- C1: for every point and every non-degenerate triangle the value returned
by `PointTriangleDistance` is the minimum of `|v0 + s*e01 + t*e02 - p|^2` over
`s ≥ 0, t ≥ 0, s + t ≤ 1`, the true squared distance from the point to the
triangle. -/
theorem PointTriangleDistance_eq_min (p v0 e01 e02 : RealVec R)
    (h : NonDegenerate e01 e02) :
    ∃ r para, PointTriangleDistance p v0 e01 e02 = some (r, para) ∧
      IsLeast (triangleSqDists p v0 e01 e02) r := by
  obtain ⟨s, t, hs, ht, hst, hval, hmin⟩ :=
    PointTriangleDistance_spec p v0 e01 e02 (nonDegenerate_det_pos e01 e02 h)
  refine ⟨_, _, hval, ⟨s, t, hs, ht, hst, rfl⟩, ?_⟩
  rintro x ⟨s', t', hs', ht', hst', rfl⟩
  exact hmin s' t' hs' ht' hst'

theorem nonDegenerate_axes : NonDegenerate (⟨0, 1, 0⟩ : RealVec ℚ) ⟨0, 0, 1⟩ := by
  intro α β _ h2 h3
  dsimp only at h2 h3
  constructor <;> linarith

/-- C1, at the point `(0,0,0)` and the triangle `(1/2,-1/2,-1/2)`,
`(1/2,1/2,-1/2)`, `(1/2,-1/2,1/2)`: the returned value is the minimum. -/
theorem PointTriangleDistance_eq_min_witness :
    NonDegenerate (⟨0, 1, 0⟩ : RealVec ℚ) ⟨0, 0, 1⟩ ∧
    ∃ r para, PointTriangleDistance (⟨0, 0, 0⟩ : RealVec ℚ) ⟨1 / 2, -1 / 2, -1 / 2⟩
        ⟨0, 1, 0⟩ ⟨0, 0, 1⟩ = some (r, para) ∧
      IsLeast (triangleSqDists (⟨0, 0, 0⟩ : RealVec ℚ) ⟨1 / 2, -1 / 2, -1 / 2⟩
        ⟨0, 1, 0⟩ ⟨0, 0, 1⟩) r :=
  ⟨nonDegenerate_axes, PointTriangleDistance_eq_min _ _ _ _ nonDegenerate_axes⟩

theorem rotationMatrix_zero (m : Libm R) (hsin : m.sin 0 = 0) (hcos : m.cos 0 = 1) :
    rotationMatrix m ⟨0, 0, 0⟩ = ⟨⟨1, 0, 0⟩, ⟨0, 1, 0⟩, ⟨0, 0, 1⟩⟩ := by
  simp [rotationMatrix, hsin, hcos]

theorem TransformVertex_identity (O v : RealVec R) :
    TransformVertex O ⟨1, 1, 1⟩ ⟨⟨1, 0, 0⟩, ⟨0, 1, 0⟩, ⟨0, 0, 1⟩⟩ ⟨0, 0, 0⟩ v = v := by
  simp [TransformVertex, Dot]

theorem TransformNormal_identity (N : RealVec R) :
    TransformNormal ⟨⟨1, 0, 0⟩, ⟨0, 1, 0⟩, ⟨0, 0, 1⟩⟩ N = N := by
  simp [TransformNormal, Dot]

/-- C7: `Transformation` with scale `(1,1,1)`, angle `(0,0,0)` and offset
`(0,0,0)` leaves every vertex unchanged (`sin 0 = 0` and `cos 0 = 1` being
what `math.h` returns). -/
theorem Transformation_identity_vertices (m : Libm R) (hsin : m.sin 0 = 0)
    (hcos : m.cos 0 = 1) (poly : Polyhedron R) :
    ∀ n, (Transformation m ⟨1, 1, 1⟩ ⟨0, 0, 0⟩ ⟨0, 0, 0⟩ poly).v n = poly.v n := by
  intro n
  simp only [Transformation, rotationMatrix_zero m hsin hcos, TransformVertex_identity]
  split_ifs <;> rfl

/-- C7, for the sine and cosine of the real numbers and the tetrahedron
fixture. -/
theorem Transformation_identity_vertices_witness :
    Real.sin 0 = 0 ∧ Real.cos 0 = 1 ∧
    ∀ n, (Transformation ⟨Real.sin, Real.cos, Real.sqrt, Real.arccos⟩
      ⟨1, 1, 1⟩ ⟨0, 0, 0⟩ ⟨0, 0, 0⟩ (tetra : Polyhedron ℝ)).v n = (tetra : Polyhedron ℝ).v n :=
  ⟨Real.sin_zero, Real.cos_zero,
    Transformation_identity_vertices ⟨Real.sin, Real.cos, Real.sqrt, Real.arccos⟩
      Real.sin_zero Real.cos_zero tetra⟩

/-- C8: `Transformation` with scale `(1,1,1)`, angle `(0,0,0)` and offset
`(0,0,0)` leaves every face normal, edge normal and vertex normal
unchanged. -/
theorem Transformation_identity_normals (m : Libm R) (hsin : m.sin 0 = 0)
    (hcos : m.cos 0 = 1) (poly : Polyhedron R) :
    (∀ n, (Transformation m ⟨1, 1, 1⟩ ⟨0, 0, 0⟩ ⟨0, 0, 0⟩ poly).Nf n = poly.Nf n) ∧
    (∀ n, (Transformation m ⟨1, 1, 1⟩ ⟨0, 0, 0⟩ ⟨0, 0, 0⟩ poly).Ne n = poly.Ne n) ∧
    (∀ n, (Transformation m ⟨1, 1, 1⟩ ⟨0, 0, 0⟩ ⟨0, 0, 0⟩ poly).Nv n = poly.Nv n) := by
  refine ⟨?_, ?_, ?_⟩ <;> intro n <;>
    simp only [Transformation, rotationMatrix_zero m hsin hcos, TransformNormal_identity] <;>
    split_ifs <;> rfl

/-- C8, for the sine and cosine of the real numbers and the tetrahedron
fixture. -/
theorem Transformation_identity_normals_witness :
    Real.sin 0 = 0 ∧ Real.cos 0 = 1 ∧
    (∀ n, (Transformation ⟨Real.sin, Real.cos, Real.sqrt, Real.arccos⟩
      ⟨1, 1, 1⟩ ⟨0, 0, 0⟩ ⟨0, 0, 0⟩ (tetra : Polyhedron ℝ)).Nf n
        = (tetra : Polyhedron ℝ).Nf n) ∧
    (∀ n, (Transformation ⟨Real.sin, Real.cos, Real.sqrt, Real.arccos⟩
      ⟨1, 1, 1⟩ ⟨0, 0, 0⟩ ⟨0, 0, 0⟩ (tetra : Polyhedron ℝ)).Ne n
        = (tetra : Polyhedron ℝ).Ne n) ∧
    (∀ n, (Transformation ⟨Real.sin, Real.cos, Real.sqrt, Real.arccos⟩
      ⟨1, 1, 1⟩ ⟨0, 0, 0⟩ ⟨0, 0, 0⟩ (tetra : Polyhedron ℝ)).Nv n
        = (tetra : Polyhedron ℝ).Nv n) :=
  ⟨Real.sin_zero, Real.cos_zero,
    Transformation_identity_normals ⟨Real.sin, Real.cos, Real.sqrt, Real.arccos⟩
      Real.sin_zero Real.cos_zero tetra⟩

theorem Transformation_identity_inertia_XY (m : Libm R) (hsin : m.sin 0 = 0)
    (hcos : m.cos 0 = 1) (hsqrt : m.sqrt 2 * m.sqrt 2 = 2) (poly : Polyhedron R) :
    (Transformation m ⟨1, 1, 1⟩ ⟨0, 0, 0⟩ ⟨0, 0, 0⟩ poly).I.X.Y
      = -((poly.I.X.X + poly.I.Y.Y) / 2 + poly.I.X.Y) := by
  have h0 : m.sqrt 2 ≠ 0 := by
    intro h; rw [h] at hsqrt; norm_num at hsqrt
  have hn : 1 / m.sqrt 2 * (1 / m.sqrt 2) = 1 / 2 := by
    rw [div_mul_div_comm, hsqrt]; norm_num
  simp only [Transformation, rotationMatrix_zero m hsin hcos, inverseRotation, rotatedInertia,
    axe, TransformInertia, Dot]
  generalize 1 / m.sqrt 2 = k at hn
  linear_combination (-(poly.I.X.X + poly.I.Y.Y) - 2 * poly.I.X.Y) * hn

/-- C9 fails on the code: for the tetrahedron fixture, whose inertia tensor is
the unit matrix, `Transformation` with scale `(1,1,1)`, angle `(0,0,0)` and
offset `(0,0,0)` stores `I[X][Y] = -1` where the tensor had `I[X][Y] = 0`. -/
theorem Transformation_identity_changes_inertia :
    (tetra : Polyhedron ℝ).I.X.Y = 0 ∧
    (Transformation ⟨Real.sin, Real.cos, Real.sqrt, Real.arccos⟩
      ⟨1, 1, 1⟩ ⟨0, 0, 0⟩ ⟨0, 0, 0⟩ (tetra : Polyhedron ℝ)).I.X.Y = -1 := by
  refine ⟨rfl, ?_⟩
  rw [Transformation_identity_inertia_XY _ Real.sin_zero Real.cos_zero
    (Real.mul_self_sqrt (by norm_num))]
  show -(((1 : ℝ) + 1) / 2 + 0) = -1
  norm_num

/-- C10: `Transformation` moves the centroid `O` by exactly `offset`,
whatever the scale and the angle, so `Transformation(scale, angle, offset)`
followed by `Transformation(1/scale, -angle, -offset)` returns the centroid to
its original value. -/
theorem Transformation_centroid (m : Libm R) (scale angle offset : RealVec R)
    (poly : Polyhedron R) :
    (Transformation m scale angle offset poly).O
      = ⟨poly.O.X + offset.X, poly.O.Y + offset.Y, poly.O.Z + offset.Z⟩ ∧
    (Transformation m ⟨1 / scale.X, 1 / scale.Y, 1 / scale.Z⟩
      ⟨-angle.X, -angle.Y, -angle.Z⟩ ⟨-offset.X, -offset.Y, -offset.Z⟩
      (Transformation m scale angle offset poly)).O = poly.O := by
  constructor
  · rfl
  · simp [Transformation]

/-! ## PointInPolyhedron: the sign test and the selected face (C5, C6) -/

theorem closestFaceLoop_inv (p : RealVec R) (poly : Polyhedron R) (d : Nat → R)
    (k : Nat) (hd : ∀ n < k, faceDistSquare p poly n = some (d n)) :
    ∃ dm fid, closestFaceLoop p poly k = some (dm, fid) ∧
      ((dm = FLT_MAX ∧ fid = 0 ∧ ∀ n < k, FLT_MAX ≤ d n) ∨
       (fid < k ∧ dm = d fid ∧ dm < FLT_MAX ∧ (∀ n < k, dm ≤ d n) ∧ ∀ n < fid, dm < d n)) := by
  induction k with
  | zero =>
    exact ⟨FLT_MAX, 0, rfl, Or.inl ⟨rfl, rfl, fun n hn => absurd hn (Nat.not_lt_zero n)⟩⟩
  | succ k ih =>
    obtain ⟨dm, fid, hloop, hinv⟩ := ih (fun n hn => hd n (Nat.lt_succ_of_lt hn))
    have hk := hd k (Nat.lt_succ_self k)
    simp only [closestFaceLoop, hloop, hk, Option.some_bind, Option.map_some']
    by_cases hlt : dm > d k
    · rw [if_pos hlt]
      refine ⟨d k, k, rfl, Or.inr ⟨Nat.lt_succ_self k, rfl, ?_, ?_, ?_⟩⟩
      · rcases hinv with ⟨h1, -, -⟩ | ⟨-, -, h3, -, -⟩
        · rw [← h1]; exact hlt
        · exact lt_trans hlt h3
      · intro n hn
        rcases Nat.lt_succ_iff_lt_or_eq.mp hn with h | h
        · rcases hinv with ⟨h1, -, h3⟩ | ⟨-, -, -, h4, -⟩
          · exact le_trans hlt.le (h1 ▸ h3 n h)
          · exact le_trans hlt.le (h4 n h)
        · rw [h]
      · intro n hn
        rcases hinv with ⟨h1, -, h3⟩ | ⟨-, -, -, h4, -⟩
        · exact lt_of_lt_of_le hlt (h1 ▸ h3 n hn)
        · exact lt_of_lt_of_le hlt (h4 n hn)
    · rw [if_neg hlt]
      have hle : dm ≤ d k := not_lt.mp hlt
      refine ⟨dm, fid, rfl, ?_⟩
      rcases hinv with ⟨h1, h2, h3⟩ | ⟨h1, h2, h3, h4, h5⟩
      · left
        refine ⟨h1, h2, ?_⟩
        intro n hn
        rcases Nat.lt_succ_iff_lt_or_eq.mp hn with h | h
        · exact h3 n h
        · rw [h, ← h1]; exact hle
      · right
        refine ⟨Nat.lt_succ_of_lt h1, h2, h3, ?_, h5⟩
        intro n hn
        rcases Nat.lt_succ_iff_lt_or_eq.mp hn with h | h
        · exact h4 n h
        · rw [h]; exact hle

theorem ComputeIntersection_isSome (EqualReal : R → R → Bool) (p : RealVec R) (fid : Nat)
    (poly : Polyhedron R) (x : R) (h : faceDistSquare p poly fid = some x) :
    ∃ res, ComputeIntersection EqualReal p fid poly = some res := by
  unfold faceDistSquare at h
  obtain ⟨a, ha, -⟩ := Option.map_eq_some'.mp h
  unfold ComputeIntersection
  simp only [ha, Option.map_some']
  exact ⟨_, rfl⟩

/-- C5: for every polyhedron with at least one face, all of whose face
distances are computed, and every point `p`, `PointInPolyhedron` returns 0
exactly when `Dot(p - pi, N) > 0` for the intersection point `pi` and the
normal `N` that `ComputeIntersection` yields for the selected face, and it
returns 1 in every other case, `Dot = 0` included. -/
theorem PointInPolyhedron_outside_iff (EqualReal : R → R → Bool) (p : RealVec R)
    (poly : Polyhedron R) (hN : 1 ≤ poly.faceN)
    (hd : ∀ n < poly.faceN, ∃ x, faceDistSquare p poly n = some x) :
    ∃ ret fid distSquare pi N,
      PointInPolyhedron EqualReal p poly = some (ret, fid) ∧
      ComputeIntersection EqualReal p fid poly = some (distSquare, pi, N) ∧
      (ret = 0 ↔ 0 < Dot ⟨p.X - pi.X, p.Y - pi.Y, p.Z - pi.Z⟩ N) ∧
      (ret = 1 ↔ Dot ⟨p.X - pi.X, p.Y - pi.Y, p.Z - pi.Z⟩ N ≤ 0) := by
  choose! d hd using hd
  obtain ⟨dm, fid, hloop, hinv⟩ := closestFaceLoop_inv p poly d poly.faceN hd
  have hfid : fid < poly.faceN := by
    rcases hinv with ⟨-, h2, -⟩ | ⟨h1, -⟩
    · rw [h2]; exact hN
    · exact h1
  obtain ⟨⟨distSquare, pi, N⟩, hci⟩ :=
    ComputeIntersection_isSome EqualReal p fid poly _ (hd fid hfid)
  by_cases hdot : 0 < Dot ⟨p.X - pi.X, p.Y - pi.Y, p.Z - pi.Z⟩ N
  · refine ⟨0, fid, distSquare, pi, N, ?_, hci, ?_, ?_⟩
    · simp only [PointInPolyhedron, hloop, hci, Option.some_bind, Option.map_some', if_pos hdot]
    · simp [hdot]
    · simp [hdot]
  · refine ⟨1, fid, distSquare, pi, N, ?_, hci, ?_, ?_⟩
    · simp only [PointInPolyhedron, hloop, hci, Option.some_bind, Option.map_some', if_neg hdot]
    · simp [hdot]
    · simpa using hdot

/-- C6: for every polyhedron and every point such that some face (so there
is at least one) has a squared distance below the start value `FLT_MAX`, the
face index that `PointInPolyhedron` writes to `faceID` is the lowest-indexed
face among those that attain the minimum of `PointTriangleDistance`: no face
is closer, and every face before it is strictly farther. -/
theorem PointInPolyhedron_faceID_first_min (EqualReal : R → R → Bool) (p : RealVec R)
    (poly : Polyhedron R) (d : Nat → R)
    (hd : ∀ n < poly.faceN, faceDistSquare p poly n = some (d n))
    (hmin : ∃ n < poly.faceN, d n < FLT_MAX) :
    ∃ ret fid, PointInPolyhedron EqualReal p poly = some (ret, fid) ∧
      fid < poly.faceN ∧ (∀ n < poly.faceN, d fid ≤ d n) ∧ ∀ n < fid, d fid < d n := by
  obtain ⟨dm, fid, hloop, hinv⟩ := closestFaceLoop_inv p poly d poly.faceN hd
  rcases hinv with ⟨-, -, h3⟩ | ⟨h1, h2, -, h4, h5⟩
  · obtain ⟨n, hn, hlt⟩ := hmin
    exact absurd hlt (not_lt.mpr (h3 n hn))
  · obtain ⟨res, hci⟩ := ComputeIntersection_isSome EqualReal p fid poly _ (hd fid h1)
    refine ⟨if 0 < Dot ⟨p.X - res.2.1.X, p.Y - res.2.1.Y, p.Z - res.2.1.Z⟩ res.2.2 then 0 else 1,
      fid, ?_, h1, h2 ▸ h4, h2 ▸ h5⟩
    simp only [PointInPolyhedron, hloop, hci, Option.some_bind, Option.map_some']
    split_ifs <;> rfl

theorem tetra_distA : ∀ n < 4, faceDistSquare (⟨1, 1, 1⟩ : RealVec ℚ) tetra n
    = some (if n = 3 then 4 / 3 else 3 / 2) := by
  intro n hn
  interval_cases n
  · show (PointTriangleDistance (⟨1, 1, 1⟩ : RealVec ℚ) ⟨0, 0, 0⟩ ⟨0 - 0, 1 - 0, 0 - 0⟩
      ⟨1 - 0, 0 - 0, 0 - 0⟩).map Prod.fst = _
    norm_num [PointTriangleDistance, PointTriangleRegions, Dot, divReal]
  · show (PointTriangleDistance (⟨1, 1, 1⟩ : RealVec ℚ) ⟨0, 0, 0⟩ ⟨1 - 0, 0 - 0, 0 - 0⟩
      ⟨0 - 0, 0 - 0, 1 - 0⟩).map Prod.fst = _
    norm_num [PointTriangleDistance, PointTriangleRegions, Dot, divReal]
  · show (PointTriangleDistance (⟨1, 1, 1⟩ : RealVec ℚ) ⟨0, 0, 0⟩ ⟨0 - 0, 0 - 0, 1 - 0⟩
      ⟨0 - 0, 1 - 0, 0 - 0⟩).map Prod.fst = _
    norm_num [PointTriangleDistance, PointTriangleRegions, Dot, divReal]
  · show (PointTriangleDistance (⟨1, 1, 1⟩ : RealVec ℚ) ⟨1, 0, 0⟩ ⟨0 - 1, 1 - 0, 0 - 0⟩
      ⟨0 - 1, 0 - 0, 1 - 0⟩).map Prod.fst = _
    norm_num [PointTriangleDistance, PointTriangleRegions, Dot, divReal]

theorem tetra_distB : ∀ n < 4, faceDistSquare (⟨-1, -1, -1⟩ : RealVec ℚ) tetra n
    = some (if n = 3 then 16 / 3 else 3) := by
  intro n hn
  interval_cases n
  · show (PointTriangleDistance (⟨-1, -1, -1⟩ : RealVec ℚ) ⟨0, 0, 0⟩ ⟨0 - 0, 1 - 0, 0 - 0⟩
      ⟨1 - 0, 0 - 0, 0 - 0⟩).map Prod.fst = _
    norm_num [PointTriangleDistance, PointTriangleRegions, Dot, divReal]
  · show (PointTriangleDistance (⟨-1, -1, -1⟩ : RealVec ℚ) ⟨0, 0, 0⟩ ⟨1 - 0, 0 - 0, 0 - 0⟩
      ⟨0 - 0, 0 - 0, 1 - 0⟩).map Prod.fst = _
    norm_num [PointTriangleDistance, PointTriangleRegions, Dot, divReal]
  · show (PointTriangleDistance (⟨-1, -1, -1⟩ : RealVec ℚ) ⟨0, 0, 0⟩ ⟨0 - 0, 0 - 0, 1 - 0⟩
      ⟨0 - 0, 1 - 0, 0 - 0⟩).map Prod.fst = _
    norm_num [PointTriangleDistance, PointTriangleRegions, Dot, divReal]
  · show (PointTriangleDistance (⟨-1, -1, -1⟩ : RealVec ℚ) ⟨1, 0, 0⟩ ⟨0 - 1, 1 - 0, 0 - 0⟩
      ⟨0 - 1, 0 - 0, 1 - 0⟩).map Prod.fst = _
    norm_num [PointTriangleDistance, PointTriangleRegions, Dot, divReal]

/-- C5, for the tetrahedron fixture and the point `(1,1,1)`. -/
theorem PointInPolyhedron_outside_iff_witness :
    1 ≤ (tetra : Polyhedron ℚ).faceN ∧
    (∀ n < (tetra : Polyhedron ℚ).faceN, ∃ x, faceDistSquare (⟨1, 1, 1⟩ : RealVec ℚ) tetra n
      = some x) ∧
    ∃ ret fid distSquare pi N,
      PointInPolyhedron (fun x y : ℚ => decide (x = y)) ⟨1, 1, 1⟩ tetra = some (ret, fid) ∧
      ComputeIntersection (fun x y : ℚ => decide (x = y)) ⟨1, 1, 1⟩ fid tetra
        = some (distSquare, pi, N) ∧
      (ret = 0 ↔ 0 < Dot ⟨1 - pi.X, 1 - pi.Y, 1 - pi.Z⟩ N) ∧
      (ret = 1 ↔ Dot ⟨1 - pi.X, 1 - pi.Y, 1 - pi.Z⟩ N ≤ 0) :=
  ⟨by decide, fun n hn => ⟨_, tetra_distA n hn⟩,
    PointInPolyhedron_outside_iff _ ⟨1, 1, 1⟩ tetra (by decide)
      (fun n hn => ⟨_, tetra_distA n hn⟩)⟩

/-- C6, for the tetrahedron fixture and the point `(-1,-1,-1)`, which is
equally close to the faces 0, 1 and 2. -/
theorem PointInPolyhedron_faceID_first_min_witness :
    (∀ n < (tetra : Polyhedron ℚ).faceN, faceDistSquare (⟨-1, -1, -1⟩ : RealVec ℚ) tetra n
      = some ((fun n => if n = 3 then 16 / 3 else 3) n)) ∧
    (∃ n < (tetra : Polyhedron ℚ).faceN,
      (fun n => if n = 3 then (16 / 3 : ℚ) else 3) n < FLT_MAX) ∧
    ∃ ret fid, PointInPolyhedron (fun x y : ℚ => decide (x = y)) ⟨-1, -1, -1⟩ tetra
        = some (ret, fid) ∧
      fid < (tetra : Polyhedron ℚ).faceN ∧
      (∀ n < (tetra : Polyhedron ℚ).faceN,
        (fun n => if n = 3 then (16 / 3 : ℚ) else 3) fid
          ≤ (fun n => if n = 3 then (16 / 3 : ℚ) else 3) n) ∧
      ∀ n < fid, (fun n => if n = 3 then (16 / 3 : ℚ) else 3) fid
        < (fun n => if n = 3 then (16 / 3 : ℚ) else 3) n :=
  ⟨tetra_distB, ⟨0, by decide, by norm_num [FLT_MAX]⟩,
    PointInPolyhedron_faceID_first_min _ ⟨-1, -1, -1⟩ tetra
      (fun n => if n = 3 then 16 / 3 else 3) tetra_distB ⟨0, by decide, by norm_num [FLT_MAX]⟩⟩

/-! ## ConvertPolyhedron on the cube fixture (C4) -/

theorem firstHit_none (hit : Nat → Bool) (k start : Nat)
    (h : ∀ i, start ≤ i → i < start + k → hit i = false) : firstHit hit start k = none := by
  induction k generalizing start with
  | zero => rfl
  | succ k ih =>
    have h0 : hit start = false := h start (le_refl _) (by omega)
    simp only [firstHit, h0, Bool.false_eq_true, if_false]
    exact ih (start + 1) (fun i h1 h2 => h i (by omega) (by omega))

theorem firstHit_some (hit : Nat → Bool) (k start j : Nat) (hj1 : start ≤ j)
    (hj2 : j < start + k) (hj : hit j = true)
    (h : ∀ i, start ≤ i → i < j → hit i = false) : firstHit hit start k = some j := by
  induction k generalizing start with
  | zero => omega
  | succ k ih =>
    by_cases hs : start = j
    · subst hs
      simp only [firstHit, hj, if_true]
    · have h0 : hit start = false := h start (le_refl _) (by omega)
      simp only [firstHit, h0, Bool.false_eq_true, if_false]
      exact ih (start + 1) (by omega) (by omega) (fun i h1 h2 => h i (by omega) h2)

theorem vertexTest_false (EqualReal : R → R → Bool) (hE : Tolerant EqualReal)
    (u v : RealVec R) (h : sepVec u v) :
    (EqualReal v.X u.X && EqualReal v.Y u.Y && EqualReal v.Z u.Z) = false := by
  rcases h with h | h | h
  · simp [hE.2 _ _ h]
  · simp [hE.2 _ _ h]
  · simp [hE.2 _ _ h]

theorem AddVertex_found (EqualReal : R → R → Bool) (hE : Tolerant EqualReal)
    (v : RealVec R) (poly : Polyhedron R) (j : Nat) (hj : j < poly.vertN)
    (hv : poly.v j = v) (hbefore : ∀ i < j, sepVec (poly.v i) v) :
    AddVertex EqualReal v poly = (j, poly) := by
  unfold AddVertex
  rw [firstHit_some _ poly.vertN 0 j (Nat.zero_le _) (by omega)
    (by simp [hv, hE.1]) (fun i _ hi => vertexTest_false EqualReal hE _ _ (hbefore i hi))]

theorem AddVertex_new (EqualReal : R → R → Bool) (hE : Tolerant EqualReal)
    (v : RealVec R) (poly : Polyhedron R) (h : ∀ i < poly.vertN, sepVec (poly.v i) v) :
    AddVertex EqualReal v poly
      = (poly.vertN, { poly with v := set1 poly.v poly.vertN v, vertN := poly.vertN + 1 }) := by
  unfold AddVertex
  rw [firstHit_none _ poly.vertN 0
    (fun i _ hi => vertexTest_false EqualReal hE _ _ (h i (by omega)))]
  simp

theorem addCorner_found (EqualReal : R → R → Bool) (hE : Tolerant EqualReal)
    (n k : Nat) (v : RealVec R) (poly : Polyhedron R) (j : Nat) (hj : j < poly.vertN)
    (hv : poly.v j = v) (hbefore : ∀ i < j, sepVec (poly.v i) v) :
    addCorner EqualReal n k v poly = { poly with f := set2 poly.f n k j } := by
  unfold addCorner
  rw [AddVertex_found EqualReal hE v poly j hj hv hbefore]

theorem addCorner_new (EqualReal : R → R → Bool) (hE : Tolerant EqualReal)
    (n k : Nat) (v : RealVec R) (poly : Polyhedron R)
    (h : ∀ i < poly.vertN, sepVec (poly.v i) v) :
    addCorner EqualReal n k v poly
      = { poly with v := set1 poly.v poly.vertN v, vertN := poly.vertN + 1,
                    f := set2 poly.f n k poly.vertN } := by
  unfold addCorner
  rw [AddVertex_new EqualReal hE v poly h]

theorem AddEdge_found (v0 v1 f : Nat) (poly : Polyhedron R) (j : Nat) (hj : j < poly.edgeN)
    (hm : edgeMatch v0 v1 poly j = true) (hbefore : ∀ i < j, edgeMatch v0 v1 poly i = false) :
    AddEdge v0 v1 f poly = { poly with e := set2 poly.e j 3 f } := by
  unfold AddEdge
  rw [firstHit_some _ poly.edgeN 0 j (Nat.zero_le _) (by omega) hm (fun i _ hi => hbefore i hi)]

theorem AddEdge_new (v0 v1 f : Nat) (poly : Polyhedron R)
    (h : ∀ i < poly.edgeN, edgeMatch v0 v1 poly i = false) :
    AddEdge v0 v1 f poly
      = { poly with
          e := set2 (set2 (set2 poly.e poly.edgeN 0 v0) poly.edgeN 1 v1) poly.edgeN 2 f,
          edgeN := poly.edgeN + 1 } := by
  unfold AddEdge
  rw [firstHit_none _ poly.edgeN 0 (fun i _ hi => h i (by omega))]

theorem convertFace_chain (EqualReal : R → R → Bool) (n : Nat)
    (poly p0 p1 p2 q0 q1 q2 : Polyhedron R)
    (h0 : addCorner EqualReal n 0 (poly.facet n).v0 poly = p0)
    (h1 : addCorner EqualReal n 1 (p0.facet n).v1 p0 = p1)
    (h2 : addCorner EqualReal n 2 (p1.facet n).v2 p1 = p2)
    (e0 : AddEdge (p2.f n 0) (p2.f n 1) n p2 = q0)
    (e1 : AddEdge (q0.f n 1) (q0.f n 2) n q0 = q1)
    (e2 : AddEdge (q1.f n 2) (q1.f n 0) n q1 = q2) :
    convertFace EqualReal n poly = q2 := by
  subst h0 h1 h2 e0 e1 e2
  rfl

theorem addCorner_found_cube (EqualReal : R → R → Bool) (hE : Tolerant EqualReal)
    (n k : Nat) (x : RealVec R) (nv ne : Nat) (v : Nat → RealVec R) (f e : Nat → Nat → Nat)
    (j : Nat) (hj : j < nv) (hv : v j = x) (hbefore : ∀ i < j, sepVec (v i) x) :
    addCorner EqualReal n k x (cubeMesh nv ne v f e) = cubeMesh nv ne v (set2 f n k j) e :=
  addCorner_found EqualReal hE n k x (cubeMesh nv ne v f e) j hj hv hbefore

theorem addCorner_new_cube (EqualReal : R → R → Bool) (hE : Tolerant EqualReal)
    (n k : Nat) (x : RealVec R) (nv ne : Nat) (v : Nat → RealVec R) (f e : Nat → Nat → Nat)
    (h : ∀ i < nv, sepVec (v i) x) :
    addCorner EqualReal n k x (cubeMesh nv ne v f e)
      = cubeMesh (nv + 1) ne (set1 v nv x) (set2 f n k nv) e :=
  addCorner_new EqualReal hE n k x (cubeMesh nv ne v f e) h

theorem AddEdge_found_cube (a b n nv ne : Nat) (v : Nat → RealVec R) (f e : Nat → Nat → Nat)
    (j : Nat) (hj : j < ne) (hm : edgeMatch a b (cubeMesh nv ne v f e) j = true)
    (hbefore : ∀ i < j, edgeMatch a b (cubeMesh nv ne v f e) i = false) :
    AddEdge a b n (cubeMesh nv ne v f e) = cubeMesh nv ne v f (set2 e j 3 n) :=
  AddEdge_found a b n (cubeMesh nv ne v f e) j hj hm hbefore

theorem AddEdge_new_cube (a b n nv ne : Nat) (v : Nat → RealVec R) (f e : Nat → Nat → Nat)
    (h : ∀ i < ne, edgeMatch a b (cubeMesh nv ne v f e) i = false) :
    AddEdge a b n (cubeMesh nv ne v f e)
      = cubeMesh nv (ne + 1) v f (set2 (set2 (set2 e ne 0 a) ne 1 b) ne 2 n) :=
  AddEdge_new a b n (cubeMesh nv ne v f e) h

theorem convertFace_cube0 (EqualReal : R → R → Bool) (hE : Tolerant EqualReal) :
    convertFace EqualReal 0 (cubeMesh 0 0 cubeV0 cubeF0 cubeE0 : Polyhedron R)
      = cubeMesh 3 3 cubeV3 cubeF1 cubeE1 := by
  refine (convertFace_chain EqualReal 0 (cubeMesh 0 0 cubeV0 cubeF0 cubeE0) _ _ _ _ _ _
    (addCorner_new_cube EqualReal hE 0 0 _ _ _ _ _ _ (by
      intro i hi
      exact absurd hi (Nat.not_lt_zero i)
      ))
    (addCorner_new_cube EqualReal hE 0 1 _ _ _ _ _ _ (by
      intro i hi
      interval_cases i
      · show sepVec ⟨-1/2, 1/2, -1/2⟩ ⟨-1/2, -1/2, -1/2⟩
        unfold sepVec; norm_num
      ))
    (addCorner_new_cube EqualReal hE 0 2 _ _ _ _ _ _ (by
      intro i hi
      interval_cases i
      · show sepVec ⟨-1/2, 1/2, -1/2⟩ ⟨-1/2, 1/2, 1/2⟩
        unfold sepVec; norm_num
      · show sepVec ⟨-1/2, -1/2, -1/2⟩ ⟨-1/2, 1/2, 1/2⟩
        unfold sepVec; norm_num
      ))
    (AddEdge_new_cube _ _ 0 _ _ _ _ _ (by
      intro i hi
      exact absurd hi (Nat.not_lt_zero i)))
    (AddEdge_new_cube _ _ 0 _ _ _ _ _ (by
      intro i hi
      interval_cases i <;> rfl))
    (AddEdge_new_cube _ _ 0 _ _ _ _ _ (by
      intro i hi
      interval_cases i <;> rfl))
    ).trans ?_
  rfl

theorem convertFace_cube1 (EqualReal : R → R → Bool) (hE : Tolerant EqualReal) :
    convertFace EqualReal 1 (cubeMesh 3 3 cubeV3 cubeF1 cubeE1 : Polyhedron R)
      = cubeMesh 4 5 cubeV4 cubeF2 cubeE2 := by
  refine (convertFace_chain EqualReal 1 (cubeMesh 3 3 cubeV3 cubeF1 cubeE1) _ _ _ _ _ _
    (addCorner_new_cube EqualReal hE 1 0 _ _ _ _ _ _ (by
      intro i hi
      interval_cases i
      · show sepVec ⟨-1/2, 1/2, -1/2⟩ ⟨-1/2, -1/2, 1/2⟩
        unfold sepVec; norm_num
      · show sepVec ⟨-1/2, -1/2, -1/2⟩ ⟨-1/2, -1/2, 1/2⟩
        unfold sepVec; norm_num
      · show sepVec ⟨-1/2, 1/2, 1/2⟩ ⟨-1/2, -1/2, 1/2⟩
        unfold sepVec; norm_num
      ))
    (addCorner_found_cube EqualReal hE 1 1 _ _ _ _ _ _ 2 (show 2 < 4 by decide) (by rfl) (by
      intro i hi
      interval_cases i
      · show sepVec ⟨-1/2, 1/2, -1/2⟩ ⟨-1/2, 1/2, 1/2⟩
        unfold sepVec; norm_num
      · show sepVec ⟨-1/2, -1/2, -1/2⟩ ⟨-1/2, 1/2, 1/2⟩
        unfold sepVec; norm_num
      ))
    (addCorner_found_cube EqualReal hE 1 2 _ _ _ _ _ _ 1 (show 1 < 4 by decide) (by rfl) (by
      intro i hi
      interval_cases i
      · show sepVec ⟨-1/2, 1/2, -1/2⟩ ⟨-1/2, -1/2, -1/2⟩
        unfold sepVec; norm_num
      ))
    (AddEdge_new_cube _ _ 1 _ _ _ _ _ (by
      intro i hi
      interval_cases i <;> rfl))
    (AddEdge_found_cube _ _ 1 _ _ _ _ _ 1 (show 1 < 4 by decide) (by rfl) (by
      intro i hi
      interval_cases i <;> rfl))
    (AddEdge_new_cube _ _ 1 _ _ _ _ _ (by
      intro i hi
      interval_cases i <;> rfl))
    ).trans ?_
  rfl

theorem convertFace_cube2 (EqualReal : R → R → Bool) (hE : Tolerant EqualReal) :
    convertFace EqualReal 2 (cubeMesh 4 5 cubeV4 cubeF2 cubeE2 : Polyhedron R)
      = cubeMesh 7 8 cubeV7 cubeF3 cubeE3 := by
  refine (convertFace_chain EqualReal 2 (cubeMesh 4 5 cubeV4 cubeF2 cubeE2) _ _ _ _ _ _
    (addCorner_new_cube EqualReal hE 2 0 _ _ _ _ _ _ (by
      intro i hi
      interval_cases i
      · show sepVec ⟨-1/2, 1/2, -1/2⟩ ⟨1/2, 1/2, -1/2⟩
        unfold sepVec; norm_num
      · show sepVec ⟨-1/2, -1/2, -1/2⟩ ⟨1/2, 1/2, -1/2⟩
        unfold sepVec; norm_num
      · show sepVec ⟨-1/2, 1/2, 1/2⟩ ⟨1/2, 1/2, -1/2⟩
        unfold sepVec; norm_num
      · show sepVec ⟨-1/2, -1/2, 1/2⟩ ⟨1/2, 1/2, -1/2⟩
        unfold sepVec; norm_num
      ))
    (addCorner_new_cube EqualReal hE 2 1 _ _ _ _ _ _ (by
      intro i hi
      interval_cases i
      · show sepVec ⟨-1/2, 1/2, -1/2⟩ ⟨1/2, 1/2, 1/2⟩
        unfold sepVec; norm_num
      · show sepVec ⟨-1/2, -1/2, -1/2⟩ ⟨1/2, 1/2, 1/2⟩
        unfold sepVec; norm_num
      · show sepVec ⟨-1/2, 1/2, 1/2⟩ ⟨1/2, 1/2, 1/2⟩
        unfold sepVec; norm_num
      · show sepVec ⟨-1/2, -1/2, 1/2⟩ ⟨1/2, 1/2, 1/2⟩
        unfold sepVec; norm_num
      · show sepVec ⟨1/2, 1/2, -1/2⟩ ⟨1/2, 1/2, 1/2⟩
        unfold sepVec; norm_num
      ))
    (addCorner_new_cube EqualReal hE 2 2 _ _ _ _ _ _ (by
      intro i hi
      interval_cases i
      · show sepVec ⟨-1/2, 1/2, -1/2⟩ ⟨1/2, -1/2, -1/2⟩
        unfold sepVec; norm_num
      · show sepVec ⟨-1/2, -1/2, -1/2⟩ ⟨1/2, -1/2, -1/2⟩
        unfold sepVec; norm_num
      · show sepVec ⟨-1/2, 1/2, 1/2⟩ ⟨1/2, -1/2, -1/2⟩
        unfold sepVec; norm_num
      · show sepVec ⟨-1/2, -1/2, 1/2⟩ ⟨1/2, -1/2, -1/2⟩
        unfold sepVec; norm_num
      · show sepVec ⟨1/2, 1/2, -1/2⟩ ⟨1/2, -1/2, -1/2⟩
        unfold sepVec; norm_num
      · show sepVec ⟨1/2, 1/2, 1/2⟩ ⟨1/2, -1/2, -1/2⟩
        unfold sepVec; norm_num
      ))
    (AddEdge_new_cube _ _ 2 _ _ _ _ _ (by
      intro i hi
      interval_cases i <;> rfl))
    (AddEdge_new_cube _ _ 2 _ _ _ _ _ (by
      intro i hi
      interval_cases i <;> rfl))
    (AddEdge_new_cube _ _ 2 _ _ _ _ _ (by
      intro i hi
      interval_cases i <;> rfl))
    ).trans ?_
  rfl

theorem convertFace_cube3 (EqualReal : R → R → Bool) (hE : Tolerant EqualReal) :
    convertFace EqualReal 3 (cubeMesh 7 8 cubeV7 cubeF3 cubeE3 : Polyhedron R)
      = cubeMesh 8 10 cubeV8 cubeF4 cubeE4 := by
  refine (convertFace_chain EqualReal 3 (cubeMesh 7 8 cubeV7 cubeF3 cubeE3) _ _ _ _ _ _
    (addCorner_new_cube EqualReal hE 3 0 _ _ _ _ _ _ (by
      intro i hi
      interval_cases i
      · show sepVec ⟨-1/2, 1/2, -1/2⟩ ⟨1/2, -1/2, 1/2⟩
        unfold sepVec; norm_num
      · show sepVec ⟨-1/2, -1/2, -1/2⟩ ⟨1/2, -1/2, 1/2⟩
        unfold sepVec; norm_num
      · show sepVec ⟨-1/2, 1/2, 1/2⟩ ⟨1/2, -1/2, 1/2⟩
        unfold sepVec; norm_num
      · show sepVec ⟨-1/2, -1/2, 1/2⟩ ⟨1/2, -1/2, 1/2⟩
        unfold sepVec; norm_num
      · show sepVec ⟨1/2, 1/2, -1/2⟩ ⟨1/2, -1/2, 1/2⟩
        unfold sepVec; norm_num
      · show sepVec ⟨1/2, 1/2, 1/2⟩ ⟨1/2, -1/2, 1/2⟩
        unfold sepVec; norm_num
      · show sepVec ⟨1/2, -1/2, -1/2⟩ ⟨1/2, -1/2, 1/2⟩
        unfold sepVec; norm_num
      ))
    (addCorner_found_cube EqualReal hE 3 1 _ _ _ _ _ _ 6 (show 6 < 8 by decide) (by rfl) (by
      intro i hi
      interval_cases i
      · show sepVec ⟨-1/2, 1/2, -1/2⟩ ⟨1/2, -1/2, -1/2⟩
        unfold sepVec; norm_num
      · show sepVec ⟨-1/2, -1/2, -1/2⟩ ⟨1/2, -1/2, -1/2⟩
        unfold sepVec; norm_num
      · show sepVec ⟨-1/2, 1/2, 1/2⟩ ⟨1/2, -1/2, -1/2⟩
        unfold sepVec; norm_num
      · show sepVec ⟨-1/2, -1/2, 1/2⟩ ⟨1/2, -1/2, -1/2⟩
        unfold sepVec; norm_num
      · show sepVec ⟨1/2, 1/2, -1/2⟩ ⟨1/2, -1/2, -1/2⟩
        unfold sepVec; norm_num
      · show sepVec ⟨1/2, 1/2, 1/2⟩ ⟨1/2, -1/2, -1/2⟩
        unfold sepVec; norm_num
      ))
    (addCorner_found_cube EqualReal hE 3 2 _ _ _ _ _ _ 5 (show 5 < 8 by decide) (by rfl) (by
      intro i hi
      interval_cases i
      · show sepVec ⟨-1/2, 1/2, -1/2⟩ ⟨1/2, 1/2, 1/2⟩
        unfold sepVec; norm_num
      · show sepVec ⟨-1/2, -1/2, -1/2⟩ ⟨1/2, 1/2, 1/2⟩
        unfold sepVec; norm_num
      · show sepVec ⟨-1/2, 1/2, 1/2⟩ ⟨1/2, 1/2, 1/2⟩
        unfold sepVec; norm_num
      · show sepVec ⟨-1/2, -1/2, 1/2⟩ ⟨1/2, 1/2, 1/2⟩
        unfold sepVec; norm_num
      · show sepVec ⟨1/2, 1/2, -1/2⟩ ⟨1/2, 1/2, 1/2⟩
        unfold sepVec; norm_num
      ))
    (AddEdge_new_cube _ _ 3 _ _ _ _ _ (by
      intro i hi
      interval_cases i <;> rfl))
    (AddEdge_found_cube _ _ 3 _ _ _ _ _ 6 (show 6 < 9 by decide) (by rfl) (by
      intro i hi
      interval_cases i <;> rfl))
    (AddEdge_new_cube _ _ 3 _ _ _ _ _ (by
      intro i hi
      interval_cases i <;> rfl))
    ).trans ?_
  rfl

theorem convertFace_cube4 (EqualReal : R → R → Bool) (hE : Tolerant EqualReal) :
    convertFace EqualReal 4 (cubeMesh 8 10 cubeV8 cubeF4 cubeE4 : Polyhedron R)
      = cubeMesh 8 12 cubeV8 cubeF5 cubeE5 := by
  refine (convertFace_chain EqualReal 4 (cubeMesh 8 10 cubeV8 cubeF4 cubeE4) _ _ _ _ _ _
    (addCorner_found_cube EqualReal hE 4 0 _ _ _ _ _ _ 6 (show 6 < 8 by decide) (by rfl) (by
      intro i hi
      interval_cases i
      · show sepVec ⟨-1/2, 1/2, -1/2⟩ ⟨1/2, -1/2, -1/2⟩
        unfold sepVec; norm_num
      · show sepVec ⟨-1/2, -1/2, -1/2⟩ ⟨1/2, -1/2, -1/2⟩
        unfold sepVec; norm_num
      · show sepVec ⟨-1/2, 1/2, 1/2⟩ ⟨1/2, -1/2, -1/2⟩
        unfold sepVec; norm_num
      · show sepVec ⟨-1/2, -1/2, 1/2⟩ ⟨1/2, -1/2, -1/2⟩
        unfold sepVec; norm_num
      · show sepVec ⟨1/2, 1/2, -1/2⟩ ⟨1/2, -1/2, -1/2⟩
        unfold sepVec; norm_num
      · show sepVec ⟨1/2, 1/2, 1/2⟩ ⟨1/2, -1/2, -1/2⟩
        unfold sepVec; norm_num
      ))
    (addCorner_found_cube EqualReal hE 4 1 _ _ _ _ _ _ 7 (show 7 < 8 by decide) (by rfl) (by
      intro i hi
      interval_cases i
      · show sepVec ⟨-1/2, 1/2, -1/2⟩ ⟨1/2, -1/2, 1/2⟩
        unfold sepVec; norm_num
      · show sepVec ⟨-1/2, -1/2, -1/2⟩ ⟨1/2, -1/2, 1/2⟩
        unfold sepVec; norm_num
      · show sepVec ⟨-1/2, 1/2, 1/2⟩ ⟨1/2, -1/2, 1/2⟩
        unfold sepVec; norm_num
      · show sepVec ⟨-1/2, -1/2, 1/2⟩ ⟨1/2, -1/2, 1/2⟩
        unfold sepVec; norm_num
      · show sepVec ⟨1/2, 1/2, -1/2⟩ ⟨1/2, -1/2, 1/2⟩
        unfold sepVec; norm_num
      · show sepVec ⟨1/2, 1/2, 1/2⟩ ⟨1/2, -1/2, 1/2⟩
        unfold sepVec; norm_num
      · show sepVec ⟨1/2, -1/2, -1/2⟩ ⟨1/2, -1/2, 1/2⟩
        unfold sepVec; norm_num
      ))
    (addCorner_found_cube EqualReal hE 4 2 _ _ _ _ _ _ 1 (show 1 < 8 by decide) (by rfl) (by
      intro i hi
      interval_cases i
      · show sepVec ⟨-1/2, 1/2, -1/2⟩ ⟨-1/2, -1/2, -1/2⟩
        unfold sepVec; norm_num
      ))
    (AddEdge_found_cube _ _ 4 _ _ _ _ _ 8 (show 8 < 10 by decide) (by rfl) (by
      intro i hi
      interval_cases i <;> rfl))
    (AddEdge_new_cube _ _ 4 _ _ _ _ _ (by
      intro i hi
      interval_cases i <;> rfl))
    (AddEdge_new_cube _ _ 4 _ _ _ _ _ (by
      intro i hi
      interval_cases i <;> rfl))
    ).trans ?_
  rfl

theorem convertFace_cube5 (EqualReal : R → R → Bool) (hE : Tolerant EqualReal) :
    convertFace EqualReal 5 (cubeMesh 8 12 cubeV8 cubeF5 cubeE5 : Polyhedron R)
      = cubeMesh 8 13 cubeV8 cubeF6 cubeE6 := by
  refine (convertFace_chain EqualReal 5 (cubeMesh 8 12 cubeV8 cubeF5 cubeE5) _ _ _ _ _ _
    (addCorner_found_cube EqualReal hE 5 0 _ _ _ _ _ _ 3 (show 3 < 8 by decide) (by rfl) (by
      intro i hi
      interval_cases i
      · show sepVec ⟨-1/2, 1/2, -1/2⟩ ⟨-1/2, -1/2, 1/2⟩
        unfold sepVec; norm_num
      · show sepVec ⟨-1/2, -1/2, -1/2⟩ ⟨-1/2, -1/2, 1/2⟩
        unfold sepVec; norm_num
      · show sepVec ⟨-1/2, 1/2, 1/2⟩ ⟨-1/2, -1/2, 1/2⟩
        unfold sepVec; norm_num
      ))
    (addCorner_found_cube EqualReal hE 5 1 _ _ _ _ _ _ 1 (show 1 < 8 by decide) (by rfl) (by
      intro i hi
      interval_cases i
      · show sepVec ⟨-1/2, 1/2, -1/2⟩ ⟨-1/2, -1/2, -1/2⟩
        unfold sepVec; norm_num
      ))
    (addCorner_found_cube EqualReal hE 5 2 _ _ _ _ _ _ 7 (show 7 < 8 by decide) (by rfl) (by
      intro i hi
      interval_cases i
      · show sepVec ⟨-1/2, 1/2, -1/2⟩ ⟨1/2, -1/2, 1/2⟩
        unfold sepVec; norm_num
      · show sepVec ⟨-1/2, -1/2, -1/2⟩ ⟨1/2, -1/2, 1/2⟩
        unfold sepVec; norm_num
      · show sepVec ⟨-1/2, 1/2, 1/2⟩ ⟨1/2, -1/2, 1/2⟩
        unfold sepVec; norm_num
      · show sepVec ⟨-1/2, -1/2, 1/2⟩ ⟨1/2, -1/2, 1/2⟩
        unfold sepVec; norm_num
      · show sepVec ⟨1/2, 1/2, -1/2⟩ ⟨1/2, -1/2, 1/2⟩
        unfold sepVec; norm_num
      · show sepVec ⟨1/2, 1/2, 1/2⟩ ⟨1/2, -1/2, 1/2⟩
        unfold sepVec; norm_num
      · show sepVec ⟨1/2, -1/2, -1/2⟩ ⟨1/2, -1/2, 1/2⟩
        unfold sepVec; norm_num
      ))
    (AddEdge_found_cube _ _ 5 _ _ _ _ _ 4 (show 4 < 12 by decide) (by rfl) (by
      intro i hi
      interval_cases i <;> rfl))
    (AddEdge_found_cube _ _ 5 _ _ _ _ _ 10 (show 10 < 12 by decide) (by rfl) (by
      intro i hi
      interval_cases i <;> rfl))
    (AddEdge_new_cube _ _ 5 _ _ _ _ _ (by
      intro i hi
      interval_cases i <;> rfl))
    ).trans ?_
  rfl

theorem convertFace_cube6 (EqualReal : R → R → Bool) (hE : Tolerant EqualReal) :
    convertFace EqualReal 6 (cubeMesh 8 13 cubeV8 cubeF6 cubeE6 : Polyhedron R)
      = cubeMesh 8 15 cubeV8 cubeF7 cubeE7 := by
  refine (convertFace_chain EqualReal 6 (cubeMesh 8 13 cubeV8 cubeF6 cubeE6) _ _ _ _ _ _
    (addCorner_found_cube EqualReal hE 6 0 _ _ _ _ _ _ 4 (show 4 < 8 by decide) (by rfl) (by
      intro i hi
      interval_cases i
      · show sepVec ⟨-1/2, 1/2, -1/2⟩ ⟨1/2, 1/2, -1/2⟩
        unfold sepVec; norm_num
      · show sepVec ⟨-1/2, -1/2, -1/2⟩ ⟨1/2, 1/2, -1/2⟩
        unfold sepVec; norm_num
      · show sepVec ⟨-1/2, 1/2, 1/2⟩ ⟨1/2, 1/2, -1/2⟩
        unfold sepVec; norm_num
      · show sepVec ⟨-1/2, -1/2, 1/2⟩ ⟨1/2, 1/2, -1/2⟩
        unfold sepVec; norm_num
      ))
    (addCorner_found_cube EqualReal hE 6 1 _ _ _ _ _ _ 0 (show 0 < 8 by decide) (by rfl) (by
      intro i hi
      exact absurd hi (Nat.not_lt_zero i)
      ))
    (addCorner_found_cube EqualReal hE 6 2 _ _ _ _ _ _ 5 (show 5 < 8 by decide) (by rfl) (by
      intro i hi
      interval_cases i
      · show sepVec ⟨-1/2, 1/2, -1/2⟩ ⟨1/2, 1/2, 1/2⟩
        unfold sepVec; norm_num
      · show sepVec ⟨-1/2, -1/2, -1/2⟩ ⟨1/2, 1/2, 1/2⟩
        unfold sepVec; norm_num
      · show sepVec ⟨-1/2, 1/2, 1/2⟩ ⟨1/2, 1/2, 1/2⟩
        unfold sepVec; norm_num
      · show sepVec ⟨-1/2, -1/2, 1/2⟩ ⟨1/2, 1/2, 1/2⟩
        unfold sepVec; norm_num
      · show sepVec ⟨1/2, 1/2, -1/2⟩ ⟨1/2, 1/2, 1/2⟩
        unfold sepVec; norm_num
      ))
    (AddEdge_new_cube _ _ 6 _ _ _ _ _ (by
      intro i hi
      interval_cases i <;> rfl))
    (AddEdge_new_cube _ _ 6 _ _ _ _ _ (by
      intro i hi
      interval_cases i <;> rfl))
    (AddEdge_found_cube _ _ 6 _ _ _ _ _ 5 (show 5 < 15 by decide) (by rfl) (by
      intro i hi
      interval_cases i <;> rfl))
    ).trans ?_
  rfl

theorem convertFace_cube7 (EqualReal : R → R → Bool) (hE : Tolerant EqualReal) :
    convertFace EqualReal 7 (cubeMesh 8 15 cubeV8 cubeF7 cubeE7 : Polyhedron R)
      = cubeMesh 8 16 cubeV8 cubeF8 cubeE8 := by
  refine (convertFace_chain EqualReal 7 (cubeMesh 8 15 cubeV8 cubeF7 cubeE7) _ _ _ _ _ _
    (addCorner_found_cube EqualReal hE 7 0 _ _ _ _ _ _ 2 (show 2 < 8 by decide) (by rfl) (by
      intro i hi
      interval_cases i
      · show sepVec ⟨-1/2, 1/2, -1/2⟩ ⟨-1/2, 1/2, 1/2⟩
        unfold sepVec; norm_num
      · show sepVec ⟨-1/2, -1/2, -1/2⟩ ⟨-1/2, 1/2, 1/2⟩
        unfold sepVec; norm_num
      ))
    (addCorner_found_cube EqualReal hE 7 1 _ _ _ _ _ _ 5 (show 5 < 8 by decide) (by rfl) (by
      intro i hi
      interval_cases i
      · show sepVec ⟨-1/2, 1/2, -1/2⟩ ⟨1/2, 1/2, 1/2⟩
        unfold sepVec; norm_num
      · show sepVec ⟨-1/2, -1/2, -1/2⟩ ⟨1/2, 1/2, 1/2⟩
        unfold sepVec; norm_num
      · show sepVec ⟨-1/2, 1/2, 1/2⟩ ⟨1/2, 1/2, 1/2⟩
        unfold sepVec; norm_num
      · show sepVec ⟨-1/2, -1/2, 1/2⟩ ⟨1/2, 1/2, 1/2⟩
        unfold sepVec; norm_num
      · show sepVec ⟨1/2, 1/2, -1/2⟩ ⟨1/2, 1/2, 1/2⟩
        unfold sepVec; norm_num
      ))
    (addCorner_found_cube EqualReal hE 7 2 _ _ _ _ _ _ 0 (show 0 < 8 by decide) (by rfl) (by
      intro i hi
      exact absurd hi (Nat.not_lt_zero i)
      ))
    (AddEdge_new_cube _ _ 7 _ _ _ _ _ (by
      intro i hi
      interval_cases i <;> rfl))
    (AddEdge_found_cube _ _ 7 _ _ _ _ _ 14 (show 14 < 16 by decide) (by rfl) (by
      intro i hi
      interval_cases i <;> rfl))
    (AddEdge_found_cube _ _ 7 _ _ _ _ _ 2 (show 2 < 16 by decide) (by rfl) (by
      intro i hi
      interval_cases i <;> rfl))
    ).trans ?_
  rfl

theorem convertFace_cube8 (EqualReal : R → R → Bool) (hE : Tolerant EqualReal) :
    convertFace EqualReal 8 (cubeMesh 8 16 cubeV8 cubeF8 cubeE8 : Polyhedron R)
      = cubeMesh 8 17 cubeV8 cubeF9 cubeE9 := by
  refine (convertFace_chain EqualReal 8 (cubeMesh 8 16 cubeV8 cubeF8 cubeE8) _ _ _ _ _ _
    (addCorner_found_cube EqualReal hE 8 0 _ _ _ _ _ _ 6 (show 6 < 8 by decide) (by rfl) (by
      intro i hi
      interval_cases i
      · show sepVec ⟨-1/2, 1/2, -1/2⟩ ⟨1/2, -1/2, -1/2⟩
        unfold sepVec; norm_num
      · show sepVec ⟨-1/2, -1/2, -1/2⟩ ⟨1/2, -1/2, -1/2⟩
        unfold sepVec; norm_num
      · show sepVec ⟨-1/2, 1/2, 1/2⟩ ⟨1/2, -1/2, -1/2⟩
        unfold sepVec; norm_num
      · show sepVec ⟨-1/2, -1/2, 1/2⟩ ⟨1/2, -1/2, -1/2⟩
        unfold sepVec; norm_num
      · show sepVec ⟨1/2, 1/2, -1/2⟩ ⟨1/2, -1/2, -1/2⟩
        unfold sepVec; norm_num
      · show sepVec ⟨1/2, 1/2, 1/2⟩ ⟨1/2, -1/2, -1/2⟩
        unfold sepVec; norm_num
      ))
    (addCorner_found_cube EqualReal hE 8 1 _ _ _ _ _ _ 1 (show 1 < 8 by decide) (by rfl) (by
      intro i hi
      interval_cases i
      · show sepVec ⟨-1/2, 1/2, -1/2⟩ ⟨-1/2, -1/2, -1/2⟩
        unfold sepVec; norm_num
      ))
    (addCorner_found_cube EqualReal hE 8 2 _ _ _ _ _ _ 4 (show 4 < 8 by decide) (by rfl) (by
      intro i hi
      interval_cases i
      · show sepVec ⟨-1/2, 1/2, -1/2⟩ ⟨1/2, 1/2, -1/2⟩
        unfold sepVec; norm_num
      · show sepVec ⟨-1/2, -1/2, -1/2⟩ ⟨1/2, 1/2, -1/2⟩
        unfold sepVec; norm_num
      · show sepVec ⟨-1/2, 1/2, 1/2⟩ ⟨1/2, 1/2, -1/2⟩
        unfold sepVec; norm_num
      · show sepVec ⟨-1/2, -1/2, 1/2⟩ ⟨1/2, 1/2, -1/2⟩
        unfold sepVec; norm_num
      ))
    (AddEdge_found_cube _ _ 8 _ _ _ _ _ 11 (show 11 < 16 by decide) (by rfl) (by
      intro i hi
      interval_cases i <;> rfl))
    (AddEdge_new_cube _ _ 8 _ _ _ _ _ (by
      intro i hi
      interval_cases i <;> rfl))
    (AddEdge_found_cube _ _ 8 _ _ _ _ _ 7 (show 7 < 17 by decide) (by rfl) (by
      intro i hi
      interval_cases i <;> rfl))
    ).trans ?_
  rfl

theorem convertFace_cube9 (EqualReal : R → R → Bool) (hE : Tolerant EqualReal) :
    convertFace EqualReal 9 (cubeMesh 8 17 cubeV8 cubeF9 cubeE9 : Polyhedron R)
      = cubeMesh 8 17 cubeV8 cubeF10 cubeE10 := by
  refine (convertFace_chain EqualReal 9 (cubeMesh 8 17 cubeV8 cubeF9 cubeE9) _ _ _ _ _ _
    (addCorner_found_cube EqualReal hE 9 0 _ _ _ _ _ _ 0 (show 0 < 8 by decide) (by rfl) (by
      intro i hi
      exact absurd hi (Nat.not_lt_zero i)
      ))
    (addCorner_found_cube EqualReal hE 9 1 _ _ _ _ _ _ 4 (show 4 < 8 by decide) (by rfl) (by
      intro i hi
      interval_cases i
      · show sepVec ⟨-1/2, 1/2, -1/2⟩ ⟨1/2, 1/2, -1/2⟩
        unfold sepVec; norm_num
      · show sepVec ⟨-1/2, -1/2, -1/2⟩ ⟨1/2, 1/2, -1/2⟩
        unfold sepVec; norm_num
      · show sepVec ⟨-1/2, 1/2, 1/2⟩ ⟨1/2, 1/2, -1/2⟩
        unfold sepVec; norm_num
      · show sepVec ⟨-1/2, -1/2, 1/2⟩ ⟨1/2, 1/2, -1/2⟩
        unfold sepVec; norm_num
      ))
    (addCorner_found_cube EqualReal hE 9 2 _ _ _ _ _ _ 1 (show 1 < 8 by decide) (by rfl) (by
      intro i hi
      interval_cases i
      · show sepVec ⟨-1/2, 1/2, -1/2⟩ ⟨-1/2, -1/2, -1/2⟩
        unfold sepVec; norm_num
      ))
    (AddEdge_found_cube _ _ 9 _ _ _ _ _ 13 (show 13 < 17 by decide) (by rfl) (by
      intro i hi
      interval_cases i <;> rfl))
    (AddEdge_found_cube _ _ 9 _ _ _ _ _ 16 (show 16 < 17 by decide) (by rfl) (by
      intro i hi
      interval_cases i <;> rfl))
    (AddEdge_found_cube _ _ 9 _ _ _ _ _ 0 (show 0 < 17 by decide) (by rfl) (by
      intro i hi
      exact absurd hi (Nat.not_lt_zero i)))
    ).trans ?_
  rfl

theorem convertFace_cube10 (EqualReal : R → R → Bool) (hE : Tolerant EqualReal) :
    convertFace EqualReal 10 (cubeMesh 8 17 cubeV8 cubeF10 cubeE10 : Polyhedron R)
      = cubeMesh 8 18 cubeV8 cubeF11 cubeE11 := by
  refine (convertFace_chain EqualReal 10 (cubeMesh 8 17 cubeV8 cubeF10 cubeE10) _ _ _ _ _ _
    (addCorner_found_cube EqualReal hE 10 0 _ _ _ _ _ _ 7 (show 7 < 8 by decide) (by rfl) (by
      intro i hi
      interval_cases i
      · show sepVec ⟨-1/2, 1/2, -1/2⟩ ⟨1/2, -1/2, 1/2⟩
        unfold sepVec; norm_num
      · show sepVec ⟨-1/2, -1/2, -1/2⟩ ⟨1/2, -1/2, 1/2⟩
        unfold sepVec; norm_num
      · show sepVec ⟨-1/2, 1/2, 1/2⟩ ⟨1/2, -1/2, 1/2⟩
        unfold sepVec; norm_num
      · show sepVec ⟨-1/2, -1/2, 1/2⟩ ⟨1/2, -1/2, 1/2⟩
        unfold sepVec; norm_num
      · show sepVec ⟨1/2, 1/2, -1/2⟩ ⟨1/2, -1/2, 1/2⟩
        unfold sepVec; norm_num
      · show sepVec ⟨1/2, 1/2, 1/2⟩ ⟨1/2, -1/2, 1/2⟩
        unfold sepVec; norm_num
      · show sepVec ⟨1/2, -1/2, -1/2⟩ ⟨1/2, -1/2, 1/2⟩
        unfold sepVec; norm_num
      ))
    (addCorner_found_cube EqualReal hE 10 1 _ _ _ _ _ _ 5 (show 5 < 8 by decide) (by rfl) (by
      intro i hi
      interval_cases i
      · show sepVec ⟨-1/2, 1/2, -1/2⟩ ⟨1/2, 1/2, 1/2⟩
        unfold sepVec; norm_num
      · show sepVec ⟨-1/2, -1/2, -1/2⟩ ⟨1/2, 1/2, 1/2⟩
        unfold sepVec; norm_num
      · show sepVec ⟨-1/2, 1/2, 1/2⟩ ⟨1/2, 1/2, 1/2⟩
        unfold sepVec; norm_num
      · show sepVec ⟨-1/2, -1/2, 1/2⟩ ⟨1/2, 1/2, 1/2⟩
        unfold sepVec; norm_num
      · show sepVec ⟨1/2, 1/2, -1/2⟩ ⟨1/2, 1/2, 1/2⟩
        unfold sepVec; norm_num
      ))
    (addCorner_found_cube EqualReal hE 10 2 _ _ _ _ _ _ 3 (show 3 < 8 by decide) (by rfl) (by
      intro i hi
      interval_cases i
      · show sepVec ⟨-1/2, 1/2, -1/2⟩ ⟨-1/2, -1/2, 1/2⟩
        unfold sepVec; norm_num
      · show sepVec ⟨-1/2, -1/2, -1/2⟩ ⟨-1/2, -1/2, 1/2⟩
        unfold sepVec; norm_num
      · show sepVec ⟨-1/2, 1/2, 1/2⟩ ⟨-1/2, -1/2, 1/2⟩
        unfold sepVec; norm_num
      ))
    (AddEdge_found_cube _ _ 10 _ _ _ _ _ 9 (show 9 < 17 by decide) (by rfl) (by
      intro i hi
      interval_cases i <;> rfl))
    (AddEdge_new_cube _ _ 10 _ _ _ _ _ (by
      intro i hi
      interval_cases i <;> rfl))
    (AddEdge_found_cube _ _ 10 _ _ _ _ _ 12 (show 12 < 18 by decide) (by rfl) (by
      intro i hi
      interval_cases i <;> rfl))
    ).trans ?_
  rfl

theorem convertFace_cube11 (EqualReal : R → R → Bool) (hE : Tolerant EqualReal) :
    convertFace EqualReal 11 (cubeMesh 8 18 cubeV8 cubeF11 cubeE11 : Polyhedron R)
      = cubeMesh 8 18 cubeV8 cubeF12 cubeE12 := by
  refine (convertFace_chain EqualReal 11 (cubeMesh 8 18 cubeV8 cubeF11 cubeE11) _ _ _ _ _ _
    (addCorner_found_cube EqualReal hE 11 0 _ _ _ _ _ _ 2 (show 2 < 8 by decide) (by rfl) (by
      intro i hi
      interval_cases i
      · show sepVec ⟨-1/2, 1/2, -1/2⟩ ⟨-1/2, 1/2, 1/2⟩
        unfold sepVec; norm_num
      · show sepVec ⟨-1/2, -1/2, -1/2⟩ ⟨-1/2, 1/2, 1/2⟩
        unfold sepVec; norm_num
      ))
    (addCorner_found_cube EqualReal hE 11 1 _ _ _ _ _ _ 3 (show 3 < 8 by decide) (by rfl) (by
      intro i hi
      interval_cases i
      · show sepVec ⟨-1/2, 1/2, -1/2⟩ ⟨-1/2, -1/2, 1/2⟩
        unfold sepVec; norm_num
      · show sepVec ⟨-1/2, -1/2, -1/2⟩ ⟨-1/2, -1/2, 1/2⟩
        unfold sepVec; norm_num
      · show sepVec ⟨-1/2, 1/2, 1/2⟩ ⟨-1/2, -1/2, 1/2⟩
        unfold sepVec; norm_num
      ))
    (addCorner_found_cube EqualReal hE 11 2 _ _ _ _ _ _ 5 (show 5 < 8 by decide) (by rfl) (by
      intro i hi
      interval_cases i
      · show sepVec ⟨-1/2, 1/2, -1/2⟩ ⟨1/2, 1/2, 1/2⟩
        unfold sepVec; norm_num
      · show sepVec ⟨-1/2, -1/2, -1/2⟩ ⟨1/2, 1/2, 1/2⟩
        unfold sepVec; norm_num
      · show sepVec ⟨-1/2, 1/2, 1/2⟩ ⟨1/2, 1/2, 1/2⟩
        unfold sepVec; norm_num
      · show sepVec ⟨-1/2, -1/2, 1/2⟩ ⟨1/2, 1/2, 1/2⟩
        unfold sepVec; norm_num
      · show sepVec ⟨1/2, 1/2, -1/2⟩ ⟨1/2, 1/2, 1/2⟩
        unfold sepVec; norm_num
      ))
    (AddEdge_found_cube _ _ 11 _ _ _ _ _ 3 (show 3 < 18 by decide) (by rfl) (by
      intro i hi
      interval_cases i <;> rfl))
    (AddEdge_found_cube _ _ 11 _ _ _ _ _ 17 (show 17 < 18 by decide) (by rfl) (by
      intro i hi
      interval_cases i <;> rfl))
    (AddEdge_found_cube _ _ 11 _ _ _ _ _ 15 (show 15 < 18 by decide) (by rfl) (by
      intro i hi
      interval_cases i <;> rfl))
    ).trans ?_
  rfl


theorem ConvertPolyhedron_cube (EqualReal : R → R → Bool) (hE : Tolerant EqualReal) :
    ConvertPolyhedron EqualReal (cubeInput : Polyhedron R)
      = cubeMesh 8 18 cubeV8 cubeF12 cubeE12 := by
  show convertLoop EqualReal 12 (cubeMesh 0 0 cubeV0 cubeF0 cubeE0) = _
  simp only [convertLoop, convertFace_cube0 EqualReal hE, convertFace_cube1 EqualReal hE,
    convertFace_cube2 EqualReal hE, convertFace_cube3 EqualReal hE, convertFace_cube4 EqualReal hE,
    convertFace_cube5 EqualReal hE, convertFace_cube6 EqualReal hE, convertFace_cube7 EqualReal hE,
    convertFace_cube8 EqualReal hE, convertFace_cube9 EqualReal hE,
    convertFace_cube10 EqualReal hE, convertFace_cube11 EqualReal hE]

/-! ## ComputeParametersPolyhedron on the cube fixture (C4) -/

theorem sqrt_mul_self_eq (m : Libm R) (hm : LibmFacts m) (y : R) (hy : 0 ≤ y) :
    m.sqrt (y * y) = y :=
  (mul_self_inj (hm.1 _ (mul_self_nonneg y)) hy).mp (hm.2.1 _ (mul_self_nonneg y))

theorem sqrt_pos_of_pos (m : Libm R) (hm : LibmFacts m) (x : R) (hx : 0 < x) :
    0 < m.sqrt x := by
  rcases (hm.1 x hx.le).lt_or_eq with h | h
  · exact h
  · exfalso
    have := hm.2.1 x hx.le
    rw [← h] at this
    linarith

theorem Normalize_some (n : R) (V : RealVec R) (hn : n ≠ 0) :
    Normalize n V = some ⟨V.X / n, V.Y / n, V.Z / n⟩ := by
  simp [Normalize, divReal, hn]

theorem Norm_ne_zero (m : Libm R) (hm : LibmFacts m) (V : RealVec R) (h : 0 < Dot V V) :
    Norm m V ≠ 0 :=
  (sqrt_pos_of_pos m hm _ h).ne'

theorem Norm_eq_one (m : Libm R) (hm : LibmFacts m) (V : RealVec R) (h : Dot V V = 1) :
    Norm m V = 1 := by
  unfold Norm
  rw [h]
  have := sqrt_mul_self_eq m hm 1 zero_le_one
  rwa [mul_one] at this

theorem Normalize_unit (m : Libm R) (hm : LibmFacts m) (V : RealVec R) (h : Dot V V = 1) :
    Normalize (Norm m V) V = some V := by
  rw [Norm_eq_one m hm V h, Normalize_some 1 V one_ne_zero]
  simp

theorem root_two_bounds (s : R) (hp : 0 < s) (hs : s * s = 1 * 2) : 1 < s ∧ s ≤ 3 / 2 := by
  constructor
  · nlinarith
  · by_contra h
    push_neg at h
    nlinarith [mul_pos hp (sub_pos.mpr h)]

/-- The three angles of a triangle with `|e01|² = |e02|² = 1` and `|e12|² = 2`
are defined and positive. -/
theorem right_angles (m : Libm R) (hm : LibmFacts m) :
    ∃ c0 c1 : R, divReal ((1 : R) + 1 - 2) (2 * m.sqrt (1 * 1)) = some c0 ∧
      divReal ((1 : R) + 2 - 1) (2 * m.sqrt (1 * 2)) = some c1 ∧
      0 < m.acos c0 ∧ 0 < m.acos c1 ∧
      0 < 314159265359 / 100000000000 - m.acos c0 - m.acos c1 := by
  have h1 : m.sqrt (1 * 1) = 1 := sqrt_mul_self_eq m hm 1 zero_le_one
  have h2p : 0 < m.sqrt (1 * 2) := sqrt_pos_of_pos m hm _ (by norm_num)
  have h2s : m.sqrt (1 * 2) * m.sqrt (1 * 2) = 1 * 2 := hm.2.1 _ (by norm_num)
  obtain ⟨hlt, hle⟩ := root_two_bounds _ h2p h2s
  have hx0 : (0 : R) ≤ (1 + 2 - 1) / (2 * m.sqrt (1 * 2)) := by positivity
  have hx1 : (1 + 2 - 1) / (2 * m.sqrt (1 * 2)) < (1 : R) := by
    rw [div_lt_one (by positivity)]; linarith
  have hx2 : (2 / 3 : R) ≤ (1 + 2 - 1) / (2 * m.sqrt (1 * 2)) := by
    rw [le_div_iff₀ (by positivity)]; linarith
  refine ⟨0, (1 + 2 - 1) / (2 * m.sqrt (1 * 2)), ?_, ?_, ?_, ?_, ?_⟩
  · unfold divReal
    rw [h1, if_neg (by norm_num)]
    norm_num
  · unfold divReal
    rw [if_neg (mul_pos two_pos h2p).ne']
  · exact hm.2.2.1 0 (le_refl _) zero_lt_one
  · exact hm.2.2.1 _ hx0 hx1
  · have a0 := hm.2.2.2.1 0 (le_refl _)
    have a1 := hm.2.2.2.2 _ hx2
    linarith

theorem addWeighted_dot_mono (Nv : Nat → RealVec R) (j : Nat) (A : R) (N : RealVec R)
    (V : Nat → RealVec R) (hA : 0 < A) (hN : 0 < Dot N (V j)) (i : Nat) :
    Dot (Nv i) (V i) ≤ Dot (addWeighted Nv j A N i) (V i) ∧
    (i = j → Dot (Nv i) (V i) < Dot (addWeighted Nv j A N i) (V i)) := by
  unfold addWeighted set1
  by_cases h : i = j
  · subst h
    have hpos := mul_pos hA hN
    simp only [if_true, Dot] at *
    constructor
    · nlinarith
    · intro _; nlinarith
  · simp only [if_neg h, le_refl, true_and]
    intro h'; exact absurd h' h

theorem faceStep_unit (m : Libm R) (hm : LibmFacts m) (poly : Polyhedron R) (n : Nat)
    (st : FaceSums R) (h : UnitRightFace poly n) :
    ∃ st', faceStep m poly n st = some st' ∧ st'.Nf = set1 st.Nf n (faceCross poly n) ∧
      (∀ i, Dot (st.Nv i) (poly.v i) ≤ Dot (st'.Nv i) (poly.v i)) ∧
      ∀ c, c < 3 →
        Dot (st.Nv (poly.f n c)) (poly.v (poly.f n c))
          < Dot (st'.Nv (poly.f n c)) (poly.v (poly.f n c)) := by
  obtain ⟨h1, h2, h3, h4, h5⟩ := h
  obtain ⟨c0, c1, hc0, hc1, ha0, ha1, ha2⟩ := right_angles m hm
  have hU := Normalize_unit m hm (faceCross poly n) h4
  obtain ⟨st', hst, hNf, hNv⟩ : ∃ st', faceStep m poly n st = some st' ∧
      st'.Nf = set1 st.Nf n (faceCross poly n) ∧
      st'.Nv = addWeighted (addWeighted (addWeighted st.Nv (poly.f n 0) (m.acos c0)
          (faceCross poly n)) (poly.f n 1) (m.acos c1) (faceCross poly n)) (poly.f n 2)
          (314159265359 / 100000000000 - m.acos c0 - m.acos c1) (faceCross poly n) := by
    unfold faceCross at hU ⊢
    unfold faceStep
    simp only [hU, h1, h2, h3, hc0, hc1, Option.some_bind, Option.map_some']
    exact ⟨_, rfl, rfl, rfl⟩
  have m0 := addWeighted_dot_mono st.Nv (poly.f n 0) (m.acos c0)
    (faceCross poly n) poly.v ha0 (h5 0 (by norm_num))
  have m1 := addWeighted_dot_mono (addWeighted st.Nv (poly.f n 0) (m.acos c0)
    (faceCross poly n)) (poly.f n 1) (m.acos c1) (faceCross poly n) poly.v
    ha1 (h5 1 (by norm_num))
  have m2 := addWeighted_dot_mono (addWeighted (addWeighted st.Nv (poly.f n 0) (m.acos c0)
    (faceCross poly n)) (poly.f n 1) (m.acos c1) (faceCross poly n))
    (poly.f n 2) (314159265359 / 100000000000 - m.acos c0 - m.acos c1)
    (faceCross poly n) poly.v ha2 (h5 2 (by norm_num))
  refine ⟨st', hst, hNf, ?_, ?_⟩
  · intro i
    rw [hNv]
    exact le_trans (le_trans (m0 i).1 (m1 i).1) (m2 i).1
  · intro c hc
    rw [hNv]
    interval_cases c
    · exact lt_of_lt_of_le (lt_of_lt_of_le ((m0 _).2 rfl) (m1 _).1) (m2 _).1
    · exact lt_of_lt_of_le (lt_of_le_of_lt (m0 _).1 ((m1 _).2 rfl)) (m2 _).1
    · exact lt_of_le_of_lt (le_trans (m0 _).1 (m1 _).1) ((m2 _).2 rfl)

theorem faceLoop_unit (m : Libm R) (hm : LibmFacts m) (poly : Polyhedron R) (k : Nat)
    (h : ∀ n < k, UnitRightFace poly n) :
    ∃ st, faceLoop m poly k = some st ∧
      (∀ n < k, st.Nf n = faceCross poly n) ∧
      (∀ i < poly.vertN, 0 ≤ Dot (st.Nv i) (poly.v i)) ∧
      ∀ n < k, ∀ c, c < 3 → poly.f n c < poly.vertN →
        0 < Dot (st.Nv (poly.f n c)) (poly.v (poly.f n c)) := by
  induction k with
  | zero =>
    refine ⟨_, rfl, ?_, ?_, ?_⟩
    · intro n hn; exact absurd hn (Nat.not_lt_zero n)
    · intro i hi
      simp only [if_pos hi, Dot]
      simp
    · intro n hn; exact absurd hn (Nat.not_lt_zero n)
  | succ k ih =>
    obtain ⟨st, hst, hNf, hnn, hpos⟩ := ih (fun n hn => h n (Nat.lt_succ_of_lt hn))
    obtain ⟨st', hst', hNf', hmono, hstrict⟩ :=
      faceStep_unit m hm poly k st (h k (Nat.lt_succ_self k))
    refine ⟨st', ?_, ?_, ?_, ?_⟩
    · simp only [faceLoop, hst, Option.some_bind, hst']
    · intro n hn
      rw [hNf']
      unfold set1
      by_cases hk : n = k
      · rw [if_pos hk, hk]
      · rw [if_neg hk]
        exact hNf n (by omega)
    · intro i hi
      exact le_trans (hnn i hi) (hmono i)
    · intro n hn c hc hlt
      by_cases hk : n = k
      · subst hk
        exact lt_of_le_of_lt (hnn _ hlt) (hstrict c hc)
      · exact lt_of_lt_of_le (hpos n (by omega) c hc hlt) (hmono _)

theorem vertexNormalLoop_some (m : Libm R) (k : Nat) (Nv : Nat → RealVec R)
    (h : ∀ i < k, Norm m (Nv i) ≠ 0) :
    ∃ Nv', vertexNormalLoop m k Nv = some Nv' ∧ ∀ i, k ≤ i → Nv' i = Nv i := by
  induction k with
  | zero => exact ⟨Nv, rfl, fun _ _ => rfl⟩
  | succ k ih =>
    obtain ⟨Nv', hl, hsame⟩ := ih (fun i hi => h i (Nat.lt_succ_of_lt hi))
    have hk : Norm m (Nv' k) ≠ 0 := by
      rw [hsame k (le_refl k)]; exact h k (Nat.lt_succ_self k)
    refine ⟨set1 Nv' k ⟨(Nv' k).X / Norm m (Nv' k), (Nv' k).Y / Norm m (Nv' k),
      (Nv' k).Z / Norm m (Nv' k)⟩, ?_, ?_⟩
    · simp only [vertexNormalLoop, hl, Option.some_bind, Normalize_some _ _ hk,
        Option.map_some']
    · intro i hi
      unfold set1
      rw [if_neg (by omega)]
      exact hsame i (by omega)

theorem edgeNormalLoop_some (m : Libm R) (e : Nat → Nat → Nat) (Nf : Nat → RealVec R)
    (k : Nat) (Ne : Nat → RealVec R)
    (h : ∀ j < k, Norm m (edgeNormalSum e Nf j) ≠ 0) :
    ∃ Ne', edgeNormalLoop m e Nf k Ne = some Ne' ∧
      ∀ j < k, Ne' j = ⟨(edgeNormalSum e Nf j).X / Norm m (edgeNormalSum e Nf j),
        (edgeNormalSum e Nf j).Y / Norm m (edgeNormalSum e Nf j),
        (edgeNormalSum e Nf j).Z / Norm m (edgeNormalSum e Nf j)⟩ := by
  induction k with
  | zero => exact ⟨Ne, rfl, fun j hj => absurd hj (Nat.not_lt_zero j)⟩
  | succ k ih =>
    obtain ⟨Ne', hl, hval⟩ := ih (fun j hj => h j (Nat.lt_succ_of_lt hj))
    refine ⟨set1 Ne' k ⟨(edgeNormalSum e Nf k).X / Norm m (edgeNormalSum e Nf k),
      (edgeNormalSum e Nf k).Y / Norm m (edgeNormalSum e Nf k),
      (edgeNormalSum e Nf k).Z / Norm m (edgeNormalSum e Nf k)⟩, ?_, ?_⟩
    · simp only [edgeNormalLoop, hl, Option.some_bind,
        Normalize_some _ _ (h k (Nat.lt_succ_self k)), Option.map_some']
    · intro j hj
      unfold set1
      by_cases hk : j = k
      · rw [if_pos hk, hk]
      · rw [if_neg hk]
        exact hval j (by omega)

theorem Dot_self_pos_of_dot_pos (a b : RealVec R) (h : 0 < Dot a b) : 0 < Dot a a := by
  rcases (Dot_self_nonneg a).lt_or_eq with h1 | h1
  · exact h1
  · exfalso
    obtain ⟨hx, hy, hz⟩ := Dot_self_eq_zero a h1.symm
    unfold Dot at h
    rw [hx, hy, hz] at h
    simp at h

/-- The result of `ComputeParametersPolyhedron` on a polyhedron all of whose
faces are right-angled with unit legs and face away from the origin: the
topology is kept, each face normal is `e01 × e02`, and each edge normal is the
normalized sum of the normals of its two recorded faces. -/
theorem ComputeParametersPolyhedron_unit (m : Libm R) (hm : LibmFacts m) (collapse : Int)
    (poly : Polyhedron R)
    (hf : ∀ n < poly.faceN, UnitRightFace poly n)
    (hin : ∀ n < poly.faceN, ∀ c, c < 3 → poly.f n c < poly.vertN)
    (hcov : ∀ i < poly.vertN, ∃ n < poly.faceN, ∃ c, c < 3 ∧ poly.f n c = i)
    (hedge : ∀ j < poly.edgeN, poly.e j 2 < poly.faceN ∧ poly.e j 3 < poly.faceN ∧
      0 < Dot (edgeNormalSum poly.e (faceCross poly) j) (edgeNormalSum poly.e (faceCross poly) j)) :
    ∃ poly', ComputeParametersPolyhedron m collapse poly = some poly' ∧
      poly'.faceN = poly.faceN ∧ poly'.edgeN = poly.edgeN ∧ poly'.vertN = poly.vertN ∧
      poly'.v = poly.v ∧ poly'.f = poly.f ∧ poly'.e = poly.e ∧
      (∀ n < poly.faceN, poly'.Nf n = faceCross poly n) ∧
      ∀ j < poly.edgeN, poly'.Ne j =
        ⟨(edgeNormalSum poly.e (faceCross poly) j).X
            / Norm m (edgeNormalSum poly.e (faceCross poly) j),
          (edgeNormalSum poly.e (faceCross poly) j).Y
            / Norm m (edgeNormalSum poly.e (faceCross poly) j),
          (edgeNormalSum poly.e (faceCross poly) j).Z
            / Norm m (edgeNormalSum poly.e (faceCross poly) j)⟩ := by
  obtain ⟨st, hst, hNf, -, hpos⟩ := faceLoop_unit m hm poly poly.faceN hf
  have hnv : ∀ i < poly.vertN, Norm m (st.Nv i) ≠ 0 := by
    intro i hi
    obtain ⟨n, hn, c, hc, hfi⟩ := hcov i hi
    have := hpos n hn c hc (hin n hn c hc)
    rw [hfi] at this
    exact Norm_ne_zero m hm _ (Dot_self_pos_of_dot_pos _ _ this)
  obtain ⟨Nv', hNv', -⟩ := vertexNormalLoop_some m poly.vertN st.Nv hnv
  have hsum : ∀ j < poly.edgeN, edgeNormalSum poly.e st.Nf j
      = edgeNormalSum poly.e (faceCross poly) j := by
    intro j hj
    unfold edgeNormalSum
    rw [hNf _ (hedge j hj).1, hNf _ (hedge j hj).2.1]
  have hne : ∀ j < poly.edgeN, Norm m (edgeNormalSum poly.e st.Nf j) ≠ 0 := by
    intro j hj
    rw [hsum j hj]
    exact Norm_ne_zero m hm _ (hedge j hj).2.2
  obtain ⟨Ne', hNe', hval⟩ := edgeNormalLoop_some m poly.e st.Nf poly.edgeN poly.Ne hne
  have hres : ∃ poly', ComputeParametersPolyhedron m collapse poly = some poly' ∧
      poly'.faceN = poly.faceN ∧ poly'.edgeN = poly.edgeN ∧ poly'.vertN = poly.vertN ∧
      poly'.v = poly.v ∧ poly'.f = poly.f ∧ poly'.e = poly.e ∧ poly'.Nf = st.Nf ∧
      poly'.Ne = Ne' := by
    simp only [ComputeParametersPolyhedron, hst, Option.some_bind, hNv', hNe',
      Option.map_some']
    exact ⟨_, rfl, rfl, rfl, rfl, rfl, rfl, rfl, rfl, rfl⟩
  obtain ⟨poly', hc, h1, h2, h3, h4, h5, h6, h7, h8⟩ := hres
  refine ⟨poly', hc, h1, h2, h3, h4, h5, h6, ?_, ?_⟩
  · intro n hn
    rw [h7]
    exact hNf n hn
  · intro j hj
    rw [h8, ← hsum j hj]
    exact hval j hj

/-! ## PointInPolyhedron on the cube fixture (C4) -/

theorem closestFaceLoop_update (p : RealVec R) (poly : Polyhedron R) (k : Nat) (dm : R)
    (fid : Nat) (d : R) (hl : closestFaceLoop p poly k = some (dm, fid))
    (hd : faceDistSquare p poly k = some d) (h : dm > d) :
    closestFaceLoop p poly (k + 1) = some (d, k) := by
  simp only [closestFaceLoop, hl, hd, Option.some_bind, Option.map_some', if_pos h]

theorem closestFaceLoop_keep (p : RealVec R) (poly : Polyhedron R) (k : Nat) (dm : R)
    (fid : Nat) (d : R) (hl : closestFaceLoop p poly k = some (dm, fid))
    (hd : faceDistSquare p poly k = some d) (h : ¬ dm > d) :
    closestFaceLoop p poly (k + 1) = some (dm, fid) := by
  simp only [closestFaceLoop, hl, hd, Option.some_bind, Option.map_some', if_neg h]

theorem BuildTriangle_congr (poly poly' : Polyhedron R) (hv : poly'.v = poly.v)
    (hf : poly'.f = poly.f) (n : Nat) : BuildTriangle n poly' = BuildTriangle n poly := by
  unfold BuildTriangle
  rw [hv, hf]

theorem closestFaceLoop_congr (p : RealVec R) (poly poly' : Polyhedron R)
    (hv : poly'.v = poly.v) (hf : poly'.f = poly.f) (k : Nat) :
    closestFaceLoop p poly' k = closestFaceLoop p poly k := by
  induction k with
  | zero => rfl
  | succ k ih =>
    simp only [closestFaceLoop, ih, faceDistSquare, BuildTriangle_congr poly poly' hv hf]

theorem FindEdge_congr (poly poly' : Polyhedron R) (he : poly'.e = poly.e)
    (hn : poly'.edgeN = poly.edgeN) (a b : Nat) : FindEdge a b poly' = FindEdge a b poly := by
  have : edgeMatch a b poly' = edgeMatch a b poly := by
    funext n
    unfold edgeMatch
    rw [he]
  unfold FindEdge
  rw [this, hn]

/-- The branch “edge e12” of `ComputeIntersection`. -/
theorem ComputeIntersection_edge12 (EqualReal : R → R → Bool) (p : RealVec R) (faceID : Nat)
    (poly : Polyhedron R) (d : R) (para : RealVec R)
    (hp : PointTriangleDistance p (BuildTriangle faceID poly).1
      (BuildTriangle faceID poly).2.2.2.1 (BuildTriangle faceID poly).2.2.2.2 = some (d, para))
    (h1 : EqualReal para.Y 0 = false) (h2 : EqualReal para.Y 1 = false)
    (h3 : EqualReal para.Z 0 = false) (h4 : EqualReal para.X 0 = true) :
    ComputeIntersection EqualReal p faceID poly
      = some (d,
          ⟨(BuildTriangle faceID poly).1.X + para.Y * (BuildTriangle faceID poly).2.2.2.1.X
              + para.Z * (BuildTriangle faceID poly).2.2.2.2.X,
            (BuildTriangle faceID poly).1.Y + para.Y * (BuildTriangle faceID poly).2.2.2.1.Y
              + para.Z * (BuildTriangle faceID poly).2.2.2.2.Y,
            (BuildTriangle faceID poly).1.Z + para.Y * (BuildTriangle faceID poly).2.2.2.1.Z
              + para.Z * (BuildTriangle faceID poly).2.2.2.2.Z⟩,
          poly.Ne (FindEdge (poly.f faceID 1) (poly.f faceID 2) poly)) := by
  unfold ComputeIntersection
  simp only [hp, Option.map_some', h1, h2, h3, h4, Bool.false_eq_true, if_false, if_true]

theorem PointInPolyhedron_eq (EqualReal : R → R → Bool) (p : RealVec R) (poly : Polyhedron R)
    (dm : R) (fid : Nat) (d : R) (pi N : RealVec R)
    (hl : closestFaceLoop p poly poly.faceN = some (dm, fid))
    (hc : ComputeIntersection EqualReal p fid poly = some (d, pi, N)) :
    PointInPolyhedron EqualReal p poly
      = some (if 0 < Dot ⟨p.X - pi.X, p.Y - pi.Y, p.Z - pi.Z⟩ N then 0 else 1, fid) := by
  simp only [PointInPolyhedron, hl, hc, Option.some_bind, Option.map_some']
  split_ifs <;> rfl

theorem cube_tri0 : BuildTriangle 0 (cubeMesh 8 18 cubeV8 cubeF12 cubeE12 : Polyhedron R)
    = (⟨-1/2, 1/2, -1/2⟩, ⟨-1/2, -1/2, -1/2⟩, ⟨-1/2, 1/2, 1/2⟩, ⟨-1/2 - -1/2, -1/2 - 1/2, -1/2 - -1/2⟩, ⟨-1/2 - -1/2, 1/2 - 1/2, 1/2 - -1/2⟩) := rfl

theorem cube_cross0 : faceCross (cubeMesh 8 18 cubeV8 cubeF12 cubeE12 : Polyhedron R) 0 = ⟨-1, 0, 0⟩ := by
  unfold faceCross
  rw [cube_tri0]
  norm_num [Cross]

theorem cube_face0 : UnitRightFace (cubeMesh 8 18 cubeV8 cubeF12 cubeE12 : Polyhedron R) 0 := by
  unfold UnitRightFace
  rw [cube_cross0, cube_tri0]
  refine ⟨by norm_num [Dot], by norm_num [Dot], by norm_num [Dot], by norm_num [Dot], ?_⟩
  intro c hc
  interval_cases c
  · show 0 < Dot (⟨-1, 0, 0⟩ : RealVec R) ⟨-1/2, 1/2, -1/2⟩
    norm_num [Dot]
  · show 0 < Dot (⟨-1, 0, 0⟩ : RealVec R) ⟨-1/2, -1/2, -1/2⟩
    norm_num [Dot]
  · show 0 < Dot (⟨-1, 0, 0⟩ : RealVec R) ⟨-1/2, 1/2, 1/2⟩
    norm_num [Dot]

theorem cube_tri1 : BuildTriangle 1 (cubeMesh 8 18 cubeV8 cubeF12 cubeE12 : Polyhedron R)
    = (⟨-1/2, -1/2, 1/2⟩, ⟨-1/2, 1/2, 1/2⟩, ⟨-1/2, -1/2, -1/2⟩, ⟨-1/2 - -1/2, 1/2 - -1/2, 1/2 - 1/2⟩, ⟨-1/2 - -1/2, -1/2 - -1/2, -1/2 - 1/2⟩) := rfl

theorem cube_cross1 : faceCross (cubeMesh 8 18 cubeV8 cubeF12 cubeE12 : Polyhedron R) 1 = ⟨-1, 0, 0⟩ := by
  unfold faceCross
  rw [cube_tri1]
  norm_num [Cross]

theorem cube_face1 : UnitRightFace (cubeMesh 8 18 cubeV8 cubeF12 cubeE12 : Polyhedron R) 1 := by
  unfold UnitRightFace
  rw [cube_cross1, cube_tri1]
  refine ⟨by norm_num [Dot], by norm_num [Dot], by norm_num [Dot], by norm_num [Dot], ?_⟩
  intro c hc
  interval_cases c
  · show 0 < Dot (⟨-1, 0, 0⟩ : RealVec R) ⟨-1/2, -1/2, 1/2⟩
    norm_num [Dot]
  · show 0 < Dot (⟨-1, 0, 0⟩ : RealVec R) ⟨-1/2, 1/2, 1/2⟩
    norm_num [Dot]
  · show 0 < Dot (⟨-1, 0, 0⟩ : RealVec R) ⟨-1/2, -1/2, -1/2⟩
    norm_num [Dot]

theorem cube_tri2 : BuildTriangle 2 (cubeMesh 8 18 cubeV8 cubeF12 cubeE12 : Polyhedron R)
    = (⟨1/2, 1/2, -1/2⟩, ⟨1/2, 1/2, 1/2⟩, ⟨1/2, -1/2, -1/2⟩, ⟨1/2 - 1/2, 1/2 - 1/2, 1/2 - -1/2⟩, ⟨1/2 - 1/2, -1/2 - 1/2, -1/2 - -1/2⟩) := rfl

theorem cube_cross2 : faceCross (cubeMesh 8 18 cubeV8 cubeF12 cubeE12 : Polyhedron R) 2 = ⟨1, 0, 0⟩ := by
  unfold faceCross
  rw [cube_tri2]
  norm_num [Cross]

theorem cube_face2 : UnitRightFace (cubeMesh 8 18 cubeV8 cubeF12 cubeE12 : Polyhedron R) 2 := by
  unfold UnitRightFace
  rw [cube_cross2, cube_tri2]
  refine ⟨by norm_num [Dot], by norm_num [Dot], by norm_num [Dot], by norm_num [Dot], ?_⟩
  intro c hc
  interval_cases c
  · show 0 < Dot (⟨1, 0, 0⟩ : RealVec R) ⟨1/2, 1/2, -1/2⟩
    norm_num [Dot]
  · show 0 < Dot (⟨1, 0, 0⟩ : RealVec R) ⟨1/2, 1/2, 1/2⟩
    norm_num [Dot]
  · show 0 < Dot (⟨1, 0, 0⟩ : RealVec R) ⟨1/2, -1/2, -1/2⟩
    norm_num [Dot]

theorem cube_tri3 : BuildTriangle 3 (cubeMesh 8 18 cubeV8 cubeF12 cubeE12 : Polyhedron R)
    = (⟨1/2, -1/2, 1/2⟩, ⟨1/2, -1/2, -1/2⟩, ⟨1/2, 1/2, 1/2⟩, ⟨1/2 - 1/2, -1/2 - -1/2, -1/2 - 1/2⟩, ⟨1/2 - 1/2, 1/2 - -1/2, 1/2 - 1/2⟩) := rfl

theorem cube_cross3 : faceCross (cubeMesh 8 18 cubeV8 cubeF12 cubeE12 : Polyhedron R) 3 = ⟨1, 0, 0⟩ := by
  unfold faceCross
  rw [cube_tri3]
  norm_num [Cross]

theorem cube_face3 : UnitRightFace (cubeMesh 8 18 cubeV8 cubeF12 cubeE12 : Polyhedron R) 3 := by
  unfold UnitRightFace
  rw [cube_cross3, cube_tri3]
  refine ⟨by norm_num [Dot], by norm_num [Dot], by norm_num [Dot], by norm_num [Dot], ?_⟩
  intro c hc
  interval_cases c
  · show 0 < Dot (⟨1, 0, 0⟩ : RealVec R) ⟨1/2, -1/2, 1/2⟩
    norm_num [Dot]
  · show 0 < Dot (⟨1, 0, 0⟩ : RealVec R) ⟨1/2, -1/2, -1/2⟩
    norm_num [Dot]
  · show 0 < Dot (⟨1, 0, 0⟩ : RealVec R) ⟨1/2, 1/2, 1/2⟩
    norm_num [Dot]

theorem cube_tri4 : BuildTriangle 4 (cubeMesh 8 18 cubeV8 cubeF12 cubeE12 : Polyhedron R)
    = (⟨1/2, -1/2, -1/2⟩, ⟨1/2, -1/2, 1/2⟩, ⟨-1/2, -1/2, -1/2⟩, ⟨1/2 - 1/2, -1/2 - -1/2, 1/2 - -1/2⟩, ⟨-1/2 - 1/2, -1/2 - -1/2, -1/2 - -1/2⟩) := rfl

theorem cube_cross4 : faceCross (cubeMesh 8 18 cubeV8 cubeF12 cubeE12 : Polyhedron R) 4 = ⟨0, -1, 0⟩ := by
  unfold faceCross
  rw [cube_tri4]
  norm_num [Cross]

theorem cube_face4 : UnitRightFace (cubeMesh 8 18 cubeV8 cubeF12 cubeE12 : Polyhedron R) 4 := by
  unfold UnitRightFace
  rw [cube_cross4, cube_tri4]
  refine ⟨by norm_num [Dot], by norm_num [Dot], by norm_num [Dot], by norm_num [Dot], ?_⟩
  intro c hc
  interval_cases c
  · show 0 < Dot (⟨0, -1, 0⟩ : RealVec R) ⟨1/2, -1/2, -1/2⟩
    norm_num [Dot]
  · show 0 < Dot (⟨0, -1, 0⟩ : RealVec R) ⟨1/2, -1/2, 1/2⟩
    norm_num [Dot]
  · show 0 < Dot (⟨0, -1, 0⟩ : RealVec R) ⟨-1/2, -1/2, -1/2⟩
    norm_num [Dot]

theorem cube_tri5 : BuildTriangle 5 (cubeMesh 8 18 cubeV8 cubeF12 cubeE12 : Polyhedron R)
    = (⟨-1/2, -1/2, 1/2⟩, ⟨-1/2, -1/2, -1/2⟩, ⟨1/2, -1/2, 1/2⟩, ⟨-1/2 - -1/2, -1/2 - -1/2, -1/2 - 1/2⟩, ⟨1/2 - -1/2, -1/2 - -1/2, 1/2 - 1/2⟩) := rfl

theorem cube_cross5 : faceCross (cubeMesh 8 18 cubeV8 cubeF12 cubeE12 : Polyhedron R) 5 = ⟨0, -1, 0⟩ := by
  unfold faceCross
  rw [cube_tri5]
  norm_num [Cross]

theorem cube_face5 : UnitRightFace (cubeMesh 8 18 cubeV8 cubeF12 cubeE12 : Polyhedron R) 5 := by
  unfold UnitRightFace
  rw [cube_cross5, cube_tri5]
  refine ⟨by norm_num [Dot], by norm_num [Dot], by norm_num [Dot], by norm_num [Dot], ?_⟩
  intro c hc
  interval_cases c
  · show 0 < Dot (⟨0, -1, 0⟩ : RealVec R) ⟨-1/2, -1/2, 1/2⟩
    norm_num [Dot]
  · show 0 < Dot (⟨0, -1, 0⟩ : RealVec R) ⟨-1/2, -1/2, -1/2⟩
    norm_num [Dot]
  · show 0 < Dot (⟨0, -1, 0⟩ : RealVec R) ⟨1/2, -1/2, 1/2⟩
    norm_num [Dot]

theorem cube_tri6 : BuildTriangle 6 (cubeMesh 8 18 cubeV8 cubeF12 cubeE12 : Polyhedron R)
    = (⟨1/2, 1/2, -1/2⟩, ⟨-1/2, 1/2, -1/2⟩, ⟨1/2, 1/2, 1/2⟩, ⟨-1/2 - 1/2, 1/2 - 1/2, -1/2 - -1/2⟩, ⟨1/2 - 1/2, 1/2 - 1/2, 1/2 - -1/2⟩) := rfl

theorem cube_cross6 : faceCross (cubeMesh 8 18 cubeV8 cubeF12 cubeE12 : Polyhedron R) 6 = ⟨0, 1, 0⟩ := by
  unfold faceCross
  rw [cube_tri6]
  norm_num [Cross]

theorem cube_face6 : UnitRightFace (cubeMesh 8 18 cubeV8 cubeF12 cubeE12 : Polyhedron R) 6 := by
  unfold UnitRightFace
  rw [cube_cross6, cube_tri6]
  refine ⟨by norm_num [Dot], by norm_num [Dot], by norm_num [Dot], by norm_num [Dot], ?_⟩
  intro c hc
  interval_cases c
  · show 0 < Dot (⟨0, 1, 0⟩ : RealVec R) ⟨1/2, 1/2, -1/2⟩
    norm_num [Dot]
  · show 0 < Dot (⟨0, 1, 0⟩ : RealVec R) ⟨-1/2, 1/2, -1/2⟩
    norm_num [Dot]
  · show 0 < Dot (⟨0, 1, 0⟩ : RealVec R) ⟨1/2, 1/2, 1/2⟩
    norm_num [Dot]

theorem cube_tri7 : BuildTriangle 7 (cubeMesh 8 18 cubeV8 cubeF12 cubeE12 : Polyhedron R)
    = (⟨-1/2, 1/2, 1/2⟩, ⟨1/2, 1/2, 1/2⟩, ⟨-1/2, 1/2, -1/2⟩, ⟨1/2 - -1/2, 1/2 - 1/2, 1/2 - 1/2⟩, ⟨-1/2 - -1/2, 1/2 - 1/2, -1/2 - 1/2⟩) := rfl

theorem cube_cross7 : faceCross (cubeMesh 8 18 cubeV8 cubeF12 cubeE12 : Polyhedron R) 7 = ⟨0, 1, 0⟩ := by
  unfold faceCross
  rw [cube_tri7]
  norm_num [Cross]

theorem cube_face7 : UnitRightFace (cubeMesh 8 18 cubeV8 cubeF12 cubeE12 : Polyhedron R) 7 := by
  unfold UnitRightFace
  rw [cube_cross7, cube_tri7]
  refine ⟨by norm_num [Dot], by norm_num [Dot], by norm_num [Dot], by norm_num [Dot], ?_⟩
  intro c hc
  interval_cases c
  · show 0 < Dot (⟨0, 1, 0⟩ : RealVec R) ⟨-1/2, 1/2, 1/2⟩
    norm_num [Dot]
  · show 0 < Dot (⟨0, 1, 0⟩ : RealVec R) ⟨1/2, 1/2, 1/2⟩
    norm_num [Dot]
  · show 0 < Dot (⟨0, 1, 0⟩ : RealVec R) ⟨-1/2, 1/2, -1/2⟩
    norm_num [Dot]

theorem cube_tri8 : BuildTriangle 8 (cubeMesh 8 18 cubeV8 cubeF12 cubeE12 : Polyhedron R)
    = (⟨1/2, -1/2, -1/2⟩, ⟨-1/2, -1/2, -1/2⟩, ⟨1/2, 1/2, -1/2⟩, ⟨-1/2 - 1/2, -1/2 - -1/2, -1/2 - -1/2⟩, ⟨1/2 - 1/2, 1/2 - -1/2, -1/2 - -1/2⟩) := rfl

theorem cube_cross8 : faceCross (cubeMesh 8 18 cubeV8 cubeF12 cubeE12 : Polyhedron R) 8 = ⟨0, 0, -1⟩ := by
  unfold faceCross
  rw [cube_tri8]
  norm_num [Cross]

theorem cube_face8 : UnitRightFace (cubeMesh 8 18 cubeV8 cubeF12 cubeE12 : Polyhedron R) 8 := by
  unfold UnitRightFace
  rw [cube_cross8, cube_tri8]
  refine ⟨by norm_num [Dot], by norm_num [Dot], by norm_num [Dot], by norm_num [Dot], ?_⟩
  intro c hc
  interval_cases c
  · show 0 < Dot (⟨0, 0, -1⟩ : RealVec R) ⟨1/2, -1/2, -1/2⟩
    norm_num [Dot]
  · show 0 < Dot (⟨0, 0, -1⟩ : RealVec R) ⟨-1/2, -1/2, -1/2⟩
    norm_num [Dot]
  · show 0 < Dot (⟨0, 0, -1⟩ : RealVec R) ⟨1/2, 1/2, -1/2⟩
    norm_num [Dot]

theorem cube_tri9 : BuildTriangle 9 (cubeMesh 8 18 cubeV8 cubeF12 cubeE12 : Polyhedron R)
    = (⟨-1/2, 1/2, -1/2⟩, ⟨1/2, 1/2, -1/2⟩, ⟨-1/2, -1/2, -1/2⟩, ⟨1/2 - -1/2, 1/2 - 1/2, -1/2 - -1/2⟩, ⟨-1/2 - -1/2, -1/2 - 1/2, -1/2 - -1/2⟩) := rfl

theorem cube_cross9 : faceCross (cubeMesh 8 18 cubeV8 cubeF12 cubeE12 : Polyhedron R) 9 = ⟨0, 0, -1⟩ := by
  unfold faceCross
  rw [cube_tri9]
  norm_num [Cross]

theorem cube_face9 : UnitRightFace (cubeMesh 8 18 cubeV8 cubeF12 cubeE12 : Polyhedron R) 9 := by
  unfold UnitRightFace
  rw [cube_cross9, cube_tri9]
  refine ⟨by norm_num [Dot], by norm_num [Dot], by norm_num [Dot], by norm_num [Dot], ?_⟩
  intro c hc
  interval_cases c
  · show 0 < Dot (⟨0, 0, -1⟩ : RealVec R) ⟨-1/2, 1/2, -1/2⟩
    norm_num [Dot]
  · show 0 < Dot (⟨0, 0, -1⟩ : RealVec R) ⟨1/2, 1/2, -1/2⟩
    norm_num [Dot]
  · show 0 < Dot (⟨0, 0, -1⟩ : RealVec R) ⟨-1/2, -1/2, -1/2⟩
    norm_num [Dot]

theorem cube_tri10 : BuildTriangle 10 (cubeMesh 8 18 cubeV8 cubeF12 cubeE12 : Polyhedron R)
    = (⟨1/2, -1/2, 1/2⟩, ⟨1/2, 1/2, 1/2⟩, ⟨-1/2, -1/2, 1/2⟩, ⟨1/2 - 1/2, 1/2 - -1/2, 1/2 - 1/2⟩, ⟨-1/2 - 1/2, -1/2 - -1/2, 1/2 - 1/2⟩) := rfl

theorem cube_cross10 : faceCross (cubeMesh 8 18 cubeV8 cubeF12 cubeE12 : Polyhedron R) 10 = ⟨0, 0, 1⟩ := by
  unfold faceCross
  rw [cube_tri10]
  norm_num [Cross]

theorem cube_face10 : UnitRightFace (cubeMesh 8 18 cubeV8 cubeF12 cubeE12 : Polyhedron R) 10 := by
  unfold UnitRightFace
  rw [cube_cross10, cube_tri10]
  refine ⟨by norm_num [Dot], by norm_num [Dot], by norm_num [Dot], by norm_num [Dot], ?_⟩
  intro c hc
  interval_cases c
  · show 0 < Dot (⟨0, 0, 1⟩ : RealVec R) ⟨1/2, -1/2, 1/2⟩
    norm_num [Dot]
  · show 0 < Dot (⟨0, 0, 1⟩ : RealVec R) ⟨1/2, 1/2, 1/2⟩
    norm_num [Dot]
  · show 0 < Dot (⟨0, 0, 1⟩ : RealVec R) ⟨-1/2, -1/2, 1/2⟩
    norm_num [Dot]

theorem cube_tri11 : BuildTriangle 11 (cubeMesh 8 18 cubeV8 cubeF12 cubeE12 : Polyhedron R)
    = (⟨-1/2, 1/2, 1/2⟩, ⟨-1/2, -1/2, 1/2⟩, ⟨1/2, 1/2, 1/2⟩, ⟨-1/2 - -1/2, -1/2 - 1/2, 1/2 - 1/2⟩, ⟨1/2 - -1/2, 1/2 - 1/2, 1/2 - 1/2⟩) := rfl

theorem cube_cross11 : faceCross (cubeMesh 8 18 cubeV8 cubeF12 cubeE12 : Polyhedron R) 11 = ⟨0, 0, 1⟩ := by
  unfold faceCross
  rw [cube_tri11]
  norm_num [Cross]

theorem cube_face11 : UnitRightFace (cubeMesh 8 18 cubeV8 cubeF12 cubeE12 : Polyhedron R) 11 := by
  unfold UnitRightFace
  rw [cube_cross11, cube_tri11]
  refine ⟨by norm_num [Dot], by norm_num [Dot], by norm_num [Dot], by norm_num [Dot], ?_⟩
  intro c hc
  interval_cases c
  · show 0 < Dot (⟨0, 0, 1⟩ : RealVec R) ⟨-1/2, 1/2, 1/2⟩
    norm_num [Dot]
  · show 0 < Dot (⟨0, 0, 1⟩ : RealVec R) ⟨-1/2, -1/2, 1/2⟩
    norm_num [Dot]
  · show 0 < Dot (⟨0, 0, 1⟩ : RealVec R) ⟨1/2, 1/2, 1/2⟩
    norm_num [Dot]

theorem cube_faces : ∀ n < 12, UnitRightFace (cubeMesh 8 18 cubeV8 cubeF12 cubeE12 : Polyhedron R) n := by
  intro n hn
  interval_cases n
  · exact cube_face0
  · exact cube_face1
  · exact cube_face2
  · exact cube_face3
  · exact cube_face4
  · exact cube_face5
  · exact cube_face6
  · exact cube_face7
  · exact cube_face8
  · exact cube_face9
  · exact cube_face10
  · exact cube_face11


theorem cube_corners : ∀ n < 12, ∀ c, c < 3 → cubeF12 n c < 8 := by decide

theorem cube_covered : ∀ i < 8, ∃ n < 12, ∃ c, c < 3 ∧ cubeF12 n c = i := by decide

theorem cube_edge_faces : ∀ j < 18, cubeE12 j 2 < 12 ∧ cubeE12 j 3 < 12 := by decide

theorem cube_edge_sum0 : edgeNormalSum (cubeMesh 8 18 cubeV8 cubeF12 cubeE12 : Polyhedron R).e (faceCross (cubeMesh 8 18 cubeV8 cubeF12 cubeE12 : Polyhedron R)) 0 = ⟨-1, 0, -1⟩ := by
  unfold edgeNormalSum
  rw [show (cubeMesh 8 18 cubeV8 cubeF12 cubeE12 : Polyhedron R).e 0 2 = 0 from rfl, show (cubeMesh 8 18 cubeV8 cubeF12 cubeE12 : Polyhedron R).e 0 3 = 9 from rfl, cube_cross0, cube_cross9]
  norm_num

theorem cube_edge_sum1 : edgeNormalSum (cubeMesh 8 18 cubeV8 cubeF12 cubeE12 : Polyhedron R).e (faceCross (cubeMesh 8 18 cubeV8 cubeF12 cubeE12 : Polyhedron R)) 1 = ⟨-2, 0, 0⟩ := by
  unfold edgeNormalSum
  rw [show (cubeMesh 8 18 cubeV8 cubeF12 cubeE12 : Polyhedron R).e 1 2 = 0 from rfl, show (cubeMesh 8 18 cubeV8 cubeF12 cubeE12 : Polyhedron R).e 1 3 = 1 from rfl, cube_cross0, cube_cross1]
  norm_num

theorem cube_edge_sum2 : edgeNormalSum (cubeMesh 8 18 cubeV8 cubeF12 cubeE12 : Polyhedron R).e (faceCross (cubeMesh 8 18 cubeV8 cubeF12 cubeE12 : Polyhedron R)) 2 = ⟨-1, 1, 0⟩ := by
  unfold edgeNormalSum
  rw [show (cubeMesh 8 18 cubeV8 cubeF12 cubeE12 : Polyhedron R).e 2 2 = 0 from rfl, show (cubeMesh 8 18 cubeV8 cubeF12 cubeE12 : Polyhedron R).e 2 3 = 7 from rfl, cube_cross0, cube_cross7]
  norm_num

theorem cube_edge_sum3 : edgeNormalSum (cubeMesh 8 18 cubeV8 cubeF12 cubeE12 : Polyhedron R).e (faceCross (cubeMesh 8 18 cubeV8 cubeF12 cubeE12 : Polyhedron R)) 3 = ⟨-1, 0, 1⟩ := by
  unfold edgeNormalSum
  rw [show (cubeMesh 8 18 cubeV8 cubeF12 cubeE12 : Polyhedron R).e 3 2 = 1 from rfl, show (cubeMesh 8 18 cubeV8 cubeF12 cubeE12 : Polyhedron R).e 3 3 = 11 from rfl, cube_cross1, cube_cross11]
  norm_num

theorem cube_edge_sum4 : edgeNormalSum (cubeMesh 8 18 cubeV8 cubeF12 cubeE12 : Polyhedron R).e (faceCross (cubeMesh 8 18 cubeV8 cubeF12 cubeE12 : Polyhedron R)) 4 = ⟨-1, -1, 0⟩ := by
  unfold edgeNormalSum
  rw [show (cubeMesh 8 18 cubeV8 cubeF12 cubeE12 : Polyhedron R).e 4 2 = 1 from rfl, show (cubeMesh 8 18 cubeV8 cubeF12 cubeE12 : Polyhedron R).e 4 3 = 5 from rfl, cube_cross1, cube_cross5]
  norm_num

theorem cube_edge_sum5 : edgeNormalSum (cubeMesh 8 18 cubeV8 cubeF12 cubeE12 : Polyhedron R).e (faceCross (cubeMesh 8 18 cubeV8 cubeF12 cubeE12 : Polyhedron R)) 5 = ⟨1, 1, 0⟩ := by
  unfold edgeNormalSum
  rw [show (cubeMesh 8 18 cubeV8 cubeF12 cubeE12 : Polyhedron R).e 5 2 = 2 from rfl, show (cubeMesh 8 18 cubeV8 cubeF12 cubeE12 : Polyhedron R).e 5 3 = 6 from rfl, cube_cross2, cube_cross6]
  norm_num

theorem cube_edge_sum6 : edgeNormalSum (cubeMesh 8 18 cubeV8 cubeF12 cubeE12 : Polyhedron R).e (faceCross (cubeMesh 8 18 cubeV8 cubeF12 cubeE12 : Polyhedron R)) 6 = ⟨2, 0, 0⟩ := by
  unfold edgeNormalSum
  rw [show (cubeMesh 8 18 cubeV8 cubeF12 cubeE12 : Polyhedron R).e 6 2 = 2 from rfl, show (cubeMesh 8 18 cubeV8 cubeF12 cubeE12 : Polyhedron R).e 6 3 = 3 from rfl, cube_cross2, cube_cross3]
  norm_num

theorem cube_edge_sum7 : edgeNormalSum (cubeMesh 8 18 cubeV8 cubeF12 cubeE12 : Polyhedron R).e (faceCross (cubeMesh 8 18 cubeV8 cubeF12 cubeE12 : Polyhedron R)) 7 = ⟨1, 0, -1⟩ := by
  unfold edgeNormalSum
  rw [show (cubeMesh 8 18 cubeV8 cubeF12 cubeE12 : Polyhedron R).e 7 2 = 2 from rfl, show (cubeMesh 8 18 cubeV8 cubeF12 cubeE12 : Polyhedron R).e 7 3 = 8 from rfl, cube_cross2, cube_cross8]
  norm_num

theorem cube_edge_sum8 : edgeNormalSum (cubeMesh 8 18 cubeV8 cubeF12 cubeE12 : Polyhedron R).e (faceCross (cubeMesh 8 18 cubeV8 cubeF12 cubeE12 : Polyhedron R)) 8 = ⟨1, -1, 0⟩ := by
  unfold edgeNormalSum
  rw [show (cubeMesh 8 18 cubeV8 cubeF12 cubeE12 : Polyhedron R).e 8 2 = 3 from rfl, show (cubeMesh 8 18 cubeV8 cubeF12 cubeE12 : Polyhedron R).e 8 3 = 4 from rfl, cube_cross3, cube_cross4]
  norm_num

theorem cube_edge_sum9 : edgeNormalSum (cubeMesh 8 18 cubeV8 cubeF12 cubeE12 : Polyhedron R).e (faceCross (cubeMesh 8 18 cubeV8 cubeF12 cubeE12 : Polyhedron R)) 9 = ⟨1, 0, 1⟩ := by
  unfold edgeNormalSum
  rw [show (cubeMesh 8 18 cubeV8 cubeF12 cubeE12 : Polyhedron R).e 9 2 = 3 from rfl, show (cubeMesh 8 18 cubeV8 cubeF12 cubeE12 : Polyhedron R).e 9 3 = 10 from rfl, cube_cross3, cube_cross10]
  norm_num

theorem cube_edge_sum10 : edgeNormalSum (cubeMesh 8 18 cubeV8 cubeF12 cubeE12 : Polyhedron R).e (faceCross (cubeMesh 8 18 cubeV8 cubeF12 cubeE12 : Polyhedron R)) 10 = ⟨0, -2, 0⟩ := by
  unfold edgeNormalSum
  rw [show (cubeMesh 8 18 cubeV8 cubeF12 cubeE12 : Polyhedron R).e 10 2 = 4 from rfl, show (cubeMesh 8 18 cubeV8 cubeF12 cubeE12 : Polyhedron R).e 10 3 = 5 from rfl, cube_cross4, cube_cross5]
  norm_num

theorem cube_edge_sum11 : edgeNormalSum (cubeMesh 8 18 cubeV8 cubeF12 cubeE12 : Polyhedron R).e (faceCross (cubeMesh 8 18 cubeV8 cubeF12 cubeE12 : Polyhedron R)) 11 = ⟨0, -1, -1⟩ := by
  unfold edgeNormalSum
  rw [show (cubeMesh 8 18 cubeV8 cubeF12 cubeE12 : Polyhedron R).e 11 2 = 4 from rfl, show (cubeMesh 8 18 cubeV8 cubeF12 cubeE12 : Polyhedron R).e 11 3 = 8 from rfl, cube_cross4, cube_cross8]
  norm_num

theorem cube_edge_sum12 : edgeNormalSum (cubeMesh 8 18 cubeV8 cubeF12 cubeE12 : Polyhedron R).e (faceCross (cubeMesh 8 18 cubeV8 cubeF12 cubeE12 : Polyhedron R)) 12 = ⟨0, -1, 1⟩ := by
  unfold edgeNormalSum
  rw [show (cubeMesh 8 18 cubeV8 cubeF12 cubeE12 : Polyhedron R).e 12 2 = 5 from rfl, show (cubeMesh 8 18 cubeV8 cubeF12 cubeE12 : Polyhedron R).e 12 3 = 10 from rfl, cube_cross5, cube_cross10]
  norm_num

theorem cube_edge_sum13 : edgeNormalSum (cubeMesh 8 18 cubeV8 cubeF12 cubeE12 : Polyhedron R).e (faceCross (cubeMesh 8 18 cubeV8 cubeF12 cubeE12 : Polyhedron R)) 13 = ⟨0, 1, -1⟩ := by
  unfold edgeNormalSum
  rw [show (cubeMesh 8 18 cubeV8 cubeF12 cubeE12 : Polyhedron R).e 13 2 = 6 from rfl, show (cubeMesh 8 18 cubeV8 cubeF12 cubeE12 : Polyhedron R).e 13 3 = 9 from rfl, cube_cross6, cube_cross9]
  norm_num

theorem cube_edge_sum14 : edgeNormalSum (cubeMesh 8 18 cubeV8 cubeF12 cubeE12 : Polyhedron R).e (faceCross (cubeMesh 8 18 cubeV8 cubeF12 cubeE12 : Polyhedron R)) 14 = ⟨0, 2, 0⟩ := by
  unfold edgeNormalSum
  rw [show (cubeMesh 8 18 cubeV8 cubeF12 cubeE12 : Polyhedron R).e 14 2 = 6 from rfl, show (cubeMesh 8 18 cubeV8 cubeF12 cubeE12 : Polyhedron R).e 14 3 = 7 from rfl, cube_cross6, cube_cross7]
  norm_num

theorem cube_edge_sum15 : edgeNormalSum (cubeMesh 8 18 cubeV8 cubeF12 cubeE12 : Polyhedron R).e (faceCross (cubeMesh 8 18 cubeV8 cubeF12 cubeE12 : Polyhedron R)) 15 = ⟨0, 1, 1⟩ := by
  unfold edgeNormalSum
  rw [show (cubeMesh 8 18 cubeV8 cubeF12 cubeE12 : Polyhedron R).e 15 2 = 7 from rfl, show (cubeMesh 8 18 cubeV8 cubeF12 cubeE12 : Polyhedron R).e 15 3 = 11 from rfl, cube_cross7, cube_cross11]
  norm_num

theorem cube_edge_sum16 : edgeNormalSum (cubeMesh 8 18 cubeV8 cubeF12 cubeE12 : Polyhedron R).e (faceCross (cubeMesh 8 18 cubeV8 cubeF12 cubeE12 : Polyhedron R)) 16 = ⟨0, 0, -2⟩ := by
  unfold edgeNormalSum
  rw [show (cubeMesh 8 18 cubeV8 cubeF12 cubeE12 : Polyhedron R).e 16 2 = 8 from rfl, show (cubeMesh 8 18 cubeV8 cubeF12 cubeE12 : Polyhedron R).e 16 3 = 9 from rfl, cube_cross8, cube_cross9]
  norm_num

theorem cube_edge_sum17 : edgeNormalSum (cubeMesh 8 18 cubeV8 cubeF12 cubeE12 : Polyhedron R).e (faceCross (cubeMesh 8 18 cubeV8 cubeF12 cubeE12 : Polyhedron R)) 17 = ⟨0, 0, 2⟩ := by
  unfold edgeNormalSum
  rw [show (cubeMesh 8 18 cubeV8 cubeF12 cubeE12 : Polyhedron R).e 17 2 = 10 from rfl, show (cubeMesh 8 18 cubeV8 cubeF12 cubeE12 : Polyhedron R).e 17 3 = 11 from rfl, cube_cross10, cube_cross11]
  norm_num

theorem cube_edges : ∀ j < 18, (cubeMesh 8 18 cubeV8 cubeF12 cubeE12 : Polyhedron R).e j 2 < 12 ∧ (cubeMesh 8 18 cubeV8 cubeF12 cubeE12 : Polyhedron R).e j 3 < 12 ∧
    0 < Dot (edgeNormalSum (cubeMesh 8 18 cubeV8 cubeF12 cubeE12 : Polyhedron R).e (faceCross (cubeMesh 8 18 cubeV8 cubeF12 cubeE12 : Polyhedron R)) j) (edgeNormalSum (cubeMesh 8 18 cubeV8 cubeF12 cubeE12 : Polyhedron R).e (faceCross (cubeMesh 8 18 cubeV8 cubeF12 cubeE12 : Polyhedron R)) j) := by
  intro j hj
  refine ⟨(cube_edge_faces j hj).1, (cube_edge_faces j hj).2, ?_⟩
  interval_cases j
  · rw [cube_edge_sum0]; norm_num [Dot]
  · rw [cube_edge_sum1]; norm_num [Dot]
  · rw [cube_edge_sum2]; norm_num [Dot]
  · rw [cube_edge_sum3]; norm_num [Dot]
  · rw [cube_edge_sum4]; norm_num [Dot]
  · rw [cube_edge_sum5]; norm_num [Dot]
  · rw [cube_edge_sum6]; norm_num [Dot]
  · rw [cube_edge_sum7]; norm_num [Dot]
  · rw [cube_edge_sum8]; norm_num [Dot]
  · rw [cube_edge_sum9]; norm_num [Dot]
  · rw [cube_edge_sum10]; norm_num [Dot]
  · rw [cube_edge_sum11]; norm_num [Dot]
  · rw [cube_edge_sum12]; norm_num [Dot]
  · rw [cube_edge_sum13]; norm_num [Dot]
  · rw [cube_edge_sum14]; norm_num [Dot]
  · rw [cube_edge_sum15]; norm_num [Dot]
  · rw [cube_edge_sum16]; norm_num [Dot]
  · rw [cube_edge_sum17]; norm_num [Dot]

theorem cube_distO0 : faceDistSquare (⟨0, 0, 0⟩ : RealVec R) (cubeMesh 8 18 cubeV8 cubeF12 cubeE12 : Polyhedron R) 0 = some (1/4) := by
  show (PointTriangleDistance (⟨0, 0, 0⟩ : RealVec R) ⟨-1/2, 1/2, -1/2⟩ ⟨-1/2 - -1/2, -1/2 - 1/2, -1/2 - -1/2⟩ ⟨-1/2 - -1/2, 1/2 - 1/2, 1/2 - -1/2⟩).map Prod.fst = some (1/4)
  norm_num [PointTriangleDistance, PointTriangleRegions, Dot, divReal]

theorem cube_distO1 : faceDistSquare (⟨0, 0, 0⟩ : RealVec R) (cubeMesh 8 18 cubeV8 cubeF12 cubeE12 : Polyhedron R) 1 = some (1/4) := by
  show (PointTriangleDistance (⟨0, 0, 0⟩ : RealVec R) ⟨-1/2, -1/2, 1/2⟩ ⟨-1/2 - -1/2, 1/2 - -1/2, 1/2 - 1/2⟩ ⟨-1/2 - -1/2, -1/2 - -1/2, -1/2 - 1/2⟩).map Prod.fst = some (1/4)
  norm_num [PointTriangleDistance, PointTriangleRegions, Dot, divReal]

theorem cube_distO2 : faceDistSquare (⟨0, 0, 0⟩ : RealVec R) (cubeMesh 8 18 cubeV8 cubeF12 cubeE12 : Polyhedron R) 2 = some (1/4) := by
  show (PointTriangleDistance (⟨0, 0, 0⟩ : RealVec R) ⟨1/2, 1/2, -1/2⟩ ⟨1/2 - 1/2, 1/2 - 1/2, 1/2 - -1/2⟩ ⟨1/2 - 1/2, -1/2 - 1/2, -1/2 - -1/2⟩).map Prod.fst = some (1/4)
  norm_num [PointTriangleDistance, PointTriangleRegions, Dot, divReal]

theorem cube_distO3 : faceDistSquare (⟨0, 0, 0⟩ : RealVec R) (cubeMesh 8 18 cubeV8 cubeF12 cubeE12 : Polyhedron R) 3 = some (1/4) := by
  show (PointTriangleDistance (⟨0, 0, 0⟩ : RealVec R) ⟨1/2, -1/2, 1/2⟩ ⟨1/2 - 1/2, -1/2 - -1/2, -1/2 - 1/2⟩ ⟨1/2 - 1/2, 1/2 - -1/2, 1/2 - 1/2⟩).map Prod.fst = some (1/4)
  norm_num [PointTriangleDistance, PointTriangleRegions, Dot, divReal]

theorem cube_distO4 : faceDistSquare (⟨0, 0, 0⟩ : RealVec R) (cubeMesh 8 18 cubeV8 cubeF12 cubeE12 : Polyhedron R) 4 = some (1/4) := by
  show (PointTriangleDistance (⟨0, 0, 0⟩ : RealVec R) ⟨1/2, -1/2, -1/2⟩ ⟨1/2 - 1/2, -1/2 - -1/2, 1/2 - -1/2⟩ ⟨-1/2 - 1/2, -1/2 - -1/2, -1/2 - -1/2⟩).map Prod.fst = some (1/4)
  norm_num [PointTriangleDistance, PointTriangleRegions, Dot, divReal]

theorem cube_distO5 : faceDistSquare (⟨0, 0, 0⟩ : RealVec R) (cubeMesh 8 18 cubeV8 cubeF12 cubeE12 : Polyhedron R) 5 = some (1/4) := by
  show (PointTriangleDistance (⟨0, 0, 0⟩ : RealVec R) ⟨-1/2, -1/2, 1/2⟩ ⟨-1/2 - -1/2, -1/2 - -1/2, -1/2 - 1/2⟩ ⟨1/2 - -1/2, -1/2 - -1/2, 1/2 - 1/2⟩).map Prod.fst = some (1/4)
  norm_num [PointTriangleDistance, PointTriangleRegions, Dot, divReal]

theorem cube_distO6 : faceDistSquare (⟨0, 0, 0⟩ : RealVec R) (cubeMesh 8 18 cubeV8 cubeF12 cubeE12 : Polyhedron R) 6 = some (1/4) := by
  show (PointTriangleDistance (⟨0, 0, 0⟩ : RealVec R) ⟨1/2, 1/2, -1/2⟩ ⟨-1/2 - 1/2, 1/2 - 1/2, -1/2 - -1/2⟩ ⟨1/2 - 1/2, 1/2 - 1/2, 1/2 - -1/2⟩).map Prod.fst = some (1/4)
  norm_num [PointTriangleDistance, PointTriangleRegions, Dot, divReal]

theorem cube_distO7 : faceDistSquare (⟨0, 0, 0⟩ : RealVec R) (cubeMesh 8 18 cubeV8 cubeF12 cubeE12 : Polyhedron R) 7 = some (1/4) := by
  show (PointTriangleDistance (⟨0, 0, 0⟩ : RealVec R) ⟨-1/2, 1/2, 1/2⟩ ⟨1/2 - -1/2, 1/2 - 1/2, 1/2 - 1/2⟩ ⟨-1/2 - -1/2, 1/2 - 1/2, -1/2 - 1/2⟩).map Prod.fst = some (1/4)
  norm_num [PointTriangleDistance, PointTriangleRegions, Dot, divReal]

theorem cube_distO8 : faceDistSquare (⟨0, 0, 0⟩ : RealVec R) (cubeMesh 8 18 cubeV8 cubeF12 cubeE12 : Polyhedron R) 8 = some (1/4) := by
  show (PointTriangleDistance (⟨0, 0, 0⟩ : RealVec R) ⟨1/2, -1/2, -1/2⟩ ⟨-1/2 - 1/2, -1/2 - -1/2, -1/2 - -1/2⟩ ⟨1/2 - 1/2, 1/2 - -1/2, -1/2 - -1/2⟩).map Prod.fst = some (1/4)
  norm_num [PointTriangleDistance, PointTriangleRegions, Dot, divReal]

theorem cube_distO9 : faceDistSquare (⟨0, 0, 0⟩ : RealVec R) (cubeMesh 8 18 cubeV8 cubeF12 cubeE12 : Polyhedron R) 9 = some (1/4) := by
  show (PointTriangleDistance (⟨0, 0, 0⟩ : RealVec R) ⟨-1/2, 1/2, -1/2⟩ ⟨1/2 - -1/2, 1/2 - 1/2, -1/2 - -1/2⟩ ⟨-1/2 - -1/2, -1/2 - 1/2, -1/2 - -1/2⟩).map Prod.fst = some (1/4)
  norm_num [PointTriangleDistance, PointTriangleRegions, Dot, divReal]

theorem cube_distO10 : faceDistSquare (⟨0, 0, 0⟩ : RealVec R) (cubeMesh 8 18 cubeV8 cubeF12 cubeE12 : Polyhedron R) 10 = some (1/4) := by
  show (PointTriangleDistance (⟨0, 0, 0⟩ : RealVec R) ⟨1/2, -1/2, 1/2⟩ ⟨1/2 - 1/2, 1/2 - -1/2, 1/2 - 1/2⟩ ⟨-1/2 - 1/2, -1/2 - -1/2, 1/2 - 1/2⟩).map Prod.fst = some (1/4)
  norm_num [PointTriangleDistance, PointTriangleRegions, Dot, divReal]

theorem cube_distO11 : faceDistSquare (⟨0, 0, 0⟩ : RealVec R) (cubeMesh 8 18 cubeV8 cubeF12 cubeE12 : Polyhedron R) 11 = some (1/4) := by
  show (PointTriangleDistance (⟨0, 0, 0⟩ : RealVec R) ⟨-1/2, 1/2, 1/2⟩ ⟨-1/2 - -1/2, -1/2 - 1/2, 1/2 - 1/2⟩ ⟨1/2 - -1/2, 1/2 - 1/2, 1/2 - 1/2⟩).map Prod.fst = some (1/4)
  norm_num [PointTriangleDistance, PointTriangleRegions, Dot, divReal]

theorem cube_loopO : closestFaceLoop (⟨0, 0, 0⟩ : RealVec R) (cubeMesh 8 18 cubeV8 cubeF12 cubeE12 : Polyhedron R) 12 = some (1/4, 0) := by
  have h0 : closestFaceLoop (⟨0, 0, 0⟩ : RealVec R) (cubeMesh 8 18 cubeV8 cubeF12 cubeE12 : Polyhedron R) 0 = some (FLT_MAX, 0) := rfl
  have h1 := closestFaceLoop_update _ _ 0 _ _ _ h0 cube_distO0 (by norm_num [FLT_MAX])
  have h2 := closestFaceLoop_keep _ _ 1 _ _ _ h1 cube_distO1 (by norm_num [FLT_MAX])
  have h3 := closestFaceLoop_keep _ _ 2 _ _ _ h2 cube_distO2 (by norm_num [FLT_MAX])
  have h4 := closestFaceLoop_keep _ _ 3 _ _ _ h3 cube_distO3 (by norm_num [FLT_MAX])
  have h5 := closestFaceLoop_keep _ _ 4 _ _ _ h4 cube_distO4 (by norm_num [FLT_MAX])
  have h6 := closestFaceLoop_keep _ _ 5 _ _ _ h5 cube_distO5 (by norm_num [FLT_MAX])
  have h7 := closestFaceLoop_keep _ _ 6 _ _ _ h6 cube_distO6 (by norm_num [FLT_MAX])
  have h8 := closestFaceLoop_keep _ _ 7 _ _ _ h7 cube_distO7 (by norm_num [FLT_MAX])
  have h9 := closestFaceLoop_keep _ _ 8 _ _ _ h8 cube_distO8 (by norm_num [FLT_MAX])
  have h10 := closestFaceLoop_keep _ _ 9 _ _ _ h9 cube_distO9 (by norm_num [FLT_MAX])
  have h11 := closestFaceLoop_keep _ _ 10 _ _ _ h10 cube_distO10 (by norm_num [FLT_MAX])
  have h12 := closestFaceLoop_keep _ _ 11 _ _ _ h11 cube_distO11 (by norm_num [FLT_MAX])
  exact h12

theorem cube_ptdO : PointTriangleDistance (⟨0, 0, 0⟩ : RealVec R) ⟨-1/2, 1/2, -1/2⟩ ⟨-1/2 - -1/2, -1/2 - 1/2, -1/2 - -1/2⟩ ⟨-1/2 - -1/2, 1/2 - 1/2, 1/2 - -1/2⟩
    = some (1/4, ⟨0, 1/2, 1/2⟩) := by
  norm_num [PointTriangleDistance, PointTriangleRegions, Dot, divReal]

theorem cube_distA0 : faceDistSquare (⟨2, 0, 0⟩ : RealVec R) (cubeMesh 8 18 cubeV8 cubeF12 cubeE12 : Polyhedron R) 0 = some (25/4) := by
  show (PointTriangleDistance (⟨2, 0, 0⟩ : RealVec R) ⟨-1/2, 1/2, -1/2⟩ ⟨-1/2 - -1/2, -1/2 - 1/2, -1/2 - -1/2⟩ ⟨-1/2 - -1/2, 1/2 - 1/2, 1/2 - -1/2⟩).map Prod.fst = some (25/4)
  norm_num [PointTriangleDistance, PointTriangleRegions, Dot, divReal]

theorem cube_distA1 : faceDistSquare (⟨2, 0, 0⟩ : RealVec R) (cubeMesh 8 18 cubeV8 cubeF12 cubeE12 : Polyhedron R) 1 = some (25/4) := by
  show (PointTriangleDistance (⟨2, 0, 0⟩ : RealVec R) ⟨-1/2, -1/2, 1/2⟩ ⟨-1/2 - -1/2, 1/2 - -1/2, 1/2 - 1/2⟩ ⟨-1/2 - -1/2, -1/2 - -1/2, -1/2 - 1/2⟩).map Prod.fst = some (25/4)
  norm_num [PointTriangleDistance, PointTriangleRegions, Dot, divReal]

theorem cube_distA2 : faceDistSquare (⟨2, 0, 0⟩ : RealVec R) (cubeMesh 8 18 cubeV8 cubeF12 cubeE12 : Polyhedron R) 2 = some (9/4) := by
  show (PointTriangleDistance (⟨2, 0, 0⟩ : RealVec R) ⟨1/2, 1/2, -1/2⟩ ⟨1/2 - 1/2, 1/2 - 1/2, 1/2 - -1/2⟩ ⟨1/2 - 1/2, -1/2 - 1/2, -1/2 - -1/2⟩).map Prod.fst = some (9/4)
  norm_num [PointTriangleDistance, PointTriangleRegions, Dot, divReal]

theorem cube_distA3 : faceDistSquare (⟨2, 0, 0⟩ : RealVec R) (cubeMesh 8 18 cubeV8 cubeF12 cubeE12 : Polyhedron R) 3 = some (9/4) := by
  show (PointTriangleDistance (⟨2, 0, 0⟩ : RealVec R) ⟨1/2, -1/2, 1/2⟩ ⟨1/2 - 1/2, -1/2 - -1/2, -1/2 - 1/2⟩ ⟨1/2 - 1/2, 1/2 - -1/2, 1/2 - 1/2⟩).map Prod.fst = some (9/4)
  norm_num [PointTriangleDistance, PointTriangleRegions, Dot, divReal]

theorem cube_distA4 : faceDistSquare (⟨2, 0, 0⟩ : RealVec R) (cubeMesh 8 18 cubeV8 cubeF12 cubeE12 : Polyhedron R) 4 = some (5/2) := by
  show (PointTriangleDistance (⟨2, 0, 0⟩ : RealVec R) ⟨1/2, -1/2, -1/2⟩ ⟨1/2 - 1/2, -1/2 - -1/2, 1/2 - -1/2⟩ ⟨-1/2 - 1/2, -1/2 - -1/2, -1/2 - -1/2⟩).map Prod.fst = some (5/2)
  norm_num [PointTriangleDistance, PointTriangleRegions, Dot, divReal]

theorem cube_distA5 : faceDistSquare (⟨2, 0, 0⟩ : RealVec R) (cubeMesh 8 18 cubeV8 cubeF12 cubeE12 : Polyhedron R) 5 = some (11/4) := by
  show (PointTriangleDistance (⟨2, 0, 0⟩ : RealVec R) ⟨-1/2, -1/2, 1/2⟩ ⟨-1/2 - -1/2, -1/2 - -1/2, -1/2 - 1/2⟩ ⟨1/2 - -1/2, -1/2 - -1/2, 1/2 - 1/2⟩).map Prod.fst = some (11/4)
  norm_num [PointTriangleDistance, PointTriangleRegions, Dot, divReal]

theorem cube_distA6 : faceDistSquare (⟨2, 0, 0⟩ : RealVec R) (cubeMesh 8 18 cubeV8 cubeF12 cubeE12 : Polyhedron R) 6 = some (5/2) := by
  show (PointTriangleDistance (⟨2, 0, 0⟩ : RealVec R) ⟨1/2, 1/2, -1/2⟩ ⟨-1/2 - 1/2, 1/2 - 1/2, -1/2 - -1/2⟩ ⟨1/2 - 1/2, 1/2 - 1/2, 1/2 - -1/2⟩).map Prod.fst = some (5/2)
  norm_num [PointTriangleDistance, PointTriangleRegions, Dot, divReal]

theorem cube_distA7 : faceDistSquare (⟨2, 0, 0⟩ : RealVec R) (cubeMesh 8 18 cubeV8 cubeF12 cubeE12 : Polyhedron R) 7 = some (11/4) := by
  show (PointTriangleDistance (⟨2, 0, 0⟩ : RealVec R) ⟨-1/2, 1/2, 1/2⟩ ⟨1/2 - -1/2, 1/2 - 1/2, 1/2 - 1/2⟩ ⟨-1/2 - -1/2, 1/2 - 1/2, -1/2 - 1/2⟩).map Prod.fst = some (11/4)
  norm_num [PointTriangleDistance, PointTriangleRegions, Dot, divReal]

theorem cube_distA8 : faceDistSquare (⟨2, 0, 0⟩ : RealVec R) (cubeMesh 8 18 cubeV8 cubeF12 cubeE12 : Polyhedron R) 8 = some (5/2) := by
  show (PointTriangleDistance (⟨2, 0, 0⟩ : RealVec R) ⟨1/2, -1/2, -1/2⟩ ⟨-1/2 - 1/2, -1/2 - -1/2, -1/2 - -1/2⟩ ⟨1/2 - 1/2, 1/2 - -1/2, -1/2 - -1/2⟩).map Prod.fst = some (5/2)
  norm_num [PointTriangleDistance, PointTriangleRegions, Dot, divReal]

theorem cube_distA9 : faceDistSquare (⟨2, 0, 0⟩ : RealVec R) (cubeMesh 8 18 cubeV8 cubeF12 cubeE12 : Polyhedron R) 9 = some (11/4) := by
  show (PointTriangleDistance (⟨2, 0, 0⟩ : RealVec R) ⟨-1/2, 1/2, -1/2⟩ ⟨1/2 - -1/2, 1/2 - 1/2, -1/2 - -1/2⟩ ⟨-1/2 - -1/2, -1/2 - 1/2, -1/2 - -1/2⟩).map Prod.fst = some (11/4)
  norm_num [PointTriangleDistance, PointTriangleRegions, Dot, divReal]

theorem cube_distA10 : faceDistSquare (⟨2, 0, 0⟩ : RealVec R) (cubeMesh 8 18 cubeV8 cubeF12 cubeE12 : Polyhedron R) 10 = some (5/2) := by
  show (PointTriangleDistance (⟨2, 0, 0⟩ : RealVec R) ⟨1/2, -1/2, 1/2⟩ ⟨1/2 - 1/2, 1/2 - -1/2, 1/2 - 1/2⟩ ⟨-1/2 - 1/2, -1/2 - -1/2, 1/2 - 1/2⟩).map Prod.fst = some (5/2)
  norm_num [PointTriangleDistance, PointTriangleRegions, Dot, divReal]

theorem cube_distA11 : faceDistSquare (⟨2, 0, 0⟩ : RealVec R) (cubeMesh 8 18 cubeV8 cubeF12 cubeE12 : Polyhedron R) 11 = some (11/4) := by
  show (PointTriangleDistance (⟨2, 0, 0⟩ : RealVec R) ⟨-1/2, 1/2, 1/2⟩ ⟨-1/2 - -1/2, -1/2 - 1/2, 1/2 - 1/2⟩ ⟨1/2 - -1/2, 1/2 - 1/2, 1/2 - 1/2⟩).map Prod.fst = some (11/4)
  norm_num [PointTriangleDistance, PointTriangleRegions, Dot, divReal]

theorem cube_loopA : closestFaceLoop (⟨2, 0, 0⟩ : RealVec R) (cubeMesh 8 18 cubeV8 cubeF12 cubeE12 : Polyhedron R) 12 = some (9/4, 2) := by
  have h0 : closestFaceLoop (⟨2, 0, 0⟩ : RealVec R) (cubeMesh 8 18 cubeV8 cubeF12 cubeE12 : Polyhedron R) 0 = some (FLT_MAX, 0) := rfl
  have h1 := closestFaceLoop_update _ _ 0 _ _ _ h0 cube_distA0 (by norm_num [FLT_MAX])
  have h2 := closestFaceLoop_keep _ _ 1 _ _ _ h1 cube_distA1 (by norm_num [FLT_MAX])
  have h3 := closestFaceLoop_update _ _ 2 _ _ _ h2 cube_distA2 (by norm_num [FLT_MAX])
  have h4 := closestFaceLoop_keep _ _ 3 _ _ _ h3 cube_distA3 (by norm_num [FLT_MAX])
  have h5 := closestFaceLoop_keep _ _ 4 _ _ _ h4 cube_distA4 (by norm_num [FLT_MAX])
  have h6 := closestFaceLoop_keep _ _ 5 _ _ _ h5 cube_distA5 (by norm_num [FLT_MAX])
  have h7 := closestFaceLoop_keep _ _ 6 _ _ _ h6 cube_distA6 (by norm_num [FLT_MAX])
  have h8 := closestFaceLoop_keep _ _ 7 _ _ _ h7 cube_distA7 (by norm_num [FLT_MAX])
  have h9 := closestFaceLoop_keep _ _ 8 _ _ _ h8 cube_distA8 (by norm_num [FLT_MAX])
  have h10 := closestFaceLoop_keep _ _ 9 _ _ _ h9 cube_distA9 (by norm_num [FLT_MAX])
  have h11 := closestFaceLoop_keep _ _ 10 _ _ _ h10 cube_distA10 (by norm_num [FLT_MAX])
  have h12 := closestFaceLoop_keep _ _ 11 _ _ _ h11 cube_distA11 (by norm_num [FLT_MAX])
  exact h12

theorem cube_ptdA : PointTriangleDistance (⟨2, 0, 0⟩ : RealVec R) ⟨1/2, 1/2, -1/2⟩ ⟨1/2 - 1/2, 1/2 - 1/2, 1/2 - -1/2⟩ ⟨1/2 - 1/2, -1/2 - 1/2, -1/2 - -1/2⟩
    = some (9/4, ⟨0, 1/2, 1/2⟩) := by
  norm_num [PointTriangleDistance, PointTriangleRegions, Dot, divReal]

theorem cube_distB0 : faceDistSquare (⟨1/2, 0, 0⟩ : RealVec R) (cubeMesh 8 18 cubeV8 cubeF12 cubeE12 : Polyhedron R) 0 = some (1) := by
  show (PointTriangleDistance (⟨1/2, 0, 0⟩ : RealVec R) ⟨-1/2, 1/2, -1/2⟩ ⟨-1/2 - -1/2, -1/2 - 1/2, -1/2 - -1/2⟩ ⟨-1/2 - -1/2, 1/2 - 1/2, 1/2 - -1/2⟩).map Prod.fst = some (1)
  norm_num [PointTriangleDistance, PointTriangleRegions, Dot, divReal]

theorem cube_distB1 : faceDistSquare (⟨1/2, 0, 0⟩ : RealVec R) (cubeMesh 8 18 cubeV8 cubeF12 cubeE12 : Polyhedron R) 1 = some (1) := by
  show (PointTriangleDistance (⟨1/2, 0, 0⟩ : RealVec R) ⟨-1/2, -1/2, 1/2⟩ ⟨-1/2 - -1/2, 1/2 - -1/2, 1/2 - 1/2⟩ ⟨-1/2 - -1/2, -1/2 - -1/2, -1/2 - 1/2⟩).map Prod.fst = some (1)
  norm_num [PointTriangleDistance, PointTriangleRegions, Dot, divReal]

theorem cube_distB2 : faceDistSquare (⟨1/2, 0, 0⟩ : RealVec R) (cubeMesh 8 18 cubeV8 cubeF12 cubeE12 : Polyhedron R) 2 = some (0) := by
  show (PointTriangleDistance (⟨1/2, 0, 0⟩ : RealVec R) ⟨1/2, 1/2, -1/2⟩ ⟨1/2 - 1/2, 1/2 - 1/2, 1/2 - -1/2⟩ ⟨1/2 - 1/2, -1/2 - 1/2, -1/2 - -1/2⟩).map Prod.fst = some (0)
  norm_num [PointTriangleDistance, PointTriangleRegions, Dot, divReal]

theorem cube_distB3 : faceDistSquare (⟨1/2, 0, 0⟩ : RealVec R) (cubeMesh 8 18 cubeV8 cubeF12 cubeE12 : Polyhedron R) 3 = some (0) := by
  show (PointTriangleDistance (⟨1/2, 0, 0⟩ : RealVec R) ⟨1/2, -1/2, 1/2⟩ ⟨1/2 - 1/2, -1/2 - -1/2, -1/2 - 1/2⟩ ⟨1/2 - 1/2, 1/2 - -1/2, 1/2 - 1/2⟩).map Prod.fst = some (0)
  norm_num [PointTriangleDistance, PointTriangleRegions, Dot, divReal]

theorem cube_distB4 : faceDistSquare (⟨1/2, 0, 0⟩ : RealVec R) (cubeMesh 8 18 cubeV8 cubeF12 cubeE12 : Polyhedron R) 4 = some (1/4) := by
  show (PointTriangleDistance (⟨1/2, 0, 0⟩ : RealVec R) ⟨1/2, -1/2, -1/2⟩ ⟨1/2 - 1/2, -1/2 - -1/2, 1/2 - -1/2⟩ ⟨-1/2 - 1/2, -1/2 - -1/2, -1/2 - -1/2⟩).map Prod.fst = some (1/4)
  norm_num [PointTriangleDistance, PointTriangleRegions, Dot, divReal]

theorem cube_distB5 : faceDistSquare (⟨1/2, 0, 0⟩ : RealVec R) (cubeMesh 8 18 cubeV8 cubeF12 cubeE12 : Polyhedron R) 5 = some (3/8) := by
  show (PointTriangleDistance (⟨1/2, 0, 0⟩ : RealVec R) ⟨-1/2, -1/2, 1/2⟩ ⟨-1/2 - -1/2, -1/2 - -1/2, -1/2 - 1/2⟩ ⟨1/2 - -1/2, -1/2 - -1/2, 1/2 - 1/2⟩).map Prod.fst = some (3/8)
  norm_num [PointTriangleDistance, PointTriangleRegions, Dot, divReal]

theorem cube_distB6 : faceDistSquare (⟨1/2, 0, 0⟩ : RealVec R) (cubeMesh 8 18 cubeV8 cubeF12 cubeE12 : Polyhedron R) 6 = some (1/4) := by
  show (PointTriangleDistance (⟨1/2, 0, 0⟩ : RealVec R) ⟨1/2, 1/2, -1/2⟩ ⟨-1/2 - 1/2, 1/2 - 1/2, -1/2 - -1/2⟩ ⟨1/2 - 1/2, 1/2 - 1/2, 1/2 - -1/2⟩).map Prod.fst = some (1/4)
  norm_num [PointTriangleDistance, PointTriangleRegions, Dot, divReal]

theorem cube_distB7 : faceDistSquare (⟨1/2, 0, 0⟩ : RealVec R) (cubeMesh 8 18 cubeV8 cubeF12 cubeE12 : Polyhedron R) 7 = some (3/8) := by
  show (PointTriangleDistance (⟨1/2, 0, 0⟩ : RealVec R) ⟨-1/2, 1/2, 1/2⟩ ⟨1/2 - -1/2, 1/2 - 1/2, 1/2 - 1/2⟩ ⟨-1/2 - -1/2, 1/2 - 1/2, -1/2 - 1/2⟩).map Prod.fst = some (3/8)
  norm_num [PointTriangleDistance, PointTriangleRegions, Dot, divReal]

theorem cube_distB8 : faceDistSquare (⟨1/2, 0, 0⟩ : RealVec R) (cubeMesh 8 18 cubeV8 cubeF12 cubeE12 : Polyhedron R) 8 = some (1/4) := by
  show (PointTriangleDistance (⟨1/2, 0, 0⟩ : RealVec R) ⟨1/2, -1/2, -1/2⟩ ⟨-1/2 - 1/2, -1/2 - -1/2, -1/2 - -1/2⟩ ⟨1/2 - 1/2, 1/2 - -1/2, -1/2 - -1/2⟩).map Prod.fst = some (1/4)
  norm_num [PointTriangleDistance, PointTriangleRegions, Dot, divReal]

theorem cube_distB9 : faceDistSquare (⟨1/2, 0, 0⟩ : RealVec R) (cubeMesh 8 18 cubeV8 cubeF12 cubeE12 : Polyhedron R) 9 = some (3/8) := by
  show (PointTriangleDistance (⟨1/2, 0, 0⟩ : RealVec R) ⟨-1/2, 1/2, -1/2⟩ ⟨1/2 - -1/2, 1/2 - 1/2, -1/2 - -1/2⟩ ⟨-1/2 - -1/2, -1/2 - 1/2, -1/2 - -1/2⟩).map Prod.fst = some (3/8)
  norm_num [PointTriangleDistance, PointTriangleRegions, Dot, divReal]

theorem cube_distB10 : faceDistSquare (⟨1/2, 0, 0⟩ : RealVec R) (cubeMesh 8 18 cubeV8 cubeF12 cubeE12 : Polyhedron R) 10 = some (1/4) := by
  show (PointTriangleDistance (⟨1/2, 0, 0⟩ : RealVec R) ⟨1/2, -1/2, 1/2⟩ ⟨1/2 - 1/2, 1/2 - -1/2, 1/2 - 1/2⟩ ⟨-1/2 - 1/2, -1/2 - -1/2, 1/2 - 1/2⟩).map Prod.fst = some (1/4)
  norm_num [PointTriangleDistance, PointTriangleRegions, Dot, divReal]

theorem cube_distB11 : faceDistSquare (⟨1/2, 0, 0⟩ : RealVec R) (cubeMesh 8 18 cubeV8 cubeF12 cubeE12 : Polyhedron R) 11 = some (3/8) := by
  show (PointTriangleDistance (⟨1/2, 0, 0⟩ : RealVec R) ⟨-1/2, 1/2, 1/2⟩ ⟨-1/2 - -1/2, -1/2 - 1/2, 1/2 - 1/2⟩ ⟨1/2 - -1/2, 1/2 - 1/2, 1/2 - 1/2⟩).map Prod.fst = some (3/8)
  norm_num [PointTriangleDistance, PointTriangleRegions, Dot, divReal]

theorem cube_loopB : closestFaceLoop (⟨1/2, 0, 0⟩ : RealVec R) (cubeMesh 8 18 cubeV8 cubeF12 cubeE12 : Polyhedron R) 12 = some (0, 2) := by
  have h0 : closestFaceLoop (⟨1/2, 0, 0⟩ : RealVec R) (cubeMesh 8 18 cubeV8 cubeF12 cubeE12 : Polyhedron R) 0 = some (FLT_MAX, 0) := rfl
  have h1 := closestFaceLoop_update _ _ 0 _ _ _ h0 cube_distB0 (by norm_num [FLT_MAX])
  have h2 := closestFaceLoop_keep _ _ 1 _ _ _ h1 cube_distB1 (by norm_num [FLT_MAX])
  have h3 := closestFaceLoop_update _ _ 2 _ _ _ h2 cube_distB2 (by norm_num [FLT_MAX])
  have h4 := closestFaceLoop_keep _ _ 3 _ _ _ h3 cube_distB3 (by norm_num [FLT_MAX])
  have h5 := closestFaceLoop_keep _ _ 4 _ _ _ h4 cube_distB4 (by norm_num [FLT_MAX])
  have h6 := closestFaceLoop_keep _ _ 5 _ _ _ h5 cube_distB5 (by norm_num [FLT_MAX])
  have h7 := closestFaceLoop_keep _ _ 6 _ _ _ h6 cube_distB6 (by norm_num [FLT_MAX])
  have h8 := closestFaceLoop_keep _ _ 7 _ _ _ h7 cube_distB7 (by norm_num [FLT_MAX])
  have h9 := closestFaceLoop_keep _ _ 8 _ _ _ h8 cube_distB8 (by norm_num [FLT_MAX])
  have h10 := closestFaceLoop_keep _ _ 9 _ _ _ h9 cube_distB9 (by norm_num [FLT_MAX])
  have h11 := closestFaceLoop_keep _ _ 10 _ _ _ h10 cube_distB10 (by norm_num [FLT_MAX])
  have h12 := closestFaceLoop_keep _ _ 11 _ _ _ h11 cube_distB11 (by norm_num [FLT_MAX])
  exact h12

theorem cube_ptdB : PointTriangleDistance (⟨1/2, 0, 0⟩ : RealVec R) ⟨1/2, 1/2, -1/2⟩ ⟨1/2 - 1/2, 1/2 - 1/2, 1/2 - -1/2⟩ ⟨1/2 - 1/2, -1/2 - 1/2, -1/2 - -1/2⟩
    = some (0, ⟨0, 1/2, 1/2⟩) := by
  norm_num [PointTriangleDistance, PointTriangleRegions, Dot, divReal]

theorem Norm_two (m : Libm R) (hm : LibmFacts m) (V : RealVec R) (h : Dot V V = 2 * 2) :
    Norm m V = 2 := by
  unfold Norm
  rw [h]
  exact sqrt_mul_self_eq m hm 2 (by norm_num)

theorem cube_FindEdge0 :
    FindEdge (cubeF12 0 1) (cubeF12 0 2) (cubeMesh 8 18 cubeV8 cubeF12 cubeE12 : Polyhedron R) = 1 :=
  rfl

theorem cube_FindEdge2 :
    FindEdge (cubeF12 2 1) (cubeF12 2 2) (cubeMesh 8 18 cubeV8 cubeF12 cubeE12 : Polyhedron R) = 6 :=
  rfl

theorem cube_params (m : Libm R) (hm : LibmFacts m) (EqualReal : R → R → Bool)
    (hE : Tolerant EqualReal) (collapse : Int) :
    ∃ poly, ComputeParametersPolyhedron m collapse (ConvertPolyhedron EqualReal cubeInput)
        = some poly ∧
      poly.faceN = 12 ∧ poly.edgeN = 18 ∧ poly.v = cubeV8 ∧ poly.f = cubeF12 ∧
      poly.e = cubeE12 ∧ poly.Ne 1 = ⟨-1, 0, 0⟩ ∧ poly.Ne 6 = ⟨1, 0, 0⟩ := by
  rw [ConvertPolyhedron_cube EqualReal hE]
  obtain ⟨poly, hc, h1, h2, -, h4, h5, h6, -, h8⟩ :=
    ComputeParametersPolyhedron_unit m hm collapse
      (cubeMesh 8 18 cubeV8 cubeF12 cubeE12 : Polyhedron R) cube_faces cube_corners
      cube_covered cube_edges
  refine ⟨poly, hc, h1, h2, h4, h5, h6, ?_, ?_⟩
  · rw [h8 1 (show 1 < 18 by decide), cube_edge_sum1,
      Norm_two m hm _ (by norm_num [Dot])]
    norm_num
  · rw [h8 6 (show 6 < 18 by decide), cube_edge_sum6,
      Norm_two m hm _ (by norm_num [Dot])]
    norm_num

theorem Tolerant_half (EqualReal : R → R → Bool) (hE : Tolerant EqualReal) :
    EqualReal (1 / 2) 0 = false ∧ EqualReal (1 / 2) 1 = false ∧ EqualReal 0 0 = true := by
  refine ⟨hE.2 _ _ ?_, hE.2 _ _ ?_, hE.1 0⟩
  · rw [sub_zero, abs_of_pos] <;> norm_num
  · rw [abs_sub_comm, abs_of_nonneg] <;> norm_num

/-- C4: for the unit cube centred at the origin, built from its twelve
outward-wound triangles by `ConvertPolyhedron` and
`ComputeParametersPolyhedron`, `PointInPolyhedron` returns 1 for `(0,0,0)`,
0 for `(2,0,0)` and 1 for `(1/2,0,0)`, which lies on a face. -/
theorem PointInPolyhedron_unit_cube (m : Libm R) (hm : LibmFacts m)
    (EqualReal : R → R → Bool) (hE : Tolerant EqualReal) (collapse : Int) :
    ∃ poly, ComputeParametersPolyhedron m collapse (ConvertPolyhedron EqualReal cubeInput)
        = some poly ∧
      (PointInPolyhedron EqualReal ⟨0, 0, 0⟩ poly).map Prod.fst = some 1 ∧
      (PointInPolyhedron EqualReal ⟨2, 0, 0⟩ poly).map Prod.fst = some 0 ∧
      (PointInPolyhedron EqualReal ⟨1 / 2, 0, 0⟩ poly).map Prod.fst = some 1 := by
  obtain ⟨poly, hc, hN, hedgeN, hv, hf, he, hNe1, hNe6⟩ := cube_params m hm EqualReal hE collapse
  obtain ⟨t1, t2, t3⟩ := Tolerant_half EqualReal hE
  have hv' : poly.v = (cubeMesh 8 18 cubeV8 cubeF12 cubeE12 : Polyhedron R).v := hv
  have hf' : poly.f = (cubeMesh 8 18 cubeV8 cubeF12 cubeE12 : Polyhedron R).f := hf
  have he' : poly.e = (cubeMesh 8 18 cubeV8 cubeF12 cubeE12 : Polyhedron R).e := he
  have hedgeN' : poly.edgeN = (cubeMesh 8 18 cubeV8 cubeF12 cubeE12 : Polyhedron R).edgeN :=
    hedgeN
  have hb : ∀ n, BuildTriangle n poly
      = BuildTriangle n (cubeMesh 8 18 cubeV8 cubeF12 cubeE12 : Polyhedron R) :=
    BuildTriangle_congr _ _ hv' hf'
  have hloop : ∀ p : RealVec R, closestFaceLoop p poly poly.faceN
      = closestFaceLoop p (cubeMesh 8 18 cubeV8 cubeF12 cubeE12 : Polyhedron R) 12 := by
    intro p
    rw [hN]
    exact closestFaceLoop_congr p _ _ hv' hf' 12
  have hfind0 : poly.Ne (FindEdge (poly.f 0 1) (poly.f 0 2) poly) = ⟨-1, 0, 0⟩ := by
    rw [hf, FindEdge_congr _ _ he' hedgeN', cube_FindEdge0, hNe1]
  have hfind2 : poly.Ne (FindEdge (poly.f 2 1) (poly.f 2 2) poly) = ⟨1, 0, 0⟩ := by
    rw [hf, FindEdge_congr _ _ he' hedgeN', cube_FindEdge2, hNe6]
  refine ⟨poly, hc, ?_, ?_, ?_⟩
  · have hci := ComputeIntersection_edge12 EqualReal ⟨0, 0, 0⟩ 0 poly (1 / 4) ⟨0, 1 / 2, 1 / 2⟩
      (by rw [hb 0, cube_tri0]; exact cube_ptdO) t1 t2 t1 t3
    rw [PointInPolyhedron_eq EqualReal _ poly _ _ _ _ _ ((hloop _).trans cube_loopO) hci,
      hfind0, hb 0, cube_tri0]
    norm_num [Dot]
  · have hci := ComputeIntersection_edge12 EqualReal ⟨2, 0, 0⟩ 2 poly (9 / 4) ⟨0, 1 / 2, 1 / 2⟩
      (by rw [hb 2, cube_tri2]; exact cube_ptdA) t1 t2 t1 t3
    rw [PointInPolyhedron_eq EqualReal _ poly _ _ _ _ _ ((hloop _).trans cube_loopA) hci,
      hfind2, hb 2, cube_tri2]
    norm_num [Dot]
  · have hci := ComputeIntersection_edge12 EqualReal ⟨1 / 2, 0, 0⟩ 2 poly 0 ⟨0, 1 / 2, 1 / 2⟩
      (by rw [hb 2, cube_tri2]; exact cube_ptdB) t1 t2 t1 t3
    rw [PointInPolyhedron_eq EqualReal _ poly _ _ _ _ _ ((hloop _).trans cube_loopB) hci,
      hfind2, hb 2, cube_tri2]
    norm_num [Dot]

theorem LibmFacts_real : LibmFacts (⟨Real.sin, Real.cos, Real.sqrt, Real.arccos⟩ : Libm ℝ) := by
  refine ⟨fun x _ => Real.sqrt_nonneg x, fun x hx => Real.mul_self_sqrt hx, ?_, ?_, ?_⟩
  · intro x _ hx
    exact Real.arccos_pos.mpr hx
  · intro x hx
    have h1 : Real.arccos x ≤ Real.pi / 2 := Real.arccos_le_pi_div_two.mpr hx
    have h2 := Real.pi_lt_d2
    show Real.arccos x ≤ 8 / 5
    norm_num at h2
    linarith
  · intro x hx
    show Real.arccos x ≤ 1
    have h1 : Real.cos 1 ≤ x := le_trans Real.cos_one_le hx
    have h2 : Real.arccos x ≤ Real.arccos (Real.cos 1) := by
      rw [Real.arccos_eq_pi_div_two_sub_arcsin, Real.arccos_eq_pi_div_two_sub_arcsin]
      exact sub_le_sub_left (Real.monotone_arcsin h1) _
    rwa [Real.arccos_cos zero_le_one (by linarith [Real.pi_gt_three])] at h2

theorem Tolerant_exact : Tolerant (fun x y : ℝ => decide (x = y)) := by
  refine ⟨fun x => by simp, fun x y h => ?_⟩
  have hne : x ≠ y := by
    intro hxy
    rw [hxy, sub_self, abs_zero] at h
    norm_num at h
  simp [hne]

/-- C4, for the square root and arc cosine of the real numbers and exact
equality as `EqualReal`. -/
theorem PointInPolyhedron_unit_cube_witness :
    LibmFacts (⟨Real.sin, Real.cos, Real.sqrt, Real.arccos⟩ : Libm ℝ) ∧
    Tolerant (fun x y : ℝ => decide (x = y)) ∧
    ∃ poly, ComputeParametersPolyhedron ⟨Real.sin, Real.cos, Real.sqrt, Real.arccos⟩ COLLAPSEN
        (ConvertPolyhedron (fun x y : ℝ => decide (x = y)) cubeInput) = some poly ∧
      (PointInPolyhedron (fun x y : ℝ => decide (x = y)) ⟨0, 0, 0⟩ poly).map Prod.fst = some 1 ∧
      (PointInPolyhedron (fun x y : ℝ => decide (x = y)) ⟨2, 0, 0⟩ poly).map Prod.fst = some 0 ∧
      (PointInPolyhedron (fun x y : ℝ => decide (x = y)) ⟨1 / 2, 0, 0⟩ poly).map Prod.fst
        = some 1 :=
  ⟨LibmFacts_real, Tolerant_exact,
    PointInPolyhedron_unit_cube _ LibmFacts_real _ Tolerant_exact COLLAPSEN⟩

/-! ## FindEdge: symmetry and the lowest matching record (C11, C12) -/

theorem firstHit_spec (hit : Nat → Bool) (k start : Nat) :
    (∀ j, firstHit hit start k = some j →
      start ≤ j ∧ j < start + k ∧ hit j = true ∧ ∀ i, start ≤ i → i < j → hit i = false) ∧
    (firstHit hit start k = none → ∀ i, start ≤ i → i < start + k → hit i = false) := by
  induction k generalizing start with
  | zero =>
    refine ⟨fun j h => ?_, fun _ i h1 h2 => ?_⟩
    · simp [firstHit] at h
    · omega
  | succ k ih =>
    by_cases h0 : hit start = true
    · refine ⟨fun j h => ?_, fun h => ?_⟩
      · simp only [firstHit, h0, if_true, Option.some.injEq] at h
        subst h
        exact ⟨le_refl _, by omega, h0, fun i h1 h2 => by omega⟩
      · simp [firstHit, h0] at h
    · have h0f : hit start = false := by simpa using h0
      refine ⟨fun j h => ?_, fun h i h1 h2 => ?_⟩
      · simp only [firstHit, h0f, Bool.false_eq_true, if_false] at h
        obtain ⟨a, b, c, d⟩ := (ih (start + 1)).1 j h
        refine ⟨by omega, by omega, c, fun i h1 h2 => ?_⟩
        by_cases hi : i = start
        · rw [hi]; exact h0f
        · exact d i (by omega) h2
      · simp only [firstHit, h0f, Bool.false_eq_true, if_false] at h
        by_cases hi : i = start
        · rw [hi]; exact h0f
        · exact (ih (start + 1)).2 h i (by omega) (by omega)

theorem edgeMatch_iff (a b : Nat) (poly : Polyhedron R) (n : Nat) :
    edgeMatch a b poly n = true ↔ hasPair poly.e n a b := by
  unfold edgeMatch hasPair
  simp only [Bool.or_eq_true, Bool.and_eq_true, beq_iff_eq]
  constructor
  · rintro (⟨h1, h2⟩ | ⟨h1, h2⟩)
    · exact Or.inl ⟨h1.symm, h2.symm⟩
    · exact Or.inr ⟨h1.symm, h2.symm⟩
  · rintro (⟨h1, h2⟩ | ⟨h1, h2⟩)
    · exact Or.inl ⟨h1.symm, h2.symm⟩
    · exact Or.inr ⟨h1.symm, h2.symm⟩

theorem edgeMatch_false_iff (a b : Nat) (poly : Polyhedron R) (n : Nat) :
    edgeMatch a b poly n = false ↔ ¬ hasPair poly.e n a b := by
  rw [← edgeMatch_iff, Bool.not_eq_true]

theorem edgeMatch_comm (a b : Nat) (poly : Polyhedron R) :
    edgeMatch a b poly = edgeMatch b a poly := by
  funext n
  unfold edgeMatch
  exact Bool.or_comm _ _

/-- C11: `FindEdge(a, b) = FindEdge(b, a)` for every edge list and every pair
of vertex indices. -/
theorem FindEdge_symm (a b : Nat) (poly : Polyhedron R) :
    FindEdge a b poly = FindEdge b a poly := by
  unfold FindEdge
  rw [edgeMatch_comm a b poly]

theorem FindEdge_hit (a b : Nat) (poly : Polyhedron R) (n : Nat) (hn : n < poly.edgeN)
    (hp : hasPair poly.e n a b) (hb : ∀ i, i < n → ¬ hasPair poly.e i a b) :
    FindEdge a b poly = n := by
  unfold FindEdge
  rw [firstHit_some _ poly.edgeN 0 n (Nat.zero_le _) (by omega) ((edgeMatch_iff a b poly n).2 hp)
    (fun i _ hi => (edgeMatch_false_iff a b poly i).2 (hb i hi))]

theorem FindEdge_miss (a b : Nat) (poly : Polyhedron R)
    (h : ∀ i, i < poly.edgeN → ¬ hasPair poly.e i a b) : FindEdge a b poly = 0 := by
  unfold FindEdge
  rw [firstHit_none _ poly.edgeN 0
    (fun i _ hi => (edgeMatch_false_iff a b poly i).2 (h i (by omega)))]

/-- C12: `FindEdge(a, b)` returns the lowest index of a record with the pair
`{a, b}` in either order; it returns 0 when no record has the pair, also
for an empty edge list, which is what it returns for a hit at index 0. -/
theorem FindEdge_lowest (a b : Nat) (poly : Polyhedron R) :
    (∀ n, n < poly.edgeN → hasPair poly.e n a b → (∀ i, i < n → ¬ hasPair poly.e i a b) →
      FindEdge a b poly = n) ∧
    ((∃ n, n < poly.edgeN ∧ hasPair poly.e n a b) →
      FindEdge a b poly < poly.edgeN ∧ hasPair poly.e (FindEdge a b poly) a b ∧
      ∀ i, i < FindEdge a b poly → ¬ hasPair poly.e i a b) ∧
    ((∀ i, i < poly.edgeN → ¬ hasPair poly.e i a b) → FindEdge a b poly = 0) ∧
    (poly.edgeN = 0 → FindEdge a b poly = 0) ∧
    (0 < poly.edgeN → hasPair poly.e 0 a b → FindEdge a b poly = 0) := by
  refine ⟨FindEdge_hit a b poly, ?_, FindEdge_miss a b poly, ?_, ?_⟩
  · rintro ⟨n, hn, hp⟩
    cases hf : firstHit (edgeMatch a b poly) 0 poly.edgeN with
    | none =>
      have := (firstHit_spec _ poly.edgeN 0).2 hf n (Nat.zero_le _) (by omega)
      exact absurd hp ((edgeMatch_false_iff a b poly n).1 this)
    | some j =>
      obtain ⟨-, h2, h3, h4⟩ := (firstHit_spec _ poly.edgeN 0).1 j hf
      have hj : FindEdge a b poly = j := by unfold FindEdge; rw [hf]
      rw [hj]
      exact ⟨by omega, (edgeMatch_iff a b poly j).1 h3,
        fun i hi => (edgeMatch_false_iff a b poly i).1 (h4 i (Nat.zero_le _) hi)⟩
  · intro h0
    exact FindEdge_miss a b poly (fun i hi => by omega)
  · intro h0 hp
    exact FindEdge_hit a b poly 0 h0 hp (fun i hi => by omega)

/-- C12, on the tetrahedron fixture: the pair `{1, 2}` is stored in record 1
only, and the pair `{7, 9}` is stored nowhere. -/
theorem FindEdge_lowest_witness :
    FindEdge 2 1 (tetra : Polyhedron ℚ) = 1 ∧ FindEdge 1 2 (tetra : Polyhedron ℚ) = 1 ∧
    FindEdge 7 9 (tetra : Polyhedron ℚ) = 0 ∧ FindEdge 0 2 (tetra : Polyhedron ℚ) = 0 :=
  ⟨(FindEdge_lowest 2 1 tetra).1 1 (by decide) (by decide) (by decide),
   (FindEdge_lowest 1 2 tetra).1 1 (by decide) (by decide) (by decide),
   (FindEdge_lowest 7 9 tetra).2.2.1 (by decide),
   (FindEdge_lowest 0 2 tetra).2.2.2.2 (by decide) (by decide)⟩

/-! ## AddVertex, AddEdge and ComputeParametersSphere: the contracts (C14, C15, C19) -/

theorem vertexTest_iff (EqualReal : R → R → Bool) (v : RealVec R) (poly : Polyhedron R)
    (n : Nat) :
    (EqualReal v.X (poly.v n).X && EqualReal v.Y (poly.v n).Y &&
      EqualReal v.Z (poly.v n).Z) = true ↔ sameVertex EqualReal v (poly.v n) := by
  unfold sameVertex
  simp only [Bool.and_eq_true, and_assoc]

theorem vertexTest_false_iff (EqualReal : R → R → Bool) (v : RealVec R) (poly : Polyhedron R)
    (n : Nat) :
    (EqualReal v.X (poly.v n).X && EqualReal v.Y (poly.v n).Y &&
      EqualReal v.Z (poly.v n).Z) = false ↔ ¬ sameVertex EqualReal v (poly.v n) := by
  rw [← vertexTest_iff, Bool.not_eq_true]

theorem AddVertex_hit (EqualReal : R → R → Bool) (v : RealVec R) (poly : Polyhedron R)
    (n : Nat) (hn : n < poly.vertN) (hp : sameVertex EqualReal v (poly.v n))
    (hb : ∀ i, i < n → ¬ sameVertex EqualReal v (poly.v i)) :
    AddVertex EqualReal v poly = (n, poly) := by
  unfold AddVertex
  rw [firstHit_some _ poly.vertN 0 n (Nat.zero_le _) (by omega)
    ((vertexTest_iff EqualReal v poly n).2 hp)
    (fun i _ hi => (vertexTest_false_iff EqualReal v poly i).2 (hb i hi))]

theorem AddVertex_miss (EqualReal : R → R → Bool) (v : RealVec R) (poly : Polyhedron R)
    (h : ∀ i, i < poly.vertN → ¬ sameVertex EqualReal v (poly.v i)) :
    AddVertex EqualReal v poly
      = (poly.vertN, { poly with v := set1 poly.v poly.vertN v, vertN := poly.vertN + 1 }) := by
  unfold AddVertex
  rw [firstHit_none _ poly.vertN 0
    (fun i _ hi => (vertexTest_false_iff EqualReal v poly i).2 (h i (by omega)))]
  simp

/-- The two outcomes of `AddVertex`: either it returns an index below `vertN`
whose vertex passes the test, with the polyhedron unchanged, or no stored
vertex passes the test and `v` is appended. -/
theorem AddVertex_cases (EqualReal : R → R → Bool) (v : RealVec R) (poly : Polyhedron R) :
    (∃ n, n < poly.vertN ∧ sameVertex EqualReal v (poly.v n) ∧
      (∀ i, i < n → ¬ sameVertex EqualReal v (poly.v i)) ∧
      AddVertex EqualReal v poly = (n, poly)) ∨
    ((∀ i, i < poly.vertN → ¬ sameVertex EqualReal v (poly.v i)) ∧
      AddVertex EqualReal v poly
        = (poly.vertN, { poly with v := set1 poly.v poly.vertN v, vertN := poly.vertN + 1 })) := by
  cases hf : firstHit (fun n => EqualReal v.X (poly.v n).X && EqualReal v.Y (poly.v n).Y &&
      EqualReal v.Z (poly.v n).Z) 0 poly.vertN with
  | none =>
    have h : ∀ i, i < poly.vertN → ¬ sameVertex EqualReal v (poly.v i) := fun i hi =>
      (vertexTest_false_iff EqualReal v poly i).1
        ((firstHit_spec _ poly.vertN 0).2 hf i (Nat.zero_le _) (by omega))
    exact Or.inr ⟨h, AddVertex_miss EqualReal v poly h⟩
  | some j =>
    obtain ⟨-, h2, h3, h4⟩ := (firstHit_spec _ poly.vertN 0).1 j hf
    have hp := (vertexTest_iff EqualReal v poly j).1 h3
    have hb : ∀ i, i < j → ¬ sameVertex EqualReal v (poly.v i) := fun i hi =>
      (vertexTest_false_iff EqualReal v poly i).1 (h4 i (Nat.zero_le _) hi)
    exact Or.inl ⟨j, by omega, hp, hb, AddVertex_hit EqualReal v poly j (by omega) hp hb⟩

/-- C14: `AddVertex(v)` returns the lowest index whose stored vertex is
`EqualReal` to `v` in all three components and changes nothing; when no
stored vertex is, it stores `v` at index `vertN`, adds one to `vertN` and
returns the old `vertN`. The vertices stored before keep index and value,
and no other field of the polyhedron changes. -/
theorem AddVertex_contract (EqualReal : R → R → Bool) (v : RealVec R) (poly : Polyhedron R) :
    (∀ n, n < poly.vertN → sameVertex EqualReal v (poly.v n) →
      (∀ i, i < n → ¬ sameVertex EqualReal v (poly.v i)) →
      AddVertex EqualReal v poly = (n, poly)) ∧
    ((∀ i, i < poly.vertN → ¬ sameVertex EqualReal v (poly.v i)) →
      (AddVertex EqualReal v poly).1 = poly.vertN ∧
      (AddVertex EqualReal v poly).2.vertN = poly.vertN + 1 ∧
      (AddVertex EqualReal v poly).2.v poly.vertN = v) ∧
    (∀ i, i < poly.vertN → (AddVertex EqualReal v poly).2.v i = poly.v i) ∧
    (AddVertex EqualReal v poly).2
      = { poly with v := (AddVertex EqualReal v poly).2.v,
                    vertN := (AddVertex EqualReal v poly).2.vertN } := by
  refine ⟨AddVertex_hit EqualReal v poly, fun h => ?_, fun i hi => ?_, ?_⟩
  · rw [AddVertex_miss EqualReal v poly h]
    exact ⟨rfl, rfl, by simp [set1]⟩
  · rcases AddVertex_cases EqualReal v poly with ⟨n, -, -, -, h⟩ | ⟨-, h⟩
    · rw [h]
    · rw [h]
      simp only [set1]
      rw [if_neg (by omega)]
  · rcases AddVertex_cases EqualReal v poly with ⟨n, -, -, -, h⟩ | ⟨-, h⟩
    · rw [h]
    · rw [h]

/-- C14, on the tetrahedron fixture with exact equality as `EqualReal`: the
vertex `(0,1,0)` is found at index 2, the vertex `(5,5,5)` is appended at
index 4. -/
theorem AddVertex_contract_witness :
    AddVertex (fun x y : ℚ => decide (x = y)) ⟨0, 1, 0⟩ tetra = (2, tetra) ∧
    ((AddVertex (fun x y : ℚ => decide (x = y)) ⟨5, 5, 5⟩ tetra).1 = 4 ∧
      (AddVertex (fun x y : ℚ => decide (x = y)) ⟨5, 5, 5⟩ tetra).2.vertN = 4 + 1 ∧
      (AddVertex (fun x y : ℚ => decide (x = y)) ⟨5, 5, 5⟩ tetra).2.v 4 = ⟨5, 5, 5⟩) :=
  ⟨(AddVertex_contract (fun x y : ℚ => decide (x = y)) ⟨0, 1, 0⟩ tetra).1 2 (by decide)
      (by decide) (by decide),
   (AddVertex_contract (fun x y : ℚ => decide (x = y)) ⟨5, 5, 5⟩ tetra).2.1 (by decide)⟩

theorem AddEdge_hit (v0 v1 f : Nat) (poly : Polyhedron R) (n : Nat) (hn : n < poly.edgeN)
    (hp : hasPair poly.e n v0 v1) (hb : ∀ i, i < n → ¬ hasPair poly.e i v0 v1) :
    AddEdge v0 v1 f poly = { poly with e := set2 poly.e n 3 f } :=
  AddEdge_found v0 v1 f poly n hn ((edgeMatch_iff v0 v1 poly n).2 hp)
    (fun i hi => (edgeMatch_false_iff v0 v1 poly i).2 (hb i hi))

theorem AddEdge_miss (v0 v1 f : Nat) (poly : Polyhedron R)
    (h : ∀ i, i < poly.edgeN → ¬ hasPair poly.e i v0 v1) :
    AddEdge v0 v1 f poly
      = { poly with
          e := set2 (set2 (set2 poly.e poly.edgeN 0 v0) poly.edgeN 1 v1) poly.edgeN 2 f,
          edgeN := poly.edgeN + 1 } :=
  AddEdge_new v0 v1 f poly (fun i hi => (edgeMatch_false_iff v0 v1 poly i).2 (h i hi))

/-- The two outcomes of `AddEdge`. -/
theorem AddEdge_cases (v0 v1 f : Nat) (poly : Polyhedron R) :
    (∃ n, n < poly.edgeN ∧ hasPair poly.e n v0 v1 ∧ (∀ i, i < n → ¬ hasPair poly.e i v0 v1) ∧
      AddEdge v0 v1 f poly = { poly with e := set2 poly.e n 3 f }) ∨
    ((∀ i, i < poly.edgeN → ¬ hasPair poly.e i v0 v1) ∧
      AddEdge v0 v1 f poly
        = { poly with
            e := set2 (set2 (set2 poly.e poly.edgeN 0 v0) poly.edgeN 1 v1) poly.edgeN 2 f,
            edgeN := poly.edgeN + 1 }) := by
  cases hf : firstHit (edgeMatch v0 v1 poly) 0 poly.edgeN with
  | none =>
    have h : ∀ i, i < poly.edgeN → ¬ hasPair poly.e i v0 v1 := fun i hi =>
      (edgeMatch_false_iff v0 v1 poly i).1
        ((firstHit_spec _ poly.edgeN 0).2 hf i (Nat.zero_le _) (by omega))
    exact Or.inr ⟨h, AddEdge_miss v0 v1 f poly h⟩
  | some j =>
    obtain ⟨-, h2, h3, h4⟩ := (firstHit_spec _ poly.edgeN 0).1 j hf
    have hp := (edgeMatch_iff v0 v1 poly j).1 h3
    have hb : ∀ i, i < j → ¬ hasPair poly.e i v0 v1 := fun i hi =>
      (edgeMatch_false_iff v0 v1 poly i).1 (h4 i (Nat.zero_le _) hi)
    exact Or.inl ⟨j, by omega, hp, hb, AddEdge_hit v0 v1 f poly j (by omega) hp hb⟩

/-- C15: when some record has the pair `{v0, v1}`, `AddEdge(v0, v1, f)` sets
slot 3 of the first such record to `f` and changes no other entry and not
`edgeN`; otherwise it stores `v0`, `v1`, `f` in the slots 0, 1, 2 of record
`edgeN`, adds one to `edgeN` and changes no entry of another record. No
other field of the polyhedron changes. -/
theorem AddEdge_contract (v0 v1 f : Nat) (poly : Polyhedron R) :
    (∀ n, n < poly.edgeN → hasPair poly.e n v0 v1 →
      (∀ i, i < n → ¬ hasPair poly.e i v0 v1) →
      (AddEdge v0 v1 f poly).edgeN = poly.edgeN ∧ (AddEdge v0 v1 f poly).e n 3 = f ∧
      ∀ i k, ¬ (i = n ∧ k = 3) → (AddEdge v0 v1 f poly).e i k = poly.e i k) ∧
    ((∀ i, i < poly.edgeN → ¬ hasPair poly.e i v0 v1) →
      (AddEdge v0 v1 f poly).edgeN = poly.edgeN + 1 ∧
      (AddEdge v0 v1 f poly).e poly.edgeN 0 = v0 ∧
      (AddEdge v0 v1 f poly).e poly.edgeN 1 = v1 ∧
      (AddEdge v0 v1 f poly).e poly.edgeN 2 = f ∧
      ∀ i k, i ≠ poly.edgeN → (AddEdge v0 v1 f poly).e i k = poly.e i k) ∧
    AddEdge v0 v1 f poly
      = { poly with e := (AddEdge v0 v1 f poly).e, edgeN := (AddEdge v0 v1 f poly).edgeN } := by
  refine ⟨fun n hn hp hb => ?_, fun h => ?_, ?_⟩
  · rw [AddEdge_hit v0 v1 f poly n hn hp hb]
    refine ⟨rfl, by simp [set2], fun i k hik => ?_⟩
    simp only [set2]
    rw [if_neg hik]
  · rw [AddEdge_miss v0 v1 f poly h]
    refine ⟨rfl, by simp [set2], by simp [set2], by simp [set2], fun i k hi => ?_⟩
    simp only [set2]
    rw [if_neg (fun hh => hi hh.1), if_neg (fun hh => hi hh.1), if_neg (fun hh => hi hh.1)]
  · rcases AddEdge_cases v0 v1 f poly with ⟨n, -, -, -, h⟩ | ⟨-, h⟩
    · rw [h]
    · rw [h]

/-- C15, on the tetrahedron fixture: the pair `{1, 2}` is in record 1, whose
slot 3 becomes 9; the pair `{7, 9}` is in no record and becomes record 6. -/
theorem AddEdge_contract_witness :
    ((AddEdge 1 2 9 (tetra : Polyhedron ℚ)).edgeN = 6 ∧
      (AddEdge 1 2 9 (tetra : Polyhedron ℚ)).e 1 3 = 9 ∧
      ∀ i k, ¬ (i = 1 ∧ k = 3) →
        (AddEdge 1 2 9 (tetra : Polyhedron ℚ)).e i k = (tetra : Polyhedron ℚ).e i k) ∧
    ((AddEdge 7 9 5 (tetra : Polyhedron ℚ)).edgeN = 6 + 1 ∧
      (AddEdge 7 9 5 (tetra : Polyhedron ℚ)).e 6 0 = 7 ∧
      (AddEdge 7 9 5 (tetra : Polyhedron ℚ)).e 6 1 = 9 ∧
      (AddEdge 7 9 5 (tetra : Polyhedron ℚ)).e 6 2 = 5 ∧
      ∀ i k, i ≠ 6 →
        (AddEdge 7 9 5 (tetra : Polyhedron ℚ)).e i k = (tetra : Polyhedron ℚ).e i k) :=
  ⟨(AddEdge_contract 1 2 9 tetra).1 1 (by decide) (by decide) (by decide),
   (AddEdge_contract 7 9 5 tetra).2.1 (by decide)⟩

/-- C19: the area, the volume and the inertia tensor that
`ComputeParametersSphere` stores, without and with a collapsed dimension;
`314159265359 / 100000000000` is the constant `pi` of the routine. -/
theorem ComputeParametersSphere_formulas (poly : Polyhedron R) :
    ((ComputeParametersSphere COLLAPSEN poly).area
        = 4 * (314159265359 / 100000000000) * poly.r ^ 2 ∧
      (ComputeParametersSphere COLLAPSEN poly).volume
        = 4 / 3 * (314159265359 / 100000000000) * poly.r ^ 3 ∧
      (ComputeParametersSphere COLLAPSEN poly).I
        = ⟨⟨4 / 10 * poly.r ^ 2 * (ComputeParametersSphere COLLAPSEN poly).volume, 0, 0⟩,
           ⟨0, 4 / 10 * poly.r ^ 2 * (ComputeParametersSphere COLLAPSEN poly).volume, 0⟩,
           ⟨0, 0, 4 / 10 * poly.r ^ 2 * (ComputeParametersSphere COLLAPSEN poly).volume⟩⟩) ∧
    ∀ collapse : Int, collapse ≠ COLLAPSEN →
      (ComputeParametersSphere collapse poly).area
        = 2 * (314159265359 / 100000000000) * poly.r ∧
      (ComputeParametersSphere collapse poly).volume
        = 314159265359 / 100000000000 * poly.r ^ 2 ∧
      (ComputeParametersSphere collapse poly).I
        = ⟨⟨5 / 10 * poly.r ^ 2 * (ComputeParametersSphere collapse poly).volume, 0, 0⟩,
           ⟨0, 5 / 10 * poly.r ^ 2 * (ComputeParametersSphere collapse poly).volume, 0⟩,
           ⟨0, 0, 5 / 10 * poly.r ^ 2 * (ComputeParametersSphere collapse poly).volume⟩⟩ := by
  refine ⟨⟨?_, ?_, ?_⟩, fun collapse hc => ⟨?_, ?_, ?_⟩⟩
  · simp only [ComputeParametersSphere, if_true]
    ring
  · simp only [ComputeParametersSphere, if_true]
    ring
  · simp only [ComputeParametersSphere, if_true]
    ring_nf
  · simp only [ComputeParametersSphere, if_neg (Ne.symm hc)]
  · simp only [ComputeParametersSphere, if_neg (Ne.symm hc)]
    ring
  · simp only [ComputeParametersSphere, if_neg (Ne.symm hc)]
    ring_nf

/-- C19, for the radius 2 and the collapse tag 1: the area is `4 pi`, the
volume is `4 pi`, and the diagonal of the inertia tensor is `8 pi`. -/
theorem ComputeParametersSphere_formulas_witness :
    (ComputeParametersSphere 1 ({ (tetra : Polyhedron ℚ) with r := 2 })).area
        = 2 * (314159265359 / 100000000000) * 2 ∧
      (ComputeParametersSphere 1 ({ (tetra : Polyhedron ℚ) with r := 2 })).volume
        = 314159265359 / 100000000000 * 2 ^ 2 ∧
      (ComputeParametersSphere 1 ({ (tetra : Polyhedron ℚ) with r := 2 })).I
        = ⟨⟨5 / 10 * 2 ^ 2 *
              (ComputeParametersSphere 1 ({ (tetra : Polyhedron ℚ) with r := 2 })).volume, 0, 0⟩,
           ⟨0, 5 / 10 * 2 ^ 2 *
              (ComputeParametersSphere 1 ({ (tetra : Polyhedron ℚ) with r := 2 })).volume, 0⟩,
           ⟨0, 0, 5 / 10 * 2 ^ 2 *
              (ComputeParametersSphere 1 ({ (tetra : Polyhedron ℚ) with r := 2 })).volume⟩⟩ :=
  (ComputeParametersSphere_formulas ({ (tetra : Polyhedron ℚ) with r := 2 })).2 1 (by decide)

/-! ## The edge list under a sequence of AddEdge calls (C17) -/

theorem hasPair_iff_key (e : Nat → Nat → Nat) (n a b : Nat) :
    hasPair e n a b ↔ s(e n 0, e n 1) = s(a, b) := by
  unfold hasPair
  rw [Sym2.eq_iff]

theorem isSide_iff_key (f : Nat → Nat → Nat) (n a b : Nat) :
    isSide f n a b ↔
      s(f n 0, f n 1) = s(a, b) ∨ s(f n 1, f n 2) = s(a, b) ∨ s(f n 2, f n 0) = s(a, b) := by
  unfold isSide
  rw [Sym2.eq_iff, Sym2.eq_iff, Sym2.eq_iff]

theorem facesOf_concat (calls : List (Nat × Nat × Nat)) (c : Nat × Nat × Nat) (k : Sym2 Nat) :
    facesOf (calls ++ [c]) k
      = if s(c.1, c.2.1) = k then facesOf calls k ++ [c.2.2] else facesOf calls k := by
  unfold facesOf
  by_cases h : s(c.1, c.2.1) = k
  · simp [List.filter_append, h]
  · simp [List.filter_append, h]

theorem facesOf_append (l1 l2 : List (Nat × Nat × Nat)) (k : Sym2 Nat) :
    facesOf (l1 ++ l2) k = facesOf l1 k ++ facesOf l2 k := by
  unfold facesOf
  rw [List.filter_append, List.map_append]

theorem facesOf_eq_nil (calls : List (Nat × Nat × Nat)) (k : Sym2 Nat)
    (h : ∀ c, c ∈ calls → s(c.1, c.2.1) ≠ k) : facesOf calls k = [] := by
  unfold facesOf
  rw [List.map_eq_nil_iff, List.filter_eq_nil_iff]
  intro c hc
  simpa using h c hc

theorem EdgeInv_nil (poly : Polyhedron R) (h0 : poly.edgeN = 0) : EdgeInv [] poly := by
  refine ⟨fun i j hi => ?_, fun c hc => ?_, fun j hj => ?_, fun j hj => ?_⟩
  · omega
  · simp at hc
  · omega
  · omega

theorem EdgeInv_congr (calls : List (Nat × Nat × Nat)) (p q : Polyhedron R) (he : q.e = p.e)
    (hn : q.edgeN = p.edgeN) (h : EdgeInv calls p) : EdgeInv calls q := by
  unfold EdgeInv at h ⊢
  rw [he, hn]
  exact h

/-- One `AddEdge` call keeps the invariant of the edge list. -/
theorem EdgeInv_step (calls : List (Nat × Nat × Nat)) (a b n : Nat) (poly : Polyhedron R)
    (h : EdgeInv calls poly) : EdgeInv (calls ++ [(a, b, n)]) (AddEdge a b n poly) := by
  obtain ⟨hU, hC, hD, hE⟩ := h
  have hne : ∀ j, j < poly.edgeN → facesOf calls s(poly.e j 0, poly.e j 1) ≠ [] := by
    intro j hj hnil
    have := hD j hj
    rw [hnil] at this
    simp at this
  rcases AddEdge_cases a b n poly with ⟨j0, hj0, hp, -, heq⟩ | ⟨hmiss, heq⟩
  · have hk0 : s(poly.e j0 0, poly.e j0 1) = s(a, b) := (hasPair_iff_key _ _ _ _).1 hp
    have hk : ∀ j c, c ≠ 3 → (set2 poly.e j0 3 n) j c = poly.e j c := by
      intro j c hc
      simp only [set2]
      rw [if_neg (fun hh => hc hh.2)]
    rw [heq]
    refine ⟨fun i j hi hj hij => ?_, fun c hc => ?_, fun j hj => ?_, fun j hj hlen => ?_⟩
    · simp only [hk _ 0 (by decide), hk _ 1 (by decide)] at hij
      exact hU i j hi hj hij
    · simp only [hk _ 0 (by decide), hk _ 1 (by decide)]
      rcases List.mem_append.1 hc with hc | hc
      · exact hC c hc
      · rw [List.mem_singleton] at hc
        subst hc
        exact ⟨j0, hj0, hk0⟩
    · simp only [hk _ 0 (by decide), hk _ 1 (by decide), hk _ 2 (by decide)]
      rw [facesOf_concat]
      split_ifs with hc
      · rw [List.head?_append_of_ne_nil _ (hne j hj)]
        exact hD j hj
      · exact hD j hj
    · simp only [hk _ 0 (by decide), hk _ 1 (by decide)] at hlen ⊢
      rw [facesOf_concat] at hlen ⊢
      by_cases hjj : j = j0
      · subst hjj
        rw [if_pos hk0.symm, List.getLast?_concat]
        simp [set2]
      · have hc : ¬ (s(a, b) = s(poly.e j 0, poly.e j 1)) := by
          intro hc
          exact hjj (hU j j0 hj hj0 (hc.symm.trans hk0.symm))
        rw [if_neg hc] at hlen ⊢
        have : (set2 poly.e j0 3 n) j 3 = poly.e j 3 := by
          simp only [set2]
          rw [if_neg (fun hh => hjj hh.1)]
        rw [this]
        exact hE j hj hlen
  · have hmiss' : ∀ j, j < poly.edgeN → s(poly.e j 0, poly.e j 1) ≠ s(a, b) :=
      fun j hj hh => hmiss j hj ((hasPair_iff_key _ _ _ _).2 hh)
    have hold : ∀ j c, j ≠ poly.edgeN →
        (set2 (set2 (set2 poly.e poly.edgeN 0 a) poly.edgeN 1 b) poly.edgeN 2 n) j c
          = poly.e j c := by
      intro j c hj
      simp only [set2]
      rw [if_neg (fun hh => hj hh.1), if_neg (fun hh => hj hh.1), if_neg (fun hh => hj hh.1)]
    have hnew0 : (set2 (set2 (set2 poly.e poly.edgeN 0 a) poly.edgeN 1 b) poly.edgeN 2 n)
        poly.edgeN 0 = a := by simp [set2]
    have hnew1 : (set2 (set2 (set2 poly.e poly.edgeN 0 a) poly.edgeN 1 b) poly.edgeN 2 n)
        poly.edgeN 1 = b := by simp [set2]
    have hnew2 : (set2 (set2 (set2 poly.e poly.edgeN 0 a) poly.edgeN 1 b) poly.edgeN 2 n)
        poly.edgeN 2 = n := by simp [set2]
    have hnone : facesOf calls s(a, b) = [] := by
      apply facesOf_eq_nil
      intro c hc hcc
      obtain ⟨j, hj, hjk⟩ := hC c hc
      exact hmiss' j hj (hjk.trans hcc)
    rw [heq]
    refine ⟨fun i j hi hj hij => ?_, fun c hc => ?_, fun j hj => ?_, fun j hj hlen => ?_⟩
    · have hi' : i < poly.edgeN + 1 := hi
      have hj' : j < poly.edgeN + 1 := hj
      by_cases hie : i = poly.edgeN <;> by_cases hje : j = poly.edgeN
      · rw [hie, hje]
      · exfalso
        subst hie
        simp only [hnew0, hnew1, hold j _ hje] at hij
        exact hmiss' j (by omega) hij.symm
      · exfalso
        subst hje
        simp only [hnew0, hnew1, hold i _ hie] at hij
        exact hmiss' i (by omega) hij
      · simp only [hold i _ hie, hold j _ hje] at hij
        exact hU i j (by omega) (by omega) hij
    · rcases List.mem_append.1 hc with hc | hc
      · obtain ⟨j, hj, hjk⟩ := hC c hc
        refine ⟨j, Nat.lt_succ_of_lt hj, ?_⟩
        simp only [hold j _ (Nat.ne_of_lt hj)]
        exact hjk
      · rw [List.mem_singleton] at hc
        subst hc
        refine ⟨poly.edgeN, Nat.lt_succ_self _, ?_⟩
        simp only [hnew0, hnew1]
    · have hj' : j < poly.edgeN + 1 := hj
      by_cases hje : j = poly.edgeN
      · subst hje
        simp only [hnew0, hnew1, hnew2]
        rw [facesOf_concat, if_pos rfl, hnone]
        rfl
      · simp only [hold j _ hje]
        rw [facesOf_concat, if_neg (fun hh => hmiss' j (by omega) hh.symm)]
        exact hD j (by omega)
    · have hj' : j < poly.edgeN + 1 := hj
      by_cases hje : j = poly.edgeN
      · exfalso
        subst hje
        simp only [hnew0, hnew1] at hlen
        rw [facesOf_concat, if_pos rfl, hnone] at hlen
        simp at hlen
      · simp only [hold j _ hje] at hlen ⊢
        rw [facesOf_concat, if_neg (fun hh => hmiss' j (by omega) hh.symm)] at hlen ⊢
        exact hE j (by omega) hlen

theorem addEdges_concat (calls : List (Nat × Nat × Nat)) (c : Nat × Nat × Nat)
    (poly : Polyhedron R) :
    addEdges (calls ++ [c]) poly = AddEdge c.1 c.2.1 c.2.2 (addEdges calls poly) := by
  unfold addEdges
  rw [List.foldl_append]
  rfl

theorem EdgeInv_addEdges (calls : List (Nat × Nat × Nat)) (poly : Polyhedron R)
    (h0 : poly.edgeN = 0) : EdgeInv calls (addEdges calls poly) := by
  induction calls using List.reverseRecOn with
  | nil => exact EdgeInv_nil poly h0
  | append_singleton l c ih =>
    rw [addEdges_concat]
    exact EdgeInv_step l c.1 c.2.1 c.2.2 _ ih

/-- C17: after any sequence of `AddEdge` calls from an empty edge list, two
records that carry the same undirected vertex pair are one record. -/
theorem AddEdge_pairs_unique (calls : List (Nat × Nat × Nat)) (poly : Polyhedron R)
    (h0 : poly.edgeN = 0) :
    ∀ i j, i < (addEdges calls poly).edgeN → j < (addEdges calls poly).edgeN →
      hasPair (addEdges calls poly).e i ((addEdges calls poly).e j 0)
        ((addEdges calls poly).e j 1) → i = j := by
  intro i j hi hj hp
  exact (EdgeInv_addEdges calls poly h0).1 i j hi hj ((hasPair_iff_key _ _ _ _).1 hp)

/-- C17, for four calls with the pairs `{0,1}`, `{1,0}`, `{1,2}`, `{0,1}` on
the empty edge list of the cube input: two records are stored. -/
theorem AddEdge_pairs_unique_witness :
    (cubeInput : Polyhedron ℚ).edgeN = 0 ∧
    (addEdges [(0, 1, 0), (1, 0, 1), (1, 2, 0), (0, 1, 2)] (cubeInput : Polyhedron ℚ)).edgeN = 2 ∧
    ∀ i j,
      i < (addEdges [(0, 1, 0), (1, 0, 1), (1, 2, 0), (0, 1, 2)]
        (cubeInput : Polyhedron ℚ)).edgeN →
      j < (addEdges [(0, 1, 0), (1, 0, 1), (1, 2, 0), (0, 1, 2)]
        (cubeInput : Polyhedron ℚ)).edgeN →
      hasPair (addEdges [(0, 1, 0), (1, 0, 1), (1, 2, 0), (0, 1, 2)]
          (cubeInput : Polyhedron ℚ)).e i
        ((addEdges [(0, 1, 0), (1, 0, 1), (1, 2, 0), (0, 1, 2)]
          (cubeInput : Polyhedron ℚ)).e j 0)
        ((addEdges [(0, 1, 0), (1, 0, 1), (1, 2, 0), (0, 1, 2)]
          (cubeInput : Polyhedron ℚ)).e j 1) → i = j :=
  ⟨rfl, by rfl,
    AddEdge_pairs_unique [(0, 1, 0), (1, 0, 1), (1, 2, 0), (0, 1, 2)] cubeInput rfl⟩

/-! ## The loop of ConvertPolyhedron: what each statement leaves alone -/

/-- What `AddEdge` leaves alone: every field but `e` and `edgeN`. -/
theorem AddEdge_frame (a b n : Nat) (poly : Polyhedron R) :
    (AddEdge a b n poly).v = poly.v ∧ (AddEdge a b n poly).vertN = poly.vertN ∧
    (AddEdge a b n poly).f = poly.f ∧ (AddEdge a b n poly).facet = poly.facet ∧
    (AddEdge a b n poly).faceN = poly.faceN := by
  rcases AddEdge_cases a b n poly with ⟨j, -, -, -, h⟩ | ⟨-, h⟩
  · rw [h]
    exact ⟨rfl, rfl, rfl, rfl, rfl⟩
  · rw [h]
    exact ⟨rfl, rfl, rfl, rfl, rfl⟩

/-- The two outcomes of the statement `f[n][k] = AddVertex(x)`. -/
theorem addCorner_cases (EqualReal : R → R → Bool) (n k : Nat) (x : RealVec R)
    (poly : Polyhedron R) :
    (∃ j, j < poly.vertN ∧ sameVertex EqualReal x (poly.v j) ∧
      addCorner EqualReal n k x poly = { poly with f := set2 poly.f n k j }) ∨
    ((∀ i, i < poly.vertN → ¬ sameVertex EqualReal x (poly.v i)) ∧
      addCorner EqualReal n k x poly
        = { poly with v := set1 poly.v poly.vertN x, vertN := poly.vertN + 1,
                      f := set2 poly.f n k poly.vertN }) := by
  rcases AddVertex_cases EqualReal x poly with ⟨j, hj, hp, -, h⟩ | ⟨hm, h⟩
  · refine Or.inl ⟨j, hj, hp, ?_⟩
    unfold addCorner
    rw [h]
  · refine Or.inr ⟨hm, ?_⟩
    unfold addCorner
    rw [h]

/-- What the statement `f[n][k] = AddVertex(x)` leaves alone. -/
theorem addCorner_frame (EqualReal : R → R → Bool) (n k : Nat) (x : RealVec R)
    (poly : Polyhedron R) :
    (addCorner EqualReal n k x poly).e = poly.e ∧
    (addCorner EqualReal n k x poly).edgeN = poly.edgeN ∧
    (addCorner EqualReal n k x poly).facet = poly.facet ∧
    (addCorner EqualReal n k x poly).faceN = poly.faceN ∧
    poly.vertN ≤ (addCorner EqualReal n k x poly).vertN ∧
    (∀ i, i < poly.vertN → (addCorner EqualReal n k x poly).v i = poly.v i) ∧
    (∀ n' k', ¬ (n' = n ∧ k' = k) → (addCorner EqualReal n k x poly).f n' k' = poly.f n' k') := by
  rcases addCorner_cases EqualReal n k x poly with ⟨j, -, -, h⟩ | ⟨-, h⟩
  · rw [h]
    refine ⟨rfl, rfl, rfl, rfl, le_refl _, fun i _ => rfl, fun n' k' hh => ?_⟩
    simp only [set2]
    rw [if_neg hh]
  · rw [h]
    refine ⟨rfl, rfl, rfl, rfl, Nat.le_succ _, fun i hi => ?_, fun n' k' hh => ?_⟩
    · simp only [set1]
      rw [if_neg (by omega)]
    · simp only [set2]
      rw [if_neg hh]

/-- The six statements of the body of the loop of `ConvertPolyhedron`, with
the states between them named. -/
theorem convertFace_steps (EqualReal : R → R → Bool) (n : Nat) (poly : Polyhedron R) :
    ∃ p0 p1 p2 q0 q1 q2 : Polyhedron R,
      p0 = addCorner EqualReal n 0 (poly.facet n).v0 poly ∧
      p1 = addCorner EqualReal n 1 (p0.facet n).v1 p0 ∧
      p2 = addCorner EqualReal n 2 (p1.facet n).v2 p1 ∧
      q0 = AddEdge (p2.f n 0) (p2.f n 1) n p2 ∧
      q1 = AddEdge (q0.f n 1) (q0.f n 2) n q0 ∧
      q2 = AddEdge (q1.f n 2) (q1.f n 0) n q1 ∧
      convertFace EqualReal n poly = q2 :=
  ⟨_, _, _, _, _, _, rfl, rfl, rfl, rfl, rfl, rfl, rfl⟩

/-- The face loop of `ConvertPolyhedron` writes row `n` of `f` in iteration
`n` only and leaves `facet` and `faceN` alone. -/
theorem convertFace_frame (EqualReal : R → R → Bool) (n : Nat) (poly : Polyhedron R) :
    (convertFace EqualReal n poly).facet = poly.facet ∧
    (convertFace EqualReal n poly).faceN = poly.faceN ∧
    (∀ n' k', n' ≠ n → (convertFace EqualReal n poly).f n' k' = poly.f n' k') := by
  obtain ⟨p0, p1, p2, q0, q1, q2, h0, h1, h2, e0, e1, e2, hq⟩ :=
    convertFace_steps EqualReal n poly
  have a0 := addCorner_frame EqualReal n 0 (poly.facet n).v0 poly
  have a1 := addCorner_frame EqualReal n 1 (p0.facet n).v1 p0
  have a2 := addCorner_frame EqualReal n 2 (p1.facet n).v2 p1
  have b0 := AddEdge_frame (p2.f n 0) (p2.f n 1) n p2
  have b1 := AddEdge_frame (q0.f n 1) (q0.f n 2) n q0
  have b2 := AddEdge_frame (q1.f n 2) (q1.f n 0) n q1
  rw [← h0] at a0
  rw [← h1] at a1
  rw [← h2] at a2
  rw [← e0] at b0
  rw [← e1] at b1
  rw [← e2] at b2
  rw [hq]
  refine ⟨?_, ?_, fun n' k' hn => ?_⟩
  · rw [b2.2.2.2.1, b1.2.2.2.1, b0.2.2.2.1, a2.2.2.1, a1.2.2.1, a0.2.2.1]
  · rw [b2.2.2.2.2, b1.2.2.2.2, b0.2.2.2.2, a2.2.2.2.1, a1.2.2.2.1, a0.2.2.2.1]
  · rw [b2.2.2.1, b1.2.2.1, b0.2.2.1, a2.2.2.2.2.2.2 n' k' (fun hh => hn hh.1),
      a1.2.2.2.2.2.2 n' k' (fun hh => hn hh.1), a0.2.2.2.2.2.2 n' k' (fun hh => hn hh.1)]

theorem convertLoop_frame (EqualReal : R → R → Bool) (k : Nat) (poly : Polyhedron R) :
    (convertLoop EqualReal k poly).facet = poly.facet ∧
    (convertLoop EqualReal k poly).faceN = poly.faceN ∧
    (∀ n' k', k ≤ n' → (convertLoop EqualReal k poly).f n' k' = poly.f n' k') := by
  induction k with
  | zero => exact ⟨rfl, rfl, fun _ _ _ => rfl⟩
  | succ k ih =>
    have hf := convertFace_frame EqualReal k (convertLoop EqualReal k poly)
    refine ⟨?_, ?_, fun n' k' hn => ?_⟩
    · show (convertFace EqualReal k (convertLoop EqualReal k poly)).facet = _
      rw [hf.1, ih.1]
    · show (convertFace EqualReal k (convertLoop EqualReal k poly)).faceN = _
      rw [hf.2.1, ih.2.1]
    · show (convertFace EqualReal k (convertLoop EqualReal k poly)).f n' k' = _
      rw [hf.2.2 n' k' (by omega), ih.2.2 n' k' (by omega)]

/-- Row `n` of `f` is final once iteration `n` of the loop of
`ConvertPolyhedron` is over. -/
theorem convertLoop_f_stable (EqualReal : R → R → Bool) (poly : Polyhedron R) (k K : Nat)
    (hk : k ≤ K) (n c : Nat) (hn : n < k) :
    (convertLoop EqualReal K poly).f n c = (convertLoop EqualReal k poly).f n c := by
  induction K with
  | zero =>
    have : k = 0 := by omega
    subst this
    rfl
  | succ K ih =>
    by_cases hkK : k = K + 1
    · rw [hkK]
    · show (convertFace EqualReal K (convertLoop EqualReal K poly)).f n c = _
      rw [(convertFace_frame EqualReal K (convertLoop EqualReal K poly)).2.2 n c (by omega)]
      exact ih (by omega)

theorem allCalls_congr (f g : Nat → Nat → Nat) (k : Nat)
    (h : ∀ n c, n < k → f n c = g n c) : allCalls f k = allCalls g k := by
  induction k with
  | zero => rfl
  | succ k ih =>
    simp only [allCalls, faceCalls]
    rw [ih (fun n c hn => h n c (by omega)), h k 0 (by omega), h k 1 (by omega),
      h k 2 (by omega)]

/-- The edge list after `k` iterations of the loop of `ConvertPolyhedron`,
started on an empty edge list, in terms of the rows of `f` written so far. -/
theorem EdgeInv_convertLoop (EqualReal : R → R → Bool) (poly : Polyhedron R)
    (h0 : poly.edgeN = 0) (k : Nat) :
    EdgeInv (allCalls (convertLoop EqualReal k poly).f k) (convertLoop EqualReal k poly) := by
  induction k with
  | zero => exact EdgeInv_nil poly h0
  | succ k ih =>
    obtain ⟨p0, p1, p2, q0, q1, q2, h0, h1, h2, e0, e1, e2, hq⟩ :=
      convertFace_steps EqualReal k (convertLoop EqualReal k poly)
    have a0 := addCorner_frame EqualReal k 0 ((convertLoop EqualReal k poly).facet k).v0
      (convertLoop EqualReal k poly)
    have a1 := addCorner_frame EqualReal k 1 (p0.facet k).v1 p0
    have a2 := addCorner_frame EqualReal k 2 (p1.facet k).v2 p1
    have b0 := AddEdge_frame (p2.f k 0) (p2.f k 1) k p2
    have b1 := AddEdge_frame (q0.f k 1) (q0.f k 2) k q0
    have b2 := AddEdge_frame (q1.f k 2) (q1.f k 0) k q1
    rw [← h0] at a0
    rw [← h1] at a1
    rw [← h2] at a2
    rw [← e0] at b0
    rw [← e1] at b1
    rw [← e2] at b2
    have hrows : ∀ n c, n < k → p2.f n c = (convertLoop EqualReal k poly).f n c := by
      intro n c hn
      have hne : ¬ (n = k) := by omega
      rw [a2.2.2.2.2.2.2 n c (fun hh => hne hh.1), a1.2.2.2.2.2.2 n c (fun hh => hne hh.1),
        a0.2.2.2.2.2.2 n c (fun hh => hne hh.1)]
    have i0 : EdgeInv (allCalls p2.f k) p2 := by
      rw [allCalls_congr p2.f (convertLoop EqualReal k poly).f k hrows]
      refine EdgeInv_congr _ (convertLoop EqualReal k poly) p2 ?_ ?_ ih
      · rw [a2.1, a1.1, a0.1]
      · rw [a2.2.1, a1.2.1, a0.2.1]
    have i1 := EdgeInv_step _ (p2.f k 0) (p2.f k 1) k p2 i0
    rw [← e0] at i1
    have i2 := EdgeInv_step _ (q0.f k 1) (q0.f k 2) k q0 i1
    rw [← e1] at i2
    have i3 := EdgeInv_step _ (q1.f k 2) (q1.f k 0) k q1 i2
    rw [← e2] at i3
    have hf2 : q2.f = p2.f := by rw [b2.2.2.1, b1.2.2.1, b0.2.2.1]
    have hf1 : q1.f = p2.f := by rw [b1.2.2.1, b0.2.2.1]
    have hf0 : q0.f = p2.f := b0.2.2.1
    show EdgeInv (allCalls (convertFace EqualReal k (convertLoop EqualReal k poly)).f (k + 1))
      (convertFace EqualReal k (convertLoop EqualReal k poly))
    rw [hq, hf2]
    rw [hf1, hf0] at i3
    simp only [allCalls, faceCalls]
    simpa [List.append_assoc] using i3

/-! ## ConvertPolyhedron on a closed mesh (C13) -/

theorem mem_facesOf (calls : List (Nat × Nat × Nat)) (k : Sym2 Nat) (m : Nat) :
    m ∈ facesOf calls k ↔ ∃ c, c ∈ calls ∧ s(c.1, c.2.1) = k ∧ c.2.2 = m := by
  unfold facesOf
  simp only [List.mem_map, List.mem_filter, decide_eq_true_eq, and_assoc]

theorem mem_facesOf_faceCalls (f : Nat → Nat → Nat) (n a b m : Nat) :
    m ∈ facesOf (faceCalls f n) s(a, b) ↔ m = n ∧ isSide f n a b := by
  rw [mem_facesOf, isSide_iff_key]
  unfold faceCalls
  constructor
  · rintro ⟨c, hc, hk, hm⟩
    simp only [List.mem_cons, List.mem_singleton, List.not_mem_nil, or_false] at hc
    rcases hc with rfl | rfl | rfl
    · exact ⟨hm.symm, Or.inl hk⟩
    · exact ⟨hm.symm, Or.inr (Or.inl hk)⟩
    · exact ⟨hm.symm, Or.inr (Or.inr hk)⟩
  · rintro ⟨rfl, h | h | h⟩
    · exact ⟨_, List.mem_cons_self _ _, h, rfl⟩
    · exact ⟨_, List.mem_cons_of_mem _ (List.mem_cons_self _ _), h, rfl⟩
    · exact ⟨_, List.mem_cons_of_mem _ (List.mem_cons_of_mem _ (List.mem_cons_self _ _)), h, rfl⟩

theorem mem_facesOf_allCalls (f : Nat → Nat → Nat) (K a b m : Nat) :
    m ∈ facesOf (allCalls f K) s(a, b) ↔ m < K ∧ isSide f m a b := by
  induction K with
  | zero => simp [allCalls, facesOf]
  | succ K ih =>
    simp only [allCalls]
    rw [facesOf_append, List.mem_append, ih, mem_facesOf_faceCalls]
    constructor
    · rintro (⟨h1, h2⟩ | ⟨rfl, h2⟩)
      · exact ⟨by omega, h2⟩
      · exact ⟨by omega, h2⟩
    · rintro ⟨h1, h2⟩
      by_cases hm : m = K
      · subst hm
        exact Or.inr ⟨rfl, h2⟩
      · exact Or.inl ⟨by omega, h2⟩

/-- The calls of `ConvertPolyhedron` name their faces in increasing order. -/
theorem facesOf_allCalls_sorted (f : Nat → Nat → Nat) (K a b : Nat) :
    (facesOf (allCalls f K) s(a, b)).Pairwise (fun x y => x ≤ y) := by
  induction K with
  | zero => simp [allCalls, facesOf]
  | succ K ih =>
    simp only [allCalls]
    rw [facesOf_append, List.pairwise_append]
    refine ⟨ih, ?_, fun x hx y hy => ?_⟩
    · rw [List.pairwise_iff_forall_sublist]
      intro x y hxy
      have hx := hxy.subset (List.mem_cons_self _ _)
      have hy := hxy.subset (List.mem_cons_of_mem _ (List.mem_cons_self _ _))
      rw [((mem_facesOf_faceCalls f K a b x).1 hx).1, ((mem_facesOf_faceCalls f K a b y).1 hy).1]
    · have hx' := ((mem_facesOf_allCalls f K a b x).1 hx).1
      rw [((mem_facesOf_faceCalls f K a b y).1 hy).1]
      omega

theorem sorted_head_le (L : List Nat) (h : Nat) (hs : L.Pairwise (fun x y => x ≤ y))
    (hh : L.head? = some h) : ∀ m, m ∈ L → h ≤ m := by
  cases L with
  | nil => simp at hh
  | cons a t =>
    simp only [List.head?_cons, Option.some.injEq] at hh
    subst hh
    intro m hm
    rcases List.mem_cons.1 hm with rfl | hm
    · exact le_refl _
    · exact List.rel_of_pairwise_cons hs hm

theorem sorted_le_last (L : List Nat) (l : Nat) (hs : L.Pairwise (fun x y => x ≤ y))
    (hl : L.getLast? = some l) : ∀ m, m ∈ L → m ≤ l := by
  obtain ⟨ys, rfl⟩ := List.getLast?_eq_some_iff.1 hl
  intro m hm
  rcases List.mem_append.1 hm with hm | hm
  · exact (List.pairwise_append.1 hs).2.2 m hm l (List.mem_singleton_self l)
  · rw [List.mem_singleton] at hm
    rw [hm]

theorem two_le_length_of_mem (L : List Nat) (a b : Nat) (ha : a ∈ L) (hb : b ∈ L)
    (hab : a ≠ b) : 2 ≤ L.length := by
  match L, ha, hb with
  | [], ha, _ => simp at ha
  | [x], ha, hb =>
    rw [List.mem_singleton] at ha hb
    exact absurd (ha.trans hb.symm) hab
  | _ :: _ :: _, _, _ => simp

theorem mem_sideFaces (f : Nat → Nat → Nat) (K a b m : Nat) :
    m ∈ sideFaces f K a b ↔ m < K ∧ isSide f m a b := by
  unfold sideFaces
  simp only [List.mem_filter, List.mem_range, decide_eq_true_eq]

theorem sideFaces_sorted (f : Nat → Nat → Nat) (K a b : Nat) :
    (sideFaces f K a b).Pairwise (fun x y => x < y) :=
  List.Pairwise.filter _ (List.pairwise_lt_range K)

/-- C13: when `ConvertPolyhedron` starts on an empty edge list and every pair
that is a side of a face is a side of exactly two faces, the faces that
have the pair of an edge record as a side are, in increasing order, the
entries of its slots 2 and 3. -/
theorem ConvertPolyhedron_closed_mesh (EqualReal : R → R → Bool) (poly : Polyhedron R)
    (h0 : poly.edgeN = 0)
    (hclosed : ∀ n a b, n < poly.faceN → isSide (ConvertPolyhedron EqualReal poly).f n a b →
      (sideFaces (ConvertPolyhedron EqualReal poly).f poly.faceN a b).length = 2) :
    ∀ j, j < (ConvertPolyhedron EqualReal poly).edgeN →
      sideFaces (ConvertPolyhedron EqualReal poly).f poly.faceN
          ((ConvertPolyhedron EqualReal poly).e j 0) ((ConvertPolyhedron EqualReal poly).e j 1)
        = [(ConvertPolyhedron EqualReal poly).e j 2, (ConvertPolyhedron EqualReal poly).e j 3] ∧
      (ConvertPolyhedron EqualReal poly).e j 2 < (ConvertPolyhedron EqualReal poly).e j 3 := by
  intro j hj
  unfold ConvertPolyhedron at hclosed hj ⊢
  obtain ⟨-, -, hD, hE⟩ := EdgeInv_convertLoop EqualReal poly h0 poly.faceN
  have hD := hD j hj
  have hE := hE j hj
  have hsort := facesOf_allCalls_sorted (convertLoop EqualReal poly.faceN poly).f poly.faceN
    ((convertLoop EqualReal poly.faceN poly).e j 0) ((convertLoop EqualReal poly.faceN poly).e j 1)
  have hmem := mem_facesOf_allCalls (convertLoop EqualReal poly.faceN poly).f poly.faceN
    ((convertLoop EqualReal poly.faceN poly).e j 0) ((convertLoop EqualReal poly.faceN poly).e j 1)
  have hside := mem_sideFaces (convertLoop EqualReal poly.faceN poly).f poly.faceN
    ((convertLoop EqualReal poly.faceN poly).e j 0) ((convertLoop EqualReal poly.faceN poly).e j 1)
  have hfirst := (hmem _).1 (List.mem_of_mem_head? hD)
  obtain ⟨n1, n2, h12⟩ := List.length_eq_two.1
    (hclosed _ _ _ hfirst.1 hfirst.2)
  have hlt : n1 < n2 := by
    have := sideFaces_sorted (convertLoop EqualReal poly.faceN poly).f poly.faceN
      ((convertLoop EqualReal poly.faceN poly).e j 0)
      ((convertLoop EqualReal poly.faceN poly).e j 1)
    rw [h12] at this
    exact List.rel_of_pairwise_cons this (List.mem_singleton_self _)
  have hin : ∀ m, m ∈ facesOf (allCalls (convertLoop EqualReal poly.faceN poly).f poly.faceN)
      s((convertLoop EqualReal poly.faceN poly).e j 0,
        (convertLoop EqualReal poly.faceN poly).e j 1) ↔ m = n1 ∨ m = n2 := by
    intro m
    rw [hmem, ← hside, h12]
    simp
  have e2 : (convertLoop EqualReal poly.faceN poly).e j 2 = n1 := by
    have hle := sorted_head_le _ _ hsort hD n1 ((hin n1).2 (Or.inl rfl))
    rcases (hin _).1 (List.mem_of_mem_head? hD) with h | h
    · exact h
    · omega
  have hlen := two_le_length_of_mem _ n1 n2 ((hin n1).2 (Or.inl rfl)) ((hin n2).2 (Or.inr rfl))
    (Nat.ne_of_lt hlt)
  have hlast := hE hlen
  have e3 : (convertLoop EqualReal poly.faceN poly).e j 3 = n2 := by
    have hle := sorted_le_last _ _ hsort hlast n2 ((hin n2).2 (Or.inr rfl))
    rcases (hin _).1 (List.mem_of_getLast?_eq_some hlast) with h | h
    · omega
    · exact h
  rw [e2, e3]
  exact ⟨h12, hlt⟩

theorem isSide_swap (f : Nat → Nat → Nat) (n a b : Nat) : isSide f n a b ↔ isSide f n b a := by
  unfold isSide
  tauto

theorem sideFaces_swap (f : Nat → Nat → Nat) (K a b : Nat) :
    sideFaces f K a b = sideFaces f K b a := by
  unfold sideFaces
  congr 1
  funext m
  rw [decide_eq_decide]
  exact isSide_swap f m a b

/-- The closed-mesh condition, checked on the three sides of each face. -/
theorem closed_of_sides (f : Nat → Nat → Nat) (K : Nat)
    (h : ∀ n, n < K → (sideFaces f K (f n 0) (f n 1)).length = 2 ∧
      (sideFaces f K (f n 1) (f n 2)).length = 2 ∧ (sideFaces f K (f n 2) (f n 0)).length = 2) :
    ∀ n a b, n < K → isSide f n a b → (sideFaces f K a b).length = 2 := by
  intro n a b hn hs
  obtain ⟨h1, h2, h3⟩ := h n hn
  rcases hs with (⟨ha, hb⟩ | ⟨ha, hb⟩) | (⟨ha, hb⟩ | ⟨ha, hb⟩) | (⟨ha, hb⟩ | ⟨ha, hb⟩)
  · rw [← ha, ← hb]; exact h1
  · rw [sideFaces_swap, ← ha, ← hb]; exact h1
  · rw [← ha, ← hb]; exact h2
  · rw [sideFaces_swap, ← ha, ← hb]; exact h2
  · rw [← ha, ← hb]; exact h3
  · rw [sideFaces_swap, ← ha, ← hb]; exact h3

theorem cube_sides : ∀ n, n < 12 → (sideFaces cubeF12 12 (cubeF12 n 0) (cubeF12 n 1)).length = 2 ∧
    (sideFaces cubeF12 12 (cubeF12 n 1) (cubeF12 n 2)).length = 2 ∧
    (sideFaces cubeF12 12 (cubeF12 n 2) (cubeF12 n 0)).length = 2 := by
  decide

theorem cube_closed (EqualReal : R → R → Bool) (hE : Tolerant EqualReal) :
    ∀ n a b, n < (cubeInput : Polyhedron R).faceN →
      isSide (ConvertPolyhedron EqualReal (cubeInput : Polyhedron R)).f n a b →
      (sideFaces (ConvertPolyhedron EqualReal (cubeInput : Polyhedron R)).f
        (cubeInput : Polyhedron R).faceN a b).length = 2 := by
  rw [ConvertPolyhedron_cube EqualReal hE]
  exact closed_of_sides cubeF12 12 cube_sides

/-- C13, for the cube input and exact equality as `EqualReal`. -/
theorem ConvertPolyhedron_closed_mesh_witness :
    (cubeInput : Polyhedron ℝ).edgeN = 0 ∧
    (∀ n a b, n < (cubeInput : Polyhedron ℝ).faceN →
      isSide (ConvertPolyhedron (fun x y : ℝ => decide (x = y)) cubeInput).f n a b →
      (sideFaces (ConvertPolyhedron (fun x y : ℝ => decide (x = y)) cubeInput).f
        (cubeInput : Polyhedron ℝ).faceN a b).length = 2) ∧
    ∀ j, j < (ConvertPolyhedron (fun x y : ℝ => decide (x = y)) cubeInput).edgeN →
      sideFaces (ConvertPolyhedron (fun x y : ℝ => decide (x = y)) cubeInput).f
          (cubeInput : Polyhedron ℝ).faceN
          ((ConvertPolyhedron (fun x y : ℝ => decide (x = y)) cubeInput).e j 0)
          ((ConvertPolyhedron (fun x y : ℝ => decide (x = y)) cubeInput).e j 1)
        = [(ConvertPolyhedron (fun x y : ℝ => decide (x = y)) cubeInput).e j 2,
           (ConvertPolyhedron (fun x y : ℝ => decide (x = y)) cubeInput).e j 3] ∧
      (ConvertPolyhedron (fun x y : ℝ => decide (x = y)) cubeInput).e j 2
        < (ConvertPolyhedron (fun x y : ℝ => decide (x = y)) cubeInput).e j 3 :=
  ⟨rfl, cube_closed _ Tolerant_exact,
    ConvertPolyhedron_closed_mesh _ cubeInput rfl (cube_closed _ Tolerant_exact)⟩

/-! ## ConvertPolyhedron: distinct vertices and the reproduced facets (C16, C18) -/

theorem VertsDistinct_addCorner (EqualReal : R → R → Bool) (n k : Nat) (x : RealVec R)
    (poly : Polyhedron R) (h : VertsDistinct EqualReal poly) :
    VertsDistinct EqualReal (addCorner EqualReal n k x poly) := by
  rcases addCorner_cases EqualReal n k x poly with ⟨j, -, -, heq⟩ | ⟨hmiss, heq⟩
  · rw [heq]
    exact h
  · rw [heq]
    intro i j hij hj
    have hj' : j < poly.vertN + 1 := hj
    show ¬ sameVertex EqualReal (set1 poly.v poly.vertN x j) (set1 poly.v poly.vertN x i)
    simp only [set1]
    by_cases hje : j = poly.vertN
    · rw [if_pos hje, if_neg (by omega)]
      exact hmiss i (by omega)
    · rw [if_neg hje, if_neg (by omega)]
      exact h i j hij (by omega)

theorem VertsDistinct_congr (EqualReal : R → R → Bool) (p q : Polyhedron R) (hv : q.v = p.v)
    (hn : q.vertN = p.vertN) (h : VertsDistinct EqualReal p) : VertsDistinct EqualReal q := by
  unfold VertsDistinct at h ⊢
  rw [hv, hn]
  exact h

theorem VertsDistinct_convertFace (EqualReal : R → R → Bool) (n : Nat) (poly : Polyhedron R)
    (h : VertsDistinct EqualReal poly) : VertsDistinct EqualReal (convertFace EqualReal n poly) := by
  obtain ⟨p0, p1, p2, q0, q1, q2, h0, h1, h2, e0, e1, e2, hq⟩ :=
    convertFace_steps EqualReal n poly
  have b0 := AddEdge_frame (p2.f n 0) (p2.f n 1) n p2
  have b1 := AddEdge_frame (q0.f n 1) (q0.f n 2) n q0
  have b2 := AddEdge_frame (q1.f n 2) (q1.f n 0) n q1
  rw [← e0] at b0
  rw [← e1] at b1
  rw [← e2] at b2
  have d0 : VertsDistinct EqualReal p0 := h0 ▸ VertsDistinct_addCorner EqualReal n 0 _ poly h
  have d1 : VertsDistinct EqualReal p1 := h1 ▸ VertsDistinct_addCorner EqualReal n 1 _ p0 d0
  have d2 : VertsDistinct EqualReal p2 := h2 ▸ VertsDistinct_addCorner EqualReal n 2 _ p1 d1
  rw [hq]
  refine VertsDistinct_congr EqualReal p2 q2 ?_ ?_ d2
  · rw [b2.1, b1.1, b0.1]
  · rw [b2.2.1, b1.2.1, b0.2.1]

theorem VertsDistinct_convertLoop (EqualReal : R → R → Bool) (poly : Polyhedron R)
    (h0 : poly.vertN = 0) (k : Nat) : VertsDistinct EqualReal (convertLoop EqualReal k poly) := by
  induction k with
  | zero =>
    intro i j _ hj
    have : j < poly.vertN := hj
    omega
  | succ k ih => exact VertsDistinct_convertFace EqualReal k _ ih

/-- C16: after `ConvertPolyhedron` from an empty vertex list, with a
symmetric `EqualReal`, no two stored vertices of different indices are
`EqualReal` in all three components. -/
theorem ConvertPolyhedron_vertices_distinct (EqualReal : R → R → Bool)
    (hsym : ∀ x y, EqualReal x y = EqualReal y x) (poly : Polyhedron R)
    (h0 : poly.vertN = 0) :
    ∀ i j, i < j → j < (ConvertPolyhedron EqualReal poly).vertN →
      ¬ sameVertex EqualReal ((ConvertPolyhedron EqualReal poly).v i)
          ((ConvertPolyhedron EqualReal poly).v j) ∧
      ¬ sameVertex EqualReal ((ConvertPolyhedron EqualReal poly).v j)
          ((ConvertPolyhedron EqualReal poly).v i) := by
  intro i j hij hj
  have h := VertsDistinct_convertLoop EqualReal poly h0 poly.faceN i j hij hj
  refine ⟨fun hs => h ?_, h⟩
  unfold sameVertex at hs ⊢
  rw [hsym, hsym _ ((convertLoop EqualReal poly.faceN poly).v i).Y,
    hsym _ ((convertLoop EqualReal poly.faceN poly).v i).Z]
  exact hs

/-- C16, for the cube input and exact equality as `EqualReal`. -/
theorem ConvertPolyhedron_vertices_distinct_witness :
    (∀ x y : ℚ, decide (x = y) = decide (y = x)) ∧ (cubeInput : Polyhedron ℚ).vertN = 0 ∧
    ∀ i j, i < j → j < (ConvertPolyhedron (fun x y : ℚ => decide (x = y)) cubeInput).vertN →
      ¬ sameVertex (fun x y : ℚ => decide (x = y))
          ((ConvertPolyhedron (fun x y : ℚ => decide (x = y)) cubeInput).v i)
          ((ConvertPolyhedron (fun x y : ℚ => decide (x = y)) cubeInput).v j) ∧
      ¬ sameVertex (fun x y : ℚ => decide (x = y))
          ((ConvertPolyhedron (fun x y : ℚ => decide (x = y)) cubeInput).v j)
          ((ConvertPolyhedron (fun x y : ℚ => decide (x = y)) cubeInput).v i) :=
  ⟨fun x y => by simp only [eq_comm], rfl,
    ConvertPolyhedron_vertices_distinct (fun x y : ℚ => decide (x = y))
      (fun x y => by simp only [eq_comm]) cubeInput rfl⟩

theorem Reproduces_addCorner (EqualReal : R → R → Bool) (hrefl : ∀ x, EqualReal x x = true)
    (n k : Nat) (poly : Polyhedron R) :
    Reproduces EqualReal (addCorner EqualReal n k (corner (poly.facet n) k) poly) n k := by
  rcases addCorner_cases EqualReal n k (corner (poly.facet n) k) poly with
    ⟨j, hj, hs, heq⟩ | ⟨-, heq⟩
  · rw [heq]
    unfold Reproduces
    simp only [set2, and_self, if_true]
    exact ⟨hj, hs⟩
  · rw [heq]
    unfold Reproduces
    simp only [set2, set1, and_self, if_true]
    exact ⟨Nat.lt_succ_self _, hrefl _, hrefl _, hrefl _⟩

/-- A step that keeps the facets, the stored vertices and entry `(n, c)` of
`f` keeps corner `c` of face `n` reproduced. -/
theorem Reproduces_keep (EqualReal : R → R → Bool) (p q : Polyhedron R) (n c : Nat)
    (hfacet : q.facet = p.facet) (hle : p.vertN ≤ q.vertN)
    (hv : ∀ i, i < p.vertN → q.v i = p.v i) (hf : q.f n c = p.f n c)
    (h : Reproduces EqualReal p n c) : Reproduces EqualReal q n c := by
  unfold Reproduces at h ⊢
  rw [hfacet, hf, hv _ h.1]
  exact ⟨by omega, h.2⟩

theorem Reproduces_keep_addCorner (EqualReal : R → R → Bool) (n k : Nat) (x : RealVec R)
    (poly : Polyhedron R) (n' c : Nat) (hne : ¬ (n' = n ∧ c = k))
    (h : Reproduces EqualReal poly n' c) :
    Reproduces EqualReal (addCorner EqualReal n k x poly) n' c := by
  have a := addCorner_frame EqualReal n k x poly
  exact Reproduces_keep EqualReal poly _ n' c a.2.2.1 a.2.2.2.2.1 a.2.2.2.2.2.1
    (a.2.2.2.2.2.2 n' c hne) h

theorem Reproduces_keep_AddEdge (EqualReal : R → R → Bool) (a b m : Nat)
    (poly : Polyhedron R) (n c : Nat) (h : Reproduces EqualReal poly n c) :
    Reproduces EqualReal (AddEdge a b m poly) n c := by
  have fr := AddEdge_frame a b m poly
  refine Reproduces_keep EqualReal poly _ n c fr.2.2.2.1 (by rw [fr.2.1]) (fun i _ => ?_)
    (by rw [fr.2.2.1]) h
  rw [fr.1]

theorem Reproduces_convertFace (EqualReal : R → R → Bool) (hrefl : ∀ x, EqualReal x x = true)
    (k : Nat) (poly : Polyhedron R)
    (h : ∀ n c, n < k → c < 3 → Reproduces EqualReal poly n c) :
    ∀ n c, n < k + 1 → c < 3 → Reproduces EqualReal (convertFace EqualReal k poly) n c := by
  obtain ⟨p0, p1, p2, q0, q1, q2, h0, h1, h2, e0, e1, e2, hq⟩ :=
    convertFace_steps EqualReal k poly
  have a0 := addCorner_frame EqualReal k 0 (poly.facet k).v0 poly
  have a1 := addCorner_frame EqualReal k 1 (p0.facet k).v1 p0
  rw [← h0] at a0
  rw [← h1] at a1
  have r0 : Reproduces EqualReal p0 k 0 := h0 ▸ Reproduces_addCorner EqualReal hrefl k 0 poly
  have r1 : Reproduces EqualReal p1 k 1 := h1 ▸ Reproduces_addCorner EqualReal hrefl k 1 p0
  have r2 : Reproduces EqualReal p2 k 2 := h2 ▸ Reproduces_addCorner EqualReal hrefl k 2 p1
  have r01 : Reproduces EqualReal p1 k 0 :=
    h1 ▸ Reproduces_keep_addCorner EqualReal k 1 _ p0 k 0 (by omega) r0
  have r02 : Reproduces EqualReal p2 k 0 :=
    h2 ▸ Reproduces_keep_addCorner EqualReal k 2 _ p1 k 0 (by omega) r01
  have r12 : Reproduces EqualReal p2 k 1 :=
    h2 ▸ Reproduces_keep_addCorner EqualReal k 2 _ p1 k 1 (by omega) r1
  have hold : ∀ n c, n < k → c < 3 → Reproduces EqualReal p2 n c := by
    intro n c hn hc
    have s0 : Reproduces EqualReal p0 n c :=
      h0 ▸ Reproduces_keep_addCorner EqualReal k 0 _ poly n c (by omega) (h n c hn hc)
    have s1 : Reproduces EqualReal p1 n c :=
      h1 ▸ Reproduces_keep_addCorner EqualReal k 1 _ p0 n c (by omega) s0
    exact h2 ▸ Reproduces_keep_addCorner EqualReal k 2 _ p1 n c (by omega) s1
  have hall : ∀ n c, n < k + 1 → c < 3 → Reproduces EqualReal p2 n c := by
    intro n c hn hc
    by_cases hnk : n = k
    · subst hnk
      interval_cases c
      · exact r02
      · exact r12
      · exact r2
    · exact hold n c (by omega) hc
  intro n c hn hc
  rw [hq, e2, e1, e0]
  exact Reproduces_keep_AddEdge EqualReal _ _ _ _ n c
    (Reproduces_keep_AddEdge EqualReal _ _ _ _ n c
      (Reproduces_keep_AddEdge EqualReal _ _ _ _ n c (hall n c hn hc)))

theorem Reproduces_convertLoop (EqualReal : R → R → Bool) (hrefl : ∀ x, EqualReal x x = true)
    (poly : Polyhedron R) (k : Nat) :
    ∀ n c, n < k → c < 3 → Reproduces EqualReal (convertLoop EqualReal k poly) n c := by
  induction k with
  | zero => intro n c hn; omega
  | succ k ih => exact Reproduces_convertFace EqualReal hrefl k _ ih

/-- C18: after `ConvertPolyhedron`, with an `EqualReal` that holds of a
number and itself, every `f[n][k]` is below `vertN`, and corner `k` of the
facet `n` of the input is `EqualReal` in all three components to the vertex
stored at `f[n][k]`. -/
theorem ConvertPolyhedron_reproduces (EqualReal : R → R → Bool)
    (hrefl : ∀ x, EqualReal x x = true) (poly : Polyhedron R) :
    ∀ n k, n < poly.faceN → k < 3 →
      (ConvertPolyhedron EqualReal poly).f n k < (ConvertPolyhedron EqualReal poly).vertN ∧
      sameVertex EqualReal (corner (poly.facet n) k)
        ((ConvertPolyhedron EqualReal poly).v ((ConvertPolyhedron EqualReal poly).f n k)) := by
  intro n k hn hk
  have h := Reproduces_convertLoop EqualReal hrefl poly poly.faceN n k hn hk
  unfold Reproduces at h
  rw [(convertLoop_frame EqualReal poly.faceN poly).1] at h
  exact h

/-- C18, for the cube input and exact equality as `EqualReal`. -/
theorem ConvertPolyhedron_reproduces_witness :
    (∀ x : ℚ, decide (x = x) = true) ∧
    ∀ n k, n < (cubeInput : Polyhedron ℚ).faceN → k < 3 →
      (ConvertPolyhedron (fun x y : ℚ => decide (x = y)) cubeInput).f n k
        < (ConvertPolyhedron (fun x y : ℚ => decide (x = y)) cubeInput).vertN ∧
      sameVertex (fun x y : ℚ => decide (x = y)) (corner ((cubeInput : Polyhedron ℚ).facet n) k)
        ((ConvertPolyhedron (fun x y : ℚ => decide (x = y)) cubeInput).v
          ((ConvertPolyhedron (fun x y : ℚ => decide (x = y)) cubeInput).f n k)) :=
  ⟨fun x => by simp,
    ConvertPolyhedron_reproduces (fun x y : ℚ => decide (x = y)) (fun x => by simp) cubeInput⟩

/-! ## ComputeParametersPolyhedron: the stored centroid (C20) -/

/-- The accumulators `volume` and `O` of the face loop are the sums
`momentSums`, whatever the math library returns. -/
theorem faceLoop_moments (m : Libm R) (poly : Polyhedron R) (k : Nat) (st : FaceSums R)
    (h : faceLoop m poly k = some st) :
    st.volume = (momentSums poly k).1 ∧ st.O = (momentSums poly k).2 := by
  induction k generalizing st with
  | zero =>
    simp only [faceLoop, Option.some.injEq] at h
    subst h
    exact ⟨rfl, rfl⟩
  | succ k ih =>
    simp only [faceLoop, Option.bind_eq_some] at h
    obtain ⟨st0, h0, h1⟩ := h
    obtain ⟨hv, hO⟩ := ih st0 h0
    simp only [faceStep, Option.bind_eq_some, Option.map_eq_some'] at h1
    obtain ⟨N, -, c0, -, c1, -, rfl⟩ := h1
    simp [momentSums, hv, hO]

/-- The centroid and the volume that `ComputeParametersPolyhedron` stores:
the accumulator `O` divided by 24 and the accumulator `volume` divided by 6. -/
theorem ComputeParametersPolyhedron_moments (m : Libm R) (collapse : Int)
    (poly poly' : Polyhedron R) (h : ComputeParametersPolyhedron m collapse poly = some poly') :
    poly'.volume = (momentSums poly poly.faceN).1 / 6 ∧
    poly'.O = ⟨(momentSums poly poly.faceN).2.X / 24, (momentSums poly poly.faceN).2.Y / 24,
      (momentSums poly poly.faceN).2.Z / 24⟩ := by
  simp only [ComputeParametersPolyhedron, Option.bind_eq_some, Option.map_eq_some'] at h
  obtain ⟨st, hst, Nv, -, Ne, -, rfl⟩ := h
  obtain ⟨hv, hO⟩ := faceLoop_moments m poly poly.faceN st hst
  simp [hv, hO]

theorem Dot_div_left (V w : RealVec R) (n : R) :
    Dot (⟨V.X / n, V.Y / n, V.Z / n⟩ : RealVec R) w = Dot V w / n := by
  unfold Dot
  ring

theorem unitNormal_dot_pos (m : Libm R) (hm : LibmFacts m) (poly : Polyhedron R) (n : Nat)
    (hc : 0 < Dot (faceCross poly n) (faceCross poly n)) (w : RealVec R)
    (hw : 0 < Dot (faceCross poly n) w) : 0 < Dot (unitNormal m poly n) w := by
  unfold unitNormal
  rw [Dot_div_left]
  exact div_pos hw (sqrt_pos_of_pos m hm _ hc)

theorem faceStep_regular (m : Libm R) (hm : LibmFacts m) (poly : Polyhedron R)
    (w : Nat → RealVec R) (n : Nat) (st : FaceSums R) (h : FaceRegular m poly w n) :
    ∃ st', faceStep m poly n st = some st' ∧ st'.Nf = set1 st.Nf n (unitNormal m poly n) ∧
      (∀ i, Dot (st.Nv i) (w i) ≤ Dot (st'.Nv i) (w i)) ∧
      ∀ c, c < 3 →
        Dot (st.Nv (poly.f n c)) (w (poly.f n c))
          < Dot (st'.Nv (poly.f n c)) (w (poly.f n c)) := by
  obtain ⟨hc, ⟨c0, c1, hc0, hc1, ha0, ha1, ha2⟩, h5⟩ := h
  have hU : Normalize (Norm m (faceCross poly n)) (faceCross poly n)
      = some (unitNormal m poly n) := Normalize_some _ _ (Norm_ne_zero m hm _ hc)
  have hp : ∀ c, c < 3 → 0 < Dot (unitNormal m poly n) (w (poly.f n c)) :=
    fun c hc3 => unitNormal_dot_pos m hm poly n hc _ (h5 c hc3)
  obtain ⟨st', hst, hNf, hNv⟩ : ∃ st', faceStep m poly n st = some st' ∧
      st'.Nf = set1 st.Nf n (unitNormal m poly n) ∧
      st'.Nv = addWeighted (addWeighted (addWeighted st.Nv (poly.f n 0) (m.acos c0)
          (unitNormal m poly n)) (poly.f n 1) (m.acos c1) (unitNormal m poly n)) (poly.f n 2)
          (314159265359 / 100000000000 - m.acos c0 - m.acos c1) (unitNormal m poly n) := by
    unfold faceCross at hU
    unfold faceStep
    simp only [hU, hc0, hc1, Option.some_bind, Option.map_some']
    exact ⟨_, rfl, rfl, rfl⟩
  have m0 := addWeighted_dot_mono st.Nv (poly.f n 0) (m.acos c0)
    (unitNormal m poly n) w ha0 (hp 0 (by norm_num))
  have m1 := addWeighted_dot_mono (addWeighted st.Nv (poly.f n 0) (m.acos c0)
    (unitNormal m poly n)) (poly.f n 1) (m.acos c1) (unitNormal m poly n) w
    ha1 (hp 1 (by norm_num))
  have m2 := addWeighted_dot_mono (addWeighted (addWeighted st.Nv (poly.f n 0) (m.acos c0)
    (unitNormal m poly n)) (poly.f n 1) (m.acos c1) (unitNormal m poly n))
    (poly.f n 2) (314159265359 / 100000000000 - m.acos c0 - m.acos c1)
    (unitNormal m poly n) w ha2 (hp 2 (by norm_num))
  refine ⟨st', hst, hNf, ?_, ?_⟩
  · intro i
    rw [hNv]
    exact le_trans (le_trans (m0 i).1 (m1 i).1) (m2 i).1
  · intro c hc
    rw [hNv]
    interval_cases c
    · exact lt_of_lt_of_le (lt_of_lt_of_le ((m0 _).2 rfl) (m1 _).1) (m2 _).1
    · exact lt_of_lt_of_le (lt_of_le_of_lt (m0 _).1 ((m1 _).2 rfl)) (m2 _).1
    · exact lt_of_le_of_lt (le_trans (m0 _).1 (m1 _).1) ((m2 _).2 rfl)

theorem faceLoop_regular (m : Libm R) (hm : LibmFacts m) (poly : Polyhedron R)
    (w : Nat → RealVec R) (k : Nat) (h : ∀ n, n < k → FaceRegular m poly w n) :
    ∃ st, faceLoop m poly k = some st ∧
      (∀ n, n < k → st.Nf n = unitNormal m poly n) ∧
      (∀ i, i < poly.vertN → 0 ≤ Dot (st.Nv i) (w i)) ∧
      ∀ n, n < k → ∀ c, c < 3 → poly.f n c < poly.vertN →
        0 < Dot (st.Nv (poly.f n c)) (w (poly.f n c)) := by
  induction k with
  | zero =>
    refine ⟨_, rfl, ?_, ?_, ?_⟩
    · intro n hn; exact absurd hn (Nat.not_lt_zero n)
    · intro i hi
      simp only [if_pos hi, Dot]
      simp
    · intro n hn; exact absurd hn (Nat.not_lt_zero n)
  | succ k ih =>
    obtain ⟨st, hst, hNf, hnn, hpos⟩ := ih (fun n hn => h n (Nat.lt_succ_of_lt hn))
    obtain ⟨st', hst', hNf', hmono, hstrict⟩ :=
      faceStep_regular m hm poly w k st (h k (Nat.lt_succ_self k))
    refine ⟨st', ?_, ?_, ?_, ?_⟩
    · simp only [faceLoop, hst, Option.some_bind, hst']
    · intro n hn
      rw [hNf']
      unfold set1
      by_cases hk : n = k
      · rw [if_pos hk, hk]
      · rw [if_neg hk]
        exact hNf n (by omega)
    · intro i hi
      exact le_trans (hnn i hi) (hmono i)
    · intro n hn c hc hlt
      by_cases hk : n = k
      · subst hk
        exact lt_of_le_of_lt (hnn _ hlt) (hstrict c hc)
      · exact lt_of_lt_of_le (hpos n (by omega) c hc hlt) (hmono _)

/-- `ComputeParametersPolyhedron` returns a result on a polyhedron whose
faces are all fit for the face loop with respect to directions `w`, whose
vertices are all corners of faces, and whose edge records name two faces
with a common corner. -/
theorem ComputeParametersPolyhedron_regular (m : Libm R) (hm : LibmFacts m) (collapse : Int)
    (poly : Polyhedron R) (w : Nat → RealVec R)
    (hf : ∀ n, n < poly.faceN → FaceRegular m poly w n)
    (hin : ∀ n, n < poly.faceN → ∀ c, c < 3 → poly.f n c < poly.vertN)
    (hcov : ∀ i, i < poly.vertN → ∃ n, n < poly.faceN ∧ ∃ c, c < 3 ∧ poly.f n c = i)
    (hedge : ∀ j, j < poly.edgeN → poly.e j 2 < poly.faceN ∧ poly.e j 3 < poly.faceN ∧
      ∃ c2, c2 < 3 ∧ ∃ c3, c3 < 3 ∧ poly.f (poly.e j 2) c2 = poly.f (poly.e j 3) c3) :
    ∃ poly', ComputeParametersPolyhedron m collapse poly = some poly' := by
  obtain ⟨st, hst, hNf, -, hpos⟩ := faceLoop_regular m hm poly w poly.faceN hf
  have hnv : ∀ i < poly.vertN, Norm m (st.Nv i) ≠ 0 := by
    intro i hi
    obtain ⟨n, hn, c, hc, hfi⟩ := hcov i hi
    have := hpos n hn c hc (hin n hn c hc)
    rw [hfi] at this
    exact Norm_ne_zero m hm _ (Dot_self_pos_of_dot_pos _ _ this)
  obtain ⟨Nv', hNv', -⟩ := vertexNormalLoop_some m poly.vertN st.Nv hnv
  have hne : ∀ j < poly.edgeN, Norm m (edgeNormalSum poly.e st.Nf j) ≠ 0 := by
    intro j hj
    obtain ⟨h2, h3, c2, hc2, c3, hc3, hcommon⟩ := hedge j hj
    have p2 := unitNormal_dot_pos m hm poly _ (hf _ h2).1 _ ((hf _ h2).2.2 c2 hc2)
    have p3 := unitNormal_dot_pos m hm poly _ (hf _ h3).1 _ ((hf _ h3).2.2 c3 hc3)
    rw [hcommon] at p2
    apply Norm_ne_zero m hm
    apply Dot_self_pos_of_dot_pos _ (w (poly.f (poly.e j 3) c3))
    unfold edgeNormalSum
    rw [hNf _ h2, hNf _ h3]
    unfold Dot at p2 p3 ⊢
    simp only []
    linarith
  obtain ⟨Ne', hNe', -⟩ := edgeNormalLoop_some m poly.e st.Nf poly.edgeN poly.Ne hne
  simp only [ComputeParametersPolyhedron, hst, Option.some_bind, hNv', hNe',
    Option.map_some']
  exact ⟨_, rfl⟩

theorem FaceRegular_of_dots (m : Libm R) (poly : Polyhedron R) (w : Nat → RealVec R) (n : Nat)
    (a c l : R)
    (ha : Dot (BuildTriangle n poly).2.2.2.1 (BuildTriangle n poly).2.2.2.1 = a)
    (hc : Dot (BuildTriangle n poly).2.2.2.2 (BuildTriangle n poly).2.2.2.2 = c)
    (hl : Dot (⟨(BuildTriangle n poly).2.2.1.X - (BuildTriangle n poly).2.1.X,
        (BuildTriangle n poly).2.2.1.Y - (BuildTriangle n poly).2.1.Y,
        (BuildTriangle n poly).2.2.1.Z - (BuildTriangle n poly).2.1.Z⟩ : RealVec R)
      ⟨(BuildTriangle n poly).2.2.1.X - (BuildTriangle n poly).2.1.X,
        (BuildTriangle n poly).2.2.1.Y - (BuildTriangle n poly).2.1.Y,
        (BuildTriangle n poly).2.2.1.Z - (BuildTriangle n poly).2.1.Z⟩ = l)
    (hcross : 0 < Dot (faceCross poly n) (faceCross poly n))
    (hang : ∃ c0 c1 : R, divReal (a + c - l) (2 * m.sqrt (a * c)) = some c0 ∧
      divReal (a + l - c) (2 * m.sqrt (a * l)) = some c1 ∧
      0 < m.acos c0 ∧ 0 < m.acos c1 ∧
      0 < 314159265359 / 100000000000 - m.acos c0 - m.acos c1)
    (hw : ∀ c, c < 3 → 0 < Dot (faceCross poly n) (w (poly.f n c))) :
    FaceRegular m poly w n := by
  unfold FaceRegular
  rw [ha, hc, hl]
  exact ⟨hcross, hang, hw⟩

/-- The three angles of a triangle with `|e01|² = |e02|² = |e12|² = 2`, with
the square root and the arc cosine of the real numbers. -/
theorem equilateral_angles :
    ∃ c0 c1 : ℝ, divReal ((2 : ℝ) + 2 - 2) (2 * Real.sqrt (2 * 2)) = some c0 ∧
      divReal ((2 : ℝ) + 2 - 2) (2 * Real.sqrt (2 * 2)) = some c1 ∧
      0 < Real.arccos c0 ∧ 0 < Real.arccos c1 ∧
      0 < 314159265359 / 100000000000 - Real.arccos c0 - Real.arccos c1 := by
  have h2 : Real.sqrt (2 * 2) = 2 := Real.sqrt_mul_self (by norm_num)
  have hd : divReal ((2 : ℝ) + 2 - 2) (2 * Real.sqrt (2 * 2)) = some (1 / 2) := by
    unfold divReal
    rw [h2, if_neg (by norm_num)]
    norm_num
  have hacos : Real.arccos (1 / 2) = Real.pi / 3 := by
    rw [← Real.cos_pi_div_three]
    exact Real.arccos_cos (by positivity) (by linarith [Real.pi_pos])
  have hpi := Real.pi_lt_d2
  have hpos := Real.pi_pos
  refine ⟨1 / 2, 1 / 2, hd, hd, ?_, ?_, ?_⟩
  · rw [hacos]; positivity
  · rw [hacos]; positivity
  · rw [hacos]
    norm_num at hpi ⊢
    linarith

theorem tetra_tri0 : BuildTriangle 0 (tetra : Polyhedron R)
    = (⟨0, 0, 0⟩, ⟨0, 1, 0⟩, ⟨1, 0, 0⟩, ⟨0 - 0, 1 - 0, 0 - 0⟩, ⟨1 - 0, 0 - 0, 0 - 0⟩) := rfl

theorem tetra_tri1 : BuildTriangle 1 (tetra : Polyhedron R)
    = (⟨0, 0, 0⟩, ⟨1, 0, 0⟩, ⟨0, 0, 1⟩, ⟨1 - 0, 0 - 0, 0 - 0⟩, ⟨0 - 0, 0 - 0, 1 - 0⟩) := rfl

theorem tetra_tri2 : BuildTriangle 2 (tetra : Polyhedron R)
    = (⟨0, 0, 0⟩, ⟨0, 0, 1⟩, ⟨0, 1, 0⟩, ⟨0 - 0, 0 - 0, 1 - 0⟩, ⟨0 - 0, 1 - 0, 0 - 0⟩) := rfl

theorem tetra_tri3 : BuildTriangle 3 (tetra : Polyhedron R)
    = (⟨1, 0, 0⟩, ⟨0, 1, 0⟩, ⟨0, 0, 1⟩, ⟨0 - 1, 1 - 0, 0 - 0⟩, ⟨0 - 1, 0 - 0, 1 - 0⟩) := rfl

theorem tetra_cross0 : faceCross (tetra : Polyhedron R) 0 = ⟨0, 0, -1⟩ := by
  unfold faceCross
  rw [tetra_tri0]
  norm_num [Cross]

theorem tetra_cross1 : faceCross (tetra : Polyhedron R) 1 = ⟨0, -1, 0⟩ := by
  unfold faceCross
  rw [tetra_tri1]
  norm_num [Cross]

theorem tetra_cross2 : faceCross (tetra : Polyhedron R) 2 = ⟨-1, 0, 0⟩ := by
  unfold faceCross
  rw [tetra_tri2]
  norm_num [Cross]

theorem tetra_cross3 : faceCross (tetra : Polyhedron R) 3 = ⟨1, 1, 1⟩ := by
  unfold faceCross
  rw [tetra_tri3]
  norm_num [Cross]

/-- The accumulators `volume` and `O` of the face loop on the tetrahedron
fixture. -/
theorem tetra_momentSums : momentSums (tetra : Polyhedron R) 4 = (1, ⟨1, 1, 1⟩) := by
  simp only [momentSums]
  rw [tetra_tri0, tetra_tri1, tetra_tri2, tetra_tri3]
  norm_num [Cross, momentTerms]

theorem tetra_face0 :
    FaceRegular (⟨Real.sin, Real.cos, Real.sqrt, Real.arccos⟩ : Libm ℝ) tetra
      (fun i => ⟨((tetra : Polyhedron ℝ).v i).X - 1 / 4, ((tetra : Polyhedron ℝ).v i).Y - 1 / 4,
        ((tetra : Polyhedron ℝ).v i).Z - 1 / 4⟩) 0 := by
  refine FaceRegular_of_dots _ _ _ 0 1 1 2 ?_ ?_ ?_ ?_ (right_angles _ LibmFacts_real) ?_
  · rw [tetra_tri0]; norm_num [Dot]
  · rw [tetra_tri0]; norm_num [Dot]
  · rw [tetra_tri0]; norm_num [Dot]
  · rw [tetra_cross0]; norm_num [Dot]
  · intro c hc
    rw [tetra_cross0]
    interval_cases c
    · show 0 < Dot (⟨0, 0, -1⟩ : RealVec ℝ) ⟨0 - 1 / 4, 0 - 1 / 4, 0 - 1 / 4⟩
      norm_num [Dot]
    · show 0 < Dot (⟨0, 0, -1⟩ : RealVec ℝ) ⟨0 - 1 / 4, 1 - 1 / 4, 0 - 1 / 4⟩
      norm_num [Dot]
    · show 0 < Dot (⟨0, 0, -1⟩ : RealVec ℝ) ⟨1 - 1 / 4, 0 - 1 / 4, 0 - 1 / 4⟩
      norm_num [Dot]

theorem tetra_face1 :
    FaceRegular (⟨Real.sin, Real.cos, Real.sqrt, Real.arccos⟩ : Libm ℝ) tetra
      (fun i => ⟨((tetra : Polyhedron ℝ).v i).X - 1 / 4, ((tetra : Polyhedron ℝ).v i).Y - 1 / 4,
        ((tetra : Polyhedron ℝ).v i).Z - 1 / 4⟩) 1 := by
  refine FaceRegular_of_dots _ _ _ 1 1 1 2 ?_ ?_ ?_ ?_ (right_angles _ LibmFacts_real) ?_
  · rw [tetra_tri1]; norm_num [Dot]
  · rw [tetra_tri1]; norm_num [Dot]
  · rw [tetra_tri1]; norm_num [Dot]
  · rw [tetra_cross1]; norm_num [Dot]
  · intro c hc
    rw [tetra_cross1]
    interval_cases c
    · show 0 < Dot (⟨0, -1, 0⟩ : RealVec ℝ) ⟨0 - 1 / 4, 0 - 1 / 4, 0 - 1 / 4⟩
      norm_num [Dot]
    · show 0 < Dot (⟨0, -1, 0⟩ : RealVec ℝ) ⟨1 - 1 / 4, 0 - 1 / 4, 0 - 1 / 4⟩
      norm_num [Dot]
    · show 0 < Dot (⟨0, -1, 0⟩ : RealVec ℝ) ⟨0 - 1 / 4, 0 - 1 / 4, 1 - 1 / 4⟩
      norm_num [Dot]

theorem tetra_face2 :
    FaceRegular (⟨Real.sin, Real.cos, Real.sqrt, Real.arccos⟩ : Libm ℝ) tetra
      (fun i => ⟨((tetra : Polyhedron ℝ).v i).X - 1 / 4, ((tetra : Polyhedron ℝ).v i).Y - 1 / 4,
        ((tetra : Polyhedron ℝ).v i).Z - 1 / 4⟩) 2 := by
  refine FaceRegular_of_dots _ _ _ 2 1 1 2 ?_ ?_ ?_ ?_ (right_angles _ LibmFacts_real) ?_
  · rw [tetra_tri2]; norm_num [Dot]
  · rw [tetra_tri2]; norm_num [Dot]
  · rw [tetra_tri2]; norm_num [Dot]
  · rw [tetra_cross2]; norm_num [Dot]
  · intro c hc
    rw [tetra_cross2]
    interval_cases c
    · show 0 < Dot (⟨-1, 0, 0⟩ : RealVec ℝ) ⟨0 - 1 / 4, 0 - 1 / 4, 0 - 1 / 4⟩
      norm_num [Dot]
    · show 0 < Dot (⟨-1, 0, 0⟩ : RealVec ℝ) ⟨0 - 1 / 4, 0 - 1 / 4, 1 - 1 / 4⟩
      norm_num [Dot]
    · show 0 < Dot (⟨-1, 0, 0⟩ : RealVec ℝ) ⟨0 - 1 / 4, 1 - 1 / 4, 0 - 1 / 4⟩
      norm_num [Dot]

theorem tetra_face3 :
    FaceRegular (⟨Real.sin, Real.cos, Real.sqrt, Real.arccos⟩ : Libm ℝ) tetra
      (fun i => ⟨((tetra : Polyhedron ℝ).v i).X - 1 / 4, ((tetra : Polyhedron ℝ).v i).Y - 1 / 4,
        ((tetra : Polyhedron ℝ).v i).Z - 1 / 4⟩) 3 := by
  refine FaceRegular_of_dots _ _ _ 3 2 2 2 ?_ ?_ ?_ ?_ equilateral_angles ?_
  · rw [tetra_tri3]; norm_num [Dot]
  · rw [tetra_tri3]; norm_num [Dot]
  · rw [tetra_tri3]; norm_num [Dot]
  · rw [tetra_cross3]; norm_num [Dot]
  · intro c hc
    rw [tetra_cross3]
    interval_cases c
    · show 0 < Dot (⟨1, 1, 1⟩ : RealVec ℝ) ⟨1 - 1 / 4, 0 - 1 / 4, 0 - 1 / 4⟩
      norm_num [Dot]
    · show 0 < Dot (⟨1, 1, 1⟩ : RealVec ℝ) ⟨0 - 1 / 4, 1 - 1 / 4, 0 - 1 / 4⟩
      norm_num [Dot]
    · show 0 < Dot (⟨1, 1, 1⟩ : RealVec ℝ) ⟨0 - 1 / 4, 0 - 1 / 4, 1 - 1 / 4⟩
      norm_num [Dot]

/-- C20: on the tetrahedron with the vertices `(0,0,0)`, `(1,0,0)`,
`(0,1,0)`, `(0,0,1)`, with the square root and arc cosine of the real
numbers, `ComputeParametersPolyhedron` returns a result whose volume is
`1/6` and whose `O` is `(1/24, 1/24, 1/24)`: the accumulated sums divided by
24, not divided by the volume. The mean of the four vertices is
`(1/4, 1/4, 1/4)`. -/
theorem ComputeParametersPolyhedron_tetra_centroid :
    ∃ poly', ComputeParametersPolyhedron (⟨Real.sin, Real.cos, Real.sqrt, Real.arccos⟩ : Libm ℝ)
        COLLAPSEN (tetra : Polyhedron ℝ) = some poly' ∧
      poly'.volume = 1 / 6 ∧ poly'.O = ⟨1 / 24, 1 / 24, 1 / 24⟩ ∧
      vertexMean (tetra : Polyhedron ℝ) = ⟨1 / 4, 1 / 4, 1 / 4⟩ ∧
      (⟨poly'.O.X / poly'.volume, poly'.O.Y / poly'.volume, poly'.O.Z / poly'.volume⟩ : RealVec ℝ)
        = vertexMean (tetra : Polyhedron ℝ) ∧
      poly'.O ≠ vertexMean (tetra : Polyhedron ℝ) := by
  obtain ⟨poly', h⟩ := ComputeParametersPolyhedron_regular
    (⟨Real.sin, Real.cos, Real.sqrt, Real.arccos⟩ : Libm ℝ) LibmFacts_real COLLAPSEN
    (tetra : Polyhedron ℝ)
    (fun i => ⟨((tetra : Polyhedron ℝ).v i).X - 1 / 4, ((tetra : Polyhedron ℝ).v i).Y - 1 / 4,
        ((tetra : Polyhedron ℝ).v i).Z - 1 / 4⟩)
    (by
      intro n hn
      have hn' : n < 4 := hn
      interval_cases n
      · exact tetra_face0
      · exact tetra_face1
      · exact tetra_face2
      · exact tetra_face3)
    (by decide) (by decide) (by decide)
  obtain ⟨hv, hO⟩ := ComputeParametersPolyhedron_moments _ _ _ _ h
  have hs : momentSums (tetra : Polyhedron ℝ) (tetra : Polyhedron ℝ).faceN = (1, ⟨1, 1, 1⟩) :=
    tetra_momentSums
  rw [hs] at hv hO
  have hmean : vertexMean (tetra : Polyhedron ℝ) = ⟨1 / 4, 1 / 4, 1 / 4⟩ := by
    show (⟨((0 : ℝ) + 1 + 0 + 0) / 4, ((0 : ℝ) + 0 + 1 + 0) / 4, ((0 : ℝ) + 0 + 0 + 1) / 4⟩
      : RealVec ℝ) = _
    norm_num
  refine ⟨poly', h, hv, hO, hmean, ?_, ?_⟩
  · rw [hO, hv, hmean]
    norm_num
  · rw [hO, hmean]
    intro hh
    have := congrArg RealVec.X hh
    norm_num at this

/-! ## The rotation matrix of Transformation and the normals (C24, C30) -/

theorem TrigFacts_real : TrigFacts (⟨Real.sin, Real.cos, Real.sqrt, Real.arccos⟩ : Libm ℝ) := by
  refine ⟨fun x => ?_, Real.sin_zero, Real.cos_zero⟩
  have := Real.sin_sq_add_cos_sq x
  show Real.sin x * Real.sin x + Real.cos x * Real.cos x = 1
  nlinarith

/-- The matrix that `Transformation` builds, on abstract sines and cosines
with `s² + c² = 1`: its products with its transpose are the identity. -/
theorem rotation_orthogonal (sx cx sy cy sz cz : R) (hx : sx * sx + cx * cx = 1)
    (hy : sy * sy + cy * cy = 1) (hz : sz * sz + cz * cz = 1) :
    matMul (⟨⟨cy * cz, cx * sz + sx * sy * cz, sx * sz - cx * sy * cz⟩,
        ⟨-cy * sz, cx * cz - sx * sy * sz, sx * cz + cx * sy * sz⟩,
        ⟨sy, -sx * cy, cx * cy⟩⟩ : RealMat R)
      (inverseRotation ⟨⟨cy * cz, cx * sz + sx * sy * cz, sx * sz - cx * sy * cz⟩,
        ⟨-cy * sz, cx * cz - sx * sy * sz, sx * cz + cx * sy * sz⟩,
        ⟨sy, -sx * cy, cx * cy⟩⟩) = identityMat ∧
    matMul (inverseRotation ⟨⟨cy * cz, cx * sz + sx * sy * cz, sx * sz - cx * sy * cz⟩,
        ⟨-cy * sz, cx * cz - sx * sy * sz, sx * cz + cx * sy * sz⟩,
        ⟨sy, -sx * cy, cx * cy⟩⟩)
      (⟨⟨cy * cz, cx * sz + sx * sy * cz, sx * sz - cx * sy * cz⟩,
        ⟨-cy * sz, cx * cz - sx * sy * sz, sx * cz + cx * sy * sz⟩,
        ⟨sy, -sx * cy, cx * cy⟩⟩ : RealMat R) = identityMat := by
  constructor
  · simp only [matMul, inverseRotation, identityMat, RealMat.mk.injEq, RealVec.mk.injEq]
    refine ⟨⟨?_, ?_, ?_⟩, ⟨?_, ?_, ?_⟩, ⟨?_, ?_, ?_⟩⟩
    · linear_combination (sz * sz + sy * sy * cz * cz) * hx + cz * cz * hy + hz
    · linear_combination cz * sz * (1 - sy * sy) * hx - cz * sz * hy
    · linear_combination -(cy * sy * cz) * hx
    · linear_combination cz * sz * (1 - sy * sy) * hx - cz * sz * hy
    · linear_combination (cz * cz + sy * sy * sz * sz) * hx + sz * sz * hy + hz
    · linear_combination cy * sy * sz * hx
    · linear_combination -(cy * sy * cz) * hx
    · linear_combination cy * sy * sz * hx
    · linear_combination cy * cy * hx + hy
  · simp only [matMul, inverseRotation, identityMat, RealMat.mk.injEq, RealVec.mk.injEq]
    refine ⟨⟨?_, ?_, ?_⟩, ⟨?_, ?_, ?_⟩, ⟨?_, ?_, ?_⟩⟩
    · linear_combination cy * cy * hz + hy
    · linear_combination cy * sx * sy * hz
    · linear_combination -(cx * cy * sy) * hz
    · linear_combination cy * sx * sy * hz
    · linear_combination (cx * cx + sx * sx * sy * sy) * hz + sx * sx * hy + hx
    · linear_combination cx * sx * (1 - sy * sy) * hz - cx * sx * hy
    · linear_combination -(cx * cy * sy) * hz
    · linear_combination cx * sx * (1 - sy * sy) * hz - cx * sx * hy
    · linear_combination (sx * sx + cx * cx * sy * sy) * hz + cx * cx * hy + hx

/-- C24: with `sin² + cos² = 1`, `sin 0 = 0` and `cos 0 = 1`, the matrix
`rotate` of `Transformation` and its transpose `invrot` are inverse to each
other, and `rotate` is the product `Rz * Ry * Rx` of the matrices built
from one angle each, the other two angles being zero. -/
theorem rotationMatrix_orthogonal (m : Libm R) (hm : TrigFacts m) (angle : RealVec R) :
    matMul (rotationMatrix m angle) (inverseRotation (rotationMatrix m angle)) = identityMat ∧
    matMul (inverseRotation (rotationMatrix m angle)) (rotationMatrix m angle) = identityMat ∧
    rotationMatrix m angle
      = matMul (rotationMatrix m ⟨0, 0, angle.Z⟩)
          (matMul (rotationMatrix m ⟨0, angle.Y, 0⟩) (rotationMatrix m ⟨angle.X, 0, 0⟩)) := by
  obtain ⟨hp, hs, hc⟩ := hm
  refine ⟨(rotation_orthogonal _ _ _ _ _ _ (hp angle.X) (hp angle.Y) (hp angle.Z)).1,
    (rotation_orthogonal _ _ _ _ _ _ (hp angle.X) (hp angle.Y) (hp angle.Z)).2, ?_⟩
  simp only [rotationMatrix, matMul, hs, hc, RealMat.mk.injEq, RealVec.mk.injEq]
  refine ⟨⟨?_, ?_, ?_⟩, ⟨?_, ?_, ?_⟩, ⟨?_, ?_, ?_⟩⟩ <;> ring

/-- C24, for the sine and cosine of the real numbers and the angles
`(1, 2, 3)`. -/
theorem rotationMatrix_orthogonal_witness :
    TrigFacts (⟨Real.sin, Real.cos, Real.sqrt, Real.arccos⟩ : Libm ℝ) ∧
    matMul (rotationMatrix (⟨Real.sin, Real.cos, Real.sqrt, Real.arccos⟩ : Libm ℝ) ⟨1, 2, 3⟩)
      (inverseRotation
        (rotationMatrix (⟨Real.sin, Real.cos, Real.sqrt, Real.arccos⟩ : Libm ℝ) ⟨1, 2, 3⟩))
      = identityMat ∧
    matMul
      (inverseRotation
        (rotationMatrix (⟨Real.sin, Real.cos, Real.sqrt, Real.arccos⟩ : Libm ℝ) ⟨1, 2, 3⟩))
      (rotationMatrix (⟨Real.sin, Real.cos, Real.sqrt, Real.arccos⟩ : Libm ℝ) ⟨1, 2, 3⟩)
      = identityMat ∧
    rotationMatrix (⟨Real.sin, Real.cos, Real.sqrt, Real.arccos⟩ : Libm ℝ) ⟨1, 2, 3⟩
      = matMul (rotationMatrix (⟨Real.sin, Real.cos, Real.sqrt, Real.arccos⟩ : Libm ℝ) ⟨0, 0, 3⟩)
          (matMul
            (rotationMatrix (⟨Real.sin, Real.cos, Real.sqrt, Real.arccos⟩ : Libm ℝ) ⟨0, 2, 0⟩)
            (rotationMatrix (⟨Real.sin, Real.cos, Real.sqrt, Real.arccos⟩ : Libm ℝ) ⟨1, 0, 0⟩)) :=
  ⟨TrigFacts_real, rotationMatrix_orthogonal _ TrigFacts_real ⟨1, 2, 3⟩⟩

/-- The squared length of `rotate * N` is the squared length of `N`. -/
theorem TransformNormal_dot (m : Libm R) (hm : TrigFacts m) (angle N : RealVec R) :
    Dot (TransformNormal (rotationMatrix m angle) N) (TransformNormal (rotationMatrix m angle) N)
      = Dot N N := by
  have h := (rotation_orthogonal (m.sin angle.X) (m.cos angle.X) (m.sin angle.Y)
    (m.cos angle.Y) (m.sin angle.Z) (m.cos angle.Z) (hm.1 angle.X) (hm.1 angle.Y)
    (hm.1 angle.Z)).2
  simp only [matMul, inverseRotation, identityMat, RealMat.mk.injEq, RealVec.mk.injEq] at h
  obtain ⟨⟨h11, h12, h13⟩, ⟨-, h22, h23⟩, ⟨-, -, h33⟩⟩ := h
  simp only [TransformNormal, rotationMatrix, Dot]
  linear_combination N.X * N.X * h11 + 2 * N.X * N.Y * h12 + 2 * N.X * N.Z * h13
    + N.Y * N.Y * h22 + 2 * N.Y * N.Z * h23 + N.Z * N.Z * h33

theorem TransformNormal_eq_matVec (A : RealMat R) (N : RealVec R) :
    TransformNormal A N = matVec A N := by
  simp only [TransformNormal, matVec, Dot]

/-- C30: `Transformation` replaces every face, edge and vertex normal `N` by
`rotate * N`, whatever the scale and the offset are, and with
`sin² + cos² = 1` the squared length and the length `Norm` of each normal
are unchanged. -/
theorem Transformation_normals (m : Libm R) (hm : TrigFacts m)
    (scale angle offset : RealVec R) (poly : Polyhedron R) :
    (∀ n, n < poly.faceN →
      (Transformation m scale angle offset poly).Nf n
        = matVec (rotationMatrix m angle) (poly.Nf n) ∧
      Dot ((Transformation m scale angle offset poly).Nf n)
          ((Transformation m scale angle offset poly).Nf n) = Dot (poly.Nf n) (poly.Nf n) ∧
      Norm m ((Transformation m scale angle offset poly).Nf n) = Norm m (poly.Nf n)) ∧
    (∀ n, n < poly.edgeN →
      (Transformation m scale angle offset poly).Ne n
        = matVec (rotationMatrix m angle) (poly.Ne n) ∧
      Dot ((Transformation m scale angle offset poly).Ne n)
          ((Transformation m scale angle offset poly).Ne n) = Dot (poly.Ne n) (poly.Ne n) ∧
      Norm m ((Transformation m scale angle offset poly).Ne n) = Norm m (poly.Ne n)) ∧
    (∀ n, n < poly.vertN →
      (Transformation m scale angle offset poly).Nv n
        = matVec (rotationMatrix m angle) (poly.Nv n) ∧
      Dot ((Transformation m scale angle offset poly).Nv n)
          ((Transformation m scale angle offset poly).Nv n) = Dot (poly.Nv n) (poly.Nv n) ∧
      Norm m ((Transformation m scale angle offset poly).Nv n) = Norm m (poly.Nv n)) := by
  refine ⟨fun n hn => ?_, fun n hn => ?_, fun n hn => ?_⟩
  · have h : (Transformation m scale angle offset poly).Nf n
        = TransformNormal (rotationMatrix m angle) (poly.Nf n) := by
      simp only [Transformation, if_pos hn]
    rw [h]
    refine ⟨TransformNormal_eq_matVec _ _, TransformNormal_dot m hm angle _, ?_⟩
    unfold Norm
    rw [TransformNormal_dot m hm angle _]
  · have h : (Transformation m scale angle offset poly).Ne n
        = TransformNormal (rotationMatrix m angle) (poly.Ne n) := by
      simp only [Transformation, if_pos hn]
    rw [h]
    refine ⟨TransformNormal_eq_matVec _ _, TransformNormal_dot m hm angle _, ?_⟩
    unfold Norm
    rw [TransformNormal_dot m hm angle _]
  · have h : (Transformation m scale angle offset poly).Nv n
        = TransformNormal (rotationMatrix m angle) (poly.Nv n) := by
      simp only [Transformation, if_pos hn]
    rw [h]
    refine ⟨TransformNormal_eq_matVec _ _, TransformNormal_dot m hm angle _, ?_⟩
    unfold Norm
    rw [TransformNormal_dot m hm angle _]

/-- C30, for the sine and cosine of the real numbers, the tetrahedron
fixture, the scale `(2, 3, 5)`, the angles `(1, 2, 3)` and the offset
`(7, 8, 9)`: the face normals. -/
theorem Transformation_normals_witness :
    TrigFacts (⟨Real.sin, Real.cos, Real.sqrt, Real.arccos⟩ : Libm ℝ) ∧
    ∀ n, n < (tetra : Polyhedron ℝ).faceN →
      (Transformation (⟨Real.sin, Real.cos, Real.sqrt, Real.arccos⟩ : Libm ℝ) ⟨2, 3, 5⟩
          ⟨1, 2, 3⟩ ⟨7, 8, 9⟩ tetra).Nf n
        = matVec (rotationMatrix (⟨Real.sin, Real.cos, Real.sqrt, Real.arccos⟩ : Libm ℝ)
            ⟨1, 2, 3⟩) ((tetra : Polyhedron ℝ).Nf n) ∧
      Dot ((Transformation (⟨Real.sin, Real.cos, Real.sqrt, Real.arccos⟩ : Libm ℝ) ⟨2, 3, 5⟩
            ⟨1, 2, 3⟩ ⟨7, 8, 9⟩ tetra).Nf n)
          ((Transformation (⟨Real.sin, Real.cos, Real.sqrt, Real.arccos⟩ : Libm ℝ) ⟨2, 3, 5⟩
            ⟨1, 2, 3⟩ ⟨7, 8, 9⟩ tetra).Nf n)
        = Dot ((tetra : Polyhedron ℝ).Nf n) ((tetra : Polyhedron ℝ).Nf n) ∧
      Norm (⟨Real.sin, Real.cos, Real.sqrt, Real.arccos⟩ : Libm ℝ)
          ((Transformation (⟨Real.sin, Real.cos, Real.sqrt, Real.arccos⟩ : Libm ℝ) ⟨2, 3, 5⟩
            ⟨1, 2, 3⟩ ⟨7, 8, 9⟩ tetra).Nf n)
        = Norm (⟨Real.sin, Real.cos, Real.sqrt, Real.arccos⟩ : Libm ℝ)
            ((tetra : Polyhedron ℝ).Nf n) :=
  ⟨TrigFacts_real,
    (Transformation_normals _ TrigFacts_real ⟨2, 3, 5⟩ ⟨1, 2, 3⟩ ⟨7, 8, 9⟩ tetra).1⟩

/-! ## Transformation: inertia symmetry, the vertex map and the bounding box (C21, C25, C22) -/

/-- C21: the inertia tensor that `ComputeParametersSphere` stores, that
`ComputeParametersPolyhedron` stores whenever it returns, and that
`Transformation` stores for any tensor it is given, is symmetric. -/
theorem inertia_symmetric :
    (∀ (collapse : Int) (poly : Polyhedron R),
      SymmetricMat (ComputeParametersSphere collapse poly).I) ∧
    (∀ (m : Libm R) (collapse : Int) (poly poly' : Polyhedron R),
      ComputeParametersPolyhedron m collapse poly = some poly' → SymmetricMat poly'.I) ∧
    (∀ (m : Libm R) (scale angle offset : RealVec R) (poly : Polyhedron R),
      SymmetricMat (Transformation m scale angle offset poly).I) := by
  refine ⟨fun collapse poly => ⟨rfl, rfl, rfl⟩, fun m collapse poly poly' h => ?_,
    fun m scale angle offset poly => ⟨rfl, rfl, rfl⟩⟩
  simp only [ComputeParametersPolyhedron, Option.bind_eq_some, Option.map_eq_some'] at h
  obtain ⟨st, -, Nv, -, Ne, -, rfl⟩ := h
  exact ⟨rfl, rfl, rfl⟩

/-- C25: `TransformVertex` replaces `v` by `R * (S .* (v - O)) + d + O`, and
`Transformation` applies it, with the centroid `O` it is given and the
matrix `rotate`, to every vertex and to the two corners of the bounding box. -/
theorem TransformVertex_formula (m : Libm R) (O scale offset v angle : RealVec R)
    (rotate : RealMat R) (poly : Polyhedron R) :
    TransformVertex O scale rotate offset v
      = ⟨(matVec rotate ⟨scale.X * (v.X - O.X), scale.Y * (v.Y - O.Y),
            scale.Z * (v.Z - O.Z)⟩).X + offset.X + O.X,
         (matVec rotate ⟨scale.X * (v.X - O.X), scale.Y * (v.Y - O.Y),
            scale.Z * (v.Z - O.Z)⟩).Y + offset.Y + O.Y,
         (matVec rotate ⟨scale.X * (v.X - O.X), scale.Y * (v.Y - O.Y),
            scale.Z * (v.Z - O.Z)⟩).Z + offset.Z + O.Z⟩ ∧
    (∀ n, n < poly.vertN →
      (Transformation m scale angle offset poly).v n
        = TransformVertex poly.O scale (rotationMatrix m angle) offset (poly.v n)) ∧
    (Transformation m scale angle offset poly).box.MIN
      = TransformVertex poly.O scale (rotationMatrix m angle) offset poly.box.MIN ∧
    (Transformation m scale angle offset poly).box.MAX
      = TransformVertex poly.O scale (rotationMatrix m angle) offset poly.box.MAX := by
  refine ⟨?_, fun n hn => ?_, rfl, rfl⟩
  · simp only [TransformVertex, matVec, Dot, RealVec.mk.injEq]
    refine ⟨?_, ?_, ?_⟩ <;> ring
  · simp only [Transformation, if_pos hn]

/-- C25, for the tetrahedron fixture, whose centroid is `(1/4, 1/4, 1/4)`:
with the scale `(2, 3, 5)`, the matrix of a quarter turn about the third
axis and the offset `(7, 8, 9)`, the vertex `(1, 0, 0)` becomes
`(13/2, 27/4, 8)`. -/
theorem TransformVertex_formula_witness :
    TransformVertex (tetra : Polyhedron ℝ).O ⟨2, 3, 5⟩ ⟨⟨0, 1, 0⟩, ⟨-1, 0, 0⟩, ⟨0, 0, 1⟩⟩
        ⟨7, 8, 9⟩ ⟨1, 0, 0⟩ = ⟨13 / 2, 27 / 4, 8⟩ := by
  rw [(TransformVertex_formula (⟨Real.sin, Real.cos, Real.sqrt, Real.arccos⟩ : Libm ℝ)
    (tetra : Polyhedron ℝ).O ⟨2, 3, 5⟩ ⟨7, 8, 9⟩ ⟨1, 0, 0⟩ ⟨0, 0, 0⟩
    ⟨⟨0, 1, 0⟩, ⟨-1, 0, 0⟩, ⟨0, 0, 1⟩⟩ tetra).1]
  show (⟨(matVec (⟨⟨0, 1, 0⟩, ⟨-1, 0, 0⟩, ⟨0, 0, 1⟩⟩ : RealMat ℝ)
        ⟨2 * (1 - 1 / 4), 3 * (0 - 1 / 4), 5 * (0 - 1 / 4)⟩).X + 7 + 1 / 4,
      (matVec (⟨⟨0, 1, 0⟩, ⟨-1, 0, 0⟩, ⟨0, 0, 1⟩⟩ : RealMat ℝ)
        ⟨2 * (1 - 1 / 4), 3 * (0 - 1 / 4), 5 * (0 - 1 / 4)⟩).Y + 8 + 1 / 4,
      (matVec (⟨⟨0, 1, 0⟩, ⟨-1, 0, 0⟩, ⟨0, 0, 1⟩⟩ : RealMat ℝ)
        ⟨2 * (1 - 1 / 4), 3 * (0 - 1 / 4), 5 * (0 - 1 / 4)⟩).Z + 9 + 1 / 4⟩ : RealVec ℝ) = _
  norm_num [matVec]

/-- The map of `TransformVertex` keeps the order of the coordinates when
every product `rotate[i][j] * scale[j]` is non-negative. -/
theorem TransformVertex_mono (O scale offset : RealVec R) (rotate : RealMat R)
    (h : OrderKeeping rotate scale) (u v : RealVec R) (hx : u.X ≤ v.X) (hy : u.Y ≤ v.Y)
    (hz : u.Z ≤ v.Z) :
    (TransformVertex O scale rotate offset u).X ≤ (TransformVertex O scale rotate offset v).X ∧
    (TransformVertex O scale rotate offset u).Y ≤ (TransformVertex O scale rotate offset v).Y ∧
    (TransformVertex O scale rotate offset u).Z ≤ (TransformVertex O scale rotate offset v).Z := by
  obtain ⟨h1, h2, h3, h4, h5, h6, h7, h8, h9⟩ := h
  have dx := sub_nonneg.2 hx
  have dy := sub_nonneg.2 hy
  have dz := sub_nonneg.2 hz
  simp only [TransformVertex, Dot]
  refine ⟨?_, ?_, ?_⟩
  · nlinarith [mul_nonneg h1 dx, mul_nonneg h2 dy, mul_nonneg h3 dz]
  · nlinarith [mul_nonneg h4 dx, mul_nonneg h5 dy, mul_nonneg h6 dz]
  · nlinarith [mul_nonneg h7 dx, mul_nonneg h8 dy, mul_nonneg h9 dz]

/-- C22 (amended): when the bounding box encloses every vertex before
`Transformation` and every product `rotate[i][j] * scale[j]` is
non-negative, the stored bounding box encloses every transformed vertex. -/
theorem Transformation_box_encloses (m : Libm R) (scale angle offset : RealVec R)
    (poly : Polyhedron R) (hkeep : OrderKeeping (rotationMatrix m angle) scale)
    (hbox : ∀ n, n < poly.vertN → Encloses poly.box (poly.v n)) :
    ∀ n, n < poly.vertN →
      Encloses (Transformation m scale angle offset poly).box
        ((Transformation m scale angle offset poly).v n) := by
  intro n hn
  obtain ⟨b1, b2, b3, b4, b5, b6⟩ := hbox n hn
  have hv : (Transformation m scale angle offset poly).v n
      = TransformVertex poly.O scale (rotationMatrix m angle) offset (poly.v n) := by
    simp only [Transformation, if_pos hn]
  have lo := TransformVertex_mono poly.O scale offset (rotationMatrix m angle) hkeep
    poly.box.MIN (poly.v n) b1 b3 b5
  have hi := TransformVertex_mono poly.O scale offset (rotationMatrix m angle) hkeep
    (poly.v n) poly.box.MAX b2 b4 b6
  rw [hv]
  exact ⟨lo.1, hi.1, lo.2.1, hi.2.1, lo.2.2, hi.2.2⟩

theorem tetra_box_encloses :
    ∀ n, n < (tetra : Polyhedron ℝ).vertN →
      Encloses (tetra : Polyhedron ℝ).box ((tetra : Polyhedron ℝ).v n) := by
  intro n hn
  have hn' : n < 4 := hn
  interval_cases n
  · show Encloses (⟨⟨0, 0, 0⟩, ⟨1, 1, 1⟩⟩ : Box ℝ) ⟨0, 0, 0⟩
    norm_num [Encloses]
  · show Encloses (⟨⟨0, 0, 0⟩, ⟨1, 1, 1⟩⟩ : Box ℝ) ⟨1, 0, 0⟩
    norm_num [Encloses]
  · show Encloses (⟨⟨0, 0, 0⟩, ⟨1, 1, 1⟩⟩ : Box ℝ) ⟨0, 1, 0⟩
    norm_num [Encloses]
  · show Encloses (⟨⟨0, 0, 0⟩, ⟨1, 1, 1⟩⟩ : Box ℝ) ⟨0, 0, 1⟩
    norm_num [Encloses]

/-- C22 (amended), for the sine and cosine of the real numbers, the
tetrahedron fixture, zero angles, the scale `(2, 3, 5)` and the offset
`(7, 8, 9)`. -/
theorem Transformation_box_encloses_witness :
    OrderKeeping (rotationMatrix (⟨Real.sin, Real.cos, Real.sqrt, Real.arccos⟩ : Libm ℝ)
      ⟨0, 0, 0⟩) ⟨2, 3, 5⟩ ∧
    (∀ n, n < (tetra : Polyhedron ℝ).vertN →
      Encloses (tetra : Polyhedron ℝ).box ((tetra : Polyhedron ℝ).v n)) ∧
    ∀ n, n < (tetra : Polyhedron ℝ).vertN →
      Encloses
        (Transformation (⟨Real.sin, Real.cos, Real.sqrt, Real.arccos⟩ : Libm ℝ) ⟨2, 3, 5⟩
          ⟨0, 0, 0⟩ ⟨7, 8, 9⟩ tetra).box
        ((Transformation (⟨Real.sin, Real.cos, Real.sqrt, Real.arccos⟩ : Libm ℝ) ⟨2, 3, 5⟩
          ⟨0, 0, 0⟩ ⟨7, 8, 9⟩ tetra).v n) :=
  have hk : OrderKeeping (rotationMatrix (⟨Real.sin, Real.cos, Real.sqrt, Real.arccos⟩ : Libm ℝ)
      ⟨0, 0, 0⟩) ⟨2, 3, 5⟩ := by
    rw [rotationMatrix_zero _ Real.sin_zero Real.cos_zero]
    norm_num [OrderKeeping]
  ⟨hk, tetra_box_encloses,
    Transformation_box_encloses _ ⟨2, 3, 5⟩ ⟨0, 0, 0⟩ ⟨7, 8, 9⟩ tetra hk tetra_box_encloses⟩

/-- C22 as stated fails: on the tetrahedron fixture, whose box `[0, 1]³`
encloses its vertices, a half turn about the third axis (angles
`(0, 0, π)`, scale `(1, 1, 1)`, offset `(0, 0, 0)`) moves the vertex
`(1, 0, 0)` to `(-1/2, 1/2, 0)` and the corner `MIN` of the box to
`(1/2, 1/2, 0)`. -/
theorem Transformation_box_fails_half_turn :
    (∀ n, n < (tetra : Polyhedron ℝ).vertN →
      Encloses (tetra : Polyhedron ℝ).box ((tetra : Polyhedron ℝ).v n)) ∧
    (Transformation (⟨Real.sin, Real.cos, Real.sqrt, Real.arccos⟩ : Libm ℝ) ⟨1, 1, 1⟩
        ⟨0, 0, Real.pi⟩ ⟨0, 0, 0⟩ tetra).v 1 = ⟨-1 / 2, 1 / 2, 0⟩ ∧
    (Transformation (⟨Real.sin, Real.cos, Real.sqrt, Real.arccos⟩ : Libm ℝ) ⟨1, 1, 1⟩
        ⟨0, 0, Real.pi⟩ ⟨0, 0, 0⟩ tetra).box.MIN = ⟨1 / 2, 1 / 2, 0⟩ ∧
    ¬ Encloses
      (Transformation (⟨Real.sin, Real.cos, Real.sqrt, Real.arccos⟩ : Libm ℝ) ⟨1, 1, 1⟩
        ⟨0, 0, Real.pi⟩ ⟨0, 0, 0⟩ tetra).box
      ((Transformation (⟨Real.sin, Real.cos, Real.sqrt, Real.arccos⟩ : Libm ℝ) ⟨1, 1, 1⟩
        ⟨0, 0, Real.pi⟩ ⟨0, 0, 0⟩ tetra).v 1) := by
  have hrot : rotationMatrix (⟨Real.sin, Real.cos, Real.sqrt, Real.arccos⟩ : Libm ℝ)
      ⟨0, 0, Real.pi⟩ = ⟨⟨-1, 0, 0⟩, ⟨0, -1, 0⟩, ⟨0, 0, 1⟩⟩ := by
    simp [rotationMatrix]
  have hv : (Transformation (⟨Real.sin, Real.cos, Real.sqrt, Real.arccos⟩ : Libm ℝ) ⟨1, 1, 1⟩
      ⟨0, 0, Real.pi⟩ ⟨0, 0, 0⟩ tetra).v 1 = ⟨-1 / 2, 1 / 2, 0⟩ := by
    show TransformVertex (⟨1 / 4, 1 / 4, 1 / 4⟩ : RealVec ℝ) ⟨1, 1, 1⟩
      (rotationMatrix (⟨Real.sin, Real.cos, Real.sqrt, Real.arccos⟩ : Libm ℝ) ⟨0, 0, Real.pi⟩)
      ⟨0, 0, 0⟩ ⟨1, 0, 0⟩ = _
    rw [hrot]
    norm_num [TransformVertex, Dot]
  have hb : (Transformation (⟨Real.sin, Real.cos, Real.sqrt, Real.arccos⟩ : Libm ℝ) ⟨1, 1, 1⟩
      ⟨0, 0, Real.pi⟩ ⟨0, 0, 0⟩ tetra).box.MIN = ⟨1 / 2, 1 / 2, 0⟩ := by
    show TransformVertex (⟨1 / 4, 1 / 4, 1 / 4⟩ : RealVec ℝ) ⟨1, 1, 1⟩
      (rotationMatrix (⟨Real.sin, Real.cos, Real.sqrt, Real.arccos⟩ : Libm ℝ) ⟨0, 0, Real.pi⟩)
      ⟨0, 0, 0⟩ ⟨0, 0, 0⟩ = _
    rw [hrot]
    norm_num [TransformVertex, Dot]
  refine ⟨tetra_box_encloses, hv, hb, ?_⟩
  intro h
  have h1 := h.1
  rw [hv, hb] at h1
  norm_num at h1

/-! ## PointTriangleDistance and ComputeIntersection: the closest point (C26, C27) -/

theorem trianglePoint_v0 (v0 e01 e02 : RealVec R) : trianglePoint v0 e01 e02 0 0 = v0 := by
  simp [trianglePoint]

theorem trianglePoint_edge02 (v0 e01 e02 : RealVec R) (t : R) :
    trianglePoint v0 e01 e02 0 t = ⟨v0.X + t * e02.X, v0.Y + t * e02.Y, v0.Z + t * e02.Z⟩ := by
  simp [trianglePoint]

theorem trianglePoint_edge01 (v0 e01 e02 : RealVec R) (s : R) :
    trianglePoint v0 e01 e02 s 0 = ⟨v0.X + s * e01.X, v0.Y + s * e01.Y, v0.Z + s * e01.Z⟩ := by
  simp [trianglePoint]

theorem BuildTriangle_v1 (faceID : Nat) (poly : Polyhedron R) :
    trianglePoint (BuildTriangle faceID poly).1 (BuildTriangle faceID poly).2.2.2.1
      (BuildTriangle faceID poly).2.2.2.2 1 0 = (BuildTriangle faceID poly).2.1 := by
  simp [trianglePoint, BuildTriangle]

theorem BuildTriangle_v2 (faceID : Nat) (poly : Polyhedron R) :
    trianglePoint (BuildTriangle faceID poly).1 (BuildTriangle faceID poly).2.2.2.1
      (BuildTriangle faceID poly).2.2.2.2 0 1 = (BuildTriangle faceID poly).2.2.1 := by
  simp [trianglePoint, BuildTriangle]

/-- The three branches of `ComputeIntersection` on the parameters
`(1 - s - t, s, t)`, with exact equality as `EqualReal`: the point written
to `pi` is `v0 + s*e01 + t*e02`. -/
theorem ComputeIntersection_point (EqualReal : R → R → Bool)
    (hE : ∀ x y, EqualReal x y = true ↔ x = y) (p : RealVec R) (faceID : Nat)
    (poly : Polyhedron R) (d s t : R) (ht : 0 ≤ t) (hst : s + t ≤ 1)
    (hval : PointTriangleDistance p (BuildTriangle faceID poly).1
      (BuildTriangle faceID poly).2.2.2.1 (BuildTriangle faceID poly).2.2.2.2
        = some (d, ⟨1 - s - t, s, t⟩)) :
    ∃ res, ComputeIntersection EqualReal p faceID poly = some res ∧ res.1 = d ∧
      res.2.1 = trianglePoint (BuildTriangle faceID poly).1 (BuildTriangle faceID poly).2.2.2.1
        (BuildTriangle faceID poly).2.2.2.2 s t := by
  have hEf : ∀ x y, EqualReal x y = false ↔ x ≠ y := by
    intro x y
    rw [← Bool.not_eq_true, hE]
  unfold ComputeIntersection
  simp only [hval, Option.map_some']
  by_cases hs0 : s = 0
  · have e1 : EqualReal s 0 = true := (hE _ _).2 hs0
    by_cases ht0 : t = 0
    · have e2 : EqualReal t 0 = true := (hE _ _).2 ht0
      simp only [e1, e2, if_true]
      refine ⟨_, rfl, rfl, ?_⟩
      rw [hs0, ht0, trianglePoint_v0]
    · have e2 : EqualReal t 0 = false := (hEf _ _).2 ht0
      by_cases ht1 : t = 1
      · have e3 : EqualReal t 1 = true := (hE _ _).2 ht1
        simp only [e1, e2, e3, if_true, Bool.false_eq_true, if_false]
        refine ⟨_, rfl, rfl, ?_⟩
        rw [hs0, ht1, BuildTriangle_v2]
      · have e3 : EqualReal t 1 = false := (hEf _ _).2 ht1
        simp only [e1, e2, e3, if_true, Bool.false_eq_true, if_false]
        refine ⟨_, rfl, rfl, ?_⟩
        rw [hs0, trianglePoint_edge02]
  · have e1 : EqualReal s 0 = false := (hEf _ _).2 hs0
    by_cases hs1 : s = 1
    · have e2 : EqualReal s 1 = true := (hE _ _).2 hs1
      have ht0 : t = 0 := by linarith
      simp only [e1, e2, if_true, Bool.false_eq_true, if_false]
      refine ⟨_, rfl, rfl, ?_⟩
      rw [hs1, ht0, BuildTriangle_v1]
    · have e2 : EqualReal s 1 = false := (hEf _ _).2 hs1
      by_cases ht0 : t = 0
      · have e3 : EqualReal t 0 = true := (hE _ _).2 ht0
        simp only [e1, e2, e3, if_true, Bool.false_eq_true, if_false]
        refine ⟨_, rfl, rfl, ?_⟩
        rw [ht0, trianglePoint_edge01]
      · have e3 : EqualReal t 0 = false := (hEf _ _).2 ht0
        simp only [e1, e2, e3, Bool.false_eq_true, if_false]
        split_ifs
        · exact ⟨_, rfl, rfl, rfl⟩
        · exact ⟨_, rfl, rfl, rfl⟩

theorem nonDegenerate_tetra0 :
    NonDegenerate (BuildTriangle 0 (tetra : Polyhedron ℚ)).2.2.2.1
      (BuildTriangle 0 (tetra : Polyhedron ℚ)).2.2.2.2 := by
  show NonDegenerate (⟨0 - 0, 1 - 0, 0 - 0⟩ : RealVec ℚ) ⟨1 - 0, 0 - 0, 0 - 0⟩
  intro α β h1 h2 _
  dsimp only at h1 h2
  constructor <;> linarith

theorem exact_equality (x y : ℚ) : decide (x = y) = true ↔ x = y := by
  simp


/-! ## ComputeIntersection: the selected normal (C28) -/

/-- The decision tree of `ComputeIntersection` in terms of the tests it
makes with `EqualReal` on `para = (x, s, t)`. -/
theorem ComputeIntersection_tree (EqualReal : R → R → Bool) (p : RealVec R) (faceID : Nat)
    (poly : Polyhedron R) (d x s t : R)
    (hval : PointTriangleDistance p (BuildTriangle faceID poly).1
      (BuildTriangle faceID poly).2.2.2.1 (BuildTriangle faceID poly).2.2.2.2
        = some (d, ⟨x, s, t⟩)) :
    ∃ res, ComputeIntersection EqualReal p faceID poly = some res ∧ res.1 = d ∧
      (EqualReal s 0 = true → EqualReal t 0 = true → res.2.2 = poly.Nv (poly.f faceID 0)) ∧
      (EqualReal s 0 = true → EqualReal t 0 = false → EqualReal t 1 = true →
        res.2.2 = poly.Nv (poly.f faceID 2)) ∧
      (EqualReal s 0 = true → EqualReal t 0 = false → EqualReal t 1 = false →
        res.2.2 = poly.Ne (FindEdge (poly.f faceID 0) (poly.f faceID 2) poly)) ∧
      (EqualReal s 0 = false → EqualReal s 1 = true → res.2.2 = poly.Nv (poly.f faceID 1)) ∧
      (EqualReal s 0 = false → EqualReal s 1 = false → EqualReal t 0 = true →
        res.2.2 = poly.Ne (FindEdge (poly.f faceID 0) (poly.f faceID 1) poly)) ∧
      (EqualReal s 0 = false → EqualReal s 1 = false → EqualReal t 0 = false →
        EqualReal x 0 = true →
        res.2.2 = poly.Ne (FindEdge (poly.f faceID 1) (poly.f faceID 2) poly)) ∧
      (EqualReal s 0 = false → EqualReal s 1 = false → EqualReal t 0 = false →
        EqualReal x 0 = false → res.2.2 = poly.Nf faceID) := by
  unfold ComputeIntersection
  simp only [hval, Option.map_some']
  cases e1 : EqualReal s 0 <;> cases e2 : EqualReal s 1 <;> cases e3 : EqualReal t 0 <;>
    cases e4 : EqualReal t 1 <;> cases e5 : EqualReal x 0 <;>
    exact ⟨_, rfl, by simp, by simp⟩

/-- C28: on a non-degenerate face `ComputeIntersection` returns a normal `N`
chosen by the tests it makes with `EqualReal` on `para`; when `EqualReal` is
exact equality, `N` is the vertex normal of corner `k` when the barycentric
coordinate of corner `k` is 1, the edge normal of the side opposite to the
one coordinate that is 0 when the other two are not 0, and the face normal
when no coordinate is 0, and these seven cases cover every `para`. -/
theorem ComputeIntersection_normal (EqualReal : R → R → Bool) (p : RealVec R) (faceID : Nat)
    (poly : Polyhedron R)
    (hnd : NonDegenerate (BuildTriangle faceID poly).2.2.2.1
      (BuildTriangle faceID poly).2.2.2.2) :
    ∃ d pi N para, ComputeIntersection EqualReal p faceID poly = some (d, pi, N) ∧
      PointTriangleDistance p (BuildTriangle faceID poly).1 (BuildTriangle faceID poly).2.2.2.1
        (BuildTriangle faceID poly).2.2.2.2 = some (d, para) ∧
      (EqualReal para.Y 0 = true → EqualReal para.Z 0 = true →
        N = poly.Nv (poly.f faceID 0)) ∧
      (EqualReal para.Y 0 = true → EqualReal para.Z 0 = false → EqualReal para.Z 1 = true →
        N = poly.Nv (poly.f faceID 2)) ∧
      (EqualReal para.Y 0 = true → EqualReal para.Z 0 = false → EqualReal para.Z 1 = false →
        N = poly.Ne (FindEdge (poly.f faceID 0) (poly.f faceID 2) poly)) ∧
      (EqualReal para.Y 0 = false → EqualReal para.Y 1 = true →
        N = poly.Nv (poly.f faceID 1)) ∧
      (EqualReal para.Y 0 = false → EqualReal para.Y 1 = false → EqualReal para.Z 0 = true →
        N = poly.Ne (FindEdge (poly.f faceID 0) (poly.f faceID 1) poly)) ∧
      (EqualReal para.Y 0 = false → EqualReal para.Y 1 = false → EqualReal para.Z 0 = false →
        EqualReal para.X 0 = true →
        N = poly.Ne (FindEdge (poly.f faceID 1) (poly.f faceID 2) poly)) ∧
      (EqualReal para.Y 0 = false → EqualReal para.Y 1 = false → EqualReal para.Z 0 = false →
        EqualReal para.X 0 = false → N = poly.Nf faceID) ∧
      ((∀ x y, EqualReal x y = true ↔ x = y) →
        (para.X = 1 → N = poly.Nv (poly.f faceID 0)) ∧
        (para.Y = 1 → N = poly.Nv (poly.f faceID 1)) ∧
        (para.Z = 1 → N = poly.Nv (poly.f faceID 2)) ∧
        (para.X = 0 → para.Y ≠ 0 → para.Z ≠ 0 →
          N = poly.Ne (FindEdge (poly.f faceID 1) (poly.f faceID 2) poly)) ∧
        (para.Y = 0 → para.X ≠ 0 → para.Z ≠ 0 →
          N = poly.Ne (FindEdge (poly.f faceID 0) (poly.f faceID 2) poly)) ∧
        (para.Z = 0 → para.X ≠ 0 → para.Y ≠ 0 →
          N = poly.Ne (FindEdge (poly.f faceID 0) (poly.f faceID 1) poly)) ∧
        (para.X ≠ 0 → para.Y ≠ 0 → para.Z ≠ 0 → N = poly.Nf faceID) ∧
        (para.X = 1 ∨ para.Y = 1 ∨ para.Z = 1 ∨
          (para.X = 0 ∧ para.Y ≠ 0 ∧ para.Z ≠ 0) ∨ (para.Y = 0 ∧ para.X ≠ 0 ∧ para.Z ≠ 0) ∨
          (para.Z = 0 ∧ para.X ≠ 0 ∧ para.Y ≠ 0) ∨
          (para.X ≠ 0 ∧ para.Y ≠ 0 ∧ para.Z ≠ 0))) := by
  obtain ⟨s, t, hs, ht, hst, hval, -⟩ :=
    PointTriangleDistance_spec p (BuildTriangle faceID poly).1
      (BuildTriangle faceID poly).2.2.2.1 (BuildTriangle faceID poly).2.2.2.2
      (nonDegenerate_det_pos _ _ hnd)
  obtain ⟨res, hres, hd, t1, t2, t3, t4, t5, t6, t7⟩ :=
    ComputeIntersection_tree EqualReal p faceID poly _ (1 - s - t) s t hval
  refine ⟨res.1, res.2.1, res.2.2, ⟨1 - s - t, s, t⟩, hres, ?_, t1, t2, t3, t4, t5, t6, t7, ?_⟩
  · rw [hd]; exact hval
  · intro hE
    have hEf : ∀ x y, EqualReal x y = false ↔ x ≠ y := by
      intro x y
      rw [← Bool.not_eq_true, hE]
    simp only [hE, hEf] at t1 t2 t3 t4 t5 t6 t7
    refine ⟨fun hx => ?_, fun hy => ?_, fun hz => ?_, fun hx hy hz => ?_, fun hy hx hz => ?_,
      fun hz hx hy => ?_, fun hx hy hz => ?_, ?_⟩
    · have hx' : 1 - s - t = 1 := hx
      exact t1 (by linarith) (by linarith)
    · have hy' : s = 1 := hy
      exact t4 (by rw [hy']; exact one_ne_zero) hy'
    · have hz' : t = 1 := hz
      exact t2 (by linarith) (by rw [hz']; exact one_ne_zero) hz'
    · have hx' : 1 - s - t = 0 := hx
      have hy' : s ≠ 0 := hy
      have hz' : t ≠ 0 := hz
      refine t6 hy' (fun h1 => hz' (by linarith)) hz' hx'
    · have hy' : s = 0 := hy
      have hx' : 1 - s - t ≠ 0 := hx
      have hz' : t ≠ 0 := hz
      refine t3 hy' hz' (fun h1 => hx' (by rw [hy', h1]; ring))
    · have hz' : t = 0 := hz
      have hx' : 1 - s - t ≠ 0 := hx
      have hy' : s ≠ 0 := hy
      refine t5 hy' (fun h1 => hx' (by rw [hz', h1]; ring)) hz'
    · have hx' : 1 - s - t ≠ 0 := hx
      have hy' : s ≠ 0 := hy
      have hz' : t ≠ 0 := hz
      refine t7 hy' (fun h1 => hz' (by linarith)) hz' hx'
    · show 1 - s - t = 1 ∨ s = 1 ∨ t = 1 ∨ (1 - s - t = 0 ∧ s ≠ 0 ∧ t ≠ 0) ∨
        (s = 0 ∧ 1 - s - t ≠ 0 ∧ t ≠ 0) ∨ (t = 0 ∧ 1 - s - t ≠ 0 ∧ s ≠ 0) ∨
        (1 - s - t ≠ 0 ∧ s ≠ 0 ∧ t ≠ 0)
      by_cases h1 : s = 0 <;> by_cases h2 : t = 0 <;> by_cases h3 : 1 - s - t = 0
      · exfalso; rw [h1, h2] at h3; norm_num at h3
      · left; rw [h1, h2]; ring
      · right; right; left; rw [h1] at h3; linarith
      · right; right; right; right; left; exact ⟨h1, h3, h2⟩
      · right; left; rw [h2] at h3; linarith
      · right; right; right; right; right; left; exact ⟨h2, h3, h1⟩
      · right; right; right; left; exact ⟨h3, h1, h2⟩
      · right; right; right; right; right; right; exact ⟨h3, h1, h2⟩

/-- C28, for face 0 of the tetrahedron fixture, the point `(1, 1, 1)` and
exact equality as `EqualReal`. -/
theorem ComputeIntersection_normal_witness :
    NonDegenerate (BuildTriangle 0 (tetra : Polyhedron ℚ)).2.2.2.1
      (BuildTriangle 0 (tetra : Polyhedron ℚ)).2.2.2.2 ∧
    ∃ d pi N para,
      ComputeIntersection (fun x y : ℚ => decide (x = y)) ⟨1, 1, 1⟩ 0 tetra = some (d, pi, N) ∧
      PointTriangleDistance (⟨1, 1, 1⟩ : RealVec ℚ) (BuildTriangle 0 (tetra : Polyhedron ℚ)).1
        (BuildTriangle 0 (tetra : Polyhedron ℚ)).2.2.2.1
        (BuildTriangle 0 (tetra : Polyhedron ℚ)).2.2.2.2 = some (d, para) ∧
      (para.X = 0 → para.Y ≠ 0 → para.Z ≠ 0 →
        N = (tetra : Polyhedron ℚ).Ne
          (FindEdge ((tetra : Polyhedron ℚ).f 0 1) ((tetra : Polyhedron ℚ).f 0 2)
            (tetra : Polyhedron ℚ))) := by
  have h := ComputeIntersection_normal (fun x y : ℚ => decide (x = y)) ⟨1, 1, 1⟩ 0
    (tetra : Polyhedron ℚ) nonDegenerate_tetra0
  obtain ⟨d, pi, N, para, h1, h2, -, -, -, -, -, -, -, h3⟩ := h
  have h4 := h3 exact_equality
  exact ⟨nonDegenerate_tetra0, d, pi, N, para, h1, h2, h4.2.2.2.1⟩

/-! ## ComputeParametersPolyhedron: the face normals (C29) -/

theorem Normalize_eq_some (n : R) (V N : RealVec R) (h : Normalize n V = some N) :
    n ≠ 0 ∧ N = ⟨V.X / n, V.Y / n, V.Z / n⟩ := by
  by_cases hn : n = 0
  · simp [Normalize, divReal, hn] at h
  · rw [Normalize_some n V hn] at h
    exact ⟨hn, (Option.some.inj h).symm⟩

/-- The face normals that the face loop of `ComputeParametersPolyhedron` has
written when it gets through `k` faces. -/
theorem faceLoop_Nf (m : Libm R) (poly : Polyhedron R) (k : Nat) (st : FaceSums R)
    (h : faceLoop m poly k = some st) : ∀ n, n < k → st.Nf n = unitNormal m poly n := by
  induction k generalizing st with
  | zero => intro n hn; omega
  | succ k ih =>
    simp only [faceLoop, Option.bind_eq_some] at h
    obtain ⟨st0, h0, h1⟩ := h
    simp only [faceStep, Option.bind_eq_some, Option.map_eq_some'] at h1
    obtain ⟨N, hN, c0, -, c1, -, rfl⟩ := h1
    obtain ⟨-, hNv⟩ := Normalize_eq_some _ _ _ hN
    intro n hn
    simp only [set1]
    by_cases hk : n = k
    · rw [if_pos hk, hNv, hk]
      rfl
    · rw [if_neg hk]
      exact ih st0 h0 n (by omega)

theorem ComputeParametersPolyhedron_Nf (m : Libm R) (collapse : Int)
    (poly poly' : Polyhedron R) (h : ComputeParametersPolyhedron m collapse poly = some poly') :
    ∀ n, n < poly.faceN → poly'.Nf n = unitNormal m poly n := by
  simp only [ComputeParametersPolyhedron, Option.bind_eq_some, Option.map_eq_some'] at h
  obtain ⟨st, hst, Nv, -, Ne, -, rfl⟩ := h
  exact faceLoop_Nf m poly poly.faceN st hst

theorem Dot_cross_left (a b : RealVec R) : Dot (Cross a b) a = 0 := by
  simp only [Dot, Cross]
  ring

theorem Dot_cross_right (a b : RealVec R) : Dot (Cross a b) b = 0 := by
  simp only [Dot, Cross]
  ring

/-- The unit normal of a face with `e01 × e02 ≠ 0` has squared length 1 and
is orthogonal to `e01` and `e02`. -/
theorem unitNormal_spec (m : Libm R) (hm : LibmFacts m) (poly : Polyhedron R) (n : Nat)
    (hc : 0 < Dot (faceCross poly n) (faceCross poly n)) :
    Dot (unitNormal m poly n) (unitNormal m poly n) = 1 ∧
    Norm m (unitNormal m poly n) = 1 ∧
    Dot (unitNormal m poly n) (BuildTriangle n poly).2.2.2.1 = 0 ∧
    Dot (unitNormal m poly n) (BuildTriangle n poly).2.2.2.2 = 0 := by
  have hpos := sqrt_pos_of_pos m hm _ hc
  have hsq := hm.2.1 _ hc.le
  have h1 : Dot (unitNormal m poly n) (unitNormal m poly n) = 1 := by
    unfold unitNormal Norm
    rw [Dot_div_left]
    have : Dot (faceCross poly n) (⟨(faceCross poly n).X / m.sqrt (Dot (faceCross poly n)
        (faceCross poly n)), (faceCross poly n).Y / m.sqrt (Dot (faceCross poly n)
        (faceCross poly n)), (faceCross poly n).Z / m.sqrt (Dot (faceCross poly n)
        (faceCross poly n))⟩ : RealVec R)
        = Dot (faceCross poly n) (faceCross poly n)
          / m.sqrt (Dot (faceCross poly n) (faceCross poly n)) := by
      simp only [Dot]
      ring
    rw [this, div_div, hsq]
    exact div_self hc.ne'
  refine ⟨h1, Norm_eq_one m hm _ h1, ?_, ?_⟩
  · unfold unitNormal
    rw [Dot_div_left]
    unfold faceCross
    rw [Dot_cross_left, zero_div]
  · unfold unitNormal
    rw [Dot_div_left]
    unfold faceCross
    rw [Dot_cross_right, zero_div]

theorem nonDegenerate_dots (e01 e02 : RealVec R) (h : NonDegenerate e01 e02) :
    0 < Dot e01 e01 ∧ 0 < Dot e02 e02 ∧
    0 < Dot (⟨e02.X - e01.X, e02.Y - e01.Y, e02.Z - e01.Z⟩ : RealVec R)
      ⟨e02.X - e01.X, e02.Y - e01.Y, e02.Z - e01.Z⟩ := by
  have hdet := nonDegenerate_det_pos e01 e02 h
  refine ⟨det_pos_left _ _ _ (Dot_self_nonneg e01) hdet,
    det_pos_right _ _ _ (Dot_self_nonneg e02) hdet, ?_⟩
  rcases (Dot_self_nonneg (⟨e02.X - e01.X, e02.Y - e01.Y, e02.Z - e01.Z⟩ : RealVec R)).lt_or_eq
    with h1 | h1
  · exact h1
  · exfalso
    obtain ⟨hx, hy, hz⟩ := Dot_self_eq_zero _ h1.symm
    dsimp only at hx hy hz
    have := (h (-1) 1 (by linarith) (by linarith) (by linarith)).2
    exact one_ne_zero this

/-- On a non-degenerate face the body of the face loop returns a state, and
the face normal it stores is the unit normal. -/
theorem faceStep_nonDegenerate (m : Libm R) (hm : LibmFacts m) (poly : Polyhedron R) (n : Nat)
    (hnd : NonDegenerate (BuildTriangle n poly).2.2.2.1 (BuildTriangle n poly).2.2.2.2)
    (st : FaceSums R) :
    ∃ st', faceStep m poly n st = some st' ∧ st'.Nf n = unitNormal m poly n := by
  obtain ⟨ha, hc, hl⟩ := nonDegenerate_dots _ _ hnd
  have hdet := nonDegenerate_det_pos _ _ hnd
  rw [det_eq_cross] at hdet
  have hU : Normalize (Norm m (faceCross poly n)) (faceCross poly n)
      = some (unitNormal m poly n) := Normalize_some _ _ (Norm_ne_zero m hm _ hdet)
  have he12 : (⟨(BuildTriangle n poly).2.2.1.X - (BuildTriangle n poly).2.1.X,
      (BuildTriangle n poly).2.2.1.Y - (BuildTriangle n poly).2.1.Y,
      (BuildTriangle n poly).2.2.1.Z - (BuildTriangle n poly).2.1.Z⟩ : RealVec R)
      = ⟨(BuildTriangle n poly).2.2.2.2.X - (BuildTriangle n poly).2.2.2.1.X,
        (BuildTriangle n poly).2.2.2.2.Y - (BuildTriangle n poly).2.2.2.1.Y,
        (BuildTriangle n poly).2.2.2.2.Z - (BuildTriangle n poly).2.2.2.1.Z⟩ := by
    simp only [BuildTriangle, RealVec.mk.injEq]
    refine ⟨?_, ?_, ?_⟩ <;> ring
  have hd0 : 2 * m.sqrt (Dot (BuildTriangle n poly).2.2.2.1 (BuildTriangle n poly).2.2.2.1
      * Dot (BuildTriangle n poly).2.2.2.2 (BuildTriangle n poly).2.2.2.2) ≠ 0 :=
    (mul_pos two_pos (sqrt_pos_of_pos m hm _ (mul_pos ha hc))).ne'
  have hd1 : 2 * m.sqrt (Dot (BuildTriangle n poly).2.2.2.1 (BuildTriangle n poly).2.2.2.1
      * Dot (⟨(BuildTriangle n poly).2.2.1.X - (BuildTriangle n poly).2.1.X,
          (BuildTriangle n poly).2.2.1.Y - (BuildTriangle n poly).2.1.Y,
          (BuildTriangle n poly).2.2.1.Z - (BuildTriangle n poly).2.1.Z⟩ : RealVec R)
        ⟨(BuildTriangle n poly).2.2.1.X - (BuildTriangle n poly).2.1.X,
          (BuildTriangle n poly).2.2.1.Y - (BuildTriangle n poly).2.1.Y,
          (BuildTriangle n poly).2.2.1.Z - (BuildTriangle n poly).2.1.Z⟩) ≠ 0 := by
    rw [he12]
    exact (mul_pos two_pos (sqrt_pos_of_pos m hm _ (mul_pos ha hl))).ne'
  unfold faceCross at hU
  unfold faceStep
  simp only [hU, divReal, if_neg hd0, if_neg hd1, Option.some_bind, Option.map_some']
  refine ⟨_, rfl, ?_⟩
  simp [set1]

/-- C29: on a non-degenerate face `n` the body of the face loop of
`ComputeParametersPolyhedron` stores the unit normal `e01 × e02 / |e01 × e02|`
in `Nf[n]`, this is the `Nf[n]` of the result of
`ComputeParametersPolyhedron`, and it has length 1 and is orthogonal to
`e01` and `e02` (`sqrt` being the square root). -/
theorem ComputeParametersPolyhedron_face_normal (m : Libm R) (hm : LibmFacts m)
    (poly : Polyhedron R) (n : Nat)
    (hnd : NonDegenerate (BuildTriangle n poly).2.2.2.1 (BuildTriangle n poly).2.2.2.2) :
    (∀ st, ∃ st', faceStep m poly n st = some st' ∧ st'.Nf n = unitNormal m poly n) ∧
    (∀ (collapse : Int) (poly' : Polyhedron R), n < poly.faceN →
      ComputeParametersPolyhedron m collapse poly = some poly' →
      poly'.Nf n = unitNormal m poly n) ∧
    unitNormal m poly n
      = ⟨(Cross (BuildTriangle n poly).2.2.2.1 (BuildTriangle n poly).2.2.2.2).X
            / Norm m (Cross (BuildTriangle n poly).2.2.2.1 (BuildTriangle n poly).2.2.2.2),
         (Cross (BuildTriangle n poly).2.2.2.1 (BuildTriangle n poly).2.2.2.2).Y
            / Norm m (Cross (BuildTriangle n poly).2.2.2.1 (BuildTriangle n poly).2.2.2.2),
         (Cross (BuildTriangle n poly).2.2.2.1 (BuildTriangle n poly).2.2.2.2).Z
            / Norm m (Cross (BuildTriangle n poly).2.2.2.1 (BuildTriangle n poly).2.2.2.2)⟩ ∧
    Dot (unitNormal m poly n) (unitNormal m poly n) = 1 ∧
    Norm m (unitNormal m poly n) = 1 ∧
    Dot (unitNormal m poly n) (BuildTriangle n poly).2.2.2.1 = 0 ∧
    Dot (unitNormal m poly n) (BuildTriangle n poly).2.2.2.2 = 0 := by
  have hdet := nonDegenerate_det_pos _ _ hnd
  rw [det_eq_cross] at hdet
  obtain ⟨h1, h2, h3, h4⟩ := unitNormal_spec m hm poly n hdet
  exact ⟨faceStep_nonDegenerate m hm poly n hnd,
    fun collapse poly' hn h => ComputeParametersPolyhedron_Nf m collapse poly poly' h n hn,
    rfl, h1, h2, h3, h4⟩

/-! ## ComputeParametersPolyhedron on the tetrahedron fixtures: the bounding box (C21, C29, C23) -/

/-- The tetrahedron fixture is fit for `ComputeParametersPolyhedron`, with
the square root and arc cosine of the real numbers. -/
theorem tetra_returns (collapse : Int) :
    ∃ poly', ComputeParametersPolyhedron (⟨Real.sin, Real.cos, Real.sqrt, Real.arccos⟩ : Libm ℝ)
      collapse (tetra : Polyhedron ℝ) = some poly' :=
  ComputeParametersPolyhedron_regular
    (⟨Real.sin, Real.cos, Real.sqrt, Real.arccos⟩ : Libm ℝ) LibmFacts_real collapse
    (tetra : Polyhedron ℝ)
    (fun i => ⟨((tetra : Polyhedron ℝ).v i).X - 1 / 4, ((tetra : Polyhedron ℝ).v i).Y - 1 / 4,
        ((tetra : Polyhedron ℝ).v i).Z - 1 / 4⟩)
    (by
      intro n hn
      have hn' : n < 4 := hn
      interval_cases n
      · exact tetra_face0
      · exact tetra_face1
      · exact tetra_face2
      · exact tetra_face3)
    (by decide) (by decide) (by decide)

/-- C21, for the tetrahedron fixture with the square root and arc cosine of
the real numbers: `ComputeParametersPolyhedron` returns, and the tensor it
stores is symmetric. -/
theorem inertia_symmetric_witness :
    ∃ poly', ComputeParametersPolyhedron (⟨Real.sin, Real.cos, Real.sqrt, Real.arccos⟩ : Libm ℝ)
        COLLAPSEN (tetra : Polyhedron ℝ) = some poly' ∧ SymmetricMat poly'.I := by
  obtain ⟨poly', h⟩ := tetra_returns COLLAPSEN
  exact ⟨poly', h, inertia_symmetric.2.1 _ _ _ _ h⟩

theorem nonDegenerate_tetra3 :
    NonDegenerate (BuildTriangle 3 (tetra : Polyhedron ℝ)).2.2.2.1
      (BuildTriangle 3 (tetra : Polyhedron ℝ)).2.2.2.2 := by
  show NonDegenerate (⟨0 - 1, 1 - 0, 0 - 0⟩ : RealVec ℝ) ⟨0 - 1, 0 - 0, 1 - 0⟩
  intro α β _ h2 h3
  dsimp only at h2 h3
  constructor <;> linarith

/-- C29, for face 3 of the tetrahedron fixture, whose edge vectors are
`(-1, 1, 0)` and `(-1, 0, 1)`, with the square root and arc cosine of the
real numbers. -/
theorem ComputeParametersPolyhedron_face_normal_witness :
    LibmFacts (⟨Real.sin, Real.cos, Real.sqrt, Real.arccos⟩ : Libm ℝ) ∧
    NonDegenerate (BuildTriangle 3 (tetra : Polyhedron ℝ)).2.2.2.1
      (BuildTriangle 3 (tetra : Polyhedron ℝ)).2.2.2.2 ∧
    (∃ poly', ComputeParametersPolyhedron
        (⟨Real.sin, Real.cos, Real.sqrt, Real.arccos⟩ : Libm ℝ) COLLAPSEN
        (tetra : Polyhedron ℝ) = some poly' ∧
      poly'.Nf 3 = unitNormal (⟨Real.sin, Real.cos, Real.sqrt, Real.arccos⟩ : Libm ℝ) tetra 3) ∧
    Dot (unitNormal (⟨Real.sin, Real.cos, Real.sqrt, Real.arccos⟩ : Libm ℝ) tetra 3)
      (unitNormal (⟨Real.sin, Real.cos, Real.sqrt, Real.arccos⟩ : Libm ℝ) tetra 3) = 1 ∧
    Dot (unitNormal (⟨Real.sin, Real.cos, Real.sqrt, Real.arccos⟩ : Libm ℝ) tetra 3)
      (BuildTriangle 3 (tetra : Polyhedron ℝ)).2.2.2.1 = 0 ∧
    Dot (unitNormal (⟨Real.sin, Real.cos, Real.sqrt, Real.arccos⟩ : Libm ℝ) tetra 3)
      (BuildTriangle 3 (tetra : Polyhedron ℝ)).2.2.2.2 = 0 := by
  have h := ComputeParametersPolyhedron_face_normal
    (⟨Real.sin, Real.cos, Real.sqrt, Real.arccos⟩ : Libm ℝ) LibmFacts_real
    (tetra : Polyhedron ℝ) 3 nonDegenerate_tetra3
  obtain ⟨poly', hp⟩ := tetra_returns COLLAPSEN
  exact ⟨LibmFacts_real, nonDegenerate_tetra3,
    ⟨poly', hp, h.2.1 COLLAPSEN poly' (by decide) hp⟩, h.2.2.2.1, h.2.2.2.2.2.1, h.2.2.2.2.2.2⟩

theorem ComputeParametersPolyhedron_box (m : Libm R) (collapse : Int)
    (poly poly' : Polyhedron R) (h : ComputeParametersPolyhedron m collapse poly = some poly') :
    poly'.box = boundingBoxLoop poly poly.vertN := by
  simp only [ComputeParametersPolyhedron, Option.bind_eq_some, Option.map_eq_some'] at h
  obtain ⟨st, -, Nv, -, Ne, -, rfl⟩ := h
  rfl

theorem tetraLow_tri0 : BuildTriangle 0 (tetraLow : Polyhedron R)
    = (⟨-2, 0, 0⟩, ⟨-2, 1, 0⟩, ⟨-1, 0, 0⟩, ⟨-2 - -2, 1 - 0, 0 - 0⟩, ⟨-1 - -2, 0 - 0, 0 - 0⟩) := rfl

theorem tetraLow_tri1 : BuildTriangle 1 (tetraLow : Polyhedron R)
    = (⟨-2, 0, 0⟩, ⟨-1, 0, 0⟩, ⟨-2, 0, 1⟩, ⟨-1 - -2, 0 - 0, 0 - 0⟩, ⟨-2 - -2, 0 - 0, 1 - 0⟩) := rfl

theorem tetraLow_tri2 : BuildTriangle 2 (tetraLow : Polyhedron R)
    = (⟨-2, 0, 0⟩, ⟨-2, 0, 1⟩, ⟨-2, 1, 0⟩, ⟨-2 - -2, 0 - 0, 1 - 0⟩, ⟨-2 - -2, 1 - 0, 0 - 0⟩) := rfl

theorem tetraLow_tri3 : BuildTriangle 3 (tetraLow : Polyhedron R)
    = (⟨-1, 0, 0⟩, ⟨-2, 1, 0⟩, ⟨-2, 0, 1⟩, ⟨-2 - -1, 1 - 0, 0 - 0⟩, ⟨-2 - -1, 0 - 0, 1 - 0⟩) := rfl

theorem tetraLow_cross0 : faceCross (tetraLow : Polyhedron R) 0 = ⟨0, 0, -1⟩ := by
  unfold faceCross
  rw [tetraLow_tri0]
  norm_num [Cross]

theorem tetraLow_cross1 : faceCross (tetraLow : Polyhedron R) 1 = ⟨0, -1, 0⟩ := by
  unfold faceCross
  rw [tetraLow_tri1]
  norm_num [Cross]

theorem tetraLow_cross2 : faceCross (tetraLow : Polyhedron R) 2 = ⟨-1, 0, 0⟩ := by
  unfold faceCross
  rw [tetraLow_tri2]
  norm_num [Cross]

theorem tetraLow_cross3 : faceCross (tetraLow : Polyhedron R) 3 = ⟨1, 1, 1⟩ := by
  unfold faceCross
  rw [tetraLow_tri3]
  norm_num [Cross]

theorem tetraLow_face0 :
    FaceRegular (⟨Real.sin, Real.cos, Real.sqrt, Real.arccos⟩ : Libm ℝ) tetraLow
      (fun i => ⟨((tetraLow : Polyhedron ℝ).v i).X - (-7 / 4),
        ((tetraLow : Polyhedron ℝ).v i).Y - 1 / 4, ((tetraLow : Polyhedron ℝ).v i).Z - 1 / 4⟩) 0 := by
  refine FaceRegular_of_dots _ _ _ 0 1 1 2 ?_ ?_ ?_ ?_ (right_angles _ LibmFacts_real) ?_
  · rw [tetraLow_tri0]; norm_num [Dot]
  · rw [tetraLow_tri0]; norm_num [Dot]
  · rw [tetraLow_tri0]; norm_num [Dot]
  · rw [tetraLow_cross0]; norm_num [Dot]
  · intro c hc
    rw [tetraLow_cross0]
    interval_cases c
    · show 0 < Dot (⟨0, 0, -1⟩ : RealVec ℝ) ⟨-2 - (-7 / 4), 0 - 1 / 4, 0 - 1 / 4⟩
      norm_num [Dot]
    · show 0 < Dot (⟨0, 0, -1⟩ : RealVec ℝ) ⟨-2 - (-7 / 4), 1 - 1 / 4, 0 - 1 / 4⟩
      norm_num [Dot]
    · show 0 < Dot (⟨0, 0, -1⟩ : RealVec ℝ) ⟨-1 - (-7 / 4), 0 - 1 / 4, 0 - 1 / 4⟩
      norm_num [Dot]

theorem tetraLow_face1 :
    FaceRegular (⟨Real.sin, Real.cos, Real.sqrt, Real.arccos⟩ : Libm ℝ) tetraLow
      (fun i => ⟨((tetraLow : Polyhedron ℝ).v i).X - (-7 / 4),
        ((tetraLow : Polyhedron ℝ).v i).Y - 1 / 4, ((tetraLow : Polyhedron ℝ).v i).Z - 1 / 4⟩) 1 := by
  refine FaceRegular_of_dots _ _ _ 1 1 1 2 ?_ ?_ ?_ ?_ (right_angles _ LibmFacts_real) ?_
  · rw [tetraLow_tri1]; norm_num [Dot]
  · rw [tetraLow_tri1]; norm_num [Dot]
  · rw [tetraLow_tri1]; norm_num [Dot]
  · rw [tetraLow_cross1]; norm_num [Dot]
  · intro c hc
    rw [tetraLow_cross1]
    interval_cases c
    · show 0 < Dot (⟨0, -1, 0⟩ : RealVec ℝ) ⟨-2 - (-7 / 4), 0 - 1 / 4, 0 - 1 / 4⟩
      norm_num [Dot]
    · show 0 < Dot (⟨0, -1, 0⟩ : RealVec ℝ) ⟨-1 - (-7 / 4), 0 - 1 / 4, 0 - 1 / 4⟩
      norm_num [Dot]
    · show 0 < Dot (⟨0, -1, 0⟩ : RealVec ℝ) ⟨-2 - (-7 / 4), 0 - 1 / 4, 1 - 1 / 4⟩
      norm_num [Dot]

theorem tetraLow_face2 :
    FaceRegular (⟨Real.sin, Real.cos, Real.sqrt, Real.arccos⟩ : Libm ℝ) tetraLow
      (fun i => ⟨((tetraLow : Polyhedron ℝ).v i).X - (-7 / 4),
        ((tetraLow : Polyhedron ℝ).v i).Y - 1 / 4, ((tetraLow : Polyhedron ℝ).v i).Z - 1 / 4⟩) 2 := by
  refine FaceRegular_of_dots _ _ _ 2 1 1 2 ?_ ?_ ?_ ?_ (right_angles _ LibmFacts_real) ?_
  · rw [tetraLow_tri2]; norm_num [Dot]
  · rw [tetraLow_tri2]; norm_num [Dot]
  · rw [tetraLow_tri2]; norm_num [Dot]
  · rw [tetraLow_cross2]; norm_num [Dot]
  · intro c hc
    rw [tetraLow_cross2]
    interval_cases c
    · show 0 < Dot (⟨-1, 0, 0⟩ : RealVec ℝ) ⟨-2 - (-7 / 4), 0 - 1 / 4, 0 - 1 / 4⟩
      norm_num [Dot]
    · show 0 < Dot (⟨-1, 0, 0⟩ : RealVec ℝ) ⟨-2 - (-7 / 4), 0 - 1 / 4, 1 - 1 / 4⟩
      norm_num [Dot]
    · show 0 < Dot (⟨-1, 0, 0⟩ : RealVec ℝ) ⟨-2 - (-7 / 4), 1 - 1 / 4, 0 - 1 / 4⟩
      norm_num [Dot]

theorem tetraLow_face3 :
    FaceRegular (⟨Real.sin, Real.cos, Real.sqrt, Real.arccos⟩ : Libm ℝ) tetraLow
      (fun i => ⟨((tetraLow : Polyhedron ℝ).v i).X - (-7 / 4),
        ((tetraLow : Polyhedron ℝ).v i).Y - 1 / 4, ((tetraLow : Polyhedron ℝ).v i).Z - 1 / 4⟩) 3 := by
  refine FaceRegular_of_dots _ _ _ 3 2 2 2 ?_ ?_ ?_ ?_ equilateral_angles ?_
  · rw [tetraLow_tri3]; norm_num [Dot]
  · rw [tetraLow_tri3]; norm_num [Dot]
  · rw [tetraLow_tri3]; norm_num [Dot]
  · rw [tetraLow_cross3]; norm_num [Dot]
  · intro c hc
    rw [tetraLow_cross3]
    interval_cases c
    · show 0 < Dot (⟨1, 1, 1⟩ : RealVec ℝ) ⟨-1 - (-7 / 4), 0 - 1 / 4, 0 - 1 / 4⟩
      norm_num [Dot]
    · show 0 < Dot (⟨1, 1, 1⟩ : RealVec ℝ) ⟨-2 - (-7 / 4), 1 - 1 / 4, 0 - 1 / 4⟩
      norm_num [Dot]
    · show 0 < Dot (⟨1, 1, 1⟩ : RealVec ℝ) ⟨-2 - (-7 / 4), 0 - 1 / 4, 1 - 1 / 4⟩
      norm_num [Dot]

theorem tetraLow_returns (collapse : Int) :
    ∃ poly', ComputeParametersPolyhedron (⟨Real.sin, Real.cos, Real.sqrt, Real.arccos⟩ : Libm ℝ)
      collapse (tetraLow : Polyhedron ℝ) = some poly' :=
  ComputeParametersPolyhedron_regular
    (⟨Real.sin, Real.cos, Real.sqrt, Real.arccos⟩ : Libm ℝ) LibmFacts_real collapse
    (tetraLow : Polyhedron ℝ)
    (fun i => ⟨((tetraLow : Polyhedron ℝ).v i).X - (-7 / 4),
        ((tetraLow : Polyhedron ℝ).v i).Y - 1 / 4, ((tetraLow : Polyhedron ℝ).v i).Z - 1 / 4⟩)
    (by
      intro n hn
      have hn' : n < 4 := hn
      interval_cases n
      · exact tetraLow_face0
      · exact tetraLow_face1
      · exact tetraLow_face2
      · exact tetraLow_face3)
    (by decide) (by decide) (by decide)

theorem tetraLow_box : (boundingBoxLoop (tetraLow : Polyhedron ℝ) 4).MAX
      = ⟨FLT_MIN, 1, 1⟩ ∧
    (boundingBoxLoop (tetraLow : Polyhedron ℝ) 4).MIN = ⟨-2, 0, 0⟩ := by
  simp only [boundingBoxLoop]
  show (⟨MaxReal (MaxReal (MaxReal (MaxReal FLT_MIN (-2)) (-1)) (-2)) (-2),
      MaxReal (MaxReal (MaxReal (MaxReal FLT_MIN 0) 0) 1) 0,
      MaxReal (MaxReal (MaxReal (MaxReal FLT_MIN 0) 0) 0) 1⟩ : RealVec ℝ) = _ ∧
    (⟨MinReal (MinReal (MinReal (MinReal FLT_MAX (-2)) (-1)) (-2)) (-2),
      MinReal (MinReal (MinReal (MinReal FLT_MAX 0) 0) 1) 0,
      MinReal (MinReal (MinReal (MinReal FLT_MAX 0) 0) 0) 1⟩ : RealVec ℝ) = _
  norm_num [MaxReal, MinReal, FLT_MIN, FLT_MAX]

/-- C23: on the tetrahedron with the vertices `(-2,0,0)`, `(-1,0,0)`,
`(-2,1,0)`, `(-2,0,1)`, with the square root and arc cosine of the real
numbers, `ComputeParametersPolyhedron` returns a result whose box has
`MAX = (FLT_MIN, 1, 1)` and `MIN = (-2, 0, 0)`: on the first axis, where the
largest vertex coordinate is `-1`, the stored maximum is the start value
`FLT_MIN` of the loop. -/
theorem ComputeParametersPolyhedron_box_negative_axis :
    ∃ poly', ComputeParametersPolyhedron (⟨Real.sin, Real.cos, Real.sqrt, Real.arccos⟩ : Libm ℝ)
        COLLAPSEN (tetraLow : Polyhedron ℝ) = some poly' ∧
      poly'.box.MAX = ⟨FLT_MIN, 1, 1⟩ ∧ poly'.box.MIN = ⟨-2, 0, 0⟩ ∧
      (∀ n, n < (tetraLow : Polyhedron ℝ).vertN → ((tetraLow : Polyhedron ℝ).v n).X ≤ -1) ∧
      ((tetraLow : Polyhedron ℝ).v 1).X = -1 ∧
      poly'.box.MAX.X ≠ -1 := by
  obtain ⟨poly', h⟩ := tetraLow_returns COLLAPSEN
  have hb := ComputeParametersPolyhedron_box _ _ _ _ h
  have hb' : poly'.box = boundingBoxLoop (tetraLow : Polyhedron ℝ) 4 := hb
  refine ⟨poly', h, ?_, ?_, ?_, rfl, ?_⟩
  · rw [hb']; exact tetraLow_box.1
  · rw [hb']; exact tetraLow_box.2
  · intro n hn
    have hn' : n < 4 := hn
    interval_cases n
    · show (-2 : ℝ) ≤ -1
      norm_num
    · show (-1 : ℝ) ≤ -1
      norm_num
    · show (-2 : ℝ) ≤ -1
      norm_num
    · show (-2 : ℝ) ≤ -1
      norm_num
  · rw [hb', tetraLow_box.1]
    show FLT_MIN ≠ (-1 : ℝ)
    norm_num [FLT_MIN]

/-! ## The viscous flux -/

theorem ComputeViscousFlux_normal (mu heatK u v w : R) (g : Gradients R) :
    (ComputeViscousFlux mu heatK u v w g).1 1 = mu * (2 * g.du_dx) ∧
    (ComputeViscousFlux mu heatK u v w g).2.1 2 = mu * (2 * g.dv_dy) ∧
    (ComputeViscousFlux mu heatK u v w g).2.2 3 = mu * (2 * g.dw_dz) := by
  have h : (((2 / 3 : Int) : Int) : R) = 0 := by norm_num
  simp only [ComputeViscousFlux, h, zero_mul, sub_zero]
  exact ⟨trivial, trivial, trivial⟩

/-- C39 (the code differs): in `ComputeViscousFlux` the coefficient `(2/3)` is
an integer division and is 0, so for all inputs the normal stresses are
`Gx[1] = mu * (2 * du_dx)`, `Gy[2] = mu * (2 * dv_dy)`,
`Gz[3] = mu * (2 * dw_dz)` without the divergence term; for `mu = 1` and
`du_dx = dv_dy = dw_dz = 1` (so `divV = 3`) the code gives `Gx[1] = 2`, where
the coefficient two thirds gives `1 * (2 * 1 - (2/3) * 3) = 0`. -/
theorem ComputeViscousFlux_no_divergence_term :
    (∀ (mu heatK u v w : ℚ) (g : Gradients ℚ),
      (ComputeViscousFlux mu heatK u v w g).1 1 = mu * (2 * g.du_dx) ∧
      (ComputeViscousFlux mu heatK u v w g).2.1 2 = mu * (2 * g.dv_dy) ∧
      (ComputeViscousFlux mu heatK u v w g).2.2 3 = mu * (2 * g.dw_dz)) ∧
    (ComputeViscousFlux (1 : ℚ) 0 0 0 0 ⟨1, 0, 0, 0, 1, 0, 0, 0, 1, 0, 0, 0⟩).1 1 = 2 ∧
    (1 : ℚ) * (2 * 1 - 2 / 3 * (1 + 1 + 1)) = 0 ∧
    (ComputeViscousFlux (1 : ℚ) 0 0 0 0 ⟨1, 0, 0, 0, 1, 0, 0, 0, 1, 0, 0, 0⟩).1 1 ≠
      (1 : ℚ) * (2 * 1 - 2 / 3 * (1 + 1 + 1)) := by
  refine ⟨fun mu heatK u v w g => ComputeViscousFlux_normal mu heatK u v w g, ?_, ?_, ?_⟩
  · rw [(ComputeViscousFlux_normal (1 : ℚ) 0 0 0 0 _).1]; norm_num
  · norm_num
  · rw [(ComputeViscousFlux_normal (1 : ℚ) 0 0 0 0 _).1]; norm_num

/-! ## The point loop of `WriteParaviewVariableFile` -/

theorem pointLoop_first (list : List (StreamSolid R)) (fuel m : Nat) (s : StreamSolid R)
    (hs : list[m]? = some s) (hpos : 1 ≤ s.facetN) :
    pointLoop list (fuel + 1) 0 m 0 [] =
      pointLoop list fuel 0 (m + 1) 1 [(s.facet 0).P1, (s.facet 0).P2, (s.facet 0).P3] := by
  have h0 : (0 : Int) < s.facetN := by omega
  simp [pointLoop, hs, h0]

/-- C38 (the code differs): the point loop increments the solid index `m`,
not the facet index `n`. For every solid `s` at index `m` with
`facetN ≥ 1`, the first iteration prints the three points of facet 0 of `s`
and the next loop test is made on `geo->list[m + 1]` with `n` still 0. So
when `s` is the last entry of the list the loop test reads past the end of
the list after one iteration and three points, and when the next entry has
`facetN = 0` the loop ends after one iteration and three points; with
`facetN = 2` neither is the declared two iterations and six points. -/
theorem pointLoop_advances_solid :
    (∀ (list : List (StreamSolid ℚ)) (fuel m : Nat) (s : StreamSolid ℚ),
      list[m]? = some s → 1 ≤ s.facetN →
      pointLoop list (fuel + 1) 0 m 0 [] =
        pointLoop list fuel 0 (m + 1) 1 [(s.facet 0).P1, (s.facet 0).P2, (s.facet 0).P3]) ∧
    (∀ (s : StreamSolid ℚ) (fuel : Nat), 1 ≤ s.facetN →
      pointLoop [s] (fuel + 2) 0 0 0 [] =
        LoopResult.outOfBounds 1 1 [(s.facet 0).P1, (s.facet 0).P2, (s.facet 0).P3]) ∧
    (∀ (s t : StreamSolid ℚ) (fuel : Nat), 1 ≤ s.facetN → t.facetN = 0 →
      pointLoop [s, t] (fuel + 2) 0 0 0 [] =
        LoopResult.done 1 1 [(s.facet 0).P1, (s.facet 0).P2, (s.facet 0).P3]) := by
  refine ⟨fun list fuel m s hs hpos => pointLoop_first list fuel m s hs hpos, ?_, ?_⟩
  · intro s fuel hpos
    rw [pointLoop_first [s] (fuel + 1) 0 s rfl hpos]
    simp [pointLoop]
  · intro s t fuel hpos ht
    rw [pointLoop_first [s, t] (fuel + 1) 0 s rfl hpos]
    simp [pointLoop, ht]

/-! ## The diagonal of the transformed inertia tensor -/

/-- For a symmetric tensor, `TransformInertia I a` is the quadratic form
`aᵀ I a`. -/
theorem TransformInertia_quadratic (I : RealMat R) (hI : SymmetricMat I) (a : RealVec R) :
    TransformInertia I a = Dot a (matVec I a) := by
  obtain ⟨h1, h2, h3⟩ := hI
  simp only [TransformInertia, Dot, matVec, ← h1, ← h3, h2]
  ring

/-- The sum of the quadratic forms of a tensor along the three rows of a
matrix whose transpose is its inverse is the trace of the tensor. -/
theorem TransformInertia_trace (A I : RealMat R)
    (hA : matMul (inverseRotation A) A = identityMat) :
    TransformInertia I A.X + TransformInertia I A.Y + TransformInertia I A.Z
      = I.X.X + I.Y.Y + I.Z.Z := by
  simp only [matMul, inverseRotation, identityMat, RealMat.mk.injEq, RealVec.mk.injEq] at hA
  obtain ⟨⟨h11, h12, -⟩, ⟨-, h22, h23⟩, ⟨h31, -, h33⟩⟩ := hA
  simp only [TransformInertia]
  linear_combination I.X.X * h11 + 2 * I.X.Y * h12 + 2 * I.Z.X * h31
    + I.Y.Y * h22 + 2 * I.Y.Z * h23 + I.Z.Z * h33

/-- The axes that the inertia loop of `Transformation` builds for
`n = 0, 1, 2` are the rows of `rotate`. -/
theorem rotatedInertia_rows (m : Libm R) (A I : RealMat R) :
    rotatedInertia m (inverseRotation A) I 0 = TransformInertia I A.X ∧
    rotatedInertia m (inverseRotation A) I 1 = TransformInertia I A.Y ∧
    rotatedInertia m (inverseRotation A) I 2 = TransformInertia I A.Z := by
  simp [rotatedInertia, inverseRotation, axe, Dot]

/-- C31: for a symmetric inertia tensor `I` and all angles (with
`sin² + cos² = 1`), each diagonal entry of the tensor stored by
`Transformation` is the same diagonal entry of `rotate * I * rotateᵀ`, it is
the quadratic form `aᵀ I a` along `a = invrot * e_k`, and the trace of the
stored tensor is the trace of `I`. -/
theorem Transformation_inertia_diagonal (m : Libm R) (hm : TrigFacts m)
    (scale angle offset : RealVec R) (poly : Polyhedron R) (hI : SymmetricMat poly.I) :
    ((Transformation m scale angle offset poly).I.X.X
        = (matMul (matMul (rotationMatrix m angle) poly.I)
            (inverseRotation (rotationMatrix m angle))).X.X ∧
      (Transformation m scale angle offset poly).I.Y.Y
        = (matMul (matMul (rotationMatrix m angle) poly.I)
            (inverseRotation (rotationMatrix m angle))).Y.Y ∧
      (Transformation m scale angle offset poly).I.Z.Z
        = (matMul (matMul (rotationMatrix m angle) poly.I)
            (inverseRotation (rotationMatrix m angle))).Z.Z) ∧
    ((Transformation m scale angle offset poly).I.X.X
        = Dot (matVec (inverseRotation (rotationMatrix m angle)) ⟨1, 0, 0⟩)
            (matVec poly.I (matVec (inverseRotation (rotationMatrix m angle)) ⟨1, 0, 0⟩)) ∧
      (Transformation m scale angle offset poly).I.Y.Y
        = Dot (matVec (inverseRotation (rotationMatrix m angle)) ⟨0, 1, 0⟩)
            (matVec poly.I (matVec (inverseRotation (rotationMatrix m angle)) ⟨0, 1, 0⟩)) ∧
      (Transformation m scale angle offset poly).I.Z.Z
        = Dot (matVec (inverseRotation (rotationMatrix m angle)) ⟨0, 0, 1⟩)
            (matVec poly.I (matVec (inverseRotation (rotationMatrix m angle)) ⟨0, 0, 1⟩))) ∧
    (Transformation m scale angle offset poly).I.X.X
        + (Transformation m scale angle offset poly).I.Y.Y
        + (Transformation m scale angle offset poly).I.Z.Z
      = poly.I.X.X + poly.I.Y.Y + poly.I.Z.Z := by
  have horth := (rotation_orthogonal (m.sin angle.X) (m.cos angle.X) (m.sin angle.Y)
    (m.cos angle.Y) (m.sin angle.Z) (m.cos angle.Z) (hm.1 angle.X) (hm.1 angle.Y)
    (hm.1 angle.Z)).2
  have htr := TransformInertia_trace (rotationMatrix m angle) poly.I horth
  obtain ⟨r0, r1, r2⟩ := rotatedInertia_rows m (rotationMatrix m angle) poly.I
  have hX : (Transformation m scale angle offset poly).I.X.X
      = TransformInertia poly.I (rotationMatrix m angle).X := r0
  have hY : (Transformation m scale angle offset poly).I.Y.Y
      = TransformInertia poly.I (rotationMatrix m angle).Y := r1
  have hZ : (Transformation m scale angle offset poly).I.Z.Z
      = TransformInertia poly.I (rotationMatrix m angle).Z := r2
  rw [hX, hY, hZ]
  refine ⟨⟨?_, ?_, ?_⟩, ⟨?_, ?_, ?_⟩, htr⟩
  · rw [TransformInertia_quadratic _ hI]; simp only [Dot, matVec, matMul, inverseRotation]; ring
  · rw [TransformInertia_quadratic _ hI]; simp only [Dot, matVec, matMul, inverseRotation]; ring
  · rw [TransformInertia_quadratic _ hI]; simp only [Dot, matVec, matMul, inverseRotation]; ring
  · rw [TransformInertia_quadratic _ hI]; simp only [Dot, matVec, inverseRotation]; ring
  · rw [TransformInertia_quadratic _ hI]; simp only [Dot, matVec, inverseRotation]; ring
  · rw [TransformInertia_quadratic _ hI]; simp only [Dot, matVec, inverseRotation]; ring

/-- C31, for the sine and cosine of the real numbers, the angles `(1, 2, 3)`
and the tensor of the fixture `tetraSkew`. -/
theorem Transformation_inertia_diagonal_witness :
    TrigFacts (⟨Real.sin, Real.cos, Real.sqrt, Real.arccos⟩ : Libm ℝ) ∧
    SymmetricMat (tetraSkew : Polyhedron ℝ).I ∧
    (((Transformation (⟨Real.sin, Real.cos, Real.sqrt, Real.arccos⟩ : Libm ℝ) ⟨1, 1, 1⟩ ⟨1, 2, 3⟩
        ⟨0, 0, 0⟩ tetraSkew).I.X.X
        = (matMul (matMul (rotationMatrix (⟨Real.sin, Real.cos, Real.sqrt, Real.arccos⟩ : Libm ℝ)
            ⟨1, 2, 3⟩) (tetraSkew : Polyhedron ℝ).I)
            (inverseRotation (rotationMatrix (⟨Real.sin, Real.cos, Real.sqrt, Real.arccos⟩ : Libm
                ℝ) ⟨1, 2, 3⟩))).X.X ∧
      (Transformation (⟨Real.sin, Real.cos, Real.sqrt, Real.arccos⟩ : Libm ℝ) ⟨1, 1, 1⟩ ⟨1, 2, 3⟩
          ⟨0, 0, 0⟩ tetraSkew).I.Y.Y
        = (matMul (matMul (rotationMatrix (⟨Real.sin, Real.cos, Real.sqrt, Real.arccos⟩ : Libm ℝ)
            ⟨1, 2, 3⟩) (tetraSkew : Polyhedron ℝ).I)
            (inverseRotation (rotationMatrix (⟨Real.sin, Real.cos, Real.sqrt, Real.arccos⟩ : Libm
                ℝ) ⟨1, 2, 3⟩))).Y.Y ∧
      (Transformation (⟨Real.sin, Real.cos, Real.sqrt, Real.arccos⟩ : Libm ℝ) ⟨1, 1, 1⟩ ⟨1, 2, 3⟩
          ⟨0, 0, 0⟩ tetraSkew).I.Z.Z
        = (matMul (matMul (rotationMatrix (⟨Real.sin, Real.cos, Real.sqrt, Real.arccos⟩ : Libm ℝ)
            ⟨1, 2, 3⟩) (tetraSkew : Polyhedron ℝ).I)
            (inverseRotation (rotationMatrix (⟨Real.sin, Real.cos, Real.sqrt, Real.arccos⟩ : Libm
                ℝ) ⟨1, 2, 3⟩))).Z.Z) ∧
    ((Transformation (⟨Real.sin, Real.cos, Real.sqrt, Real.arccos⟩ : Libm ℝ) ⟨1, 1, 1⟩ ⟨1, 2, 3⟩
        ⟨0, 0, 0⟩ tetraSkew).I.X.X
        = Dot (matVec (inverseRotation (rotationMatrix (⟨Real.sin, Real.cos, Real.sqrt,
            Real.arccos⟩ : Libm ℝ) ⟨1, 2, 3⟩)) ⟨1, 0, 0⟩)
            (matVec (tetraSkew : Polyhedron ℝ).I (matVec (inverseRotation (rotationMatrix
                (⟨Real.sin, Real.cos, Real.sqrt, Real.arccos⟩ : Libm ℝ) ⟨1, 2, 3⟩)) ⟨1, 0, 0⟩)) ∧
      (Transformation (⟨Real.sin, Real.cos, Real.sqrt, Real.arccos⟩ : Libm ℝ) ⟨1, 1, 1⟩ ⟨1, 2, 3⟩
          ⟨0, 0, 0⟩ tetraSkew).I.Y.Y
        = Dot (matVec (inverseRotation (rotationMatrix (⟨Real.sin, Real.cos, Real.sqrt,
            Real.arccos⟩ : Libm ℝ) ⟨1, 2, 3⟩)) ⟨0, 1, 0⟩)
            (matVec (tetraSkew : Polyhedron ℝ).I (matVec (inverseRotation (rotationMatrix
                (⟨Real.sin, Real.cos, Real.sqrt, Real.arccos⟩ : Libm ℝ) ⟨1, 2, 3⟩)) ⟨0, 1, 0⟩)) ∧
      (Transformation (⟨Real.sin, Real.cos, Real.sqrt, Real.arccos⟩ : Libm ℝ) ⟨1, 1, 1⟩ ⟨1, 2, 3⟩
          ⟨0, 0, 0⟩ tetraSkew).I.Z.Z
        = Dot (matVec (inverseRotation (rotationMatrix (⟨Real.sin, Real.cos, Real.sqrt,
            Real.arccos⟩ : Libm ℝ) ⟨1, 2, 3⟩)) ⟨0, 0, 1⟩)
            (matVec (tetraSkew : Polyhedron ℝ).I (matVec (inverseRotation (rotationMatrix
                (⟨Real.sin, Real.cos, Real.sqrt, Real.arccos⟩ : Libm ℝ) ⟨1, 2, 3⟩)) ⟨0, 0, 1⟩))) ∧
    (Transformation (⟨Real.sin, Real.cos, Real.sqrt, Real.arccos⟩ : Libm ℝ) ⟨1, 1, 1⟩ ⟨1, 2, 3⟩
        ⟨0, 0, 0⟩ tetraSkew).I.X.X
        + (Transformation (⟨Real.sin, Real.cos, Real.sqrt, Real.arccos⟩ : Libm ℝ) ⟨1, 1, 1⟩ ⟨1,
            2, 3⟩ ⟨0, 0, 0⟩ tetraSkew).I.Y.Y
        + (Transformation (⟨Real.sin, Real.cos, Real.sqrt, Real.arccos⟩ : Libm ℝ) ⟨1, 1, 1⟩ ⟨1,
            2, 3⟩ ⟨0, 0, 0⟩ tetraSkew).I.Z.Z
      = (tetraSkew : Polyhedron ℝ).I.X.X + (tetraSkew : Polyhedron ℝ).I.Y.Y + (tetraSkew :
          Polyhedron ℝ).I.Z.Z) :=
  ⟨TrigFacts_real, ⟨rfl, rfl, rfl⟩,
    Transformation_inertia_diagonal _ TrigFacts_real ⟨1, 1, 1⟩ ⟨1, 2, 3⟩ ⟨0, 0, 0⟩ tetraSkew
      ⟨rfl, rfl, rfl⟩⟩

/-! ## Area, volume and inertia of `ComputeParametersPolyhedron` -/

/-- The accumulators `area` and `I[0..5]` of the face loop are the sums
`areaSum` and `secondSums`. -/
theorem faceLoop_sums (m : Libm R) (poly : Polyhedron R) (k : Nat) (st : FaceSums R)
    (h : faceLoop m poly k = some st) :
    st.area = areaSum m poly k ∧
    st.I0 = (secondSums poly k).1 ∧ st.I1 = (secondSums poly k).2.1 ∧
    st.I2 = (secondSums poly k).2.2.1 ∧ st.I3 = (secondSums poly k).2.2.2.1 ∧
    st.I4 = (secondSums poly k).2.2.2.2.1 ∧ st.I5 = (secondSums poly k).2.2.2.2.2 := by
  induction k generalizing st with
  | zero =>
    simp only [faceLoop, Option.some.injEq] at h
    subst h
    exact ⟨rfl, rfl, rfl, rfl, rfl, rfl, rfl⟩
  | succ k ih =>
    simp only [faceLoop, Option.bind_eq_some] at h
    obtain ⟨st0, hst0, hstep⟩ := h
    obtain ⟨ha, h0, h1, h2, h3, h4, h5⟩ := ih st0 hst0
    simp only [faceStep, Option.bind_eq_some, Option.map_eq_some'] at hstep
    obtain ⟨N, -, c0, -, c1, -, rfl⟩ := hstep
    simp [areaSum, secondSums, faceCross, ha, h0, h1, h2, h3, h4, h5]

/-- Whether `ComputeParametersPolyhedron` returns does not depend on the
collapse tag. -/
theorem ComputeParametersPolyhedron_any_collapse (m : Libm R) (c1 c2 : Int)
    (poly p1 : Polyhedron R) (h : ComputeParametersPolyhedron m c1 poly = some p1) :
    ∃ p2, ComputeParametersPolyhedron m c2 poly = some p2 := by
  simp only [ComputeParametersPolyhedron, Option.bind_eq_some, Option.map_eq_some'] at h ⊢
  obtain ⟨st, hst, Nv, hNv, Ne, hNe, -⟩ := h
  exact ⟨_, st, hst, Nv, hNv, Ne, hNe, rfl⟩

/-- The area that `ComputeParametersPolyhedron` stores. -/
theorem ComputeParametersPolyhedron_area_value (m : Libm R) (collapse : Int)
    (poly poly' : Polyhedron R) (h : ComputeParametersPolyhedron m collapse poly = some poly') :
    poly'.area = if COLLAPSEN = collapse then 1 / 2 * areaSum m poly poly.faceN
      else 1 / 2 * areaSum m poly poly.faceN - 2 * poly'.volume := by
  simp only [ComputeParametersPolyhedron, Option.bind_eq_some, Option.map_eq_some'] at h
  obtain ⟨st, hst, Nv, -, Ne, -, rfl⟩ := h
  obtain ⟨ha, -⟩ := faceLoop_sums m poly poly.faceN st hst
  simp [ha]

/-- The inertia tensor that `ComputeParametersPolyhedron` stores. -/
theorem ComputeParametersPolyhedron_inertia (m : Libm R) (collapse : Int)
    (poly poly' : Polyhedron R) (h : ComputeParametersPolyhedron m collapse poly = some poly') :
    poly'.I = assembledInertia poly := by
  simp only [ComputeParametersPolyhedron, Option.bind_eq_some, Option.map_eq_some'] at h
  obtain ⟨st, hst, Nv, -, Ne, -, rfl⟩ := h
  obtain ⟨-, h0, h1, h2, h3, h4, h5⟩ := faceLoop_sums m poly poly.faceN st hst
  obtain ⟨hv, hO⟩ := faceLoop_moments m poly poly.faceN st hst
  simp [assembledInertia, hv, hO, h0, h1, h2, h3, h4, h5]

/-- C34: when `ComputeParametersPolyhedron` returns for the tag `COLLAPSEN`
(no dimension collapsed), the stored area is half the sum over the faces of
`|e01 × e02|`; and for every other collapse tag it returns as well, the
stored area is that value minus twice the stored volume, and the stored
volume is the same as without collapse. -/
theorem ComputeParametersPolyhedron_area (m : Libm R) (collapse : Int)
    (poly p1 : Polyhedron R) (h1 : ComputeParametersPolyhedron m COLLAPSEN poly = some p1)
    (hc : collapse ≠ COLLAPSEN) :
    p1.area = 1 / 2 * areaSum m poly poly.faceN ∧
    ∃ p2, ComputeParametersPolyhedron m collapse poly = some p2 ∧
      p2.area = 1 / 2 * areaSum m poly poly.faceN - 2 * p2.volume ∧
      p2.volume = p1.volume := by
  obtain ⟨p2, h2⟩ := ComputeParametersPolyhedron_any_collapse m COLLAPSEN collapse poly p1 h1
  have a1 := ComputeParametersPolyhedron_area_value m COLLAPSEN poly p1 h1
  have a2 := ComputeParametersPolyhedron_area_value m collapse poly p2 h2
  rw [if_pos rfl] at a1
  rw [if_neg (fun h => hc h.symm)] at a2
  refine ⟨a1, p2, h2, a2, ?_⟩
  rw [(ComputeParametersPolyhedron_moments m collapse poly p2 h2).1,
    (ComputeParametersPolyhedron_moments m COLLAPSEN poly p1 h1).1]

/-- C34, for the tetrahedron fixture with the square root and arc cosine of
the real numbers and the collapse tag 1: the function returns for both
tags. -/
theorem ComputeParametersPolyhedron_area_witness :
    ∃ p1, ComputeParametersPolyhedron (⟨Real.sin, Real.cos, Real.sqrt, Real.arccos⟩ : Libm ℝ)
        COLLAPSEN (tetra : Polyhedron ℝ) = some p1 ∧ (1 : Int) ≠ COLLAPSEN ∧
      p1.area = 1 / 2 * areaSum (⟨Real.sin, Real.cos, Real.sqrt, Real.arccos⟩ : Libm ℝ)
        (tetra : Polyhedron ℝ) (tetra : Polyhedron ℝ).faceN ∧
      ∃ p2, ComputeParametersPolyhedron (⟨Real.sin, Real.cos, Real.sqrt, Real.arccos⟩ : Libm ℝ)
          1 (tetra : Polyhedron ℝ) = some p2 ∧
        p2.area = 1 / 2 * areaSum (⟨Real.sin, Real.cos, Real.sqrt, Real.arccos⟩ : Libm ℝ)
          (tetra : Polyhedron ℝ) (tetra : Polyhedron ℝ).faceN - 2 * p2.volume ∧
        p2.volume = p1.volume := by
  obtain ⟨p1, h1⟩ := tetra_returns COLLAPSEN
  exact ⟨p1, h1, by decide,
    ComputeParametersPolyhedron_area _ 1 (tetra : Polyhedron ℝ) p1 h1 (by decide)⟩

/-! ## The stored inertia tensor under a translation (C33) -/

theorem tetra_secondSums : secondSums (tetra : Polyhedron R) 4 = (1, 1, 1, 1, 1, 1) := by
  simp only [secondSums]
  rw [tetra_tri0, tetra_tri1, tetra_tri2, tetra_tri3]
  norm_num [Cross, momentTerms]

theorem tetraLow_secondSums :
    secondSums (tetraLow : Polyhedron R) 4 = (31, 1, 1, -9, 1, -9) := by
  simp only [secondSums]
  rw [tetraLow_tri0, tetraLow_tri1, tetraLow_tri2, tetraLow_tri3]
  norm_num [Cross, momentTerms]

theorem tetraLow_momentSums : momentSums (tetraLow : Polyhedron R) 4 = (1, ⟨-7, 1, 1⟩) := by
  simp only [momentSums]
  rw [tetraLow_tri0, tetraLow_tri1, tetraLow_tri2, tetraLow_tri3]
  norm_num [Cross, momentTerms]

theorem tetra_assembledInertia :
    (assembledInertia (tetra : Polyhedron R)).Y.Y = 283 / 8640 := by
  have hf : (tetra : Polyhedron R).faceN = 4 := rfl
  simp only [assembledInertia, hf, tetra_momentSums, tetra_secondSums]
  norm_num

theorem tetraLow_assembledInertia :
    (assembledInertia (tetraLow : Polyhedron R)).Y.Y = 4483 / 8640 := by
  have hf : (tetraLow : Polyhedron R).faceN = 4 := rfl
  simp only [assembledInertia, hf, tetraLow_momentSums, tetraLow_secondSums]
  norm_num

/-- C33 (the code differs): the fixture `tetraLow` is the fixture `tetra`
with every vertex translated by `(-2, 0, 0)` and the same faces. With the
square root and arc cosine of the real numbers `ComputeParametersPolyhedron`
returns on both, and stores `I[Y][Y] = 283/8640` for `tetra` and
`I[Y][Y] = 4483/8640` for `tetraLow`: the stored tensor changes under the
translation. -/
theorem ComputeParametersPolyhedron_inertia_moves :
    (∀ n, ((tetraLow : Polyhedron ℝ).v n).X = ((tetra : Polyhedron ℝ).v n).X + -2 ∧
      ((tetraLow : Polyhedron ℝ).v n).Y = ((tetra : Polyhedron ℝ).v n).Y + 0 ∧
      ((tetraLow : Polyhedron ℝ).v n).Z = ((tetra : Polyhedron ℝ).v n).Z + 0) ∧
    (tetraLow : Polyhedron ℝ).f = (tetra : Polyhedron ℝ).f ∧
    ∃ p q, ComputeParametersPolyhedron (⟨Real.sin, Real.cos, Real.sqrt, Real.arccos⟩ : Libm ℝ)
        COLLAPSEN (tetra : Polyhedron ℝ) = some p ∧
      ComputeParametersPolyhedron (⟨Real.sin, Real.cos, Real.sqrt, Real.arccos⟩ : Libm ℝ)
        COLLAPSEN (tetraLow : Polyhedron ℝ) = some q ∧
      p.I.Y.Y = 283 / 8640 ∧ q.I.Y.Y = 4483 / 8640 ∧ p.I.Y.Y ≠ q.I.Y.Y := by
  obtain ⟨p, hp⟩ := tetra_returns COLLAPSEN
  obtain ⟨q, hq⟩ := tetraLow_returns COLLAPSEN
  have h1 : p.I.Y.Y = 283 / 8640 := by
    rw [ComputeParametersPolyhedron_inertia _ _ _ _ hp]; exact tetra_assembledInertia
  have h2 : q.I.Y.Y = 4483 / 8640 := by
    rw [ComputeParametersPolyhedron_inertia _ _ _ _ hq]; exact tetraLow_assembledInertia
  refine ⟨?_, rfl, p, q, hp, hq, h1, h2, ?_⟩
  · intro n
    rcases n with _ | _ | _ | _ | n
    · show (-2 : ℝ) = 0 + -2 ∧ (0 : ℝ) = 0 + 0 ∧ (0 : ℝ) = 0 + 0
      norm_num
    · show (-1 : ℝ) = 1 + -2 ∧ (0 : ℝ) = 0 + 0 ∧ (0 : ℝ) = 0 + 0
      norm_num
    · show (-2 : ℝ) = 0 + -2 ∧ (1 : ℝ) = 1 + 0 ∧ (0 : ℝ) = 0 + 0
      norm_num
    · show (-2 : ℝ) = 0 + -2 ∧ (0 : ℝ) = 0 + 0 ∧ (1 : ℝ) = 1 + 0
      norm_num
    · show (-2 : ℝ) = 0 + -2 ∧ (0 : ℝ) = 0 + 0 ∧ (0 : ℝ) = 0 + 0
      norm_num
  · rw [h1, h2]; norm_num

/-! ## The volume of a tetrahedron (C32) -/

set_option maxHeartbeats 1600000 in
/-- A face of a tetrahedron with the corners `i`, `j`, `k`: up to one common
sign, the side test of the face is the determinant and its term is the term
of the face that leaves out the same vertex, wound as in `tetra`. -/
theorem tetra_face_term (v : Nat → RealVec R) (i j k : Nat) (hi : i < 4) (hj : j < 4)
    (hk : k < 4) (hij : i ≠ j) (hik : i ≠ k) (hjk : j ≠ k) :
    ∃ ε : R, (ε = 1 ∨ ε = -1) ∧
      Dot (Cross ⟨(v j).X - (v i).X, (v j).Y - (v i).Y, (v j).Z - (v i).Z⟩
          ⟨(v k).X - (v i).X, (v k).Y - (v i).Y, (v k).Z - (v i).Z⟩)
        ⟨(v i).X - (v (6 - (i + j + k))).X, (v i).Y - (v (6 - (i + j + k))).Y,
          (v i).Z - (v (6 - (i + j + k))).Z⟩
        = ε * tetraDet (v 0) (v 1) (v 2) (v 3) ∧
      faceTerm (v i) (v j) (v k) = ε * stdTerm v (6 - (i + j + k)) := by
  interval_cases i <;> interval_cases j <;> interval_cases k <;>
    first
    | exact absurd rfl hij
    | exact absurd rfl hik
    | exact absurd rfl hjk
    | (refine ⟨1, Or.inl rfl, ?_, ?_⟩ <;>
        simp only [Dot, Cross, tetraDet, faceTerm, stdTerm] <;> ring1)
    | (refine ⟨-1, Or.inr rfl, ?_, ?_⟩ <;>
        simp only [Dot, Cross, tetraDet, faceTerm, stdTerm] <;> ring1)

theorem opposite_lt (i j k : Nat) (hi : i < 4) (hj : j < 4) (hk : k < 4) (hij : i ≠ j)
    (hik : i ≠ k) (hjk : j ≠ k) : 6 - (i + j + k) < 4 := by
  omega

/-- A sum over four different indices below 4 is the sum over 0, 1, 2, 3. -/
theorem sum_four (g : Nat → R) (a b c d : Nat) (ha : a < 4) (hb : b < 4) (hc : c < 4)
    (hd : d < 4) (hab : a ≠ b) (hac : a ≠ c) (had : a ≠ d) (hbc : b ≠ c) (hbd : b ≠ d)
    (hcd : c ≠ d) : g a + g b + g c + g d = g 0 + g 1 + g 2 + g 3 := by
  interval_cases a <;> interval_cases b <;> interval_cases c <;> interval_cases d <;>
    first
    | exact absurd rfl hab
    | exact absurd rfl hac
    | exact absurd rfl had
    | exact absurd rfl hbc
    | exact absurd rfl hbd
    | exact absurd rfl hcd
    | ring1

theorem stdTerm_sum (v : Nat → RealVec R) :
    stdTerm v 0 + stdTerm v 1 + stdTerm v 2 + stdTerm v 3
      = tetraDet (v 0) (v 1) (v 2) (v 3) := by
  simp only [stdTerm, faceTerm, tetraDet, Dot, Cross]
  ring

theorem momentSums_four (poly : Polyhedron R) :
    (momentSums poly 4).1
      = faceTerm (poly.v (poly.f 0 0)) (poly.v (poly.f 0 1)) (poly.v (poly.f 0 2))
        + faceTerm (poly.v (poly.f 1 0)) (poly.v (poly.f 1 1)) (poly.v (poly.f 1 2))
        + faceTerm (poly.v (poly.f 2 0)) (poly.v (poly.f 2 1)) (poly.v (poly.f 2 2))
        + faceTerm (poly.v (poly.f 3 0)) (poly.v (poly.f 3 1)) (poly.v (poly.f 3 2)) := by
  simp only [momentSums, BuildTriangle, momentTerms, faceTerm]
  ring

/-- The accumulated sum of `Nf[X] * (v0x + v1x + v2x)` over the four faces of
an outward-wound tetrahedron is the absolute value of the determinant. -/
theorem tetra_momentSum (poly : Polyhedron R) (ht : IsTetrahedron poly)
    (hout : ∀ n, n < 4 → OutwardFace poly n) :
    (momentSums poly poly.faceN).1
      = |tetraDet (poly.v 0) (poly.v 1) (poly.v 2) (poly.v 3)| := by
  obtain ⟨hN, hf, hopp⟩ := ht
  have hface : ∀ n, n < 4 → ∃ ε : R, (ε = 1 ∨ ε = -1) ∧
      0 < ε * tetraDet (poly.v 0) (poly.v 1) (poly.v 2) (poly.v 3) ∧
      faceTerm (poly.v (poly.f n 0)) (poly.v (poly.f n 1)) (poly.v (poly.f n 2))
        = ε * stdTerm poly.v (opposite poly n) := by
    intro n hn
    obtain ⟨h0, h1, h2, h01, h02, h12⟩ := hf n hn
    obtain ⟨ε, hε, hside, hterm⟩ := tetra_face_term poly.v _ _ _ h0 h1 h2 h01 h02 h12
    refine ⟨ε, hε, ?_, hterm⟩
    rw [← hside]
    exact hout n hn
  have hlt : ∀ n, n < 4 → opposite poly n < 4 := by
    intro n hn
    obtain ⟨h0, h1, h2, h01, h02, h12⟩ := hf n hn
    exact opposite_lt _ _ _ h0 h1 h2 h01 h02 h12
  obtain ⟨ε0, e0, p0, t0⟩ := hface 0 (by norm_num)
  obtain ⟨ε1, e1, p1, t1⟩ := hface 1 (by norm_num)
  obtain ⟨ε2, e2, p2, t2⟩ := hface 2 (by norm_num)
  obtain ⟨ε3, e3, p3, t3⟩ := hface 3 (by norm_num)
  have hsum := sum_four (stdTerm poly.v) (opposite poly 0) (opposite poly 1)
    (opposite poly 2) (opposite poly 3) (hlt 0 (by norm_num)) (hlt 1 (by norm_num))
    (hlt 2 (by norm_num)) (hlt 3 (by norm_num))
    (hopp 0 1 (by norm_num) (by norm_num) (by norm_num))
    (hopp 0 2 (by norm_num) (by norm_num) (by norm_num))
    (hopp 0 3 (by norm_num) (by norm_num) (by norm_num))
    (hopp 1 2 (by norm_num) (by norm_num) (by norm_num))
    (hopp 1 3 (by norm_num) (by norm_num) (by norm_num))
    (hopp 2 3 (by norm_num) (by norm_num) (by norm_num))
  rw [stdTerm_sum] at hsum
  rw [hN, momentSums_four, t0, t1, t2, t3]
  rcases lt_trichotomy (tetraDet (poly.v 0) (poly.v 1) (poly.v 2) (poly.v 3)) 0 with hD | hD | hD
  · have f0 : ε0 = -1 := by
      rcases e0 with h | h
      · rw [h, one_mul] at p0; exact absurd p0 (not_lt.mpr hD.le)
      · exact h
    have f1 : ε1 = -1 := by
      rcases e1 with h | h
      · rw [h, one_mul] at p1; exact absurd p1 (not_lt.mpr hD.le)
      · exact h
    have f2 : ε2 = -1 := by
      rcases e2 with h | h
      · rw [h, one_mul] at p2; exact absurd p2 (not_lt.mpr hD.le)
      · exact h
    have f3 : ε3 = -1 := by
      rcases e3 with h | h
      · rw [h, one_mul] at p3; exact absurd p3 (not_lt.mpr hD.le)
      · exact h
    rw [f0, f1, f2, f3, abs_of_neg hD]
    linarith
  · rw [hD, mul_zero] at p0
    exact absurd p0 (lt_irrefl _)
  · have f0 : ε0 = 1 := by
      rcases e0 with h | h
      · exact h
      · rw [h] at p0; exact absurd p0 (not_lt.mpr (by linarith))
    have f1 : ε1 = 1 := by
      rcases e1 with h | h
      · exact h
      · rw [h] at p1; exact absurd p1 (not_lt.mpr (by linarith))
    have f2 : ε2 = 1 := by
      rcases e2 with h | h
      · exact h
      · rw [h] at p2; exact absurd p2 (not_lt.mpr (by linarith))
    have f3 : ε3 = 1 := by
      rcases e3 with h | h
      · exact h
      · rw [h] at p3; exact absurd p3 (not_lt.mpr (by linarith))
    rw [f0, f1, f2, f3, abs_of_pos hD]
    linarith

/-- C32: for every tetrahedron on the vertices `a = v[0]`, `b = v[1]`,
`c = v[2]`, `d = v[3]` whose four faces, in any order and from any first
corner, are wound outward, the accumulated sum of
`Nf[X] * (v0x + v1x + v2x)` divided by 6 is `|det(b - a, c - a, d - a)| / 6`,
and that is the volume of every result of `ComputeParametersPolyhedron`. -/
theorem ComputeParametersPolyhedron_tetra_volume (poly : Polyhedron R)
    (ht : IsTetrahedron poly) (hout : ∀ n, n < 4 → OutwardFace poly n) :
    (momentSums poly poly.faceN).1 / 6
      = |tetraDet (poly.v 0) (poly.v 1) (poly.v 2) (poly.v 3)| / 6 ∧
    ∀ (m : Libm R) (collapse : Int) (poly' : Polyhedron R),
      ComputeParametersPolyhedron m collapse poly = some poly' →
      poly'.volume = |tetraDet (poly.v 0) (poly.v 1) (poly.v 2) (poly.v 3)| / 6 := by
  have hsum := tetra_momentSum poly ht hout
  refine ⟨by rw [hsum], fun m collapse poly' h => ?_⟩
  rw [(ComputeParametersPolyhedron_moments m collapse poly poly' h).1, hsum]

/-! ## Every side of a face has an edge record (C35) -/

theorem HasEdges_congr (calls : List (Nat × Nat × Nat)) (p q : Polyhedron R) (he : q.e = p.e)
    (hn : q.edgeN = p.edgeN) (h : HasEdges calls p) : HasEdges calls q := by
  unfold HasEdges at h ⊢
  rw [he, hn]
  exact h

/-- One `AddEdge` call keeps the records of the earlier calls, whatever the
edge list was before, and leaves a record with its own pair. -/
theorem HasEdges_step (calls : List (Nat × Nat × Nat)) (a b n : Nat) (poly : Polyhedron R)
    (h : HasEdges calls poly) : HasEdges (calls ++ [(a, b, n)]) (AddEdge a b n poly) := by
  rcases AddEdge_cases a b n poly with ⟨j0, hj0, hp, -, heq⟩ | ⟨-, heq⟩
  · have hk : ∀ j c, c ≠ 3 → (set2 poly.e j0 3 n) j c = poly.e j c := by
      intro j c hc
      simp only [set2]
      rw [if_neg (fun hh => hc hh.2)]
    rw [heq]
    intro c hc
    show ∃ j, j < poly.edgeN ∧ hasPair (set2 poly.e j0 3 n) j c.1 c.2.1
    rcases List.mem_append.1 hc with hc | hc
    · obtain ⟨j, hj, hpj⟩ := h c hc
      refine ⟨j, hj, ?_⟩
      unfold hasPair at hpj ⊢
      rw [hk j 0 (by decide), hk j 1 (by decide)]
      exact hpj
    · rw [List.mem_singleton] at hc
      subst hc
      refine ⟨j0, hj0, ?_⟩
      unfold hasPair at hp ⊢
      rw [hk j0 0 (by decide), hk j0 1 (by decide)]
      exact hp
  · rw [heq]
    intro c hc
    show ∃ j, j < poly.edgeN + 1 ∧
      hasPair (set2 (set2 (set2 poly.e poly.edgeN 0 a) poly.edgeN 1 b) poly.edgeN 2 n) j c.1 c.2.1
    rcases List.mem_append.1 hc with hc | hc
    · obtain ⟨j, hj, hpj⟩ := h c hc
      refine ⟨j, by omega, ?_⟩
      have hne : j ≠ poly.edgeN := by omega
      unfold hasPair at hpj ⊢
      simp only [set2, hne, false_and, if_false]
      exact hpj
    · rw [List.mem_singleton] at hc
      subst hc
      refine ⟨poly.edgeN, by omega, Or.inl ?_⟩
      simp [set2]

/-- After `k` iterations of the loop of `ConvertPolyhedron`, from any edge
list, the three sides of every face below `k` have a record. -/
theorem HasEdges_convertLoop (EqualReal : R → R → Bool) (poly : Polyhedron R) (k : Nat) :
    HasEdges (allCalls (convertLoop EqualReal k poly).f k) (convertLoop EqualReal k poly) := by
  induction k with
  | zero => intro c hc; simp [allCalls] at hc
  | succ k ih =>
    obtain ⟨p0, p1, p2, q0, q1, q2, h0, h1, h2, e0, e1, e2, hq⟩ :=
      convertFace_steps EqualReal k (convertLoop EqualReal k poly)
    have a0 := addCorner_frame EqualReal k 0 ((convertLoop EqualReal k poly).facet k).v0
      (convertLoop EqualReal k poly)
    have a1 := addCorner_frame EqualReal k 1 (p0.facet k).v1 p0
    have a2 := addCorner_frame EqualReal k 2 (p1.facet k).v2 p1
    have b0 := AddEdge_frame (p2.f k 0) (p2.f k 1) k p2
    have b1 := AddEdge_frame (q0.f k 1) (q0.f k 2) k q0
    have b2 := AddEdge_frame (q1.f k 2) (q1.f k 0) k q1
    rw [← h0] at a0
    rw [← h1] at a1
    rw [← h2] at a2
    rw [← e0] at b0
    rw [← e1] at b1
    rw [← e2] at b2
    have hrows : ∀ n c, n < k → p2.f n c = (convertLoop EqualReal k poly).f n c := by
      intro n c hn
      have hne : ¬ (n = k) := by omega
      rw [a2.2.2.2.2.2.2 n c (fun hh => hne hh.1), a1.2.2.2.2.2.2 n c (fun hh => hne hh.1),
        a0.2.2.2.2.2.2 n c (fun hh => hne hh.1)]
    have i0 : HasEdges (allCalls p2.f k) p2 := by
      rw [allCalls_congr p2.f (convertLoop EqualReal k poly).f k hrows]
      refine HasEdges_congr _ (convertLoop EqualReal k poly) p2 ?_ ?_ ih
      · rw [a2.1, a1.1, a0.1]
      · rw [a2.2.1, a1.2.1, a0.2.1]
    have i1 := HasEdges_step _ (p2.f k 0) (p2.f k 1) k p2 i0
    rw [← e0] at i1
    have i2 := HasEdges_step _ (q0.f k 1) (q0.f k 2) k q0 i1
    rw [← e1] at i2
    have i3 := HasEdges_step _ (q1.f k 2) (q1.f k 0) k q1 i2
    rw [← e2] at i3
    have hf2 : q2.f = p2.f := by rw [b2.2.2.1, b1.2.2.1, b0.2.2.1]
    have hf1 : q1.f = p2.f := by rw [b1.2.2.1, b0.2.2.1]
    have hf0 : q0.f = p2.f := b0.2.2.1
    show HasEdges (allCalls (convertFace EqualReal k (convertLoop EqualReal k poly)).f (k + 1))
      (convertFace EqualReal k (convertLoop EqualReal k poly))
    rw [hq, hf2]
    rw [hf1, hf0] at i3
    simp only [allCalls, faceCalls]
    simpa [List.append_assoc] using i3

theorem faceCalls_mem_allCalls (f : Nat → Nat → Nat) (k n : Nat) (hn : n < k)
    (c : Nat × Nat × Nat) (hc : c ∈ faceCalls f n) : c ∈ allCalls f k := by
  induction k with
  | zero => omega
  | succ k ih =>
    simp only [allCalls, List.mem_append]
    by_cases h : n = k
    · subst h; exact Or.inr hc
    · exact Or.inl (ih (by omega))

theorem hasPair_swap (e : Nat → Nat → Nat) (n a b : Nat) (h : hasPair e n a b) :
    hasPair e n b a := by
  unfold hasPair at h ⊢
  exact h.symm

/-- When some record has the pair, `FindEdge` takes the hit branch. -/
theorem FindEdge_of_record (a b : Nat) (poly : Polyhedron R)
    (h : ∃ j, j < poly.edgeN ∧ hasPair poly.e j a b) :
    firstHit (edgeMatch a b poly) 0 poly.edgeN = some (FindEdge a b poly) ∧
    FindEdge a b poly < poly.edgeN ∧ hasPair poly.e (FindEdge a b poly) a b := by
  obtain ⟨j, hj, hp⟩ := h
  cases hf : firstHit (edgeMatch a b poly) 0 poly.edgeN with
  | none =>
    have := (firstHit_spec _ poly.edgeN 0).2 hf j (Nat.zero_le _) (by omega)
    rw [(edgeMatch_iff a b poly j).2 hp] at this
    exact absurd this (by decide)
  | some n =>
    have hF : FindEdge a b poly = n := by unfold FindEdge; rw [hf]
    obtain ⟨-, hn, hm, -⟩ := (firstHit_spec _ poly.edgeN 0).1 n hf
    rw [hF]
    exact ⟨rfl, by omega, (edgeMatch_iff a b poly n).1 hm⟩

/-- C35: in the polyhedron built by `ConvertPolyhedron`, from any edge list,
for every face `n` below `faceN` and every two different corners `i`, `j` of
it, the search of `FindEdge(f[n][i], f[n][j])` hits: the returned index is
below `edgeN`, it is the index the search loop returns (not the fallback 0
after a miss), and its record has the undirected pair `{f[n][i], f[n][j]}`. -/
theorem ConvertPolyhedron_edges_found (EqualReal : R → R → Bool) (poly : Polyhedron R)
    (n i j : Nat) (hn : n < poly.faceN) (hi : i < 3) (hj : j < 3) (hij : i ≠ j) :
    firstHit (edgeMatch ((ConvertPolyhedron EqualReal poly).f n i)
        ((ConvertPolyhedron EqualReal poly).f n j) (ConvertPolyhedron EqualReal poly)) 0
        (ConvertPolyhedron EqualReal poly).edgeN
      = some (FindEdge ((ConvertPolyhedron EqualReal poly).f n i)
          ((ConvertPolyhedron EqualReal poly).f n j) (ConvertPolyhedron EqualReal poly)) ∧
    FindEdge ((ConvertPolyhedron EqualReal poly).f n i)
        ((ConvertPolyhedron EqualReal poly).f n j) (ConvertPolyhedron EqualReal poly)
      < (ConvertPolyhedron EqualReal poly).edgeN ∧
    hasPair (ConvertPolyhedron EqualReal poly).e
      (FindEdge ((ConvertPolyhedron EqualReal poly).f n i)
        ((ConvertPolyhedron EqualReal poly).f n j) (ConvertPolyhedron EqualReal poly))
      ((ConvertPolyhedron EqualReal poly).f n i) ((ConvertPolyhedron EqualReal poly).f n j) := by
  have hinv := HasEdges_convertLoop EqualReal poly poly.faceN
  have hrec : ∀ a b c, (a, b, c) ∈ faceCalls (convertLoop EqualReal poly.faceN poly).f n →
      ∃ r, r < (convertLoop EqualReal poly.faceN poly).edgeN ∧
        hasPair (convertLoop EqualReal poly.faceN poly).e r a b := fun a b c hc =>
    hinv (a, b, c) (faceCalls_mem_allCalls _ _ n hn _ hc)
  have h01 := hrec _ _ _ (by simp [faceCalls] :
    ((convertLoop EqualReal poly.faceN poly).f n 0, (convertLoop EqualReal poly.faceN poly).f n 1,
      n) ∈ faceCalls (convertLoop EqualReal poly.faceN poly).f n)
  have h12 := hrec _ _ _ (by simp [faceCalls] :
    ((convertLoop EqualReal poly.faceN poly).f n 1, (convertLoop EqualReal poly.faceN poly).f n 2,
      n) ∈ faceCalls (convertLoop EqualReal poly.faceN poly).f n)
  have h20 := hrec _ _ _ (by simp [faceCalls] :
    ((convertLoop EqualReal poly.faceN poly).f n 2, (convertLoop EqualReal poly.faceN poly).f n 0,
      n) ∈ faceCalls (convertLoop EqualReal poly.faceN poly).f n)
  have hsw : ∀ a b, (∃ r, r < (convertLoop EqualReal poly.faceN poly).edgeN ∧
        hasPair (convertLoop EqualReal poly.faceN poly).e r a b) →
      ∃ r, r < (convertLoop EqualReal poly.faceN poly).edgeN ∧
        hasPair (convertLoop EqualReal poly.faceN poly).e r b a := fun a b ⟨r, hr, hp⟩ =>
    ⟨r, hr, hasPair_swap _ _ _ _ hp⟩
  unfold ConvertPolyhedron
  apply FindEdge_of_record
  interval_cases i <;> interval_cases j
  · exact absurd rfl hij
  · exact h01
  · exact hsw _ _ h20
  · exact hsw _ _ h01
  · exact absurd rfl hij
  · exact h12
  · exact h20
  · exact hsw _ _ h12
  · exact absurd rfl hij

/-- C35, for face 0 of the cube input, its corners 0 and 1, and exact
equality as `EqualReal`. -/
theorem ConvertPolyhedron_edges_found_witness :
    (0 < (cubeInput : Polyhedron ℝ).faceN ∧ 0 < 3 ∧ 1 < 3 ∧ 0 ≠ 1) ∧
    firstHit (edgeMatch ((ConvertPolyhedron (fun x y : ℝ => decide (x = y)) cubeInput).f 0 0)
        ((ConvertPolyhedron (fun x y : ℝ => decide (x = y)) cubeInput).f 0 1)
        (ConvertPolyhedron (fun x y : ℝ => decide (x = y)) cubeInput)) 0
        (ConvertPolyhedron (fun x y : ℝ => decide (x = y)) cubeInput).edgeN
      = some (FindEdge ((ConvertPolyhedron (fun x y : ℝ => decide (x = y)) cubeInput).f 0 0)
          ((ConvertPolyhedron (fun x y : ℝ => decide (x = y)) cubeInput).f 0 1)
          (ConvertPolyhedron (fun x y : ℝ => decide (x = y)) cubeInput)) ∧
    FindEdge ((ConvertPolyhedron (fun x y : ℝ => decide (x = y)) cubeInput).f 0 0)
        ((ConvertPolyhedron (fun x y : ℝ => decide (x = y)) cubeInput).f 0 1)
        (ConvertPolyhedron (fun x y : ℝ => decide (x = y)) cubeInput)
      < (ConvertPolyhedron (fun x y : ℝ => decide (x = y)) cubeInput).edgeN ∧
    hasPair (ConvertPolyhedron (fun x y : ℝ => decide (x = y)) cubeInput).e
      (FindEdge ((ConvertPolyhedron (fun x y : ℝ => decide (x = y)) cubeInput).f 0 0)
        ((ConvertPolyhedron (fun x y : ℝ => decide (x = y)) cubeInput).f 0 1)
        (ConvertPolyhedron (fun x y : ℝ => decide (x = y)) cubeInput))
      ((ConvertPolyhedron (fun x y : ℝ => decide (x = y)) cubeInput).f 0 0)
      ((ConvertPolyhedron (fun x y : ℝ => decide (x = y)) cubeInput).f 0 1) :=
  ⟨⟨by decide, by decide, by decide, by decide⟩,
    ConvertPolyhedron_edges_found _ cubeInput 0 0 1 (by decide) (by decide) (by decide)
      (by decide)⟩

/-! ## When the face loop is defined -/

/-- Edge vectors with a non-zero cross product are linearly independent. -/
theorem nonDegenerate_of_cross (e01 e02 : RealVec R)
    (h : 0 < Dot (Cross e01 e02) (Cross e01 e02)) : NonDegenerate e01 e02 := by
  intro α β h1 h2 h3
  have hne : Dot (Cross e01 e02) (Cross e01 e02) ≠ 0 := h.ne'
  constructor
  · have : α * Dot (Cross e01 e02) (Cross e01 e02) = 0 := by
      simp only [Dot, Cross]
      linear_combination
        (e01.Y * e02.Z - e01.Z * e02.Y) * (e02.Z * h2 - e02.Y * h3)
        + (e01.Z * e02.X - e01.X * e02.Z) * (e02.X * h3 - e02.Z * h1)
        + (e01.X * e02.Y - e01.Y * e02.X) * (e02.Y * h1 - e02.X * h2)
    rcases mul_eq_zero.1 this with h0 | h0
    · exact h0
    · exact absurd h0 hne
  · have : β * Dot (Cross e01 e02) (Cross e01 e02) = 0 := by
      simp only [Dot, Cross]
      linear_combination
        (e01.Y * e02.Z - e01.Z * e02.Y) * (e01.Y * h3 - e01.Z * h2)
        + (e01.Z * e02.X - e01.X * e02.Z) * (e01.Z * h1 - e01.X * h3)
        + (e01.X * e02.Y - e01.Y * e02.X) * (e01.X * h2 - e01.Y * h1)
    rcases mul_eq_zero.1 this with h0 | h0
    · exact h0
    · exact absurd h0 hne

/-- When the body of the face loop returns, the face has a non-zero cross
product `e01 × e02`. -/
theorem faceStep_cross_pos (m : Libm R) (hm : LibmFacts m) (poly : Polyhedron R) (n : Nat)
    (st st' : FaceSums R) (h : faceStep m poly n st = some st') :
    0 < Dot (faceCross poly n) (faceCross poly n) := by
  simp only [faceStep, Option.bind_eq_some, Option.map_eq_some'] at h
  obtain ⟨N, hN, -⟩ := h
  obtain ⟨hne, -⟩ := Normalize_eq_some _ _ _ hN
  rcases (Dot_self_nonneg (faceCross poly n)).lt_or_eq with hlt | heq
  · exact hlt
  · exfalso
    apply hne
    have h0 := hm.2.1 0 (le_refl _)
    have hs : m.sqrt 0 = 0 := by
      rcases mul_eq_zero.1 h0 with h | h <;> exact h
    show m.sqrt (Dot (faceCross poly n) (faceCross poly n)) = 0
    rw [← heq, hs]

/-- The face loop returns exactly when every face it visits has a non-zero
cross product. -/
theorem faceLoop_defined_iff (m : Libm R) (hm : LibmFacts m) (poly : Polyhedron R) (k : Nat) :
    (∃ st, faceLoop m poly k = some st) ↔
      ∀ n, n < k → 0 < Dot (faceCross poly n) (faceCross poly n) := by
  induction k with
  | zero => exact ⟨fun _ n hn => absurd hn (Nat.not_lt_zero n), fun _ => ⟨_, rfl⟩⟩
  | succ k ih =>
    constructor
    · rintro ⟨st, h⟩ n hn
      simp only [faceLoop, Option.bind_eq_some] at h
      obtain ⟨st0, h0, h1⟩ := h
      by_cases hk : n = k
      · subst hk
        exact faceStep_cross_pos m hm poly n st0 st h1
      · exact ih.1 ⟨st0, h0⟩ n (by omega)
    · intro h
      obtain ⟨st0, h0⟩ := ih.2 (fun n hn => h n (by omega))
      obtain ⟨st', h1, -⟩ := faceStep_nonDegenerate m hm poly k
        (nonDegenerate_of_cross _ _ (h k (by omega))) st0
      exact ⟨st', by simp only [faceLoop, h0, Option.some_bind, h1]⟩

theorem ComputeParametersPolyhedron_faceLoop (m : Libm R) (collapse : Int)
    (poly poly' : Polyhedron R) (h : ComputeParametersPolyhedron m collapse poly = some poly') :
    ∃ st, faceLoop m poly poly.faceN = some st := by
  simp only [ComputeParametersPolyhedron, Option.bind_eq_some, Option.map_eq_some'] at h
  obtain ⟨st, hst, -⟩ := h
  exact ⟨st, hst⟩

/-! ## Reversing the winding of every face (C36) -/

theorem BuildTriangle_reverse (poly : Polyhedron R) (n : Nat) :
    BuildTriangle n (reverseWinding poly)
      = ((BuildTriangle n poly).1, (BuildTriangle n poly).2.2.1, (BuildTriangle n poly).2.1,
          (BuildTriangle n poly).2.2.2.2, (BuildTriangle n poly).2.2.2.1) := by
  simp [BuildTriangle, reverseWinding]

theorem faceCross_reverse (poly : Polyhedron R) (n : Nat) :
    faceCross (reverseWinding poly) n
      = ⟨-(faceCross poly n).X, -(faceCross poly n).Y, -(faceCross poly n).Z⟩ := by
  unfold faceCross
  rw [BuildTriangle_reverse]
  simp only [Cross, RealVec.mk.injEq]
  refine ⟨?_, ?_, ?_⟩ <;> ring

theorem Dot_neg_self (c : RealVec R) :
    Dot (⟨-c.X, -c.Y, -c.Z⟩ : RealVec R) ⟨-c.X, -c.Y, -c.Z⟩ = Dot c c := by
  simp only [Dot]
  ring

theorem Norm_faceCross_reverse (m : Libm R) (poly : Polyhedron R) (n : Nat) :
    Norm m (faceCross (reverseWinding poly) n) = Norm m (faceCross poly n) := by
  unfold Norm
  rw [faceCross_reverse, Dot_neg_self]

theorem areaSum_reverse (m : Libm R) (poly : Polyhedron R) (k : Nat) :
    areaSum m (reverseWinding poly) k = areaSum m poly k := by
  induction k with
  | zero => rfl
  | succ k ih => simp only [areaSum, ih, Norm_faceCross_reverse]

theorem momentSums_reverse (poly : Polyhedron R) (k : Nat) :
    (momentSums (reverseWinding poly) k).1 = -(momentSums poly k).1 := by
  induction k with
  | zero => simp [momentSums]
  | succ k ih =>
    simp only [momentSums, ih, BuildTriangle_reverse, Cross, momentTerms]
    ring

theorem unitNormal_reverse (m : Libm R) (poly : Polyhedron R) (n : Nat) :
    unitNormal m (reverseWinding poly) n
      = ⟨-(unitNormal m poly n).X, -(unitNormal m poly n).Y, -(unitNormal m poly n).Z⟩ := by
  unfold unitNormal
  rw [Norm_faceCross_reverse, faceCross_reverse]
  simp only [RealVec.mk.injEq]
  refine ⟨?_, ?_, ?_⟩ <;> ring

/-- C36: with `sqrt` the square root, when the face loop of
`ComputeParametersPolyhedron` gets through the faces of a polyhedron, it
also gets through the faces of the polyhedron with the corners 1 and 2 of
every face swapped, with the accumulated volume negated, the accumulated
area unchanged and every face normal negated; and whenever
`ComputeParametersPolyhedron` returns on both polyhedra for the tag
`COLLAPSEN`, the stored volume and the stored face normals are negated and
the stored area is the same. -/
theorem ComputeParametersPolyhedron_reverse_winding (m : Libm R) (hm : LibmFacts m)
    (poly : Polyhedron R) (st : FaceSums R) (h : faceLoop m poly poly.faceN = some st) :
    (∃ st', faceLoop m (reverseWinding poly) poly.faceN = some st' ∧
      st'.volume = -st.volume ∧ st'.area = st.area ∧
      ∀ n, n < poly.faceN → st'.Nf n = ⟨-(st.Nf n).X, -(st.Nf n).Y, -(st.Nf n).Z⟩) ∧
    ∀ p q : Polyhedron R, ComputeParametersPolyhedron m COLLAPSEN poly = some p →
      ComputeParametersPolyhedron m COLLAPSEN (reverseWinding poly) = some q →
      q.volume = -p.volume ∧ q.area = p.area ∧
      ∀ n, n < poly.faceN → q.Nf n = ⟨-(p.Nf n).X, -(p.Nf n).Y, -(p.Nf n).Z⟩ := by
  constructor
  · have hpos := (faceLoop_defined_iff m hm poly poly.faceN).1 ⟨st, h⟩
    obtain ⟨st', h'⟩ := (faceLoop_defined_iff m hm (reverseWinding poly) poly.faceN).2
      (fun n hn => by rw [faceCross_reverse, Dot_neg_self]; exact hpos n hn)
    refine ⟨st', h', ?_, ?_, fun n hn => ?_⟩
    · rw [(faceLoop_moments m _ _ st' h').1, (faceLoop_moments m _ _ st h).1, momentSums_reverse]
    · rw [(faceLoop_sums m _ _ st' h').1, (faceLoop_sums m _ _ st h).1, areaSum_reverse]
    · rw [faceLoop_Nf m _ _ st' h' n hn, faceLoop_Nf m _ _ st h n hn, unitNormal_reverse]
  · intro p q hp hq
    have hN : (reverseWinding poly).faceN = poly.faceN := rfl
    refine ⟨?_, ?_, fun n hn => ?_⟩
    · rw [(ComputeParametersPolyhedron_moments m _ _ q hq).1,
        (ComputeParametersPolyhedron_moments m _ _ p hp).1, hN, momentSums_reverse]
      ring
    · rw [ComputeParametersPolyhedron_area_value m _ _ q hq,
        ComputeParametersPolyhedron_area_value m _ _ p hp, if_pos rfl, if_pos rfl, hN,
        areaSum_reverse]
    · rw [ComputeParametersPolyhedron_Nf m _ _ q hq n (by rw [hN]; exact hn),
        ComputeParametersPolyhedron_Nf m _ _ p hp n hn, unitNormal_reverse]

/-! ## Rotating the corners of one face (C37) -/

theorem BuildTriangle_rotate_eq (poly : Polyhedron R) (n0 : Nat) :
    BuildTriangle n0 (rotateFace n0 poly)
      = ((BuildTriangle n0 poly).2.1, (BuildTriangle n0 poly).2.2.1, (BuildTriangle n0 poly).1,
          ⟨(BuildTriangle n0 poly).2.2.1.X - (BuildTriangle n0 poly).2.1.X,
            (BuildTriangle n0 poly).2.2.1.Y - (BuildTriangle n0 poly).2.1.Y,
            (BuildTriangle n0 poly).2.2.1.Z - (BuildTriangle n0 poly).2.1.Z⟩,
          ⟨(BuildTriangle n0 poly).1.X - (BuildTriangle n0 poly).2.1.X,
            (BuildTriangle n0 poly).1.Y - (BuildTriangle n0 poly).2.1.Y,
            (BuildTriangle n0 poly).1.Z - (BuildTriangle n0 poly).2.1.Z⟩) := by
  simp [BuildTriangle, rotateFace]

theorem BuildTriangle_rotate_ne (poly : Polyhedron R) (n0 n : Nat) (h : n ≠ n0) :
    BuildTriangle n (rotateFace n0 poly) = BuildTriangle n poly := by
  simp [BuildTriangle, rotateFace, h]

theorem faceCross_rotate (poly : Polyhedron R) (n0 n : Nat) :
    faceCross (rotateFace n0 poly) n = faceCross poly n := by
  unfold faceCross
  by_cases h : n = n0
  · subst h
    rw [BuildTriangle_rotate_eq]
    simp only [BuildTriangle, Cross, RealVec.mk.injEq]
    refine ⟨?_, ?_, ?_⟩ <;> ring
  · rw [BuildTriangle_rotate_ne poly n0 n h]

theorem areaSum_rotate (m : Libm R) (poly : Polyhedron R) (n0 k : Nat) :
    areaSum m (rotateFace n0 poly) k = areaSum m poly k := by
  induction k with
  | zero => rfl
  | succ k ih => simp only [areaSum, ih, faceCross_rotate]

theorem momentSums_rotate (poly : Polyhedron R) (n0 k : Nat) :
    momentSums (rotateFace n0 poly) k = momentSums poly k := by
  induction k with
  | zero => rfl
  | succ k ih =>
    by_cases h : k = n0
    · subst h
      simp only [momentSums, ih, BuildTriangle_rotate_eq]
      simp only [BuildTriangle, Cross, momentTerms, Prod.mk.injEq, RealVec.mk.injEq]
      refine ⟨?_, ?_, ?_, ?_⟩ <;> ring
    · simp only [momentSums, ih, BuildTriangle_rotate_ne poly n0 k h]

theorem secondSums_rotate (poly : Polyhedron R) (n0 k : Nat) :
    secondSums (rotateFace n0 poly) k = secondSums poly k := by
  induction k with
  | zero => rfl
  | succ k ih =>
    by_cases h : k = n0
    · subst h
      simp only [secondSums, ih, BuildTriangle_rotate_eq]
      simp only [BuildTriangle, Cross, momentTerms, Prod.mk.injEq]
      refine ⟨?_, ?_, ?_, ?_, ?_, ?_⟩ <;> ring
    · simp only [secondSums, ih, BuildTriangle_rotate_ne poly n0 k h]

/-- C37: with `sqrt` the square root, when the face loop of
`ComputeParametersPolyhedron` gets through the faces of a polyhedron, it
also gets through them after the corners `(v0, v1, v2)` of one face `n0` are
rotated to `(v1, v2, v0)`, with the same accumulated area, volume, first
moments `O` and second moments `I[0], ..., I[5]`; and whenever
`ComputeParametersPolyhedron` returns on both polyhedra, the stored area,
volume, `O` and inertia tensor are the same. -/
theorem ComputeParametersPolyhedron_rotate_face (m : Libm R) (hm : LibmFacts m)
    (poly : Polyhedron R) (n0 : Nat) (st : FaceSums R)
    (h : faceLoop m poly poly.faceN = some st) :
    (∃ st', faceLoop m (rotateFace n0 poly) poly.faceN = some st' ∧
      st'.area = st.area ∧ st'.volume = st.volume ∧ st'.O = st.O ∧
      st'.I0 = st.I0 ∧ st'.I1 = st.I1 ∧ st'.I2 = st.I2 ∧
      st'.I3 = st.I3 ∧ st'.I4 = st.I4 ∧ st'.I5 = st.I5) ∧
    ∀ (collapse : Int) (p q : Polyhedron R),
      ComputeParametersPolyhedron m collapse poly = some p →
      ComputeParametersPolyhedron m collapse (rotateFace n0 poly) = some q →
      q.area = p.area ∧ q.volume = p.volume ∧ q.O = p.O ∧ q.I = p.I := by
  constructor
  · have hpos := (faceLoop_defined_iff m hm poly poly.faceN).1 ⟨st, h⟩
    obtain ⟨st', h'⟩ := (faceLoop_defined_iff m hm (rotateFace n0 poly) poly.faceN).2
      (fun n hn => by rw [faceCross_rotate]; exact hpos n hn)
    obtain ⟨a', i0', i1', i2', i3', i4', i5'⟩ := faceLoop_sums m _ _ st' h'
    obtain ⟨a, i0, i1, i2, i3, i4, i5⟩ := faceLoop_sums m _ _ st h
    obtain ⟨v', o'⟩ := faceLoop_moments m _ _ st' h'
    obtain ⟨v, o⟩ := faceLoop_moments m _ _ st h
    rw [secondSums_rotate] at i0' i1' i2' i3' i4' i5'
    rw [momentSums_rotate] at v' o'
    rw [areaSum_rotate] at a'
    exact ⟨st', h', by rw [a', a], by rw [v', v], by rw [o', o], by rw [i0', i0],
      by rw [i1', i1], by rw [i2', i2], by rw [i3', i3], by rw [i4', i4], by rw [i5', i5]⟩
  · intro collapse p q hp hq
    have hN : (rotateFace n0 poly).faceN = poly.faceN := rfl
    have hv : q.volume = p.volume := by
      rw [(ComputeParametersPolyhedron_moments m _ _ q hq).1,
        (ComputeParametersPolyhedron_moments m _ _ p hp).1, hN, momentSums_rotate]
    refine ⟨?_, hv, ?_, ?_⟩
    · rw [ComputeParametersPolyhedron_area_value m _ _ q hq,
        ComputeParametersPolyhedron_area_value m _ _ p hp, hN, areaSum_rotate, hv]
    · rw [(ComputeParametersPolyhedron_moments m _ _ q hq).2,
        (ComputeParametersPolyhedron_moments m _ _ p hp).2, hN, momentSums_rotate]
    · rw [ComputeParametersPolyhedron_inertia m _ _ q hq,
        ComputeParametersPolyhedron_inertia m _ _ p hp]
      simp only [assembledInertia, hN, momentSums_rotate, secondSums_rotate]

/-! ## The fixtures with reversed and rotated faces -/

theorem tetraRev_face0 :
    FaceRegular (⟨Real.sin, Real.cos, Real.sqrt, Real.arccos⟩ : Libm ℝ) (reverseWinding tetra)
      (fun i => ⟨1 / 4 - ((tetra : Polyhedron ℝ).v i).X, 1 / 4 - ((tetra : Polyhedron ℝ).v i).Y,
        1 / 4 - ((tetra : Polyhedron ℝ).v i).Z⟩) 0 := by
  refine FaceRegular_of_dots _ _ _ 0 1 1 2 ?_ ?_ ?_ ?_ (right_angles _ LibmFacts_real) ?_
  · rw [BuildTriangle_reverse, tetra_tri0]; norm_num [Dot]
  · rw [BuildTriangle_reverse, tetra_tri0]; norm_num [Dot]
  · rw [BuildTriangle_reverse, tetra_tri0]; norm_num [Dot]
  · rw [faceCross_reverse, tetra_cross0]; norm_num [Dot]
  · intro c hc
    rw [faceCross_reverse, tetra_cross0]
    interval_cases c
    · show 0 < Dot (⟨-0, -0, -(-1)⟩ : RealVec ℝ) ⟨1 / 4 - 0, 1 / 4 - 0, 1 / 4 - 0⟩
      norm_num [Dot]
    · show 0 < Dot (⟨-0, -0, -(-1)⟩ : RealVec ℝ) ⟨1 / 4 - 1, 1 / 4 - 0, 1 / 4 - 0⟩
      norm_num [Dot]
    · show 0 < Dot (⟨-0, -0, -(-1)⟩ : RealVec ℝ) ⟨1 / 4 - 0, 1 / 4 - 1, 1 / 4 - 0⟩
      norm_num [Dot]

theorem tetraRev_face1 :
    FaceRegular (⟨Real.sin, Real.cos, Real.sqrt, Real.arccos⟩ : Libm ℝ) (reverseWinding tetra)
      (fun i => ⟨1 / 4 - ((tetra : Polyhedron ℝ).v i).X, 1 / 4 - ((tetra : Polyhedron ℝ).v i).Y,
        1 / 4 - ((tetra : Polyhedron ℝ).v i).Z⟩) 1 := by
  refine FaceRegular_of_dots _ _ _ 1 1 1 2 ?_ ?_ ?_ ?_ (right_angles _ LibmFacts_real) ?_
  · rw [BuildTriangle_reverse, tetra_tri1]; norm_num [Dot]
  · rw [BuildTriangle_reverse, tetra_tri1]; norm_num [Dot]
  · rw [BuildTriangle_reverse, tetra_tri1]; norm_num [Dot]
  · rw [faceCross_reverse, tetra_cross1]; norm_num [Dot]
  · intro c hc
    rw [faceCross_reverse, tetra_cross1]
    interval_cases c
    · show 0 < Dot (⟨-0, -(-1), -0⟩ : RealVec ℝ) ⟨1 / 4 - 0, 1 / 4 - 0, 1 / 4 - 0⟩
      norm_num [Dot]
    · show 0 < Dot (⟨-0, -(-1), -0⟩ : RealVec ℝ) ⟨1 / 4 - 0, 1 / 4 - 0, 1 / 4 - 1⟩
      norm_num [Dot]
    · show 0 < Dot (⟨-0, -(-1), -0⟩ : RealVec ℝ) ⟨1 / 4 - 1, 1 / 4 - 0, 1 / 4 - 0⟩
      norm_num [Dot]

theorem tetraRev_face2 :
    FaceRegular (⟨Real.sin, Real.cos, Real.sqrt, Real.arccos⟩ : Libm ℝ) (reverseWinding tetra)
      (fun i => ⟨1 / 4 - ((tetra : Polyhedron ℝ).v i).X, 1 / 4 - ((tetra : Polyhedron ℝ).v i).Y,
        1 / 4 - ((tetra : Polyhedron ℝ).v i).Z⟩) 2 := by
  refine FaceRegular_of_dots _ _ _ 2 1 1 2 ?_ ?_ ?_ ?_ (right_angles _ LibmFacts_real) ?_
  · rw [BuildTriangle_reverse, tetra_tri2]; norm_num [Dot]
  · rw [BuildTriangle_reverse, tetra_tri2]; norm_num [Dot]
  · rw [BuildTriangle_reverse, tetra_tri2]; norm_num [Dot]
  · rw [faceCross_reverse, tetra_cross2]; norm_num [Dot]
  · intro c hc
    rw [faceCross_reverse, tetra_cross2]
    interval_cases c
    · show 0 < Dot (⟨-(-1), -0, -0⟩ : RealVec ℝ) ⟨1 / 4 - 0, 1 / 4 - 0, 1 / 4 - 0⟩
      norm_num [Dot]
    · show 0 < Dot (⟨-(-1), -0, -0⟩ : RealVec ℝ) ⟨1 / 4 - 0, 1 / 4 - 1, 1 / 4 - 0⟩
      norm_num [Dot]
    · show 0 < Dot (⟨-(-1), -0, -0⟩ : RealVec ℝ) ⟨1 / 4 - 0, 1 / 4 - 0, 1 / 4 - 1⟩
      norm_num [Dot]

theorem tetraRev_face3 :
    FaceRegular (⟨Real.sin, Real.cos, Real.sqrt, Real.arccos⟩ : Libm ℝ) (reverseWinding tetra)
      (fun i => ⟨1 / 4 - ((tetra : Polyhedron ℝ).v i).X, 1 / 4 - ((tetra : Polyhedron ℝ).v i).Y,
        1 / 4 - ((tetra : Polyhedron ℝ).v i).Z⟩) 3 := by
  refine FaceRegular_of_dots _ _ _ 3 2 2 2 ?_ ?_ ?_ ?_ equilateral_angles ?_
  · rw [BuildTriangle_reverse, tetra_tri3]; norm_num [Dot]
  · rw [BuildTriangle_reverse, tetra_tri3]; norm_num [Dot]
  · rw [BuildTriangle_reverse, tetra_tri3]; norm_num [Dot]
  · rw [faceCross_reverse, tetra_cross3]; norm_num [Dot]
  · intro c hc
    rw [faceCross_reverse, tetra_cross3]
    interval_cases c
    · show 0 < Dot (⟨-1, -1, -1⟩ : RealVec ℝ) ⟨1 / 4 - 1, 1 / 4 - 0, 1 / 4 - 0⟩
      norm_num [Dot]
    · show 0 < Dot (⟨-1, -1, -1⟩ : RealVec ℝ) ⟨1 / 4 - 0, 1 / 4 - 0, 1 / 4 - 1⟩
      norm_num [Dot]
    · show 0 < Dot (⟨-1, -1, -1⟩ : RealVec ℝ) ⟨1 / 4 - 0, 1 / 4 - 1, 1 / 4 - 0⟩
      norm_num [Dot]

/-- The tetrahedron fixture with every face reversed is fit for
`ComputeParametersPolyhedron`, with the square root and arc cosine of the
real numbers. -/
theorem tetraRev_returns (collapse : Int) :
    ∃ poly', ComputeParametersPolyhedron (⟨Real.sin, Real.cos, Real.sqrt, Real.arccos⟩ : Libm ℝ)
      collapse (reverseWinding (tetra : Polyhedron ℝ)) = some poly' :=
  ComputeParametersPolyhedron_regular
    (⟨Real.sin, Real.cos, Real.sqrt, Real.arccos⟩ : Libm ℝ) LibmFacts_real collapse
    (reverseWinding (tetra : Polyhedron ℝ))
    (fun i => ⟨1 / 4 - ((tetra : Polyhedron ℝ).v i).X, 1 / 4 - ((tetra : Polyhedron ℝ).v i).Y,
        1 / 4 - ((tetra : Polyhedron ℝ).v i).Z⟩)
    (by
      intro n hn
      have hn' : n < 4 := hn
      interval_cases n
      · exact tetraRev_face0
      · exact tetraRev_face1
      · exact tetraRev_face2
      · exact tetraRev_face3)
    (by decide) (by decide) (by decide)

theorem tetraRot_face0 :
    FaceRegular (⟨Real.sin, Real.cos, Real.sqrt, Real.arccos⟩ : Libm ℝ) (rotateFace 3 tetra)
      (fun i => ⟨((tetra : Polyhedron ℝ).v i).X - 1 / 4, ((tetra : Polyhedron ℝ).v i).Y - 1 / 4,
        ((tetra : Polyhedron ℝ).v i).Z - 1 / 4⟩) 0 := by
  refine FaceRegular_of_dots _ _ _ 0 1 1 2 ?_ ?_ ?_ ?_ (right_angles _ LibmFacts_real) ?_
  · rw [BuildTriangle_rotate_ne _ _ _ (by decide), tetra_tri0]; norm_num [Dot]
  · rw [BuildTriangle_rotate_ne _ _ _ (by decide), tetra_tri0]; norm_num [Dot]
  · rw [BuildTriangle_rotate_ne _ _ _ (by decide), tetra_tri0]; norm_num [Dot]
  · rw [faceCross_rotate, tetra_cross0]; norm_num [Dot]
  · intro c hc
    rw [faceCross_rotate, tetra_cross0]
    interval_cases c
    · show 0 < Dot (⟨0, 0, -1⟩ : RealVec ℝ) ⟨0 - 1 / 4, 0 - 1 / 4, 0 - 1 / 4⟩
      norm_num [Dot]
    · show 0 < Dot (⟨0, 0, -1⟩ : RealVec ℝ) ⟨0 - 1 / 4, 1 - 1 / 4, 0 - 1 / 4⟩
      norm_num [Dot]
    · show 0 < Dot (⟨0, 0, -1⟩ : RealVec ℝ) ⟨1 - 1 / 4, 0 - 1 / 4, 0 - 1 / 4⟩
      norm_num [Dot]

theorem tetraRot_face1 :
    FaceRegular (⟨Real.sin, Real.cos, Real.sqrt, Real.arccos⟩ : Libm ℝ) (rotateFace 3 tetra)
      (fun i => ⟨((tetra : Polyhedron ℝ).v i).X - 1 / 4, ((tetra : Polyhedron ℝ).v i).Y - 1 / 4,
        ((tetra : Polyhedron ℝ).v i).Z - 1 / 4⟩) 1 := by
  refine FaceRegular_of_dots _ _ _ 1 1 1 2 ?_ ?_ ?_ ?_ (right_angles _ LibmFacts_real) ?_
  · rw [BuildTriangle_rotate_ne _ _ _ (by decide), tetra_tri1]; norm_num [Dot]
  · rw [BuildTriangle_rotate_ne _ _ _ (by decide), tetra_tri1]; norm_num [Dot]
  · rw [BuildTriangle_rotate_ne _ _ _ (by decide), tetra_tri1]; norm_num [Dot]
  · rw [faceCross_rotate, tetra_cross1]; norm_num [Dot]
  · intro c hc
    rw [faceCross_rotate, tetra_cross1]
    interval_cases c
    · show 0 < Dot (⟨0, -1, 0⟩ : RealVec ℝ) ⟨0 - 1 / 4, 0 - 1 / 4, 0 - 1 / 4⟩
      norm_num [Dot]
    · show 0 < Dot (⟨0, -1, 0⟩ : RealVec ℝ) ⟨1 - 1 / 4, 0 - 1 / 4, 0 - 1 / 4⟩
      norm_num [Dot]
    · show 0 < Dot (⟨0, -1, 0⟩ : RealVec ℝ) ⟨0 - 1 / 4, 0 - 1 / 4, 1 - 1 / 4⟩
      norm_num [Dot]

theorem tetraRot_face2 :
    FaceRegular (⟨Real.sin, Real.cos, Real.sqrt, Real.arccos⟩ : Libm ℝ) (rotateFace 3 tetra)
      (fun i => ⟨((tetra : Polyhedron ℝ).v i).X - 1 / 4, ((tetra : Polyhedron ℝ).v i).Y - 1 / 4,
        ((tetra : Polyhedron ℝ).v i).Z - 1 / 4⟩) 2 := by
  refine FaceRegular_of_dots _ _ _ 2 1 1 2 ?_ ?_ ?_ ?_ (right_angles _ LibmFacts_real) ?_
  · rw [BuildTriangle_rotate_ne _ _ _ (by decide), tetra_tri2]; norm_num [Dot]
  · rw [BuildTriangle_rotate_ne _ _ _ (by decide), tetra_tri2]; norm_num [Dot]
  · rw [BuildTriangle_rotate_ne _ _ _ (by decide), tetra_tri2]; norm_num [Dot]
  · rw [faceCross_rotate, tetra_cross2]; norm_num [Dot]
  · intro c hc
    rw [faceCross_rotate, tetra_cross2]
    interval_cases c
    · show 0 < Dot (⟨-1, 0, 0⟩ : RealVec ℝ) ⟨0 - 1 / 4, 0 - 1 / 4, 0 - 1 / 4⟩
      norm_num [Dot]
    · show 0 < Dot (⟨-1, 0, 0⟩ : RealVec ℝ) ⟨0 - 1 / 4, 0 - 1 / 4, 1 - 1 / 4⟩
      norm_num [Dot]
    · show 0 < Dot (⟨-1, 0, 0⟩ : RealVec ℝ) ⟨0 - 1 / 4, 1 - 1 / 4, 0 - 1 / 4⟩
      norm_num [Dot]

theorem tetraRot_face3 :
    FaceRegular (⟨Real.sin, Real.cos, Real.sqrt, Real.arccos⟩ : Libm ℝ) (rotateFace 3 tetra)
      (fun i => ⟨((tetra : Polyhedron ℝ).v i).X - 1 / 4, ((tetra : Polyhedron ℝ).v i).Y - 1 / 4,
        ((tetra : Polyhedron ℝ).v i).Z - 1 / 4⟩) 3 := by
  refine FaceRegular_of_dots _ _ _ 3 2 2 2 ?_ ?_ ?_ ?_ equilateral_angles ?_
  · rw [BuildTriangle_rotate_eq, tetra_tri3]; norm_num [Dot]
  · rw [BuildTriangle_rotate_eq, tetra_tri3]; norm_num [Dot]
  · rw [BuildTriangle_rotate_eq, tetra_tri3]; norm_num [Dot]
  · rw [faceCross_rotate, tetra_cross3]; norm_num [Dot]
  · intro c hc
    rw [faceCross_rotate, tetra_cross3]
    interval_cases c
    · show 0 < Dot (⟨1, 1, 1⟩ : RealVec ℝ) ⟨0 - 1 / 4, 1 - 1 / 4, 0 - 1 / 4⟩
      norm_num [Dot]
    · show 0 < Dot (⟨1, 1, 1⟩ : RealVec ℝ) ⟨0 - 1 / 4, 0 - 1 / 4, 1 - 1 / 4⟩
      norm_num [Dot]
    · show 0 < Dot (⟨1, 1, 1⟩ : RealVec ℝ) ⟨1 - 1 / 4, 0 - 1 / 4, 0 - 1 / 4⟩
      norm_num [Dot]

/-- The tetrahedron fixture with the corners of face 3 rotated is fit for
`ComputeParametersPolyhedron`, with the square root and arc cosine of the
real numbers. -/
theorem tetraRot_returns (collapse : Int) :
    ∃ poly', ComputeParametersPolyhedron (⟨Real.sin, Real.cos, Real.sqrt, Real.arccos⟩ : Libm ℝ)
      collapse (rotateFace 3 (tetra : Polyhedron ℝ)) = some poly' :=
  ComputeParametersPolyhedron_regular
    (⟨Real.sin, Real.cos, Real.sqrt, Real.arccos⟩ : Libm ℝ) LibmFacts_real collapse
    (rotateFace 3 (tetra : Polyhedron ℝ))
    (fun i => ⟨((tetra : Polyhedron ℝ).v i).X - 1 / 4, ((tetra : Polyhedron ℝ).v i).Y - 1 / 4,
        ((tetra : Polyhedron ℝ).v i).Z - 1 / 4⟩)
    (by
      intro n hn
      have hn' : n < 4 := hn
      interval_cases n
      · exact tetraRot_face0
      · exact tetraRot_face1
      · exact tetraRot_face2
      · exact tetraRot_face3)
    (by decide) (by decide) (by decide)

/-! ## The volume of a tetrahedron, on the fixture with a rotated face (C32) -/

theorem tetraRot_isTetrahedron : IsTetrahedron (rotateFace 3 (tetra : Polyhedron R)) := by
  refine ⟨rfl, ?_, ?_⟩
  · intro n hn
    interval_cases n
    · show (0 : ℕ) < 4 ∧ (2 : ℕ) < 4 ∧ (1 : ℕ) < 4 ∧ (0 : ℕ) ≠ 2 ∧ (0 : ℕ) ≠ 1 ∧ (2 : ℕ) ≠ 1
      decide
    · show (0 : ℕ) < 4 ∧ (1 : ℕ) < 4 ∧ (3 : ℕ) < 4 ∧ (0 : ℕ) ≠ 1 ∧ (0 : ℕ) ≠ 3 ∧ (1 : ℕ) ≠ 3
      decide
    · show (0 : ℕ) < 4 ∧ (3 : ℕ) < 4 ∧ (2 : ℕ) < 4 ∧ (0 : ℕ) ≠ 3 ∧ (0 : ℕ) ≠ 2 ∧ (3 : ℕ) ≠ 2
      decide
    · show (2 : ℕ) < 4 ∧ (3 : ℕ) < 4 ∧ (1 : ℕ) < 4 ∧ (2 : ℕ) ≠ 3 ∧ (2 : ℕ) ≠ 1 ∧ (3 : ℕ) ≠ 1
      decide
  · intro n m hn hm hnm
    have h0 : opposite (rotateFace 3 (tetra : Polyhedron R)) 0 = 3 := rfl
    have h1 : opposite (rotateFace 3 (tetra : Polyhedron R)) 1 = 2 := rfl
    have h2 : opposite (rotateFace 3 (tetra : Polyhedron R)) 2 = 1 := rfl
    have h3 : opposite (rotateFace 3 (tetra : Polyhedron R)) 3 = 0 := rfl
    interval_cases n <;> interval_cases m <;>
      first
      | exact absurd rfl hnm
      | (simp only [h0, h1, h2, h3]; decide)

theorem tetraRot_outward :
    ∀ n, n < 4 → OutwardFace (rotateFace 3 (tetra : Polyhedron R)) n := by
  intro n hn
  interval_cases n
  · unfold OutwardFace; rw [faceCross_rotate, tetra_cross0]
    show (0 : R) < 0 * (0 - 0) + 0 * (0 - 0) + -1 * (0 - 1)
    norm_num
  · unfold OutwardFace; rw [faceCross_rotate, tetra_cross1]
    show (0 : R) < 0 * (0 - 0) + -1 * (0 - 1) + 0 * (0 - 0)
    norm_num
  · unfold OutwardFace; rw [faceCross_rotate, tetra_cross2]
    show (0 : R) < -1 * (0 - 1) + 0 * (0 - 0) + 0 * (0 - 0)
    norm_num
  · unfold OutwardFace; rw [faceCross_rotate, tetra_cross3]
    show (0 : R) < 1 * (0 - 0) + 1 * (1 - 0) + 1 * (0 - 0)
    norm_num

theorem tetraRot_det :
    tetraDet ((rotateFace 3 (tetra : Polyhedron R)).v 0) ((rotateFace 3 (tetra : Polyhedron R)).v 1)
      ((rotateFace 3 (tetra : Polyhedron R)).v 2) ((rotateFace 3 (tetra : Polyhedron R)).v 3)
      = 1 := by
  show ((0 - 0) * (0 - 0) - (0 - 0) * (1 - 0)) * (0 - 0)
      + ((0 - 0) * (0 - 0) - (1 - 0) * (0 - 0)) * (0 - 0)
      + ((1 - 0) * (1 - 0) - (0 - 0) * (0 - 0)) * (1 - 0) = (1 : R)
  norm_num

/-- C32, for the tetrahedron fixture with face 3 starting from another
corner, `(2,3,1)` instead of `(1,2,3)`, whose determinant is 1, with the
square root and arc cosine of the real numbers: the function returns and
stores the volume `|det| / 6 = 1 / 6`. -/
theorem ComputeParametersPolyhedron_tetra_volume_witness :
    IsTetrahedron (rotateFace 3 (tetra : Polyhedron ℝ)) ∧
    (∀ n, n < 4 → OutwardFace (rotateFace 3 (tetra : Polyhedron ℝ)) n) ∧
    (rotateFace 3 (tetra : Polyhedron ℝ)).f 3 0 = 2 ∧
    (∃ poly', ComputeParametersPolyhedron (⟨Real.sin, Real.cos, Real.sqrt, Real.arccos⟩ : Libm ℝ)
      COLLAPSEN (rotateFace 3 (tetra : Polyhedron ℝ)) = some poly' ∧
      poly'.volume = |tetraDet ((rotateFace 3 (tetra : Polyhedron ℝ)).v 0)
        ((rotateFace 3 (tetra : Polyhedron ℝ)).v 1) ((rotateFace 3 (tetra : Polyhedron ℝ)).v 2)
        ((rotateFace 3 (tetra : Polyhedron ℝ)).v 3)| / 6 ∧
      poly'.volume = 1 / 6) := by
  obtain ⟨poly', hp⟩ := tetraRot_returns COLLAPSEN
  have hv := (ComputeParametersPolyhedron_tetra_volume (rotateFace 3 (tetra : Polyhedron ℝ))
    tetraRot_isTetrahedron tetraRot_outward).2 _ COLLAPSEN poly' hp
  refine ⟨tetraRot_isTetrahedron, tetraRot_outward, rfl, poly', hp, hv, ?_⟩
  rw [hv, tetraRot_det, abs_one]

/-- C36, for the tetrahedron fixture with the square root and arc cosine of
the real numbers: the face loop and `ComputeParametersPolyhedron` return on
the fixture and on the fixture with every face reversed. -/
theorem ComputeParametersPolyhedron_reverse_winding_witness :
    LibmFacts (⟨Real.sin, Real.cos, Real.sqrt, Real.arccos⟩ : Libm ℝ) ∧
    ∃ st, faceLoop (⟨Real.sin, Real.cos, Real.sqrt, Real.arccos⟩ : Libm ℝ)
        (tetra : Polyhedron ℝ) (tetra : Polyhedron ℝ).faceN = some st ∧
      (∃ st', faceLoop (⟨Real.sin, Real.cos, Real.sqrt, Real.arccos⟩ : Libm ℝ)
          (reverseWinding (tetra : Polyhedron ℝ)) (tetra : Polyhedron ℝ).faceN = some st' ∧
        st'.volume = -st.volume ∧ st'.area = st.area ∧
        ∀ n, n < (tetra : Polyhedron ℝ).faceN →
          st'.Nf n = ⟨-(st.Nf n).X, -(st.Nf n).Y, -(st.Nf n).Z⟩) ∧
      ∃ p q, ComputeParametersPolyhedron (⟨Real.sin, Real.cos, Real.sqrt, Real.arccos⟩ : Libm ℝ)
          COLLAPSEN (tetra : Polyhedron ℝ) = some p ∧
        ComputeParametersPolyhedron (⟨Real.sin, Real.cos, Real.sqrt, Real.arccos⟩ : Libm ℝ)
          COLLAPSEN (reverseWinding (tetra : Polyhedron ℝ)) = some q ∧
        q.volume = -p.volume ∧ q.area = p.area ∧
        ∀ n, n < (tetra : Polyhedron ℝ).faceN →
          q.Nf n = ⟨-(p.Nf n).X, -(p.Nf n).Y, -(p.Nf n).Z⟩ := by
  obtain ⟨p, hp⟩ := tetra_returns COLLAPSEN
  obtain ⟨q, hq⟩ := tetraRev_returns COLLAPSEN
  obtain ⟨st, hst⟩ := ComputeParametersPolyhedron_faceLoop _ _ _ _ hp
  have H := ComputeParametersPolyhedron_reverse_winding _ LibmFacts_real
    (tetra : Polyhedron ℝ) st hst
  exact ⟨LibmFacts_real, st, hst, H.1, p, q, hp, hq, H.2 p q hp hq⟩

/-- C37, for the tetrahedron fixture and its face 3 with the square root and
arc cosine of the real numbers: the face loop and
`ComputeParametersPolyhedron` return on the fixture and on the fixture with
the corners of face 3 rotated. -/
theorem ComputeParametersPolyhedron_rotate_face_witness :
    LibmFacts (⟨Real.sin, Real.cos, Real.sqrt, Real.arccos⟩ : Libm ℝ) ∧
    ∃ st, faceLoop (⟨Real.sin, Real.cos, Real.sqrt, Real.arccos⟩ : Libm ℝ)
        (tetra : Polyhedron ℝ) (tetra : Polyhedron ℝ).faceN = some st ∧
      (∃ st', faceLoop (⟨Real.sin, Real.cos, Real.sqrt, Real.arccos⟩ : Libm ℝ)
          (rotateFace 3 (tetra : Polyhedron ℝ)) (tetra : Polyhedron ℝ).faceN = some st' ∧
        st'.area = st.area ∧ st'.volume = st.volume ∧ st'.O = st.O ∧
        st'.I0 = st.I0 ∧ st'.I1 = st.I1 ∧ st'.I2 = st.I2 ∧
        st'.I3 = st.I3 ∧ st'.I4 = st.I4 ∧ st'.I5 = st.I5) ∧
      ∃ p q, ComputeParametersPolyhedron (⟨Real.sin, Real.cos, Real.sqrt, Real.arccos⟩ : Libm ℝ)
          COLLAPSEN (tetra : Polyhedron ℝ) = some p ∧
        ComputeParametersPolyhedron (⟨Real.sin, Real.cos, Real.sqrt, Real.arccos⟩ : Libm ℝ)
          COLLAPSEN (rotateFace 3 (tetra : Polyhedron ℝ)) = some q ∧
        q.area = p.area ∧ q.volume = p.volume ∧ q.O = p.O ∧ q.I = p.I := by
  obtain ⟨p, hp⟩ := tetra_returns COLLAPSEN
  obtain ⟨q, hq⟩ := tetraRot_returns COLLAPSEN
  obtain ⟨st, hst⟩ := ComputeParametersPolyhedron_faceLoop _ _ _ _ hp
  have H := ComputeParametersPolyhedron_rotate_face _ LibmFacts_real
    (tetra : Polyhedron ℝ) 3 st hst
  exact ⟨LibmFacts_real, st, hst, H.1, p, q, hp, hq, H.2 COLLAPSEN p q hp hq⟩

/-! ## The rounding of binary64 is monotone and idempotent -/

theorem roundHalfEven_intCast (n : ℤ) : roundHalfEven (n : ℚ) = n := by
  unfold roundHalfEven
  rw [Int.floor_intCast, sub_self, if_pos (by norm_num)]

theorem roundHalfEven_bounds (r : ℚ) :
    (roundHalfEven r = ⌊r⌋ ∧ r - ⌊r⌋ ≤ 1 / 2) ∨ (roundHalfEven r = ⌊r⌋ + 1 ∧ 1 / 2 ≤ r - ⌊r⌋) := by
  unfold roundHalfEven
  split_ifs with h1 h2 h3
  · exact Or.inl ⟨rfl, h1.le⟩
  · exact Or.inr ⟨rfl, h2.le⟩
  · exact Or.inl ⟨rfl, not_lt.mp h2⟩
  · exact Or.inr ⟨rfl, not_lt.mp h1⟩

theorem roundHalfEven_mono : Monotone roundHalfEven := by
  intro r r' h
  have hf : ⌊r⌋ ≤ ⌊r'⌋ := Int.floor_mono h
  rcases hf.lt_or_eq with hlt | heq
  · have h1 : roundHalfEven r ≤ ⌊r⌋ + 1 := by
      rcases roundHalfEven_bounds r with ⟨e, -⟩ | ⟨e, -⟩ <;> rw [e] <;> omega
    have h2 : ⌊r'⌋ ≤ roundHalfEven r' := by
      rcases roundHalfEven_bounds r' with ⟨e, -⟩ | ⟨e, -⟩ <;> rw [e] <;> omega
    omega
  · unfold roundHalfEven
    rw [← heq]
    have hx : r - ⌊r⌋ ≤ r' - ⌊r⌋ := by linarith
    split_ifs <;> first | omega | (exfalso; linarith)

theorem roundHalfEven_neg (r : ℚ) : roundHalfEven (-r) = -roundHalfEven r := by
  by_cases hint : (⌊r⌋ : ℚ) = r
  · rw [← hint, ← Int.cast_neg, roundHalfEven_intCast, roundHalfEven_intCast]
  · have h1 : (⌊r⌋ : ℚ) < r := lt_of_le_of_ne (Int.floor_le r) hint
    have h2 : r < ⌊r⌋ + 1 := Int.lt_floor_add_one r
    have hfl : ⌊-r⌋ = -⌊r⌋ - 1 := by
      rw [Int.floor_eq_iff]
      push_cast
      constructor <;> linarith
    unfold roundHalfEven
    rw [hfl]
    push_cast
    split_ifs <;> first | omega | (exfalso; linarith)

theorem roundHalfEven_small (r : ℚ) (h : |r| ≤ 1 / 2) : roundHalfEven r = 0 := by
  have h0 : roundHalfEven (1 / 2) = 0 := by
    have hf : ⌊(1 / 2 : ℚ)⌋ = 0 := by rw [Int.floor_eq_iff]; norm_num
    unfold roundHalfEven
    rw [hf]
    norm_num
  have h1 : roundHalfEven (-(1 / 2)) = 0 := by rw [roundHalfEven_neg, h0]; rfl
  obtain ⟨hl, hu⟩ := abs_le.mp h
  have a := roundHalfEven_mono hl
  have b := roundHalfEven_mono hu
  rw [h1] at a
  rw [h0] at b
  omega

theorem binadeExp_neg (q : ℚ) : binadeExp (-q) = binadeExp q := by
  unfold binadeExp
  rw [abs_neg]

theorem binary64_neg (q : ℚ) : binary64 (-q) = -binary64 q := by
  unfold binary64
  rw [binadeExp_neg, neg_div, roundHalfEven_neg]
  push_cast
  ring

theorem binary64_zero : binary64 0 = 0 := by
  unfold binary64
  rw [zero_div]
  have : roundHalfEven 0 = 0 := roundHalfEven_intCast 0
  rw [this]
  simp

theorem ulp_pos (e : ℤ) : (0 : ℚ) < 2 ^ e := zpow_pos (by norm_num) e

/-- A multiple of the spacing of its binade is a double. -/
theorem binary64_of_multiple (q : ℚ) (n : ℤ) (h : q = n * 2 ^ (binadeExp q - 52)) :
    binary64 q = q := by
  unfold binary64
  have hq : q / 2 ^ (binadeExp q - 52) = n := by
    rw [div_eq_iff (ulp_pos _).ne']
    exact h
  rw [hq, roundHalfEven_intCast]
  exact h.symm

theorem binadeExp_zpow (k : ℤ) (hk : -1022 ≤ k) : binadeExp ((2 : ℚ) ^ k) = k := by
  unfold binadeExp
  rw [abs_of_pos (ulp_pos k)]
  have := Int.log_zpow (R := ℚ) (b := 2) (by norm_num) k
  rw [Nat.cast_ofNat] at this
  rw [this]
  exact max_eq_left hk

theorem binary64_zpow (k : ℤ) (hk : -1022 ≤ k) : binary64 ((2 : ℚ) ^ k) = 2 ^ k := by
  apply binary64_of_multiple _ (2 ^ 52)
  rw [binadeExp_zpow k hk]
  have h : (2 : ℚ) ^ (k - 52) = 2 ^ k / 2 ^ (52 : ℤ) := zpow_sub₀ (by norm_num) k 52
  rw [h]
  push_cast
  norm_num
  ring

theorem binary64_one : binary64 1 = 1 := by
  have := binary64_zpow 0 (by norm_num)
  simpa using this

/-- Underflow: a number of absolute value at most `2 ^ (-1075)`, half the
smallest positive double, is rounded to 0. -/
theorem binary64_underflow (q : ℚ) (h : |q| ≤ 2 ^ (-1075 : ℤ)) : binary64 q = 0 := by
  rcases eq_or_ne q 0 with h0 | h0
  · rw [h0]; exact binary64_zero
  have he : binadeExp q = -1022 := by
    unfold binadeExp
    apply max_eq_right
    · have hpos : 0 < |q| := abs_pos.mpr h0
      have hlt : |q| < ((2 : ℕ) : ℚ) ^ (-1022 : ℤ) := by
        rw [Nat.cast_ofNat]
        calc |q| ≤ 2 ^ (-1075 : ℤ) := h
          _ < 2 ^ (-1022 : ℤ) := zpow_lt_zpow_right₀ (by norm_num) (by norm_num)
      have := (Int.lt_zpow_iff_log_lt (R := ℚ) (b := 2) (by norm_num) hpos).1 hlt
      omega
  unfold binary64
  rw [he, roundHalfEven_small]
  · simp
  · rw [abs_div, abs_of_pos (ulp_pos _), div_le_iff₀ (ulp_pos _)]
    calc |q| ≤ 2 ^ (-1075 : ℤ) := h
      _ = 1 / 2 * 2 ^ (-1022 - 52 : ℤ) := by
        rw [show (-1075 : ℤ) = -1 + (-1022 - 52) by norm_num, zpow_add₀ (by norm_num)]
        norm_num

theorem binary64_nonneg (q : ℚ) (h : 0 ≤ q) : 0 ≤ binary64 q := by
  unfold binary64
  apply mul_nonneg _ (ulp_pos _).le
  have : (0 : ℤ) ≤ roundHalfEven (q / 2 ^ (binadeExp q - 52)) := by
    have h0 := roundHalfEven_mono (div_nonneg h (ulp_pos (binadeExp q - 52)).le)
    rwa [show roundHalfEven 0 = 0 from roundHalfEven_intCast 0] at h0
  exact_mod_cast this

theorem binadeExp_mono (x y : ℚ) (hx : 0 < x) (hxy : x ≤ y) : binadeExp x ≤ binadeExp y := by
  unfold binadeExp
  rw [abs_of_pos hx, abs_of_pos (lt_of_lt_of_le hx hxy)]
  exact max_le_max (Int.log_mono_right hx hxy) (le_refl _)

/-- A positive number is not rounded below the lower end of its binade. -/
theorem binary64_ge_binade (y : ℚ) (hy : 0 < y) (he : -1022 < binadeExp y) :
    (2 : ℚ) ^ binadeExp y ≤ binary64 y := by
  have hlog : binadeExp y = Int.log 2 |y| := by
    unfold binadeExp at he ⊢
    rcases max_cases (Int.log 2 |y|) (-1022) with ⟨h, -⟩ | ⟨h, -⟩
    · exact h
    · rw [h] at he; omega
  have hle : (2 : ℚ) ^ binadeExp y ≤ y := by
    have := Int.zpow_log_le_self (R := ℚ) (b := 2) (by norm_num) hy
    rw [Nat.cast_ofNat] at this
    rw [hlog, abs_of_pos hy]
    exact this
  have hq : ((2 ^ 52 : ℤ) : ℚ) ≤ y / 2 ^ (binadeExp y - 52) := by
    rw [le_div_iff₀ (ulp_pos _)]
    have h : (2 : ℚ) ^ (binadeExp y - 52) = 2 ^ binadeExp y / 2 ^ (52 : ℤ) :=
      zpow_sub₀ (by norm_num) _ 52
    rw [h]
    push_cast
    norm_num
    linarith
  have hr := roundHalfEven_mono hq
  rw [roundHalfEven_intCast] at hr
  unfold binary64
  have hr' : ((2 ^ 52 : ℤ) : ℚ) ≤ (roundHalfEven (y / 2 ^ (binadeExp y - 52)) : ℚ) := by
    exact_mod_cast hr
  calc (2 : ℚ) ^ binadeExp y = ((2 ^ 52 : ℤ) : ℚ) * 2 ^ (binadeExp y - 52) := by
        have h : (2 : ℚ) ^ (binadeExp y - 52) = 2 ^ binadeExp y / 2 ^ (52 : ℤ) :=
          zpow_sub₀ (by norm_num) _ 52
        rw [h]
        push_cast
        norm_num
        ring
    _ ≤ _ := mul_le_mul_of_nonneg_right hr' (ulp_pos _).le

/-- A positive number is not rounded above the upper end of its binade. -/
theorem binary64_le_binade (x : ℚ) (hx : 0 < x) :
    binary64 x ≤ (2 : ℚ) ^ (binadeExp x + 1) := by
  have hlt : x < (2 : ℚ) ^ (binadeExp x + 1) := by
    have h1 := Int.lt_zpow_succ_log_self (R := ℚ) (b := 2) (by norm_num) x
    rw [Nat.cast_ofNat] at h1
    have h2 : Int.log 2 x + 1 ≤ binadeExp x + 1 := by
      unfold binadeExp
      rw [abs_of_pos hx]
      have := le_max_left (Int.log 2 x) (-1022)
      omega
    exact lt_of_lt_of_le h1 (zpow_le_zpow_right₀ (by norm_num) h2)
  have hq : x / 2 ^ (binadeExp x - 52) ≤ ((2 ^ 53 : ℤ) : ℚ) := by
    rw [div_le_iff₀ (ulp_pos _)]
    have h : (2 : ℚ) ^ (binadeExp x - 52) = 2 ^ (binadeExp x + 1) / 2 ^ (53 : ℤ) := by
      rw [← zpow_sub₀ (by norm_num)]
      congr 1
      ring
    rw [h]
    push_cast
    norm_num
    linarith
  have hr := roundHalfEven_mono hq
  rw [roundHalfEven_intCast] at hr
  unfold binary64
  have hr' : (roundHalfEven (x / 2 ^ (binadeExp x - 52)) : ℚ) ≤ ((2 ^ 53 : ℤ) : ℚ) := by
    exact_mod_cast hr
  calc _ ≤ ((2 ^ 53 : ℤ) : ℚ) * 2 ^ (binadeExp x - 52) :=
        mul_le_mul_of_nonneg_right hr' (ulp_pos _).le
    _ = (2 : ℚ) ^ (binadeExp x + 1) := by
        have h : (2 : ℚ) ^ (binadeExp x - 52) = 2 ^ (binadeExp x + 1) / 2 ^ (53 : ℤ) := by
          rw [← zpow_sub₀ (by norm_num)]
          congr 1
          ring
        rw [h]
        push_cast
        norm_num
        ring

theorem binary64_mono_pos (x y : ℚ) (hx : 0 < x) (hxy : x ≤ y) : binary64 x ≤ binary64 y := by
  have hy : 0 < y := lt_of_lt_of_le hx hxy
  rcases (binadeExp_mono x y hx hxy).lt_or_eq with hlt | heq
  · have h1 := binary64_le_binade x hx
    have h2 := binary64_ge_binade y hy (by
      have : -1022 ≤ binadeExp x := le_max_right _ _
      omega)
    have h3 : (2 : ℚ) ^ (binadeExp x + 1) ≤ 2 ^ binadeExp y :=
      zpow_le_zpow_right₀ (by norm_num) (by omega)
    linarith
  · unfold binary64
    rw [heq]
    apply mul_le_mul_of_nonneg_right _ (ulp_pos _).le
    have := roundHalfEven_mono (div_le_div_of_nonneg_right hxy (ulp_pos (binadeExp y - 52)).le)
    exact_mod_cast this

theorem binary64_mono : Monotone binary64 := by
  intro x y hxy
  rcases lt_trichotomy x 0 with hx | hx | hx
  · rcases le_or_lt 0 y with hy | hy
    · have h1 := binary64_nonneg (-x) (by linarith)
      rw [binary64_neg] at h1
      have h2 := binary64_nonneg y hy
      linarith
    · have := binary64_mono_pos (-y) (-x) (by linarith) (by linarith)
      rw [binary64_neg, binary64_neg] at this
      linarith
  · rw [hx, binary64_zero]
    exact binary64_nonneg y (by linarith)
  · exact binary64_mono_pos x y hx hxy

/-- A multiple of a power of two that is at least the spacing of its binade
is a double. -/
theorem binary64_of_dyadic (v : ℚ) (n k : ℤ) (hk : binadeExp v - 52 ≤ k)
    (h : v = n * 2 ^ k) : binary64 v = v := by
  apply binary64_of_multiple v (n * 2 ^ (k - (binadeExp v - 52)).toNat)
  have hk' : ((k - (binadeExp v - 52)).toNat : ℤ) = k - (binadeExp v - 52) :=
    Int.toNat_of_nonneg (by omega)
  have h2 : (2 : ℚ) ^ k
      = 2 ^ ((k - (binadeExp v - 52)).toNat : ℤ) * 2 ^ (binadeExp v - 52) := by
    rw [← zpow_add₀ (by norm_num), hk']
    congr 1
    ring
  rw [zpow_natCast] at h2
  push_cast
  rw [mul_assoc, ← h2]
  exact h

theorem binary64_idem_pos (q : ℚ) (hq : 0 < q) : binary64 (binary64 q) = binary64 q := by
  have hle := binary64_le_binade q hq
  have h0 := binary64_nonneg q hq.le
  rcases h0.lt_or_eq with hpos | hzero
  · rcases hle.lt_or_eq with hlt | heq
    · apply binary64_of_dyadic _ (roundHalfEven (q / 2 ^ (binadeExp q - 52))) (binadeExp q - 52)
      · have hlog : Int.log 2 (binary64 q) < binadeExp q + 1 := by
          have hlt' : binary64 q < ((2 : ℕ) : ℚ) ^ (binadeExp q + 1) := by
            rw [Nat.cast_ofNat]; exact hlt
          exact (Int.lt_zpow_iff_log_lt (R := ℚ) (b := 2) (by norm_num) hpos).1 hlt'
        have hE : -1022 ≤ binadeExp q := le_max_right _ _
        have : binadeExp (binary64 q) ≤ binadeExp q := by
          unfold binadeExp at hE ⊢
          rw [abs_of_pos hpos]
          exact max_le (by unfold binadeExp at hlog; omega) hE
        omega
      · rfl
    · rw [heq]
      exact binary64_zpow _ (by
        have : -1022 ≤ binadeExp q := le_max_right _ _
        omega)
  · rw [← hzero]
    exact binary64_zero

theorem binary64_idem (q : ℚ) : binary64 (binary64 q) = binary64 q := by
  rcases lt_trichotomy q 0 with hq | hq | hq
  · have := binary64_idem_pos (-q) (by linarith)
    rw [binary64_neg, binary64_neg] at this
    linarith
  · rw [hq, binary64_zero, binary64_zero]
  · exact binary64_idem_pos q hq

/-- Integers below `2 ^ 53` in absolute value are doubles. -/
theorem binary64_intCast (n : ℤ) (h : |n| < 2 ^ 53) : binary64 (n : ℚ) = n := by
  rcases eq_or_ne n 0 with h0 | h0
  · rw [h0]; exact binary64_zero
  apply binary64_of_dyadic _ n 0
  · have hpos : (0 : ℚ) < |(n : ℚ)| := abs_pos.mpr (by exact_mod_cast h0)
    have hlt : |(n : ℚ)| < ((2 : ℕ) : ℚ) ^ (53 : ℤ) := by
      have h' : ((|n| : ℤ) : ℚ) < ((2 ^ 53 : ℤ) : ℚ) := by exact_mod_cast h
      rw [Nat.cast_ofNat]
      push_cast at h'
      norm_num
      exact h'
    have := (Int.lt_zpow_iff_log_lt (R := ℚ) (b := 2) (by norm_num) hpos).1 hlt
    unfold binadeExp
    have hm : max (Int.log 2 |(n : ℚ)|) (-1022) ≤ 52 := max_le (by omega) (by norm_num)
    omega
  · simp

theorem binary64_rounding : Rounding binary64 :=
  ⟨binary64_mono, binary64_idem, binary64_zero, binary64_one, binary64_neg⟩

/-! ## PointTriangleDistance in machine arithmetic -/

theorem PointTriangleRegionsRounded_exact (a b c d e f : R) :
    PointTriangleRegionsRounded id a b c d e f = PointTriangleRegions a b c d e f := rfl

theorem PointTriangleDistanceRounded_exact (p v0 e01 e02 : RealVec R) :
    PointTriangleDistanceRounded id p v0 e01 e02 = PointTriangleDistance p v0 e01 e02 := rfl

theorem BuildTriangleRounded_exact (faceID : Nat) (poly : Polyhedron R) :
    BuildTriangleRounded id faceID poly = BuildTriangle faceID poly := rfl

theorem ComputeIntersectionRounded_exact (EqualReal : R → R → Bool) (p : RealVec R)
    (faceID : Nat) (poly : Polyhedron R) :
    ComputeIntersectionRounded id EqualReal p faceID poly
      = ComputeIntersection EqualReal p faceID poly := rfl

theorem Rounding_id : Rounding (id : R → R) :=
  ⟨monotone_id, fun _ => rfl, rfl, rfl, fun _ => rfl⟩

theorem Rounding_nonneg (fl : R → R) (hfl : Rounding fl) (x : R) (h : 0 ≤ x) : 0 ≤ fl x := by
  have := hfl.1 h
  rwa [hfl.2.2.1] at this

theorem Rounding_le_one (fl : R → R) (hfl : Rounding fl) (x : R) (h : x ≤ 1) : fl x ≤ 1 := by
  have := hfl.1 h
  rwa [hfl.2.2.2.1] at this

/-- A machine quotient of `0 ≤ x ≤ y` lies in `[0, 1]`. -/
theorem divRounded_range (fl : R → R) (hfl : Rounding fl) (x y q : R) (hx : 0 ≤ x)
    (hxy : x ≤ y) (h : divRounded fl x y = some q) : 0 ≤ q ∧ q ≤ 1 := by
  unfold divRounded at h
  split_ifs at h with hy
  have hpos : 0 < y := lt_of_le_of_ne (le_trans hx hxy) (Ne.symm hy)
  rw [Option.some.injEq] at h
  subst h
  exact ⟨Rounding_nonneg fl hfl _ (div_nonneg hx hpos.le),
    Rounding_le_one fl hfl _ ((div_le_one hpos).2 hxy)⟩

theorem oneSub_range (fl : R → R) (hfl : Rounding fl) (s : R) (h0 : 0 ≤ s) (h1 : s ≤ 1) :
    0 ≤ fl (1 - s) ∧ fl (1 - s) ≤ 1 :=
  ⟨Rounding_nonneg fl hfl _ (by linarith), Rounding_le_one fl hfl _ (by linarith)⟩

theorem Rounding_pos_of_pos (fl : R → R) (hfl : Rounding fl) (x : R) (h : 0 < fl x) : 0 < x := by
  by_contra hx
  have := hfl.1 (not_lt.mp hx)
  rw [hfl.2.2.1] at this
  exact absurd h (not_lt.mpr this)

set_option maxHeartbeats 1600000 in
/-- In every machine arithmetic with a monotone rounding, when the region
analysis of `PointTriangleDistance` returns numbers, `s` and `t` lie in
`[0, 1]`. -/
theorem PointTriangleRegionsRounded_range (fl : R → R) (hfl : Rounding fl)
    (a b c d e f s t ds : R)
    (h : PointTriangleRegionsRounded fl a b c d e f = some (s, t, ds)) :
    0 ≤ s ∧ s ≤ 1 ∧ 0 ≤ t ∧ t ≤ 1 := by
  have hq : ∀ x y q : R, 0 ≤ x → x ≤ y → divRounded fl x y = some q → 0 ≤ q ∧ q ≤ 1 :=
    fun x y q => divRounded_range fl hfl x y q
  have h1s : ∀ q : R, 0 ≤ q → q ≤ 1 → 0 ≤ fl (1 - q) ∧ fl (1 - q) ≤ 1 :=
    fun q => oneSub_range fl hfl q
  have hsub : ∀ x y : R, y ≤ x → 0 ≤ fl (x - y) := fun x y hxy =>
    Rounding_nonneg fl hfl _ (by linarith)
  have hpos : ∀ x : R, 0 < fl x → 0 < x := Rounding_pos_of_pos fl hfl
  have hSi := hfl.2.1 (fl (b * e) - fl (c * d))
  have hTi := hfl.2.1 (fl (b * d) - fl (a * e))
  unfold PointTriangleRegionsRounded at h
  simp only at h
  generalize fl (fl (b * e) - fl (c * d)) = S at h hSi
  generalize fl (fl (b * d) - fl (a * e)) = T at h hTi
  generalize fl (fl (a * c) - fl (b * b)) = det at h
  split_ifs at h with h1 h2 h3 h4 h5 h6 h7 h8 h9 h10 h11 h12 h13 h14 h15 h16 h17 h18 h19 h20
    h21 h22 h23 h24
  all_goals first
    | (simp only [Option.some.injEq, Prod.mk.injEq] at h
       obtain ⟨rfl, rfl, -⟩ := h
       norm_num)
    | (simp only [Option.map_eq_some', Prod.mk.injEq] at h
       obtain ⟨q, hqd, rfl, rfl, -⟩ := h
       first
         | (have hh := hq _ _ _ (by linarith) (by linarith) hqd
            exact ⟨hh.1, hh.2, le_refl _, zero_le_one⟩)
         | (have hh := hq _ _ _ (by linarith) (by linarith) hqd
            exact ⟨le_refl _, zero_le_one, hh.1, hh.2⟩)
         | (have hh := hq _ _ _ (by first | linarith | exact hsub _ _ (by linarith)) (by linarith) hqd
            exact ⟨hh.1, hh.2, (h1s _ hh.1 hh.2).1, (h1s _ hh.1 hh.2).2⟩)
         | (have hh := hq _ _ _ (by first | linarith | exact hsub _ _ (by linarith)) (by linarith) hqd
            exact ⟨(h1s _ hh.1 hh.2).1, (h1s _ hh.1 hh.2).2, hh.1, hh.2⟩))
    | skip
  · /- region 0 -/
    simp only [Option.bind_eq_some, Option.map_eq_some', Prod.mk.injEq] at h
    obtain ⟨q1, hq1, q2, hq2, rfl, rfl, -⟩ := h
    have hS0 : 0 ≤ S := not_lt.mp h2
    have hT0 : 0 ≤ T := not_lt.mp h10
    have hS := hfl.1 (show S ≤ S + T by linarith)
    have hT := hfl.1 (show T ≤ S + T by linarith)
    rw [hSi] at hS
    rw [hTi] at hT
    have a1 := hq _ _ _ hS0 (le_trans hS h1) hq1
    have a2 := hq _ _ _ hT0 (le_trans hT h1) hq2
    exact ⟨a1.1, a1.2, a2.1, a2.2⟩
  · /- region 2, the quotient `-e / c` -/
    simp only [Option.map_eq_some', Prod.mk.injEq] at h
    obtain ⟨q, hqd, rfl, rfl, -⟩ := h
    have hce := hpos _ (not_le.mp h16)
    have := hq _ _ _ (by linarith) (by linarith) hqd
    exact ⟨le_refl _, zero_le_one, this.1, this.2⟩
  · /- region 6, the quotient `-d / a` -/
    simp only [Option.map_eq_some', Prod.mk.injEq] at h
    obtain ⟨q, hqd, rfl, rfl, -⟩ := h
    have had := hpos _ (not_le.mp h21)
    have := hq _ _ _ (by linarith) (by linarith) hqd
    exact ⟨this.1, this.2, le_refl _, zero_le_one⟩

/-- The squared length `2 ^ (-600)` of a leg `2 ^ (-300)` is a double, and
its square `2 ^ (-1200)` underflows to 0. -/
theorem binary64_tiny :
    (2 : ℚ) ^ (-300 : ℤ) * 2 ^ (-300 : ℤ) = 2 ^ (-600 : ℤ) ∧
    binary64 ((2 : ℚ) ^ (-300 : ℤ)) = 2 ^ (-300 : ℤ) ∧
    binary64 ((2 : ℚ) ^ (-600 : ℤ)) = 2 ^ (-600 : ℤ) ∧
    binary64 ((2 : ℚ) ^ (-600 : ℤ) * 2 ^ (-600 : ℤ)) = 0 := by
  refine ⟨?_, binary64_zpow _ (by norm_num), binary64_zpow _ (by norm_num), ?_⟩
  · rw [← zpow_add₀ (by norm_num)]; norm_num
  · apply binary64_underflow
    rw [← zpow_add₀ (by norm_num), abs_of_pos (ulp_pos _)]
    exact zpow_le_zpow_right₀ (by norm_num) (by norm_num)

/-- When `a * c` is rounded to 0 and `b = d = e = 0`, region 0 is reached
with `det = 0` and the quotient `s / det` is no number. -/
theorem PointTriangleRegionsRounded_underflow (fl : R → R) (h0 : fl 0 = 0) (K f : R)
    (hKK : fl (K * K) = 0) : PointTriangleRegionsRounded fl K 0 K 0 0 f = none := by
  simp [PointTriangleRegionsRounded, h0, hKK, divRounded]

/-- The same for the whole function: legs `k` along the second and the first
axis with `fl (k * k) = K` and `fl (K * K) = 0`, seen from the point
`(0, 0, 1)`. -/
theorem PointTriangleDistanceRounded_underflow (fl : R → R) (hfl : Rounding fl) (k K : R)
    (hk : fl (k * k) = K) (hK : fl K = K) (hKK : fl (K * K) = 0) :
    PointTriangleDistanceRounded fl (⟨0, 0, 1⟩ : RealVec R) ⟨0, 0, 0⟩ ⟨0, k, 0⟩ ⟨k, 0, 0⟩
      = none := by
  obtain ⟨-, -, h0, h1, hneg⟩ := hfl
  have hm1 : fl (-1) = -1 := by rw [hneg, h1]
  have ha : DotRounded fl (⟨0, k, 0⟩ : RealVec R) ⟨0, k, 0⟩ = K := by
    simp only [DotRounded, hk, hK, mul_zero, h0, add_zero, zero_add]
  have hb : DotRounded fl (⟨0, k, 0⟩ : RealVec R) ⟨k, 0, 0⟩ = 0 := by
    simp only [DotRounded, mul_zero, zero_mul, h0, add_zero]
  have hc : DotRounded fl (⟨k, 0, 0⟩ : RealVec R) ⟨k, 0, 0⟩ = K := by
    simp only [DotRounded, hk, hK, mul_zero, h0, add_zero]
  have hd : DotRounded fl (⟨0, k, 0⟩ : RealVec R) ⟨0, 0, -1⟩ = 0 := by
    simp only [DotRounded, mul_zero, zero_mul, h0, add_zero]
  have he : DotRounded fl (⟨k, 0, 0⟩ : RealVec R) ⟨0, 0, -1⟩ = 0 := by
    simp only [DotRounded, mul_zero, zero_mul, h0, add_zero]
  unfold PointTriangleDistanceRounded
  simp only [sub_self, zero_sub, h0, hm1]
  rw [ha, hb, hc, hd, he, PointTriangleRegionsRounded_underflow fl h0 K _ hKK]
  rfl

theorem PointTriangleDistanceRounded_tiny :
    PointTriangleDistanceRounded binary64 (⟨0, 0, 1⟩ : RealVec ℚ) ⟨0, 0, 0⟩
      ⟨0, 2 ^ (-300 : ℤ), 0⟩ ⟨2 ^ (-300 : ℤ), 0, 0⟩ = none := by
  obtain ⟨hkk, -, hK, hKK⟩ := binary64_tiny
  exact PointTriangleDistanceRounded_underflow binary64 binary64_rounding _ _
    (by rw [hkk, hK]) hK hKK

theorem nonDegenerate_tiny :
    NonDegenerate (⟨0, 2 ^ (-300 : ℤ), 0⟩ : RealVec ℚ) ⟨2 ^ (-300 : ℤ), 0, 0⟩ := by
  have hk : (0 : ℚ) < 2 ^ (-300 : ℤ) := ulp_pos _
  intro α β h1 h2 _
  simp only [mul_zero, zero_add, add_zero] at h1 h2
  exact ⟨(mul_eq_zero.1 h2).resolve_right hk.ne', (mul_eq_zero.1 h1).resolve_right hk.ne'⟩

/-- A run through region 1 in any machine arithmetic in which the natural
numbers up to 11 are machine numbers: the triangle `(0,0,0)`, `(0,1,0)`,
`(1,0,0)` seen from `(1, 3, 1)`; the closest point is the vertex
`(0,1,0)` at the squared distance 6. -/
theorem PointTriangleDistanceRounded_example (fl : R → R) (hfl : Rounding fl)
    (hnat : ∀ n : ℕ, n ≤ 11 → fl (n : R) = n) :
    PointTriangleDistanceRounded fl (⟨1, 3, 1⟩ : RealVec R) ⟨0, 0, 0⟩ ⟨0, 1, 0⟩ ⟨1, 0, 0⟩
      = some (6, ⟨0, 1, 0⟩) := by
  obtain ⟨-, -, h0, h1, hneg⟩ := hfl
  have h2 : fl 2 = 2 := by simpa using hnat 2 (by norm_num)
  have h3 : fl 3 = 3 := by simpa using hnat 3 (by norm_num)
  have h4 : fl 4 = 4 := by simpa using hnat 4 (by norm_num)
  have h5 : fl 5 = 5 := by simpa using hnat 5 (by norm_num)
  have h6 : fl 6 = 6 := by simpa using hnat 6 (by norm_num)
  have h9 : fl 9 = 9 := by simpa using hnat 9 (by norm_num)
  have h10 : fl 10 = 10 := by simpa using hnat 10 (by norm_num)
  have h11 : fl 11 = 11 := by simpa using hnat 11 (by norm_num)
  have ha : DotRounded fl (⟨0, 1, 0⟩ : RealVec R) ⟨0, 1, 0⟩ = 1 := by
    norm_num [DotRounded, h0, h1]
  have hb : DotRounded fl (⟨0, 1, 0⟩ : RealVec R) ⟨1, 0, 0⟩ = 0 := by
    norm_num [DotRounded, h0, h1]
  have hc : DotRounded fl (⟨1, 0, 0⟩ : RealVec R) ⟨1, 0, 0⟩ = 1 := by
    norm_num [DotRounded, h0, h1]
  have hd : DotRounded fl (⟨0, 1, 0⟩ : RealVec R) ⟨-1, -3, -1⟩ = -3 := by
    norm_num [DotRounded, h0, h1, h3, hneg]
  have he : DotRounded fl (⟨1, 0, 0⟩ : RealVec R) ⟨-1, -3, -1⟩ = -1 := by
    norm_num [DotRounded, h0, h1, h3, hneg]
  have hf : DotRounded fl (⟨-1, -3, -1⟩ : RealVec R) ⟨-1, -3, -1⟩ = 11 := by
    norm_num [DotRounded, h0, h1, h9, h10, h11, hneg]
  have hreg : PointTriangleRegionsRounded fl 1 0 1 (-3) (-1) 11 = some (1, 0, 6) := by
    norm_num [PointTriangleRegionsRounded, h0, h1, h2, h3, h4, h5, h6, hneg]
  unfold PointTriangleDistanceRounded
  simp only [zero_sub, hneg, h1, h3]
  rw [ha, hb, hc, hd, he, hf, hreg]
  norm_num [h0]

theorem binary64_natCast (n : ℕ) (h : n ≤ 11) : binary64 (n : ℚ) = n := by
  have := binary64_intCast (n : ℤ) (by
    rw [abs_of_nonneg (Int.natCast_nonneg n)]
    have : (n : ℤ) ≤ 11 := by exact_mod_cast h
    exact lt_of_le_of_lt this (by norm_num))
  simpa using this

theorem PointTriangleDistanceRounded_double :
    PointTriangleDistanceRounded binary64 (⟨1, 3, 1⟩ : RealVec ℚ) ⟨0, 0, 0⟩ ⟨0, 1, 0⟩ ⟨1, 0, 0⟩
      = some (6, ⟨0, 1, 0⟩) :=
  PointTriangleDistanceRounded_example binary64 binary64_rounding binary64_natCast

/-- The squared distance that `PointTriangleDistance` returns is not
negative, whatever the arithmetic: the final clamp. -/
theorem PointTriangleDistanceRounded_nonneg (fl : R → R) (p v0 e01 e02 : RealVec R) (r : R)
    (para : RealVec R) (h : PointTriangleDistanceRounded fl p v0 e01 e02 = some (r, para)) :
    0 ≤ r := by
  simp only [PointTriangleDistanceRounded, Option.map_eq_some', Prod.mk.injEq] at h
  obtain ⟨⟨s, t, ds⟩, -, hr, -⟩ := h
  rw [← hr]
  split_ifs with hneg
  · exact le_refl _
  · exact not_lt.mp hneg

/-- What `PointTriangleDistance` writes to `para`, whatever the arithmetic:
`(one - s - t, s, t)` for the `s`, `t` of the region analysis. -/
theorem PointTriangleDistanceRounded_para (fl : R → R) (p v0 e01 e02 : RealVec R) (r : R)
    (para : RealVec R) (h : PointTriangleDistanceRounded fl p v0 e01 e02 = some (r, para)) :
    ∃ ds, PointTriangleRegionsRounded fl (DotRounded fl e01 e01) (DotRounded fl e01 e02)
        (DotRounded fl e02 e02)
        (DotRounded fl e01 ⟨fl (v0.X - p.X), fl (v0.Y - p.Y), fl (v0.Z - p.Z)⟩)
        (DotRounded fl e02 ⟨fl (v0.X - p.X), fl (v0.Y - p.Y), fl (v0.Z - p.Z)⟩)
        (DotRounded fl ⟨fl (v0.X - p.X), fl (v0.Y - p.Y), fl (v0.Z - p.Z)⟩
          ⟨fl (v0.X - p.X), fl (v0.Y - p.Y), fl (v0.Z - p.Z)⟩) = some (para.Y, para.Z, ds) ∧
      para.X = fl (fl (1 - para.Y) - para.Z) := by
  simp only [PointTriangleDistanceRounded, Option.map_eq_some', Prod.mk.injEq] at h
  obtain ⟨⟨s, t, ds⟩, hreg, -, hp⟩ := h
  rw [← hp]
  exact ⟨ds, hreg, rfl⟩

/-- C26 (amended): in every machine arithmetic whose operations are monotone
roundings of the exact results, when `PointTriangleDistance` returns
numbers, `para[1] = s` and `para[2] = t` lie in `[0, 1]` in all seven
regions and `para[0]` is `one - s - t` as it is evaluated; in exact
arithmetic (`fl = id`) the function returns numbers for every non-degenerate
triangle, with `s ≥ 0`, `t ≥ 0` and `1 - s - t ≥ 0`. -/
theorem PointTriangleDistance_para_in_triangle (fl : R → R) (hfl : Rounding fl)
    (p v0 e01 e02 : RealVec R) (r : R) (para : RealVec R)
    (h : PointTriangleDistanceRounded fl p v0 e01 e02 = some (r, para)) :
    (0 ≤ para.Y ∧ para.Y ≤ 1 ∧ 0 ≤ para.Z ∧ para.Z ≤ 1 ∧
      para.X = fl (fl (1 - para.Y) - para.Z)) ∧
    (NonDegenerate e01 e02 →
      ∃ r' para', PointTriangleDistanceRounded id p v0 e01 e02 = some (r', para') ∧
        0 ≤ para'.Y ∧ 0 ≤ para'.Z ∧ 0 ≤ para'.X ∧ para'.X = 1 - para'.Y - para'.Z) := by
  obtain ⟨ds, hreg, hX⟩ := PointTriangleDistanceRounded_para fl p v0 e01 e02 r para h
  obtain ⟨a1, a2, a3, a4⟩ := PointTriangleRegionsRounded_range fl hfl _ _ _ _ _ _ _ _ _ hreg
  refine ⟨⟨a1, a2, a3, a4, hX⟩, fun hnd => ?_⟩
  obtain ⟨s, t, hs, ht, hst, hval, -⟩ :=
    PointTriangleDistance_spec p v0 e01 e02 (nonDegenerate_det_pos e01 e02 hnd)
  refine ⟨_, _, hval, hs, ht, ?_, rfl⟩
  show 0 ≤ 1 - s - t
  linarith

/-- C26 (amended), in binary64 for the triangle `(0,0,0)`, `(0,1,0)`,
`(1,0,0)` and the point `(1, 3, 1)`: `para = (0, 1, 0)`. -/
theorem PointTriangleDistance_para_in_triangle_witness :
    Rounding binary64 ∧
    PointTriangleDistanceRounded binary64 (⟨1, 3, 1⟩ : RealVec ℚ) ⟨0, 0, 0⟩ ⟨0, 1, 0⟩ ⟨1, 0, 0⟩
      = some (6, ⟨0, 1, 0⟩) ∧
    ((0 : ℚ) ≤ 1 ∧ (1 : ℚ) ≤ 1 ∧ (0 : ℚ) ≤ 0 ∧ (0 : ℚ) ≤ 1 ∧
      (0 : ℚ) = binary64 (binary64 (1 - 1) - 0)) :=
  ⟨binary64_rounding, PointTriangleDistanceRounded_double,
    (PointTriangleDistance_para_in_triangle binary64 binary64_rounding ⟨1, 3, 1⟩ ⟨0, 0, 0⟩
      ⟨0, 1, 0⟩ ⟨1, 0, 0⟩ 6 ⟨0, 1, 0⟩ PointTriangleDistanceRounded_double).1⟩

/-- C26 as stated fails: the triangle with the legs `(0, 2^-300, 0)` and
`(2^-300, 0, 0)` is not degenerate and its coordinates are doubles, but in
binary64 `a * c = 2^-1200` underflows, `det` is evaluated to 0, region 0
divides by it, and seen from `(0, 0, 1)` no parameters `s ≥ 0`, `t ≥ 0`,
`1 - s - t ≥ 0` are returned. -/
theorem PointTriangleDistance_para_fails_underflow :
    NonDegenerate (⟨0, 2 ^ (-300 : ℤ), 0⟩ : RealVec ℚ) ⟨2 ^ (-300 : ℤ), 0, 0⟩ ∧
    binary64 ((2 : ℚ) ^ (-300 : ℤ)) = 2 ^ (-300 : ℤ) ∧
    ¬ ∃ r para, PointTriangleDistanceRounded binary64 (⟨0, 0, 1⟩ : RealVec ℚ) ⟨0, 0, 0⟩
        ⟨0, 2 ^ (-300 : ℤ), 0⟩ ⟨2 ^ (-300 : ℤ), 0, 0⟩ = some (r, para) ∧
      0 ≤ para.Y ∧ 0 ≤ para.Z ∧ 0 ≤ para.X := by
  refine ⟨nonDegenerate_tiny, binary64_tiny.2.1, ?_⟩
  rw [PointTriangleDistanceRounded_tiny]
  simp

/-! ## ComputeIntersection in machine arithmetic -/

/-- Whatever the arithmetic, the value that `ComputeIntersection` returns is
the value that its call of `PointTriangleDistance` returns. -/
theorem ComputeIntersectionRounded_dist (fl : R → R) (EqualReal : R → R → Bool)
    (p : RealVec R) (faceID : Nat) (poly : Polyhedron R) (d : R) (pi N : RealVec R)
    (h : ComputeIntersectionRounded fl EqualReal p faceID poly = some (d, pi, N)) :
    ∃ para, PointTriangleDistanceRounded fl p (BuildTriangleRounded fl faceID poly).1
      (BuildTriangleRounded fl faceID poly).2.2.2.1
      (BuildTriangleRounded fl faceID poly).2.2.2.2 = some (d, para) := by
  unfold ComputeIntersectionRounded at h
  simp only [Option.map_eq_some'] at h
  obtain ⟨⟨r, para⟩, hres, hbr⟩ := h
  refine ⟨para, ?_⟩
  have hd : r = d := by
    have := congrArg Prod.fst hbr
    simp only at this
    split_ifs at this <;> exact this
  rw [← hd]
  exact hres

theorem BuildTriangleRounded_tetra0 :
    BuildTriangleRounded binary64 0 (tetra : Polyhedron ℚ)
      = (⟨0, 0, 0⟩, ⟨0, 1, 0⟩, ⟨1, 0, 0⟩, ⟨0, 1, 0⟩, ⟨1, 0, 0⟩) := by
  show ((⟨0, 0, 0⟩ : RealVec ℚ), (⟨0, 1, 0⟩ : RealVec ℚ), (⟨1, 0, 0⟩ : RealVec ℚ),
    (⟨binary64 (0 - 0), binary64 (1 - 0), binary64 (0 - 0)⟩ : RealVec ℚ),
    (⟨binary64 (1 - 0), binary64 (0 - 0), binary64 (0 - 0)⟩ : RealVec ℚ)) = _
  rw [sub_zero, sub_zero, binary64_zero, binary64_one]

theorem BuildTriangleRounded_tetraTiny0 :
    BuildTriangleRounded binary64 0 tetraTiny
      = (⟨0, 0, 0⟩, ⟨0, 2 ^ (-300 : ℤ), 0⟩, ⟨2 ^ (-300 : ℤ), 0, 0⟩, ⟨0, 2 ^ (-300 : ℤ), 0⟩,
          ⟨2 ^ (-300 : ℤ), 0, 0⟩) := by
  show ((⟨0, 0, 0⟩ : RealVec ℚ), (⟨0, 2 ^ (-300 : ℤ), 0⟩ : RealVec ℚ),
    (⟨2 ^ (-300 : ℤ), 0, 0⟩ : RealVec ℚ),
    (⟨binary64 (0 - 0), binary64 (2 ^ (-300 : ℤ) - 0), binary64 (0 - 0)⟩ : RealVec ℚ),
    (⟨binary64 (2 ^ (-300 : ℤ) - 0), binary64 (0 - 0), binary64 (0 - 0)⟩ : RealVec ℚ)) = _
  rw [sub_zero, sub_zero, binary64_zero, binary64_tiny.2.1]

theorem ComputeIntersectionRounded_double :
    ComputeIntersectionRounded binary64 (fun x y : ℚ => decide (x = y)) ⟨1, 3, 1⟩ 0 tetra
      = some (6, ⟨0, 1, 0⟩, (tetra : Polyhedron ℚ).Nv 2) := by
  unfold ComputeIntersectionRounded
  simp only [BuildTriangleRounded_tetra0, PointTriangleDistanceRounded_double,
    Option.map_some']
  norm_num
  rfl

theorem ComputeIntersectionRounded_tiny :
    ComputeIntersectionRounded binary64 (fun x y : ℚ => decide (x = y)) ⟨0, 0, 1⟩ 0 tetraTiny
      = none := by
  unfold ComputeIntersectionRounded
  simp only [BuildTriangleRounded_tetraTiny0, PointTriangleDistanceRounded_tiny,
    Option.map_none']

/-- C27 (amended): whatever the arithmetic, when `ComputeIntersection`
returns numbers, the value it returns is the one its call of
`PointTriangleDistance` returned, a number `≥ 0`; and in exact arithmetic
(`fl = id`), with exact equality as `EqualReal`, for every point `p` and
every non-degenerate face it writes the point
`pi = v0 + para[1]*e01 + para[2]*e02` of the face, returns `|pi - p|²`, and
no point of the face is closer to `p`. -/
theorem ComputeIntersection_closest (fl : R → R) (EqualReal : R → R → Bool) (p : RealVec R)
    (faceID : Nat) (poly : Polyhedron R) (d : R) (pi N : RealVec R)
    (h : ComputeIntersectionRounded fl EqualReal p faceID poly = some (d, pi, N)) :
    ((∃ para, PointTriangleDistanceRounded fl p (BuildTriangleRounded fl faceID poly).1
        (BuildTriangleRounded fl faceID poly).2.2.2.1
        (BuildTriangleRounded fl faceID poly).2.2.2.2 = some (d, para)) ∧ 0 ≤ d) ∧
    ((∀ x y, EqualReal x y = true ↔ x = y) →
      NonDegenerate (BuildTriangleRounded id faceID poly).2.2.2.1
        (BuildTriangleRounded id faceID poly).2.2.2.2 →
      ∃ d' pi' N' para, ComputeIntersectionRounded id EqualReal p faceID poly
          = some (d', pi', N') ∧
        PointTriangleDistanceRounded id p (BuildTriangleRounded id faceID poly).1
          (BuildTriangleRounded id faceID poly).2.2.2.1
          (BuildTriangleRounded id faceID poly).2.2.2.2 = some (d', para) ∧
        0 ≤ para.Y ∧ 0 ≤ para.Z ∧ para.Y + para.Z ≤ 1 ∧
        pi' = trianglePoint (BuildTriangleRounded id faceID poly).1
          (BuildTriangleRounded id faceID poly).2.2.2.1
          (BuildTriangleRounded id faceID poly).2.2.2.2 para.Y para.Z ∧
        sqDist pi' p = d' ∧
        ∀ s t : R, 0 ≤ s → 0 ≤ t → s + t ≤ 1 →
          sqDist pi' p ≤ sqDist (trianglePoint (BuildTriangleRounded id faceID poly).1
            (BuildTriangleRounded id faceID poly).2.2.2.1
            (BuildTriangleRounded id faceID poly).2.2.2.2 s t) p) := by
  constructor
  · obtain ⟨para, hpara⟩ := ComputeIntersectionRounded_dist fl EqualReal p faceID poly d pi N h
    exact ⟨⟨para, hpara⟩, PointTriangleDistanceRounded_nonneg fl _ _ _ _ d para hpara⟩
  · intro hE hnd
    obtain ⟨s, t, hs, ht, hst, hval, hmin⟩ :=
      PointTriangleDistance_spec p (BuildTriangle faceID poly).1
        (BuildTriangle faceID poly).2.2.2.1 (BuildTriangle faceID poly).2.2.2.2
        (nonDegenerate_det_pos _ _ hnd)
    obtain ⟨res, hres, hd, hpi⟩ :=
      ComputeIntersection_point EqualReal hE p faceID poly _ s t ht hst hval
    refine ⟨res.1, res.2.1, res.2.2, ⟨1 - s - t, s, t⟩, hres, ?_, hs, ht, hst, hpi, ?_, ?_⟩
    · rw [hd]; exact hval
    · rw [hpi, hd]
    · intro s' t' hs' ht' hst'
      rw [hpi]
      exact hmin s' t' hs' ht' hst'

/-- C27 (amended), in binary64 for face 0 of the tetrahedron fixture, the
point `(1, 3, 1)` and exact equality as `EqualReal`: the closest point is
the vertex `(0, 1, 0)` at the squared distance 6. -/
theorem ComputeIntersection_closest_witness :
    ComputeIntersectionRounded binary64 (fun x y : ℚ => decide (x = y)) ⟨1, 3, 1⟩ 0 tetra
      = some (6, ⟨0, 1, 0⟩, (tetra : Polyhedron ℚ).Nv 2) ∧
    (∃ para, PointTriangleDistanceRounded binary64 (⟨1, 3, 1⟩ : RealVec ℚ)
        (BuildTriangleRounded binary64 0 (tetra : Polyhedron ℚ)).1
        (BuildTriangleRounded binary64 0 (tetra : Polyhedron ℚ)).2.2.2.1
        (BuildTriangleRounded binary64 0 (tetra : Polyhedron ℚ)).2.2.2.2 = some (6, para)) ∧
    (0 : ℚ) ≤ 6 :=
  ⟨ComputeIntersectionRounded_double,
    (ComputeIntersection_closest binary64 (fun x y : ℚ => decide (x = y)) ⟨1, 3, 1⟩ 0 tetra 6
      ⟨0, 1, 0⟩ ((tetra : Polyhedron ℚ).Nv 2) ComputeIntersectionRounded_double).1⟩

/-- C27 as stated fails: face 0 of the fixture `tetraTiny`, with the legs
`(0, 2^-300, 0)` and `(2^-300, 0, 0)`, is not degenerate and its coordinates
are doubles, but in binary64 `det` is evaluated to 0, `PointTriangleDistance`
returns no numbers, and for the point `(0, 0, 1)` `ComputeIntersection`
writes no closest point. -/
theorem ComputeIntersection_fails_underflow :
    NonDegenerate (BuildTriangleRounded binary64 0 tetraTiny).2.2.2.1
      (BuildTriangleRounded binary64 0 tetraTiny).2.2.2.2 ∧
    ComputeIntersectionRounded binary64 (fun x y : ℚ => decide (x = y)) ⟨0, 0, 1⟩ 0 tetraTiny
      = none ∧
    ¬ ∃ d pi N, ComputeIntersectionRounded binary64 (fun x y : ℚ => decide (x = y))
      ⟨0, 0, 1⟩ 0 tetraTiny = some (d, pi, N) := by
  refine ⟨?_, ComputeIntersectionRounded_tiny, ?_⟩
  · rw [BuildTriangleRounded_tetraTiny0]
    exact nonDegenerate_tiny
  · rw [ComputeIntersectionRounded_tiny]
    simp

/-! ## The limiter `minmod` in machine arithmetic -/

theorem sgn_pos {x : R} (h : 0 < x) : sgn x = 1 := by
  simp [sgn, h]

theorem sgn_neg {x : R} (h : x < 0) : sgn x = -1 := by
  simp [sgn, h, not_lt.mpr h.le]

theorem Min_eq_min (a b : R) : Min a b = min a b := by
  unfold Min
  split_ifs with h
  · exact (min_eq_left h.le).symm
  · exact (min_eq_right (not_lt.mp h)).symm

theorem sgn_mul_abs (x : R) : ((sgn x : Int) : R) * |x| = x := by
  rcases lt_trichotomy x 0 with h | h | h
  · rw [sgn_neg h, abs_of_neg h]; push_cast; ring
  · subst h; simp
  · rw [sgn_pos h, abs_of_pos h]; push_cast; ring

theorem abs_sgn_le_one (x : R) : |((sgn x : Int) : R)| ≤ 1 := by
  unfold sgn
  split_ifs <;> simp

theorem same_sign_iff (x y z : R) :
    ¬ (x * y ≤ 0 ∨ x * z ≤ 0) ↔
      (0 < x ∧ 0 < y ∧ 0 < z) ∨ (x < 0 ∧ y < 0 ∧ z < 0) := by
  rw [not_or, not_le, not_le, mul_pos_iff, mul_pos_iff]
  constructor
  · rintro ⟨⟨hx, hy⟩ | ⟨hx, hy⟩, ⟨hx', hz⟩ | ⟨hx', hz⟩⟩
    · exact Or.inl ⟨hx, hy, hz⟩
    · exact absurd hx (not_lt.mpr hx'.le)
    · exact absurd hx' (not_lt.mpr hx.le)
    · exact Or.inr ⟨hx, hy, hz⟩
  · rintro (⟨hx, hy, hz⟩ | ⟨hx, hy, hz⟩)
    · exact ⟨Or.inl ⟨hx, hy⟩, Or.inl ⟨hx, hz⟩⟩
    · exact ⟨Or.inr ⟨hx, hy⟩, Or.inr ⟨hx, hz⟩⟩

/-- The absolute value of a machine number is a machine number. -/
theorem Rounding_abs (fl : R → R) (hfl : Rounding fl) (x : R) (hx : fl x = x) :
    fl |x| = |x| := by
  rcases abs_cases x with ⟨h, -⟩ | ⟨h, -⟩
  · rw [h, hx]
  · rw [h, hfl.2.2.2.2, hx]

/-- The last product of `minmod` is exact: `sgn(x)` times the least of the
three absolute values is a machine number. -/
theorem Rounding_sgn_min (fl : R → R) (hfl : Rounding fl) (x y z : R) (hx : fl x = x)
    (hy : fl y = y) (hz : fl z = z) :
    fl (((sgn x : Int) : R) * min |x| (min |y| |z|))
      = ((sgn x : Int) : R) * min |x| (min |y| |z|) := by
  have hm : fl (min |x| (min |y| |z|)) = min |x| (min |y| |z|) := by
    rcases min_choice |x| (min |y| |z|) with h | h
    · rw [h]; exact Rounding_abs fl hfl x hx
    · rw [h]
      rcases min_choice |y| |z| with h' | h'
      · rw [h']; exact Rounding_abs fl hfl y hy
      · rw [h']; exact Rounding_abs fl hfl z hz
  unfold sgn
  split_ifs
  · push_cast; rw [one_mul, hm]
  · push_cast; rw [neg_one_mul, hfl.2.2.2.2, hm]
  · push_cast; rw [zero_mul, hfl.2.2.1]

theorem minmod_eq (fl : R → R) (x y z : R) :
    minmod fl x y z =
      if 0 < fl (x * y) ∧ 0 < fl (x * z)
      then fl (((sgn x : Int) : R) * min |x| (min |y| |z|)) else 0 := by
  unfold minmod
  by_cases h : fl (x * y) ≤ 0 ∨ fl (x * z) ≤ 0
  · rw [if_pos h, if_neg]
    rintro ⟨h1, h2⟩
    rcases h with h | h
    · exact absurd h1 (not_lt.mpr h)
    · exact absurd h2 (not_lt.mpr h)
  · rw [if_neg h, if_pos, Min_eq_min, Min_eq_min]
    rw [not_or, not_le, not_le] at h
    exact h

/-- C40 (amended): in every machine arithmetic whose product is a monotone
rounding `fl` of the exact product, for machine numbers `x`, `y`, `z`:
`minmod` returns 0 unless `x`, `y`, `z` are all positive or all negative;
when they are and neither product `fl (x * y)`, `fl (x * z)` is rounded to 0
it returns `sgn x * min(|x|, |y|, |z|)`, and when one of them is rounded to
0 (underflow) it returns 0. Its absolute value is at most
`min(|x|, |y|, |z|)`, `minmod x x x` is `x` when `fl (x * x)` is positive and
0 otherwise, and `minmod x y z = minmod x z y`. In exact arithmetic
(`fl = id`) no product of non-zero numbers is 0 and the claim holds as it
stands. -/
theorem minmod_spec (fl : R → R) (hfl : Rounding fl) (x y z : R) (hx : fl x = x)
    (hy : fl y = y) (hz : fl z = z) :
    (¬ ((0 < x ∧ 0 < y ∧ 0 < z) ∨ (x < 0 ∧ y < 0 ∧ z < 0)) → minmod fl x y z = 0) ∧
    (0 < fl (x * y) → 0 < fl (x * z) →
      ((0 < x ∧ 0 < y ∧ 0 < z) ∨ (x < 0 ∧ y < 0 ∧ z < 0)) ∧
      minmod fl x y z = ((sgn x : Int) : R) * min |x| (min |y| |z|)) ∧
    (fl (x * y) ≤ 0 ∨ fl (x * z) ≤ 0 → minmod fl x y z = 0) ∧
    |minmod fl x y z| ≤ min |x| (min |y| |z|) ∧
    minmod fl x x x = (if 0 < fl (x * x) then x else 0) ∧
    minmod fl x y z = minmod fl x z y ∧
    (((0 < x ∧ 0 < y ∧ 0 < z) ∨ (x < 0 ∧ y < 0 ∧ z < 0)) →
      minmod id x y z = ((sgn x : Int) : R) * min |x| (min |y| |z|)) ∧
    minmod id x x x = x := by
  have hsign : ∀ u v : R, 0 < fl (u * v) → 0 < u * v := fun u v h =>
    Rounding_pos_of_pos fl hfl _ h
  have hnn : (0 : R) ≤ min |x| (min |y| |z|) :=
    le_min (abs_nonneg x) (le_min (abs_nonneg y) (abs_nonneg z))
  have hsame : 0 < fl (x * y) → 0 < fl (x * z) →
      (0 < x ∧ 0 < y ∧ 0 < z) ∨ (x < 0 ∧ y < 0 ∧ z < 0) := fun h1 h2 =>
    (same_sign_iff x y z).1 (by
      rw [not_or, not_le, not_le]
      exact ⟨hsign _ _ h1, hsign _ _ h2⟩)
  have hexact : ∀ u v w : R, ((0 < u ∧ 0 < v ∧ 0 < w) ∨ (u < 0 ∧ v < 0 ∧ w < 0)) →
      minmod id u v w = ((sgn u : Int) : R) * min |u| (min |v| |w|) := by
    intro u v w h
    have := (same_sign_iff u v w).2 h
    rw [not_or, not_le, not_le] at this
    rw [minmod_eq]
    simp only [id]
    rw [if_pos this]
  refine ⟨fun h => ?_, fun h1 h2 => ⟨hsame h1 h2, ?_⟩, fun h => ?_, ?_, ?_, ?_, hexact x y z, ?_⟩
  · rw [minmod_eq, if_neg]
    rintro ⟨h1, h2⟩
    exact h (hsame h1 h2)
  · rw [minmod_eq, if_pos ⟨h1, h2⟩, Rounding_sgn_min fl hfl x y z hx hy hz]
  · unfold minmod
    rw [if_pos h]
  · rw [minmod_eq]
    split_ifs
    · rw [Rounding_sgn_min fl hfl x y z hx hy hz, abs_mul, abs_of_nonneg hnn]
      calc |((sgn x : Int) : R)| * min |x| (min |y| |z|)
          ≤ 1 * min |x| (min |y| |z|) := mul_le_mul_of_nonneg_right (abs_sgn_le_one x) hnn
        _ = min |x| (min |y| |z|) := one_mul _
    · rw [abs_zero]; exact hnn
  · rw [minmod_eq]
    by_cases h : 0 < fl (x * x)
    · rw [if_pos ⟨h, h⟩, if_pos h, Rounding_sgn_min fl hfl x x x hx hx hx, min_self, min_self]
      exact sgn_mul_abs x
    · rw [if_neg (fun hh => h hh.1), if_neg h]
  · rw [minmod_eq, minmod_eq, min_comm |y| |z|]
    by_cases h : 0 < fl (x * y) ∧ 0 < fl (x * z)
    · rw [if_pos h, if_pos ⟨h.2, h.1⟩]
    · rw [if_neg h, if_neg (fun hh => h ⟨hh.2, hh.1⟩)]
  · rcases lt_trichotomy x 0 with h | h | h
    · rw [hexact x x x (Or.inr ⟨h, h, h⟩), min_self, min_self]; exact sgn_mul_abs x
    · subst h
      unfold minmod
      rw [if_pos (Or.inl (by simp))]
    · rw [hexact x x x (Or.inl ⟨h, h, h⟩), min_self, min_self]; exact sgn_mul_abs x

theorem binary64_small : binary64 1 = 1 ∧ binary64 2 = 2 ∧ binary64 3 = 3 := by
  refine ⟨binary64_one, ?_, ?_⟩
  · simpa using binary64_intCast 2 (by norm_num)
  · simpa using binary64_intCast 3 (by norm_num)

/-- C40 (amended), in binary64 for `x = 1`, `y = 2`, `z = 3`: the products 2
and 3 are doubles and `minmod` returns 1. -/
theorem minmod_spec_witness :
    Rounding binary64 ∧ binary64 1 = 1 ∧ binary64 2 = 2 ∧ binary64 3 = 3 ∧
    (0 : ℚ) < binary64 (1 * 2) ∧ (0 : ℚ) < binary64 (1 * 3) ∧
    minmod binary64 1 2 3 = ((sgn (1 : ℚ) : Int) : ℚ) * min |1| (min |2| |3|) ∧
    |minmod binary64 1 2 3| ≤ min |(1 : ℚ)| (min |2| |3|) ∧
    minmod binary64 1 2 3 = minmod binary64 1 3 2 := by
  obtain ⟨h1, h2, h3⟩ := binary64_small
  have p2 : (0 : ℚ) < binary64 (1 * 2) := by rw [one_mul, h2]; norm_num
  have p3 : (0 : ℚ) < binary64 (1 * 3) := by rw [one_mul, h3]; norm_num
  have H := minmod_spec binary64 binary64_rounding 1 2 3 h1 h2 h3
  exact ⟨binary64_rounding, h1, h2, h3, p2, p3, (H.2.1 p2 p3).2, H.2.2.2.1, H.2.2.2.2.2.1⟩

/-- C40 as stated fails: `x = 2^-600` is a positive double, but in binary64
the product `x * x = 2^-1200` underflows to 0, the test `x * y <= 0` holds,
and `minmod(x, x, x)` is 0, not `x = sgn(x) * min(|x|, |x|, |x|)`. -/
theorem minmod_fails_underflow :
    (0 : ℚ) < 2 ^ (-600 : ℤ) ∧ binary64 ((2 : ℚ) ^ (-600 : ℤ)) = 2 ^ (-600 : ℤ) ∧
    minmod binary64 ((2 : ℚ) ^ (-600 : ℤ)) (2 ^ (-600 : ℤ)) (2 ^ (-600 : ℤ)) = 0 ∧
    minmod binary64 ((2 : ℚ) ^ (-600 : ℤ)) (2 ^ (-600 : ℤ)) (2 ^ (-600 : ℤ))
      ≠ 2 ^ (-600 : ℤ) := by
  obtain ⟨-, -, hK, hKK⟩ := binary64_tiny
  have h0 : minmod binary64 ((2 : ℚ) ^ (-600 : ℤ)) (2 ^ (-600 : ℤ)) (2 ^ (-600 : ℤ)) = 0 := by
    unfold minmod
    rw [hKK, if_pos (Or.inl (le_refl _))]
  refine ⟨ulp_pos _, hK, h0, ?_⟩
  rw [h0]
  exact (ulp_pos _).ne

end Theorems

end ArtraCFD
